import Mathlib

/-!
# The OpenGL device runtime of Halide (`src/runtime/opengl.cpp`) and its lowering passes (`src/InjectOpenGLIntrinsics.cpp`)

A shallow embedding of the runtime: the kernel registry (header parsing,
registration, lookup), the texture registry (`dev_malloc` / `dev_free`),
the host/device transfers and the dispatch engine (`dev_run`); and of the
two IR passes that prepare a pipeline for it, the zero-min normalization of
GPU loops and the injection of the texture intrinsics. Theorems about them
follow the definitions.

Conventions of the embedding.

* A C string is the `List Char` of its characters before the terminating
  NUL; a `NULL` pointer is `none`.
* Singly linked lists (`next` pointers) are Lean lists, head first.
* The process-wide `halide_opengl_state`, the sequence of calls made to the
  GL driver and the diagnostics printed are the components of a `World`
  that every entry point transforms.
* The GL driver is external: what its calls return is given by a `Host`,
  as a function of the calls made so far.
* `halide_assert` aborts: the entry point stops with `Failure.assertion`
  and the world as it was at that point.
* The mutators of the IR passes are functions on the syntax trees. The
  fields that a mutator sets and restores around the children of a node
  (`inside_kernel_loop`, `scope`) are arguments passed down to the
  children; a failed `user_assert` or `internal_assert` is an error.
-/

namespace HalideGL

/-! ## The driver interface -/

/-- The list `USED_GL_FUNCTIONS`, in the order of the source. -/
inductive GLFunc where
  | DeleteTextures | GenTextures | BindTexture | GetError | MatrixMode
  | LoadIdentity | Ortho | Viewport | GenBuffers | DeleteBuffers
  | BindBuffer | BufferData | TexParameteri | TexImage2D | GetTexImage
  | TexSubImage2D | Disable | CreateShader | ActiveTexture | ShaderSource
  | CompileShader | GetShaderiv | GetShaderInfoLog | DeleteShader
  | CreateProgram | AttachShader | LinkProgram | GetProgramiv
  | GetProgramInfoLog | UseProgram | DeleteProgram | GetUniformLocation
  | Uniform1iv | Uniform2iv | Uniform1fv | GenFramebuffers
  | DeleteFramebuffers | CheckFramebufferStatus | BindFramebuffer
  | FramebufferTexture2D | DrawBuffers | GetAttribLocation
  | VertexAttribPointer | DrawElements | EnableVertexAttribArray
  | DisableVertexAttribArray
  deriving DecidableEq, Repr

/-- The functions of `USED_GL_FUNCTIONS` as a list, in source order: the
order in which `halide_opengl_init` resolves them. -/
def USED_GL_FUNCTIONS : List GLFunc :=
  [.DeleteTextures, .GenTextures, .BindTexture, .GetError, .MatrixMode,
   .LoadIdentity, .Ortho, .Viewport, .GenBuffers, .DeleteBuffers,
   .BindBuffer, .BufferData, .TexParameteri, .TexImage2D, .GetTexImage,
   .TexSubImage2D, .Disable, .CreateShader, .ActiveTexture, .ShaderSource,
   .CompileShader, .GetShaderiv, .GetShaderInfoLog, .DeleteShader,
   .CreateProgram, .AttachShader, .LinkProgram, .GetProgramiv,
   .GetProgramInfoLog, .UseProgram, .DeleteProgram, .GetUniformLocation,
   .Uniform1iv, .Uniform2iv, .Uniform1fv, .GenFramebuffers,
   .DeleteFramebuffers, .CheckFramebufferStatus, .BindFramebuffer,
   .FramebufferTexture2D, .DrawBuffers, .GetAttribLocation,
   .VertexAttribPointer, .DrawElements, .EnableVertexAttribArray,
   .DisableVertexAttribArray]

/-- An actual argument of a GL call or of a diagnostic: a scalar, an array
of scalars behind a pointer (`none` for a null pointer), a C string, or the
name of a driver function. -/
inductive GLArg where
  | n (v : Int)
  | arr (v : Option (List Int))
  | str (v : List Char)
  | sym (f : GLFunc)
  deriving DecidableEq, Repr

/-- One call made to the driver. -/
structure GLCall where
  fn : GLFunc
  args : List GLArg
  deriving DecidableEq, Repr

/-- The host environment: the symbol lookup `halide_opengl_get_proc_address`
(`true` when it returns a non-null pointer) and the GL driver, which
answers each call as a function of the calls made so far, newest first and
the answered call included. -/
structure Host where
  get_proc_address : GLFunc → Bool
  retU : List GLCall → Nat
  retI : List GLCall → Int
  retData : List GLCall → List Int

/-! ## GL constants

`mini_opengl.h` is not among the sources. -/

/-- Modelled from the spec: `GL_TEXTURE_2D` of the missing `mini_opengl.h`,
with the value of the Khronos headers. -/
def GL_TEXTURE_2D : Int := 0x0DE1
/-- Modelled from the spec: `GL_LUMINANCE` (missing `mini_opengl.h`). -/
def GL_LUMINANCE : Int := 0x1909
/-- Modelled from the spec: `GL_RGB` (missing `mini_opengl.h`). -/
def GL_RGB : Int := 0x1907
/-- Modelled from the spec: `GL_RGBA` (missing `mini_opengl.h`). -/
def GL_RGBA : Int := 0x1908
/-- Modelled from the spec: `GL_UNSIGNED_BYTE` (missing `mini_opengl.h`). -/
def GL_UNSIGNED_BYTE : Int := 0x1401
/-- Modelled from the spec: `GL_UNSIGNED_SHORT` (missing `mini_opengl.h`). -/
def GL_UNSIGNED_SHORT : Int := 0x1403
/-- Modelled from the spec: `GL_UNSIGNED_INT` (missing `mini_opengl.h`). -/
def GL_UNSIGNED_INT : Int := 0x1405
/-- Modelled from the spec: `GL_FLOAT` (missing `mini_opengl.h`). -/
def GL_FLOAT : Int := 0x1406
/-- Modelled from the spec: `GL_NEAREST` (missing `mini_opengl.h`). -/
def GL_NEAREST : Int := 0x2600
/-- Modelled from the spec: `GL_TEXTURE_MAG_FILTER` (missing `mini_opengl.h`). -/
def GL_TEXTURE_MAG_FILTER : Int := 0x2800
/-- Modelled from the spec: `GL_TEXTURE_MIN_FILTER` (missing `mini_opengl.h`). -/
def GL_TEXTURE_MIN_FILTER : Int := 0x2801
/-- Modelled from the spec: `GL_TEXTURE_WRAP_S` (missing `mini_opengl.h`). -/
def GL_TEXTURE_WRAP_S : Int := 0x2802
/-- Modelled from the spec: `GL_TEXTURE_WRAP_T` (missing `mini_opengl.h`). -/
def GL_TEXTURE_WRAP_T : Int := 0x2803
/-- Modelled from the spec: `GL_CLAMP_TO_EDGE` (missing `mini_opengl.h`). -/
def GL_CLAMP_TO_EDGE : Int := 0x812F
/-- Modelled from the spec: `GL_TEXTURE0` (missing `mini_opengl.h`). -/
def GL_TEXTURE0 : Int := 0x84C0
/-- Modelled from the spec: `GL_ARRAY_BUFFER` (missing `mini_opengl.h`). -/
def GL_ARRAY_BUFFER : Int := 0x8892
/-- Modelled from the spec: `GL_ELEMENT_ARRAY_BUFFER` (missing `mini_opengl.h`). -/
def GL_ELEMENT_ARRAY_BUFFER : Int := 0x8893
/-- Modelled from the spec: `GL_STATIC_DRAW` (missing `mini_opengl.h`). -/
def GL_STATIC_DRAW : Int := 0x88E4
/-- Modelled from the spec: `GL_FRAGMENT_SHADER` (missing `mini_opengl.h`). -/
def GL_FRAGMENT_SHADER : Int := 0x8B30
/-- Modelled from the spec: `GL_VERTEX_SHADER` (missing `mini_opengl.h`). -/
def GL_VERTEX_SHADER : Int := 0x8B31
/-- Modelled from the spec: `GL_COMPILE_STATUS` (missing `mini_opengl.h`). -/
def GL_COMPILE_STATUS : Int := 0x8B81
/-- Modelled from the spec: `GL_LINK_STATUS` (missing `mini_opengl.h`). -/
def GL_LINK_STATUS : Int := 0x8B82
/-- Modelled from the spec: `GL_INFO_LOG_LENGTH` (missing `mini_opengl.h`). -/
def GL_INFO_LOG_LENGTH : Int := 0x8B84
/-- Modelled from the spec: `GL_FRAMEBUFFER` (missing `mini_opengl.h`). -/
def GL_FRAMEBUFFER : Int := 0x8D40
/-- Modelled from the spec: `GL_FRAMEBUFFER_COMPLETE` (missing `mini_opengl.h`). -/
def GL_FRAMEBUFFER_COMPLETE : Int := 0x8CD5
/-- Modelled from the spec: `GL_COLOR_ATTACHMENT0` (missing `mini_opengl.h`). -/
def GL_COLOR_ATTACHMENT0 : Int := 0x8CE0
/-- Modelled from the spec: `GL_CULL_FACE` (missing `mini_opengl.h`). -/
def GL_CULL_FACE : Int := 0x0B44
/-- Modelled from the spec: `GL_DEPTH_TEST` (missing `mini_opengl.h`). -/
def GL_DEPTH_TEST : Int := 0x0B71
/-- Modelled from the spec: `GL_MODELVIEW` (missing `mini_opengl.h`). -/
def GL_MODELVIEW : Int := 0x1700
/-- Modelled from the spec: `GL_PROJECTION` (missing `mini_opengl.h`). -/
def GL_PROJECTION : Int := 0x1701
/-- Modelled from the spec: `GL_TRIANGLE_STRIP` (missing `mini_opengl.h`). -/
def GL_TRIANGLE_STRIP : Int := 0x0005
/-- Modelled from the spec: `GL_FALSE` (missing `mini_opengl.h`). -/
def GL_FALSE : Int := 0

/-! ## Types -/

def ARG_NONE : Nat := 0
def ARG_BUFFER : Nat := 1
def ARG_FLOAT : Nat := 2
def ARG_INT : Nat := 3

/-- The struct `HalideOpenGLArgument`; the `next` pointer is the tail of the
list the argument stands in. -/
structure HalideOpenGLArgument where
  name : List Char
  type : Nat
  is_output : Bool
  deriving DecidableEq, Repr

/-- The struct `HalideOpenGLKernel`. The `name` is never `NULL` in a record
that `create_kernel` returns (it asserts so), hence not optional here. -/
structure HalideOpenGLKernel where
  source : List Char
  name : List Char
  arguments : List HalideOpenGLArgument
  shader_id : Nat
  program_id : Nat
  deriving DecidableEq, Repr

/-- The struct `HalideOpenGLTexture`. Of `min[4]` and `extent[4]` only the
entries 0, 1 and 2 are ever written or read. -/
structure HalideOpenGLTexture where
  id : Nat
  min : Int × Int × Int
  extent : Int × Int × Int
  format : Int
  halide_allocated : Bool
  deriving DecidableEq, Repr

/-- The struct `HalideOpenGLState`. `procs` lists the driver functions whose
pointer in the state is non-null. -/
structure HalideOpenGLState where
  initialized : Bool
  vertex_shader_id : Nat
  framebuffer_id : Nat
  vertex_buffer : Nat
  element_buffer : Nat
  kernels : List HalideOpenGLKernel
  textures : List HalideOpenGLTexture
  procs : List GLFunc
  deriving DecidableEq, Repr

/-- Modelled from the spec: the buffer descriptor `buffer_t` of the missing
`buffer_t.h`: a 64-bit device slot, a host pointer (here the data it points
to, `none` when null), extents, strides and origins in four dimensions, the
element size and the two dirty flags. -/
structure buffer_t where
  dev : Nat
  host : Option (List Int)
  extent : Int × Int × Int × Int
  stride : Int × Int × Int × Int
  min : Int × Int × Int × Int
  elem_size : Int
  host_dirty : Bool
  dev_dirty : Bool
  deriving DecidableEq, Repr

/-- One diagnostic printed with `halide_printf`: the format string and the
values formatted. -/
structure Printf where
  fmt : String
  args : List GLArg
  deriving DecidableEq, Repr

/-- Everything an entry point can change: the runtime state `ST`, the calls
made to the driver (newest first) and the diagnostics printed (newest
first). -/
structure World where
  ST : HalideOpenGLState
  gl : List GLCall
  out : List Printf
  deriving DecidableEq, Repr

/-- How an entry point stops early: a failed `halide_assert`, with the text
of the assertion, or a call through a null function pointer. -/
inductive Failure where
  | assertion (msg : String)
  | crash
  deriving DecidableEq, Repr

/-- The outcome of running a piece of the runtime. -/
inductive Res (α : Type) where
  | ok (val : α) (w : World)
  | fail (e : Failure) (w : World)
  deriving Repr

/-- A piece of the runtime: a function of the world. -/
def GLM (α : Type) : Type := World → Res α

instance : Monad GLM where
  pure a := fun w => Res.ok a w
  bind m f := fun w =>
    match m w with
    | Res.ok a w1 => f a w1
    | Res.fail e w1 => Res.fail e w1

/-- The world an outcome ends in. -/
def Res.world {α : Type} : Res α → World
  | Res.ok _ w => w
  | Res.fail _ w => w

/-- Whether the outcome is a return (not an abort). -/
def Res.returned {α : Type} : Res α → Bool
  | Res.ok _ _ => true
  | Res.fail _ _ => false

/-- The macro `halide_assert(uctx, cond && "msg")`.
Modelled from the spec: the macro is declared in the missing
`HalideRuntime.h`; a failed assertion aborts. -/
def halide_assert (cond : Bool) (msg : String) : GLM Unit := fun w =>
  if cond then Res.ok () w else Res.fail (Failure.assertion msg) w

/-- The function `halide_printf`: records the diagnostic. -/
def halide_printf (fmt : String) (args : List GLArg) : GLM Unit := fun w =>
  Res.ok () { w with out := ⟨fmt, args⟩ :: w.out }

/-- Reads the runtime state. -/
def getST : GLM HalideOpenGLState := fun w => Res.ok w.ST w

/-- Updates the runtime state. -/
def modifyST (f : HalideOpenGLState → HalideOpenGLState) : GLM Unit := fun w =>
  Res.ok () { w with ST := f w.ST }

/-- A call `ST.f(args)` through the function pointer of the state: a crash
when the pointer is null, else the call is made. -/
def glCall (f : GLFunc) (args : List GLArg) : GLM Unit := fun w =>
  if f ∈ w.ST.procs then Res.ok () { w with gl := ⟨f, args⟩ :: w.gl }
  else Res.fail Failure.crash w

/-- A driver call that yields a `GLuint` (returned or stored through a
pointer). -/
def glCallU (h : Host) (f : GLFunc) (args : List GLArg) : GLM Nat := fun w =>
  if f ∈ w.ST.procs then
    Res.ok (h.retU (⟨f, args⟩ :: w.gl) % 2 ^ 32) { w with gl := ⟨f, args⟩ :: w.gl }
  else Res.fail Failure.crash w

/-- A driver call that yields a `GLint` or `GLenum`. -/
def glCallI (h : Host) (f : GLFunc) (args : List GLArg) : GLM Int := fun w =>
  if f ∈ w.ST.procs then
    Res.ok (h.retI (⟨f, args⟩ :: w.gl)) { w with gl := ⟨f, args⟩ :: w.gl }
  else Res.fail Failure.crash w

/-- A driver call that fills a caller-supplied array. -/
def glCallData (h : Host) (f : GLFunc) (args : List GLArg) : GLM (List Int) := fun w =>
  if f ∈ w.ST.procs then
    Res.ok (h.retData (⟨f, args⟩ :: w.gl)) { w with gl := ⟨f, args⟩ :: w.gl }
  else Res.fail Failure.crash w

/-! ## Static data -/

/-- The string `"/// KERNEL "`. -/
def kernel_marker : List Char :=
  ['/', '/', '/', ' ', 'K', 'E', 'R', 'N', 'E', 'L', ' ']

/-- The string `"/// IN "`. -/
def input_marker : List Char := ['/', '/', '/', ' ', 'I', 'N', ' ']

/-- The string `"/// OUT "`. -/
def output_marker : List Char := ['/', '/', '/', ' ', 'O', 'U', 'T', ' ']

/-- The source of the vertex shader shared by all kernels. -/
def vertex_shader_src : List Char :=
  ("#version 120\n" ++
   "attribute vec2 position;\n" ++
   "varying vec2 pixcoord;\n" ++
   "uniform ivec2 output_min;\n" ++
   "uniform ivec2 output_extent;\n" ++
   "void main() \x7b\n" ++
   "    gl_Position = vec4(position, 0.0, 1.0);\n" ++
   "    vec2 texcoord = 0.5 * position + 0.5;\n" ++
   "    pixcoord = floor(texcoord * output_extent) + output_min;\n" ++
   "\x7d\n").toList

/-- Vertex coordinates for the unit square. -/
def square_vertices : List Int := [-1, -1, 1, -1, -1, 1, 1, 1]

/-- Order of the vertices for the triangle strip. -/
def square_indices : List Int := [0, 1, 2, 3]

/-! ## Helper functions -/

/-- The function `get_texture_id`: `buf->dev & 0xffffffff`. -/
def get_texture_id (buf : buffer_t) : Nat := buf.dev % 2 ^ 32

/-- The function `halide_opengl_make_shader`. -/
def halide_opengl_make_shader (h : Host) (type : Int) (source : List Char) : GLM Nat := do
  let shader ← glCallU h .CreateShader [.n type]
  glCall .ShaderSource [.n shader, .n 1, .str source, .arr none]
  glCall .CompileShader [.n shader]
  let shader_ok ← glCallI h .GetShaderiv [.n shader, .n GL_COMPILE_STATUS]
  if shader_ok = 0 then
    halide_printf "Could not compile shader:\n" []
    let log_len ← glCallI h .GetShaderiv [.n shader, .n GL_INFO_LOG_LENGTH]
    let log ← glCallData h .GetShaderInfoLog [.n shader, .n log_len, .arr none]
    halide_printf "%s" [.arr (some log)]
    glCall .DeleteShader [.n shader]
    return 0
  return shader

/-- The function `check_buffer_properties`: returns the width and height,
at least 1 each. -/
def check_buffer_properties (buf : buffer_t) : GLM (Int × Int) := do
  halide_assert (buf.extent.2.2.1 ≤ 4) "Only up to 4 color channels are supported"
  halide_assert (buf.extent.2.2.2 ≤ 1) "3D textures are not supported"
  let w := buf.extent.1
  let h := buf.extent.2.1
  let w := if w < 1 then 1 else w
  let h := if h < 1 then 1 else h
  return (w, h)

/-- The function `match_prefix`: the rest of `s` after `pfx` when `s` starts
with `pfx`, else `NULL`. -/
def match_prefix (s pfx : List Char) : Option (List Char) :=
  if pfx.isPrefixOf s then some (s.drop pfx.length) else none

/-- The C function `strchr`: the string from the first occurrence of `c`
on, or `NULL`. -/
def strchr : List Char → Char → Option (List Char)
  | [], _ => none
  | x :: xs, c => if x = c then some (x :: xs) else strchr xs c

/-- The C function `strstr`: the string from the first occurrence of
`needle` on, or `NULL`. -/
def strstr : List Char → List Char → Option (List Char)
  | [], needle => if needle = [] then some [] else none
  | x :: xs, needle =>
    if needle.isPrefixOf (x :: xs) then some (x :: xs) else strstr xs needle

/-- The function `halide_strndup`: the first `n` characters of `s`. -/
def halide_strndup (s : List Char) (n : Nat) : List Char := s.take n

/-- The function `parse_argument`. Pointers into the source are the strings
that start at them; `endp` is the pointer `end`, so that `end - name` is the
difference of the lengths. -/
def parse_argument (src endp : List Char) : Except Failure HalideOpenGLArgument :=
  let found : Nat × List Char :=
    match  match_prefix src ['f', 'l', 'o', 'a', 't', ' '] with
    | some name => (ARG_FLOAT, name)
    | none =>
      match  match_prefix src ['i', 'n', 't', ' '] with
      | some name => (ARG_INT, name)
      | none =>
        match  match_prefix src ['b', 'u', 'f', 'f', 'e', 'r', ' '] with
        | some name => (ARG_BUFFER, name)
        | none => (ARG_NONE, [])
  if found.1 = ARG_NONE then
    Except.error (Failure.assertion "Argument type not supported")
  else
    Except.ok { name := halide_strndup found.2 (found.2.length - endp.length)
                type := found.1
                is_output := false }

/-- The header loop of `create_kernel` (`while (*line)`), with the name and
the argument list built so far; arguments are prepended. `nl` is the
pointer `strchr(line, '\n')`, so `next_line` is `nl + 1`; when there is no
newline `next_line` is the invalid pointer `NULL + 1`, and a header line
that uses it crashes. Every round consumes a line, so `fuel` beyond the
length of the source is never used up. -/
def create_kernel_loop : Nat → List Char → Option (List Char) →
    List HalideOpenGLArgument →
    Except Failure (Option (List Char) × List HalideOpenGLArgument)
  | 0, _, name, arguments => Except.ok (name, arguments)
  | fuel + 1, line, name, arguments =>
    if line = [] then Except.ok (name, arguments)
    else
      match  match_prefix line kernel_marker with
      | some args =>
        match strchr line '\n' with
        | none => Except.error Failure.crash
        | some nl =>
          create_kernel_loop fuel (nl.drop 1)
            (some (halide_strndup args (args.length - (nl.drop 1).length - 1))) arguments
      | none =>
        match  match_prefix line input_marker with
        | some args =>
          match strchr line '\n' with
          | none => Except.error Failure.crash
          | some nl =>
            match parse_argument args nl with
            | Except.error e => Except.error e
            | Except.ok arg => create_kernel_loop fuel (nl.drop 1) name (arg :: arguments)
        | none =>
          match  match_prefix line output_marker with
          | some args =>
            match strchr line '\n' with
            | none => Except.error Failure.crash
            | some nl =>
              match parse_argument args nl with
              | Except.error e => Except.error e
              | Except.ok arg =>
                create_kernel_loop fuel (nl.drop 1) name
                  ({ arg with is_output := true } :: arguments)
          | none => Except.ok (name, arguments)

/-- The last loop of `create_kernel`: moves the arguments of `cur` one by
one to the front of `acc`, which flips the list. -/
def flip_arguments : List HalideOpenGLArgument → List HalideOpenGLArgument →
    List HalideOpenGLArgument
  | [], acc => acc
  | cur :: next, acc => flip_arguments next (cur :: acc)

/-- The function `create_kernel`. -/
def create_kernel (src : List Char) (size : Nat) : Except Failure HalideOpenGLKernel :=
  let source := halide_strndup src size
  match create_kernel_loop (source.length + 1) source none [] with
  | Except.error e => Except.error e
  | Except.ok (none, _) => Except.error (Failure.assertion "Kernel name not found")
  | Except.ok (some name, arguments) =>
    Except.ok { source := source
                name := name
                arguments := flip_arguments arguments []
                shader_id := 0
                program_id := 0 }

/-- Runs a pure step that can abort. -/
def liftExcept {α : Type} (r : Except Failure α) : GLM α := fun w =>
  match r with
  | Except.ok a => Res.ok a w
  | Except.error e => Res.fail e w

/-- The function `halide_opengl_delete_kernel`. -/
def halide_opengl_delete_kernel (kernel : HalideOpenGLKernel) : GLM Unit := do
  glCall .DeleteProgram [.n kernel.program_id]
  glCall .DeleteShader [.n kernel.shader_id]

/-- The function `halide_opengl_find_kernel`, on the list `ST.kernels`. -/
def halide_opengl_find_kernel : List HalideOpenGLKernel → List Char →
    Option HalideOpenGLKernel
  | [], _ => none
  | cur :: next, name =>
    if cur.name = name then some cur else halide_opengl_find_kernel next name

/-! ## The entry points -/

/-- The expansion of `USED_GL_FUNCTIONS` in `halide_opengl_init`: every
pointer is assigned what the lookup returns; at the first null one the
missing symbol is reported and `false` is returned. -/
def load_procs (h : Host) : List GLFunc → GLM Bool
  | [] => pure true
  | f :: fs =>
    if h.get_proc_address f then do
      modifyST fun s => { s with procs := f :: s.procs }
      load_procs h fs
    else do
      modifyST fun s => { s with procs := s.procs.filter fun g => g ≠ f }
      halide_printf "Could not load function pointer for %s\n" [.sym f]
      return false

/-- The function `halide_opengl_init`. -/
def halide_opengl_init (h : Host) : GLM Unit := do
  let st ← getST
  if st.initialized then return ()
  let loaded ← load_procs h USED_GL_FUNCTIONS
  if !loaded then return ()
  modifyST fun s => { s with kernels := [], textures := [] }
  let fb ← glCallU h .GenFramebuffers [.n 1]
  modifyST fun s => { s with framebuffer_id := fb }
  let vs ← halide_opengl_make_shader h GL_VERTEX_SHADER vertex_shader_src
  modifyST fun s => { s with vertex_shader_id := vs }
  halide_assert (vs ≠ 0) "Failed to create vertex shader"
  let buf ← glCallU h .GenBuffers [.n 1]
  glCall .BindBuffer [.n GL_ARRAY_BUFFER, .n buf]
  glCall .BufferData [.n GL_ARRAY_BUFFER, .n 32, .arr (some square_vertices), .n GL_STATIC_DRAW]
  modifyST fun s => { s with vertex_buffer := buf }
  let buf ← glCallU h .GenBuffers [.n 1]
  glCall .BindBuffer [.n GL_ELEMENT_ARRAY_BUFFER, .n buf]
  glCall .BufferData [.n GL_ELEMENT_ARRAY_BUFFER, .n 16, .arr (some square_indices),
    .n GL_STATIC_DRAW]
  modifyST fun s => { s with element_buffer := buf }
  modifyST fun s => { s with initialized := true }

/-- The macro `ASSERT_INITIALIZED`. -/
def ASSERT_INITIALIZED : GLM Unit := do
  let st ← getST
  halide_assert st.initialized "OpenGL runtime not initialized."

/-- The kernel loop of `halide_opengl_release`. -/
def release_kernels : List HalideOpenGLKernel → GLM Unit
  | [] => pure ()
  | cur :: next => do
    halide_opengl_delete_kernel cur
    release_kernels next

/-- The function `halide_opengl_release`. -/
def halide_opengl_release : GLM Unit := do
  ASSERT_INITIALIZED
  let st ← getST
  glCall .DeleteShader [.n st.vertex_shader_id]
  glCall .DeleteFramebuffers [.n 1, .arr (some [st.framebuffer_id])]
  release_kernels st.kernels
  halide_assert (st.textures = []) "Not all textures have been freed"
  glCall .DeleteBuffers [.n 1, .arr (some [st.vertex_buffer])]
  glCall .DeleteBuffers [.n 1, .arr (some [st.element_buffer])]
  modifyST fun s => { s with vertex_shader_id := 0, framebuffer_id := 0, vertex_buffer := 0,
                             element_buffer := 0, kernels := [], initialized := false }

/-- The function `halide_opengl_find_texture`, on the list `ST.textures`. -/
def halide_opengl_find_texture : List HalideOpenGLTexture → Nat →
    Option HalideOpenGLTexture
  | [], _ => none
  | texinfo :: next, tex =>
    if texinfo.id = tex then some texinfo else halide_opengl_find_texture next tex

/-- The function `halide_opengl_dev_malloc`; returns the buffer as the call
leaves it. The pointer `buf` is not null, so the assertion on it holds. -/
def halide_opengl_dev_malloc (h : Host) (buf : buffer_t) : GLM buffer_t := do
  halide_opengl_init h
  let tex := get_texture_id buf
  let (tex, format, halide_allocated, buf) ←
    (if tex ≠ 0 then
      -- TODO: check texture format
      pure (tex, (0 : Int), false, buf)
    else do
      let (w, ht) ← check_buffer_properties buf
      let tex ← glCallU h .GenTextures [.n 1]
      glCall .BindTexture [.n GL_TEXTURE_2D, .n tex]
      glCall .TexParameteri [.n GL_TEXTURE_2D, .n GL_TEXTURE_MIN_FILTER, .n GL_NEAREST]
      glCall .TexParameteri [.n GL_TEXTURE_2D, .n GL_TEXTURE_MAG_FILTER, .n GL_NEAREST]
      glCall .TexParameteri [.n GL_TEXTURE_2D, .n GL_TEXTURE_WRAP_S, .n GL_CLAMP_TO_EDGE]
      glCall .TexParameteri [.n GL_TEXTURE_2D, .n GL_TEXTURE_WRAP_T, .n GL_CLAMP_TO_EDGE]
      let format ←
        (if buf.extent.2.2.1 ≤ 1 then pure GL_LUMINANCE
         else if buf.extent.2.2.1 = 3 then pure GL_RGB
         else if buf.extent.2.2.1 = 4 then pure GL_RGBA
         else do
           halide_assert false "Only 1, 3, or 4 color channels are supported"
           pure 0 : GLM Int)
      let type ←
        (if buf.elem_size = 1 then pure GL_UNSIGNED_BYTE
         else if buf.elem_size = 2 then pure GL_UNSIGNED_SHORT
         else do
           halide_printf "%d\n" [.n buf.elem_size]
           halide_assert false "Only uint8 and uint16 textures are supported"
           pure GL_UNSIGNED_BYTE : GLM Int)
      glCall .TexImage2D [.n GL_TEXTURE_2D, .n 0, .n format, .n w, .n ht, .n 0,
        .n format, .n type, .arr none]
      glCall .BindTexture [.n GL_TEXTURE_2D, .n 0]
      pure (tex, format, true, { buf with dev := tex }) :
        GLM (Nat × Int × Bool × buffer_t))
  let texinfo : HalideOpenGLTexture :=
    { id := tex
      min := (buf.min.1, buf.min.2.1, buf.min.2.2.1)
      extent := (buf.extent.1, buf.extent.2.1, buf.extent.2.2.1)
      format := format
      halide_allocated := halide_allocated }
  modifyST fun s => { s with textures := texinfo :: s.textures }
  return buf

/-- The lookup loop of `halide_opengl_dev_free`: the first record with the
handle `tex`, if any, and the list with that record unlinked. -/
def unlink_texture : List HalideOpenGLTexture → Nat →
    Option HalideOpenGLTexture × List HalideOpenGLTexture
  | [], _ => (none, [])
  | texinfo :: next, tex =>
    if texinfo.id = tex then (some texinfo, next)
    else ((unlink_texture next tex).1, texinfo :: (unlink_texture next tex).2)

/-- The function `halide_opengl_dev_free`; returns the buffer as the call
leaves it. -/
def halide_opengl_dev_free (buf : buffer_t) : GLM buffer_t := do
  ASSERT_INITIALIZED
  let tex := get_texture_id buf
  if tex = 0 then return buf
  let st ← getST
  modifyST fun s => { s with textures := (unlink_texture st.textures tex).2 }
  match (unlink_texture st.textures tex).1 with
  | none =>
    halide_assert false "Internal error: texture not found"
    return buf
  | some texinfo =>
    if texinfo.halide_allocated then
      glCall .DeleteTextures [.n 1, .arr (some [tex])]
      return { buf with dev := 0 }
    else
      return buf

/-- The body of the `while` loop of `halide_opengl_init_kernels` for the
kernel `create_kernel` returned: compile, link, register. -/
def register_kernel (h : Host) (kernel : HalideOpenGLKernel) : GLM Unit := do
  let shader_id ← halide_opengl_make_shader h GL_FRAGMENT_SHADER kernel.source
  let kernel := { kernel with shader_id := shader_id }
  let program ← glCallU h .CreateProgram []
  let st ← getST
  glCall .AttachShader [.n program, .n st.vertex_shader_id]
  glCall .AttachShader [.n program, .n kernel.shader_id]
  glCall .LinkProgram [.n program]
  let status ← glCallI h .GetProgramiv [.n program, .n GL_LINK_STATUS]
  let program ←
    (if status = 0 then do
      halide_printf "Could not link GLSL program:\n" []
      let log_len ← glCallI h .GetProgramiv [.n program, .n GL_INFO_LOG_LENGTH]
      let log ← glCallData h .GetProgramInfoLog [.n program, .n log_len, .arr none]
      halide_printf "%s" [.arr (some log)]
      glCall .DeleteProgram [.n program]
      pure 0
    else pure program : GLM Nat)
  let kernel := { kernel with program_id := program }
  let st ← getST
  match halide_opengl_find_kernel st.kernels kernel.name with
  | some _ =>
    halide_printf "Duplicate kernel name '%s'\n" [.str kernel.name]
    halide_opengl_delete_kernel kernel
  | none =>
    modifyST fun s => { s with kernels := kernel :: s.kernels }

/-- The `while (begin && begin[0])` loop of `halide_opengl_init_kernels`;
`begin` is the string that starts at the pointer. Every round moves `begin`
forward by the length of the marker at least, so `fuel` beyond the length
of the source is never used up. -/
def init_kernels_loop (h : Host) : Nat → List Char → GLM Unit
  | 0, _ => pure ()
  | fuel + 1, begin =>
    if begin = [] then pure ()
    else do
      let endp := (strstr (begin.drop kernel_marker.length) kernel_marker).getD []
      let kernel ← liftExcept (create_kernel begin (begin.length - endp.length))
      register_kernel h kernel
      init_kernels_loop h fuel endp

/-- The function `halide_opengl_init_kernels`. The parameter `size` is not
used by the source: `src` is read up to its terminating NUL. -/
def halide_opengl_init_kernels (h : Host) (src : List Char) (size : Int) : GLM Unit := do
  let _ := size
  let st ← getST
  if !st.initialized then halide_opengl_init h
  match strstr src kernel_marker with
  | none => pure ()
  | some begin => init_kernels_loop h (begin.length + 1) begin

/-- The function `halide_opengl_dev_sync`. -/
def halide_opengl_dev_sync : GLM Unit := do
  ASSERT_INITIALIZED

/-- The function `halide_opengl_copy_to_dev`; returns the buffer as the call
leaves it. -/
def halide_opengl_copy_to_dev (buf : buffer_t) : GLM buffer_t := do
  ASSERT_INITIALIZED
  if buf.host_dirty then
    halide_assert (buf.host.isSome && buf.dev != 0) "buf->host && buf->dev"
    let tex := get_texture_id buf
    let gl_compatible : Bool :=
      buf.stride.2.2.1 == 1 && buf.stride.1 == buf.extent.2.2.1
    halide_printf "GL compatible? %d\n" [.n (if gl_compatible then 1 else 0)]
    if gl_compatible then
      let (w, ht) ← check_buffer_properties buf
      glCall .BindTexture [.n GL_TEXTURE_2D, .n tex]
      glCall .TexSubImage2D [.n GL_TEXTURE_2D, .n 0, .n 0, .n 0, .n w, .n ht,
        .n GL_RGBA, .n GL_FLOAT, .arr buf.host]
    else
      halide_assert false "Unsupported image format"
    glCall .BindTexture [.n GL_TEXTURE_2D, .n 0]
    return { buf with host_dirty := false }
  else
    return buf

/-- The function `halide_opengl_copy_to_host`; returns the buffer as the
call leaves it. The driver writes the pixels it reads back over the host
data. -/
def halide_opengl_copy_to_host (h : Host) (buf : buffer_t) : GLM buffer_t := do
  ASSERT_INITIALIZED
  if buf.dev_dirty then
    halide_assert (buf.host.isSome && buf.dev != 0) "buf->host && buf->dev"
    let tex := get_texture_id buf
    let gl_compatible : Bool :=
      buf.stride.2.2.1 == 1 && buf.stride.1 == buf.extent.2.2.1
    let host ←
      (if gl_compatible then do
        glCall .BindTexture [.n GL_TEXTURE_2D, .n tex]
        let data ← glCallData h .GetTexImage [.n GL_TEXTURE_2D, .n 0, .n GL_RGBA,
          .n GL_FLOAT, .arr buf.host]
        pure (some data)
      else do
        halide_assert false "Unsupported image format"
        pure buf.host : GLM (Option (List Int)))
    glCall .BindTexture [.n GL_TEXTURE_2D, .n 0]
    return { buf with host := host, dev_dirty := false }
  else
    return buf

/-- The first loop of `halide_opengl_dev_run`: walks the actuals `args` (the
32-bit words behind the non-null pointers before the terminating null) and
the declared arguments `kernel_arg` in lockstep and sets the uniforms of the
inputs. Returns what is left of `kernel_arg` and the number of active
textures. -/
def dev_run_inputs (h : Host) (kernel : HalideOpenGLKernel) :
    List Nat → Nat → List HalideOpenGLArgument → Int →
    GLM (List HalideOpenGLArgument × Int)
  | [], _, kernel_arg, num_active_textures => pure (kernel_arg, num_active_textures)
  | _ :: _, _, [], num_active_textures => do
    halide_assert false "Too many arguments passed to halide_opengl_dev_run"
    pure ([], num_active_textures)
  | a :: rest, i, kernel_arg :: next, num_active_textures =>
    if kernel_arg.is_output then
      dev_run_inputs h kernel rest (i + 1) next num_active_textures
    else do
      let loc ← glCallI h .GetUniformLocation [.n kernel.program_id, .str kernel_arg.name]
      if loc ≠ -1 then
        if kernel_arg.type = ARG_INT then do
          halide_printf "Int argument %d (%s): %d\n" [.n i, .str kernel_arg.name, .n a]
          glCall .Uniform1iv [.n loc, .n 1, .arr (some [a])]
          dev_run_inputs h kernel rest (i + 1) next num_active_textures
        else if kernel_arg.type = ARG_FLOAT then do
          halide_printf "Float argument %d (%s): %g\n" [.n i, .str kernel_arg.name, .n a]
          glCall .Uniform1fv [.n loc, .n 1, .arr (some [a])]
          dev_run_inputs h kernel rest (i + 1) next num_active_textures
        else if kernel_arg.type = ARG_BUFFER then do
          halide_printf "Buffer argument %d (%s): %u\n" [.n i, .str kernel_arg.name, .n a]
          glCall .ActiveTexture [.n (GL_TEXTURE0 + num_active_textures)]
          glCall .BindTexture [.n GL_TEXTURE_2D, .n a]
          glCall .Uniform1iv [.n loc, .n 1, .arr (some [num_active_textures])]
          dev_run_inputs h kernel rest (i + 1) next (num_active_textures + 1)
        else do
          halide_printf "Unexpected argument type for '%s'\n" [.str kernel_arg.name]
          halide_assert false "false"
          dev_run_inputs h kernel rest (i + 1) next num_active_textures
      else do
        halide_printf "Ignoring argument '%s'\n" [.str kernel_arg.name]
        dev_run_inputs h kernel rest (i + 1) next num_active_textures

/-- The geometry of the output that the second loop of
`halide_opengl_dev_run` collects. -/
structure OutputGeometry where
  num_output_textures : Int
  output_min : Int × Int
  output_extent : Int × Int
  deriving DecidableEq, Repr

/-- The second loop of `halide_opengl_dev_run`: attaches the outputs to the
framebuffer. Reading `kernel_arg->is_output` through a null `kernel_arg`
crashes. -/
def dev_run_outputs : List Nat → List HalideOpenGLArgument → OutputGeometry →
    GLM OutputGeometry
  | [], _, g => pure g
  | _ :: _, [], _ => fun w => Res.fail Failure.crash w
  | a :: rest, kernel_arg :: next, g =>
    if !kernel_arg.is_output then dev_run_outputs rest next g
    else do
      (if g.num_output_textures ≥ 1 then
        halide_assert false "OpenGL ES 2.0 only supports one single output texture"
       else pure () : GLM Unit)
      halide_printf "Output texture %d: %d\n" [.n g.num_output_textures, .n a]
      glCall .FramebufferTexture2D [.n GL_FRAMEBUFFER,
        .n (GL_COLOR_ATTACHMENT0 + g.num_output_textures), .n GL_TEXTURE_2D, .n a, .n 0]
      let st ← getST
      match halide_opengl_find_texture st.textures a with
      | none =>
        halide_assert false "Undefined output texture"
        dev_run_outputs rest next g
      | some texinfo =>
        dev_run_outputs rest next
          { num_output_textures := g.num_output_textures + 1
            output_min := (texinfo.min.1, texinfo.min.2.1)
            output_extent := (texinfo.extent.1, texinfo.extent.2.1) }

/-- The cleanup loop of `halide_opengl_dev_run`: unbinds the texture units
`i`, `i + 1`, ... below `i + count`. -/
def dev_run_cleanup : Nat → Int → GLM Unit
  | 0, _ => pure ()
  | count + 1, i => do
    glCall .ActiveTexture [.n (GL_TEXTURE0 + i)]
    glCall .BindTexture [.n GL_TEXTURE_2D, .n 0]
    dev_run_cleanup count (i + 1)

/-- The part of `halide_opengl_dev_run` that follows the argument walk: from
the binding of the framebuffer to the end of the function. -/
def dev_run_render (h : Host) (kernel : HalideOpenGLKernel) (args : List Nat)
    (num_active_textures : Int) : GLM Unit := do
  let st ← getST
  glCall .BindFramebuffer [.n GL_FRAMEBUFFER, .n st.framebuffer_id]
  glCall .Disable [.n GL_CULL_FACE]
  glCall .Disable [.n GL_DEPTH_TEST]
  let g ← dev_run_outputs args kernel.arguments
    { num_output_textures := 0, output_min := (0, 0), output_extent := (0, 0) }
  if g.num_output_textures = 0 then
    halide_printf "Warning: kernel '%s' has no output\n" [.str kernel.name]
    -- TODO: cleanup
    return ()
  else
    let draw_buffers : List Int :=
      (List.range g.num_output_textures.toNat).map fun i => GL_COLOR_ATTACHMENT0 + i
    glCall .DrawBuffers [.n g.num_output_textures, .arr (some draw_buffers)]
    let status ← glCallI h .CheckFramebufferStatus [.n GL_FRAMEBUFFER]
    if status ≠ GL_FRAMEBUFFER_COMPLETE then
      halide_printf "Setting up GL framebuffer %d failed (%x)\n"
        [.n st.framebuffer_id, .n status]
      -- TODO: cleanup
      return ()
    else
      let loc ← glCallI h .GetUniformLocation
        [.n kernel.program_id, .str "output_extent".toList]
      glCall .Uniform2iv [.n loc, .n 1,
        .arr (some [g.output_extent.1, g.output_extent.2])]
      let loc ← glCallI h .GetUniformLocation
        [.n kernel.program_id, .str "output_min".toList]
      glCall .Uniform2iv [.n loc, .n 1, .arr (some [g.output_min.1, g.output_min.2])]
      glCall .MatrixMode [.n GL_MODELVIEW]
      glCall .LoadIdentity []
      glCall .MatrixMode [.n GL_PROJECTION]
      glCall .LoadIdentity []
      glCall .Ortho [.n (-1), .n 1, .n (-1), .n 1, .n 1, .n (-1)]
      glCall .Viewport [.n 0, .n 0, .n g.output_extent.1, .n g.output_extent.2]
      let position ← glCallI h .GetAttribLocation
        [.n kernel.program_id, .str "position".toList]
      glCall .BindBuffer [.n GL_ARRAY_BUFFER, .n st.vertex_buffer]
      glCall .VertexAttribPointer [.n position, .n 2, .n GL_FLOAT, .n GL_FALSE, .n 8,
        .arr none]
      glCall .EnableVertexAttribArray [.n position]
      glCall .BindBuffer [.n GL_ELEMENT_ARRAY_BUFFER, .n st.element_buffer]
      glCall .DrawElements [.n GL_TRIANGLE_STRIP, .n 4, .n GL_UNSIGNED_INT, .arr none]
      glCall .DisableVertexAttribArray [.n position]
      dev_run_cleanup num_active_textures.toNat 0
      glCall .BindFramebuffer [.n GL_FRAMEBUFFER, .n 0]

/-- The function `halide_opengl_dev_run`. The block and thread counts, the
shared memory size and `arg_sizes` are not used by the source; `args` holds
the 32-bit words behind the non-null pointers of the actuals array, up to
its terminating null. -/
def halide_opengl_dev_run (h : Host) (entry_name : List Char) (args : List Nat) :
    GLM Unit := do
  ASSERT_INITIALIZED
  let st ← getST
  match halide_opengl_find_kernel st.kernels entry_name with
  | none =>
    halide_printf "Could not find a kernel named '%s'\n" [.str entry_name]
    return ()
  | some kernel =>
    glCall .UseProgram [.n kernel.program_id]
    let (kernel_arg, num_active_textures) ←
      dev_run_inputs h kernel args 0 kernel.arguments 0
    halide_assert (kernel_arg = []) "Too few arguments passed to halide_opengl_dev_run"
    dev_run_render h kernel args num_active_textures

/-! ## Predicates and sample data used by the statements -/

/-- An initialized runtime: the flag is set and every driver function is
resolved. -/
def Ready (w : World) : Prop :=
  w.ST.initialized = true ∧ ∀ f ∈ USED_GL_FUNCTIONS, f ∈ w.ST.procs

instance (w : World) : Decidable (Ready w) := by
  unfold Ready
  infer_instance

/-- A host that resolves every driver function; its driver numbers the
objects it generates by the length of the call history and reports success
(status 1) to every query. -/
def sampleHost : Host :=
  { get_proc_address := fun _ => true
    retU := fun calls => calls.length
    retI := fun _ => 1
    retData := fun _ => [] }

/-- A host whose symbol lookup resolves nothing. -/
def brokenHost : Host :=
  { get_proc_address := fun _ => false
    retU := fun calls => calls.length
    retI := fun _ => 1
    retData := fun _ => [] }

/-- The state of the runtime before any call: all fields zero. -/
def freshWorld : World :=
  { ST := { initialized := false, vertex_shader_id := 0, framebuffer_id := 0
            vertex_buffer := 0, element_buffer := 0, kernels := [], textures := []
            procs := [] }
    gl := []
    out := [] }

/-- An initialized runtime with empty registries. -/
def readyWorld : World :=
  { ST := { initialized := true, vertex_shader_id := 2, framebuffer_id := 1
            vertex_buffer := 3, element_buffer := 4, kernels := [], textures := []
            procs := USED_GL_FUNCTIONS }
    gl := []
    out := [] }

/-- A 2x2 interleaved RGBA buffer with host data, no texture, host dirty. -/
def sampleBuffer : buffer_t :=
  { dev := 0
    host := some [0, 1, 2, 3, 4, 5, 6, 7, 8, 9, 10, 11, 12, 13, 14, 15]
    extent := (2, 2, 4, 0)
    stride := (4, 8, 1, 0)
    min := (0, 0, 0, 0)
    elem_size := 1
    host_dirty := true
    dev_dirty := false }

/-- A buffer whose device slot holds the texture 7 of the host. -/
def hostTextureBuffer : buffer_t := { sampleBuffer with dev := 7 }

/-- An initialized runtime whose texture registry holds the record of the
host texture 7. -/
def hostTextureWorld : World :=
  { readyWorld with ST := { readyWorld.ST with textures :=
      [{ id := 7, min := (0, 0, 0), extent := (2, 2, 4), format := 0
         halide_allocated := false }] } }

/-- A buffer whose 64-bit device slot is `2 ^ 32`: not zero, but its low 32
bits, the texture handle, are. -/
def bigSlotBuffer : buffer_t := { sampleBuffer with dev := 4294967296 }

/-- The value an outcome returns, if it is a return. -/
def Res.val? {α : Type} : Res α → Option α
  | Res.ok a _ => some a
  | Res.fail _ _ => none

/-- The failure an outcome stops with, if it is an abort. -/
def Res.failure? {α : Type} : Res α → Option Failure
  | Res.ok _ _ => none
  | Res.fail e _ => some e

/-- A two-dimensional buffer: its third and fourth extents are 0. -/
def flatBuffer : buffer_t :=
  { sampleBuffer with extent := (2, 2, 0, 0), stride := (1, 2, 0, 0) }

/-- An interleaved buffer of five channels, bound to the host texture 7,
host dirty. -/
def fiveChannelBuffer : buffer_t :=
  { dev := 7
    host := some [0, 1, 2, 3, 4]
    extent := (1, 1, 5, 0)
    stride := (5, 5, 1, 0)
    min := (0, 0, 0, 0)
    elem_size := 1
    host_dirty := true
    dev_dirty := false }

/-- Every driver call that `m` makes satisfies `P`: whatever the world `m`
starts in, the calls of the world it ends in (returning or aborting) are
those of the start preceded by calls that satisfy `P`. -/
def Emits {α : Type} (P : GLCall → Prop) (m : GLM α) : Prop :=
  ∀ w, ∃ added, (m w).world.gl = added ++ w.gl ∧ ∀ c ∈ added, P c

/-- The kinds of argument that a kernel header can declare. -/
def ValidArgType (t : Nat) : Prop := t = ARG_BUFFER ∨ t = ARG_FLOAT ∨ t = ARG_INT

/-- The source of a kernel `k` with a float input `x` and a buffer output
`out`. -/
def sampleKernelSource : List Char :=
  ("/// KERNEL k\n" ++
   "/// IN float x\n" ++
   "/// OUT buffer out\n" ++
   "void main() \x7b\x7d\n").toList

/-- The record `create_kernel` builds from `sampleKernelSource`. -/
def sampleKernel : HalideOpenGLKernel :=
  { source := sampleKernelSource
    name := ['k']
    arguments := [{ name := ['x'], type := ARG_FLOAT, is_output := false },
                  { name := ['o', 'u', 't'], type := ARG_BUFFER, is_output := true }]
    shader_id := 0
    program_id := 0 }

/-- An initialized runtime whose kernel registry holds `sampleKernel`. -/
def kernelWorld : World :=
  { readyWorld with ST := { readyWorld.ST with kernels := [sampleKernel] } }

/-! ## The source-blob format, as the specification describes it -/

/-- The type word of a header line: `float`, `int` or `buffer`. -/
def kindText (t : Nat) : List Char :=
  if t = ARG_FLOAT then ['f', 'l', 'o', 'a', 't']
  else if t = ARG_INT then ['i', 'n', 't']
  else ['b', 'u', 'f', 'f', 'e', 'r']

/-- One `/// IN <type> <name>` or `/// OUT <type> <name>` line of a kernel
header. -/
structure ArgLine where
  is_output : Bool
  kind : Nat
  name : List Char
  deriving DecidableEq, Repr

/-- The text of a header line, its newline included. -/
def ArgLine.text (l : ArgLine) : List Char :=
  (if l.is_output then output_marker else input_marker) ++ kindText l.kind ++ [' '] ++
    l.name ++ ['\n']

/-- The argument descriptor a header line declares. -/
def ArgLine.toArgument (l : ArgLine) : HalideOpenGLArgument :=
  { name := l.name, type := l.kind, is_output := l.is_output }

/-- A header line is well formed when its type is one of the three kinds and
its name holds no newline. -/
def ArgLine.WellFormed (l : ArgLine) : Prop :=
  ValidArgType l.kind ∧ '\n' ∉ l.name

/-- A kernel block: the name on its `/// KERNEL` line, its `/// IN` and
`/// OUT` lines, and the GLSL text that follows the header. -/
structure KernelText where
  name : List Char
  lines : List ArgLine
  body : List Char
  deriving DecidableEq, Repr

/-- The text of the `/// IN` / `/// OUT` lines of a header. -/
def linesText (lines : List ArgLine) : List Char :=
  (lines.map ArgLine.text).flatten

/-- The text of a kernel block, less the kernel marker it starts with. -/
def KernelText.tail (k : KernelText) : List Char :=
  k.name ++ ['\n'] ++ linesText k.lines ++ k.body

/-- The text of a kernel block. -/
def KernelText.text (k : KernelText) : List Char :=
  kernel_marker ++ k.tail

/-- The header of a block is well formed when the kernel name holds no
newline, every `/// IN` / `/// OUT` line is well formed, and the GLSL text
after the header does not start with one of the three markers. -/
def KernelText.HeaderWellFormed (k : KernelText) : Prop :=
  '\n' ∉ k.name ∧ (∀ l ∈ k.lines, l.WellFormed) ∧
  ¬ kernel_marker <+: k.body ∧ ¬ input_marker <+: k.body ∧ ¬ output_marker <+: k.body

instance (l : ArgLine) : Decidable l.WellFormed := by
  unfold ArgLine.WellFormed ValidArgType
  infer_instance

instance (k : KernelText) : Decidable k.HeaderWellFormed := by
  unfold KernelText.HeaderWellFormed
  infer_instance

/-- A kernel `k` with a float input `x` and a buffer output `out`; its text
is `sampleKernelSource`. -/
def sampleKernelText : KernelText :=
  { name := ['k']
    lines := [{ is_output := false, kind := ARG_FLOAT, name := ['x'] },
              { is_output := true, kind := ARG_BUFFER, name := ['o', 'u', 't'] }]
    body := "void main() \x7b\x7d\n".toList }

/-- Total correctness of a piece of the runtime: from every world that
satisfies `P`, `m` returns, with a value and in a world that satisfy `Q`. -/
def Triple {α : Type} (P : World → Prop) (m : GLM α) (Q : α → World → Prop) : Prop :=
  ∀ w, P w → ∃ a w1, m w = Res.ok a w1 ∧ Q a w1

/-- The world is that of an initialized runtime in the state `s`. -/
def At (s : HalideOpenGLState) (w : World) : Prop := Ready w ∧ w.ST = s


/-- The pure part of the loop of `halide_opengl_init_kernels`: the records
`create_kernel` returns for the successive blocks of the source that starts
at `begin`, up to the first block it rejects, and the failure it rejects
that block with. -/
def blob_kernels : Nat → List Char → List HalideOpenGLKernel × Option Failure
  | 0, _ => ([], none)
  | fuel + 1, begin =>
    if begin = [] then ([], none)
    else
      match create_kernel begin (begin.length -
          ((strstr (begin.drop kernel_marker.length) kernel_marker).getD []).length) with
      | Except.error e => ([], some e)
      | Except.ok kernel =>
        (kernel :: (blob_kernels fuel
            ((strstr (begin.drop kernel_marker.length) kernel_marker).getD [])).1,
          (blob_kernels fuel
            ((strstr (begin.drop kernel_marker.length) kernel_marker).getD [])).2)

/-- The records `create_kernel` returns for the successive blocks of a
source blob, in the order of the blob. -/
def blobKernels (src : List Char) : List HalideOpenGLKernel × Option Failure :=
  match strstr src kernel_marker with
  | none => ([], none)
  | some begin => blob_kernels (begin.length + 1) begin

/-- The registration at the end of the loop body of
`halide_opengl_init_kernels`, on the registry alone: a record whose name the
registry has is discarded, another one is put at the head. -/
def register_record (reg : List HalideOpenGLKernel) (k : HalideOpenGLKernel) :
    List HalideOpenGLKernel :=
  match halide_opengl_find_kernel reg k.name with
  | some _ => reg
  | none => k :: reg

/-- Registration of records one after the other. -/
def register_all (recs reg : List HalideOpenGLKernel) : List HalideOpenGLKernel :=
  recs.foldl register_record reg

/-- The record `r` has the source, the name and the arguments of `k` (the
shader and program handles may differ). -/
def SameText (r k : HalideOpenGLKernel) : Prop :=
  r.source = k.source ∧ r.name = k.name ∧ r.arguments = k.arguments


/-- A source blob with the kernel `k` of `sampleKernelSource` followed by
two blocks that both declare a kernel `j`. -/
def duplicateBlob : List Char :=
  sampleKernelSource ++
  ("/// KERNEL j\n" ++
   "void main() \x7b\x7d\n" ++
   "/// KERNEL j\n" ++
   "/// IN int a\n" ++
   "void main() \x7b a; \x7d\n").toList


/-- The text of consecutive kernel blocks. -/
def blocksText (ks : List KernelText) : List Char :=
  (ks.map KernelText.text).flatten

/-- The text of a source blob: the kernel blocks `ks`, after a preamble
`pre`. -/
def blobText (pre : List Char) (ks : List KernelText) : List Char :=
  pre ++ blocksText ks

/-- A block is well formed when its header is and the kernel marker occurs
nowhere in it but at its start. -/
def KernelText.WellFormed (k : KernelText) : Prop :=
  k.HeaderWellFormed ∧ ¬ kernel_marker <:+: k.tail

/-- A correctly formed source blob: the kernel marker does not occur in the
preamble and every block is well formed. -/
def WellFormedBlob (pre : List Char) (ks : List KernelText) : Prop :=
  ¬ kernel_marker <:+: pre ∧ ∀ k ∈ ks, k.WellFormed

instance (k : KernelText) : Decidable k.WellFormed := by
  unfold KernelText.WellFormed
  infer_instance

instance (pre : List Char) (ks : List KernelText) : Decidable (WellFormedBlob pre ks) := by
  unfold WellFormedBlob
  infer_instance

/-- The record `create_kernel` builds for a well-formed block. -/
def KernelText.toKernel (k : KernelText) : HalideOpenGLKernel :=
  { source := k.text
    name := k.name
    arguments := k.lines.map ArgLine.toArgument
    shader_id := 0
    program_id := 0 }

/-- A second kernel, `j`, with an int input `a` and a buffer output `o`. -/
def secondKernelText : KernelText :=
  { name := ['j']
    lines := [{ is_output := false, kind := ARG_INT, name := ['a'] },
              { is_output := true, kind := ARG_BUFFER, name := ['o'] }]
    body := "void main() \x7b a; \x7d\n".toList }


/-! ## Sequences of calls on buffers -/

/-- A call of `dev_malloc` or of `dev_free` on the buffer number `i`. -/
inductive TextureOp where
  | dev_malloc (i : Nat)
  | dev_free (i : Nat)
  deriving DecidableEq, Repr

/-- Runs one call on the buffers `bufs`; a call on a buffer that does not
exist is skipped. -/
def run_op (h : Host) (op : TextureOp) (bufs : List buffer_t) : GLM (List buffer_t) :=
  match op with
  | TextureOp.dev_malloc i =>
    match bufs[i]? with
    | none => pure bufs
    | some buf => do
      let buf1 ← halide_opengl_dev_malloc h buf
      pure (bufs.set i buf1)
  | TextureOp.dev_free i =>
    match bufs[i]? with
    | none => pure bufs
    | some buf => do
      let buf1 ← halide_opengl_dev_free buf
      pure (bufs.set i buf1)

/-- Runs a sequence of calls; an abort ends the run. -/
def run_ops (h : Host) : List TextureOp → List buffer_t → GLM (List buffer_t)
  | [], bufs => pure bufs
  | op :: ops, bufs => do
    let bufs1 ← run_op h op bufs
    run_ops h ops bufs1

/-- The handle that `dev_malloc` of `buf` records is not in the registry:
the handle of the buffer when it has one, else the name the driver
generates, which is then not zero either. -/
def FreshHandle (h : Host) (buf : buffer_t) (w : World) : Prop :=
  if get_texture_id buf ≠ 0 then ∀ r ∈ w.ST.textures, r.id ≠ get_texture_id buf
  else h.retU (⟨GLFunc.GenTextures, [.n 1]⟩ :: w.gl) % 2 ^ 32 ≠ 0 ∧
    ∀ r ∈ w.ST.textures, r.id ≠ h.retU (⟨GLFunc.GenTextures, [.n 1]⟩ :: w.gl) % 2 ^ 32

instance (h : Host) (buf : buffer_t) (w : World) : Decidable (FreshHandle h buf w) := by
  unfold FreshHandle
  infer_instance

/-- Whether every `dev_malloc` of the run records a handle that has no
record at that point: no buffer is passed to `dev_malloc` while its handle
has a live record, and the driver generates fresh names. -/
def disciplined (h : Host) : List TextureOp → List buffer_t → World → Bool
  | [], _, _ => true
  | op :: ops, bufs, w =>
    (match op with
     | TextureOp.dev_malloc i =>
       match bufs[i]? with
       | none => true
       | some buf => decide (FreshHandle h buf w)
     | TextureOp.dev_free _ => true) &&
    (match run_op h op bufs w with
     | Res.ok bufs1 w1 => disciplined h ops bufs1 w1
     | Res.fail _ _ => true)

/-- The invariant of the texture registry: the runtime is initialized, no
two records have the same handle and no record has the handle 0. -/
def TexInv (w : World) : Prop :=
  Ready w ∧ (w.ST.textures.map (·.id)).Nodup ∧ ∀ r ∈ w.ST.textures, r.id ≠ 0

/-! ## The outputs of a launch and the bindings a call history leaves -/

/-- The actuals that `dev_run` pairs with the declared outputs of a kernel:
the actual at the position of each argument whose `is_output` is set. -/
def output_actuals (kernel_arg : List HalideOpenGLArgument) (args : List Nat) : List Nat :=
  ((kernel_arg.zip args).filter fun p => p.1.is_output).map Prod.snd

/-- The call `glFramebufferTexture2D` that attaches texture `a` at color
attachment 0 of the bound framebuffer. -/
def attach_call (a : Nat) : GLCall :=
  ⟨.FramebufferTexture2D,
    [.n GL_FRAMEBUFFER, .n GL_COLOR_ATTACHMENT0, .n GL_TEXTURE_2D, .n a, .n 0]⟩

/-- The driver calls, newest first, of the cleanup loop of `dev_run` over
`count` texture units from unit `i` on. -/
def cleanup_calls : Nat → Int → List GLCall
  | 0, _ => []
  | count + 1, i => cleanup_calls count (i + 1) ++
      [⟨.BindTexture, [.n GL_TEXTURE_2D, .n 0]⟩, ⟨.ActiveTexture, [.n (GL_TEXTURE0 + i)]⟩]

/-- The framebuffer that a history of driver calls (newest first) leaves
bound to `GL_FRAMEBUFFER`: the one the newest `glBindFramebuffer` names, 0
when there is none. -/
def framebuffer_binding : List GLCall → Int
  | [] => 0
  | c :: rest =>
    if c.fn = GLFunc.BindFramebuffer then
      match c.args with
      | [.n target, .n fb] =>
        if target = GL_FRAMEBUFFER then fb else framebuffer_binding rest
      | _ => framebuffer_binding rest
    else framebuffer_binding rest

/-- The texture unit that a history of driver calls leaves active: the one
the newest `glActiveTexture` names, `GL_TEXTURE0` when there is none. -/
def active_texture : List GLCall → Int
  | [] => GL_TEXTURE0
  | c :: rest =>
    if c.fn = GLFunc.ActiveTexture then
      match c.args with
      | [.n u] => u
      | _ => active_texture rest
    else active_texture rest

/-- The texture that a history of driver calls leaves bound to
`GL_TEXTURE_2D` on texture unit `u`: the one named by the newest
`glBindTexture` made while `u` was active, 0 when there is none. -/
def texture_binding (u : Int) : List GLCall → Int
  | [] => 0
  | c :: rest =>
    if c.fn = GLFunc.BindTexture then
      match c.args with
      | [.n target, .n tex] =>
        if target = GL_TEXTURE_2D ∧ active_texture rest = u then tex
        else texture_binding u rest
      | _ => texture_binding u rest
    else texture_binding u rest

/-- A kernel `c` with a buffer input `in` and a buffer output `out`. -/
def copyKernel : HalideOpenGLKernel :=
  { source := []
    name := ['c']
    arguments := [{ name := ['i', 'n'], type := ARG_BUFFER, is_output := false },
                  { name := ['o', 'u', 't'], type := ARG_BUFFER, is_output := true }]
    shader_id := 5
    program_id := 6 }

/-- A kernel `i` with a buffer input `in` and no output. -/
def inputOnlyKernel : HalideOpenGLKernel :=
  { source := []
    name := ['i']
    arguments := [{ name := ['i', 'n'], type := ARG_BUFFER, is_output := false }]
    shader_id := 7
    program_id := 8 }

/-- An initialized runtime whose registries hold the three sample kernels
and records for the textures 7 and 8. -/
def launchWorld : World :=
  { readyWorld with ST := { readyWorld.ST with
      kernels := [sampleKernel, copyKernel, inputOnlyKernel]
      textures :=
        [{ id := 7, min := (0, 0, 0), extent := (2, 2, 4), format := 0
           halide_allocated := false },
         { id := 8, min := (10, 20, 0), extent := (3, 5, 4), format := 0
           halide_allocated := false }] } }

/-- A host like `sampleHost` whose driver reports every framebuffer as
complete. -/
def completeHost : Host :=
  { sampleHost with
    retI := fun calls =>
      match calls with
      | [] => 1
      | c :: _ => if c.fn = GLFunc.CheckFramebufferStatus then GL_FRAMEBUFFER_COMPLETE else 1 }

/-! ## The intermediate representation

The passes of `InjectOpenGLIntrinsics.cpp` work on the statements and
expressions of `IR.h`, which is not among the sources. The types below model
the nodes the two passes name and the generic ones in which they nest. -/

/-- Modelled from the spec: the scalar types `Int(bits)`, `UInt(bits)`,
`Float(bits)` and `Handle()` of the missing `Type.h`. -/
inductive IRType where
  | Int (bits : Nat)
  | UInt (bits : Nat)
  | Float (bits : Nat)
  | Handle
  deriving DecidableEq, Repr

/-- Modelled from the spec: the kinds of call of the missing `IR.h`. -/
inductive CallType where
  | Image
  | Extern
  | Halide
  | Intrinsic
  deriving DecidableEq, Repr

/-- Modelled from the spec: the kinds of loop of the missing `IR.h`. -/
inductive ForType where
  | Serial
  | Parallel
  | Vectorized
  | Unrolled
  deriving DecidableEq, Repr

/-- Modelled from the spec: the binary operators of the missing `IR.h`. -/
inductive BinOp where
  | Add | Sub | Mul | Div | Mod | Min | Max
  | EQ | NE | LT | LE | GT | GE | And | Or
  deriving DecidableEq, Repr

/-- Modelled from the spec: the expressions of the missing `IR.h`. A float
constant holds its exact value. A call holds, of its function `func`, the
number of outputs (0 for the default `Function()`), and the names of its
`image` and `param` when they are defined. -/
inductive Expr where
  | IntImm (value : Int)
  | FloatImm (value : ℚ)
  | StringImm (value : String)
  | Cast (type : IRType) (value : Expr)
  | Variable (type : IRType) (name : String)
  | Bin (op : BinOp) (a b : Expr)
  | Not (a : Expr)
  | Select (condition true_value false_value : Expr)
  | Load (type : IRType) (name : String) (index : Expr)
  | Call (type : IRType) (name : String) (args : List Expr) (call_type : CallType)
      (func_outputs : Nat) (value_index : Int) (image param : Option String)
  | Let (name : String) (value body : Expr)

/-- Modelled from the spec: the statements of the missing `IR.h`. -/
inductive Stmt where
  | LetStmt (name : String) (value : Expr) (body : Stmt)
  | AssertStmt (condition : Expr) (message : String)
  | For (name : String) (min extent : Expr) (for_type : ForType) (body : Stmt)
  | Store (name : String) (value index : Expr)
  | Provide (name : String) (values args : List Expr)
  | Allocate (name : String) (type : IRType) (size : Expr) (body : Stmt)
  | Free (name : String)
  | Block (first rest : Stmt)
  | IfThenElse (condition : Expr) (then_case else_case : Stmt)
  | Evaluate (value : Expr)

/-- Modelled from the spec: the operator `a + b` of the missing
`IROperator.h` builds the node `Add`. -/
instance : Add Expr := ⟨Expr.Bin BinOp.Add⟩

/-- Modelled from the spec: the operator `a - b` of the missing
`IROperator.h` builds the node `Sub`. -/
instance : Sub Expr := ⟨Expr.Bin BinOp.Sub⟩

/-- Modelled from the spec: the operator `a / b` of the missing
`IROperator.h` builds the node `Div`. -/
instance : Div Expr := ⟨Expr.Bin BinOp.Div⟩

/-- Modelled from the spec: the type of an expression, the field `type` of
every node of the missing `IR.h`. -/
def Expr.type : Expr → IRType
  | .IntImm _ => .Int 32
  | .FloatImm _ => .Float 32
  | .StringImm _ => .Handle
  | .Cast t _ => t
  | .Variable t _ => t
  | .Bin op a _ =>
    if op = .EQ ∨ op = .NE ∨ op = .LT ∨ op = .LE ∨ op = .GT ∨ op = .GE ∨ op = .And ∨ op = .Or
    then .UInt 1 else a.type
  | .Not _ => .UInt 1
  | .Select _ t _ => t.type
  | .Load t _ _ => t
  | .Call t _ _ _ _ _ _ _ => t
  | .Let _ _ body => body.type

/-- Modelled from the spec: the name `Call::glsl_texture_load` of the
missing `IR.h`. -/
def Call.glsl_texture_load : String := "glsl_texture_load"

/-- Modelled from the spec: the name `Call::glsl_texture_store` of the
missing `IR.h`. -/
def Call.glsl_texture_store : String := "glsl_texture_store"

/-- Modelled from the spec: `int_to_string` of the missing `Util.h`, the
decimal digits of a number. -/
def int_to_string (i : Int) : String := toString i

/-- Modelled from the spec: `ends_with` of the missing `Util.h`. -/
def ends_with (str suffix : String) : Bool := suffix.data.isSuffixOf str.data

/-- Modelled from the spec: `is_zero` of the missing `IROperator.h`, for the
integer constant 0. -/
def is_zero : Expr → Bool
  | .IntImm 0 => true
  | _ => false

/-! ## The passes of `InjectOpenGLIntrinsics.cpp` -/

/-- Modelled from the spec: the two tests on loop names of the missing
`CodeGen_GPU_Dev.h`, taken as parameters. -/
structure CodeGen_GPU_Dev where
  /-- The loop runs over a GPU block index. -/
  is_gpu_block_var : String → Bool
  /-- The loop runs over a GPU block or thread index. -/
  is_gpu_var : String → Bool

/-- The name `min_name` that `visit(const Call *)` computes for dimension
`d`: the `.constrained` variant when the scope holds it. The scope is the
list of the names pushed and not yet popped. -/
def min_name (scope : List String) (name d : String) : String :=
  let min_name := name ++ ".min." ++ d
  let min_name_constrained := min_name ++ ".constrained"
  if min_name_constrained ∈ scope then min_name_constrained else min_name

/-- The name `extent_name` that `visit(const Call *)` computes for dimension
`d`. -/
def extent_name (scope : List String) (name d : String) : String :=
  let extent_name := name ++ ".extent." ++ d
  let extent_name_constrained := extent_name ++ ".constrained"
  if extent_name_constrained ∈ scope then extent_name_constrained else extent_name

/-- The body of the loop over the coordinates in `visit(const Call *)`: the
argument `args[i + 2]` made from the coordinate `call->args[i]`. -/
def load_coordinate (scope : List String) (name : String) (i : Nat) (arg : Expr) : Expr :=
  let d := int_to_string i
  let min := Expr.Variable (.Int 32) (min_name scope name d)
  let extent := Expr.Variable (.Int 32) (extent_name scope name d)
  if i < 2 then (Expr.Cast (.Float 32) (arg - min) + Expr.FloatImm 0.5) / extent
  else arg - min

/-- The loop over the coordinates in `visit(const Call *)`, from index `i`
on. -/
def load_coordinates (scope : List String) (name : String) : Nat → List Expr → List Expr
  | _, [] => []
  | i, arg :: rest => load_coordinate scope name i arg :: load_coordinates scope name (i + 1) rest

mutual
/-- The mutator `InjectOpenGLIntrinsics` on an expression, with the value of
its flag `inside_kernel_loop` and its scope at the node. A failed
`user_assert` or `internal_assert` is an error. Nodes without a `visit` of
their own are rebuilt from their mutated children. Modelled from the spec:
that default of the missing `IRMutator.cpp`. -/
def InjectOpenGLIntrinsics.mutate (inside_kernel_loop : Bool) (scope : List String) :
    Expr → Except String Expr
  | .IntImm v => pure (.IntImm v)
  | .FloatImm v => pure (.FloatImm v)
  | .StringImm v => pure (.StringImm v)
  | .Cast t value => do
    let value ← InjectOpenGLIntrinsics.mutate inside_kernel_loop scope value
    pure (.Cast t value)
  | .Variable t name => pure (.Variable t name)
  | .Bin op a b => do
    let a ← InjectOpenGLIntrinsics.mutate inside_kernel_loop scope a
    let b ← InjectOpenGLIntrinsics.mutate inside_kernel_loop scope b
    pure (.Bin op a b)
  | .Not a => do
    let a ← InjectOpenGLIntrinsics.mutate inside_kernel_loop scope a
    pure (.Not a)
  | .Select c t f => do
    let c ← InjectOpenGLIntrinsics.mutate inside_kernel_loop scope c
    let t ← InjectOpenGLIntrinsics.mutate inside_kernel_loop scope t
    let f ← InjectOpenGLIntrinsics.mutate inside_kernel_loop scope f
    pure (.Select c t f)
  | .Load t name index => do
    let index ← InjectOpenGLIntrinsics.mutate inside_kernel_loop scope index
    pure (.Load t name index)
  | .Call type call_name args call_type func_outputs value_index image param =>
    if !inside_kernel_loop || call_type == CallType.Intrinsic then do
      let new_args ← InjectOpenGLIntrinsics.mutate_list inside_kernel_loop scope args
      pure (.Call type call_name new_args call_type func_outputs value_index image param)
    else
      let name :=
        if call_type = CallType.Halide ∧ func_outputs > 1 then
          call_name ++ "." ++ int_to_string value_index
        else call_name
      if args.length = 3 then
        pure (.Call type Call.glsl_texture_load
          (.StringImm call_name :: .Variable .Handle (call_name ++ ".buffer") ::
            load_coordinates scope name 0 args)
          CallType.Intrinsic 0 0 image param)
      else throw "GLSL loads requires three coordinates.\n"
  | .Let name value body => do
    let value ← InjectOpenGLIntrinsics.mutate inside_kernel_loop scope value
    let body ← InjectOpenGLIntrinsics.mutate inside_kernel_loop scope body
    pure (.Let name value body)

/-- The mutator `InjectOpenGLIntrinsics` on the expressions of a vector, in
order. -/
def InjectOpenGLIntrinsics.mutate_list (inside_kernel_loop : Bool) (scope : List String) :
    List Expr → Except String (List Expr)
  | [] => pure []
  | e :: es => do
    let e ← InjectOpenGLIntrinsics.mutate inside_kernel_loop scope e
    let es ← InjectOpenGLIntrinsics.mutate_list inside_kernel_loop scope es
    pure (e :: es)
end

/-- The mutator `InjectOpenGLIntrinsics` on a statement, with the value of
its flag `inside_kernel_loop` and its scope at the node. The flag and the
scope that `visit(const For *)` and `visit(const LetStmt *)` set and restore
around the children are the ones passed down to the children. -/
def InjectOpenGLIntrinsics.mutate_stmt (dev : CodeGen_GPU_Dev) :
    Bool → List String → Stmt → Except String Stmt
  | inside_kernel_loop, scope, .LetStmt name value body =>
    let scope := if ends_with name ".constrained" then name :: scope else scope
    do
      let value ← InjectOpenGLIntrinsics.mutate inside_kernel_loop scope value
      let body ← InjectOpenGLIntrinsics.mutate_stmt dev inside_kernel_loop scope body
      pure (.LetStmt name value body)
  | inside_kernel_loop, scope, .AssertStmt condition message => do
    let condition ← InjectOpenGLIntrinsics.mutate inside_kernel_loop scope condition
    pure (.AssertStmt condition message)
  | inside_kernel_loop, scope, .For name min extent for_type body =>
    let inside_kernel_loop :=
      if for_type = ForType.Parallel ∧ dev.is_gpu_block_var name then true
      else inside_kernel_loop
    do
      let min ← InjectOpenGLIntrinsics.mutate inside_kernel_loop scope min
      let extent ← InjectOpenGLIntrinsics.mutate inside_kernel_loop scope extent
      let body ← InjectOpenGLIntrinsics.mutate_stmt dev inside_kernel_loop scope body
      pure (.For name min extent for_type body)
  | inside_kernel_loop, scope, .Store name value index => do
    let value ← InjectOpenGLIntrinsics.mutate inside_kernel_loop scope value
    let index ← InjectOpenGLIntrinsics.mutate inside_kernel_loop scope index
    pure (.Store name value index)
  | inside_kernel_loop, scope, .Provide name values args =>
    if !inside_kernel_loop then do
      let new_args ← InjectOpenGLIntrinsics.mutate_list inside_kernel_loop scope args
      let new_values ← InjectOpenGLIntrinsics.mutate_list inside_kernel_loop scope values
      pure (.Provide name new_values new_args)
    else
      match values with
      | [value] =>
        if args.length = 3 then do
          let value ← InjectOpenGLIntrinsics.mutate inside_kernel_loop scope value
          pure (.Evaluate (.Call value.type Call.glsl_texture_store
            (.StringImm name :: .Variable .Handle (name ++ ".buffer") :: (args ++ [value]))
            CallType.Intrinsic 0 0 none none))
        else throw "GLSL stores requires three coordinates.\n"
      | _ => throw "GLSL currently only supports single-valued stores.\n"
  | inside_kernel_loop, scope, .Allocate name type size body => do
    let size ← InjectOpenGLIntrinsics.mutate inside_kernel_loop scope size
    let body ← InjectOpenGLIntrinsics.mutate_stmt dev inside_kernel_loop scope body
    pure (.Allocate name type size body)
  | _, _, .Free name => pure (.Free name)
  | inside_kernel_loop, scope, .Block first rest => do
    let first ← InjectOpenGLIntrinsics.mutate_stmt dev inside_kernel_loop scope first
    let rest ← InjectOpenGLIntrinsics.mutate_stmt dev inside_kernel_loop scope rest
    pure (.Block first rest)
  | inside_kernel_loop, scope, .IfThenElse condition then_case else_case => do
    let condition ← InjectOpenGLIntrinsics.mutate inside_kernel_loop scope condition
    let then_case ← InjectOpenGLIntrinsics.mutate_stmt dev inside_kernel_loop scope then_case
    let else_case ← InjectOpenGLIntrinsics.mutate_stmt dev inside_kernel_loop scope else_case
    pure (.IfThenElse condition then_case else_case)
  | inside_kernel_loop, scope, .Evaluate value => do
    let value ← InjectOpenGLIntrinsics.mutate inside_kernel_loop scope value
    pure (.Evaluate value)

mutual
/-- Modelled from the spec: `substitute` of the missing `Substitute.h` on an
expression: every reference to the variable `name` is replaced by
`replacement`. -/
def substitute (name : String) (replacement : Expr) : Expr → Expr
  | .IntImm v => .IntImm v
  | .FloatImm v => .FloatImm v
  | .StringImm v => .StringImm v
  | .Cast t value => .Cast t (substitute name replacement value)
  | .Variable t n => if n = name then replacement else .Variable t n
  | .Bin op a b => .Bin op (substitute name replacement a) (substitute name replacement b)
  | .Not a => .Not (substitute name replacement a)
  | .Select c t f =>
    .Select (substitute name replacement c) (substitute name replacement t)
      (substitute name replacement f)
  | .Load t n index => .Load t n (substitute name replacement index)
  | .Call type n args call_type func_outputs value_index image param =>
    .Call type n (substitute_list name replacement args) call_type func_outputs value_index
      image param
  | .Let n value body => .Let n (substitute name replacement value)
      (substitute name replacement body)

/-- Modelled from the spec: `substitute` on the expressions of a vector. -/
def substitute_list (name : String) (replacement : Expr) : List Expr → List Expr
  | [] => []
  | e :: es => substitute name replacement e :: substitute_list name replacement es
end

/-- Modelled from the spec: `substitute` of the missing `Substitute.h` on a
statement. -/
def substitute_stmt (name : String) (replacement : Expr) : Stmt → Stmt
  | .LetStmt n value body =>
    .LetStmt n (substitute name replacement value) (substitute_stmt name replacement body)
  | .AssertStmt condition message => .AssertStmt (substitute name replacement condition) message
  | .For n min extent for_type body =>
    .For n (substitute name replacement min) (substitute name replacement extent) for_type
      (substitute_stmt name replacement body)
  | .Store n value index =>
    .Store n (substitute name replacement value) (substitute name replacement index)
  | .Provide n values args =>
    .Provide n (substitute_list name replacement values) (substitute_list name replacement args)
  | .Allocate n type size body =>
    .Allocate n type (substitute name replacement size) (substitute_stmt name replacement body)
  | .Free n => .Free n
  | .Block first rest =>
    .Block (substitute_stmt name replacement first) (substitute_stmt name replacement rest)
  | .IfThenElse condition then_case else_case =>
    .IfThenElse (substitute name replacement condition)
      (substitute_stmt name replacement then_case) (substitute_stmt name replacement else_case)
  | .Evaluate value => .Evaluate (substitute name replacement value)

/-- The mutator `ZeroGPULoopMins` on a statement. It has a `visit` for loops
only, so the expressions, which hold no statement, come back as they are and
the other statements are rebuilt from their mutated children (modelled from
the spec: that default of the missing `IRMutator.cpp`). The assertion
`internal_assert(op)` holds, for the statement it tests is a loop. -/
def ZeroGPULoopMins.mutate (dev : CodeGen_GPU_Dev) : Stmt → Stmt
  | .LetStmt name value body => .LetStmt name value (ZeroGPULoopMins.mutate dev body)
  | .AssertStmt condition message => .AssertStmt condition message
  | .For name min extent for_type body =>
    let body := ZeroGPULoopMins.mutate dev body
    if dev.is_gpu_var name ∧ ¬ is_zero min then
      let adjusted := Expr.Variable (.Int 32) name + min
      let body := substitute_stmt name adjusted body
      .For name (.IntImm 0) extent for_type body
    else .For name min extent for_type body
  | .Store name value index => .Store name value index
  | .Provide name values args => .Provide name values args
  | .Allocate name type size body => .Allocate name type size (ZeroGPULoopMins.mutate dev body)
  | .Free name => .Free name
  | .Block first rest => .Block (ZeroGPULoopMins.mutate dev first) (ZeroGPULoopMins.mutate dev rest)
  | .IfThenElse condition then_case else_case =>
    .IfThenElse condition (ZeroGPULoopMins.mutate dev then_case)
      (ZeroGPULoopMins.mutate dev else_case)
  | .Evaluate value => .Evaluate value

/-- The function `inject_opengl_intrinsics`. -/
def inject_opengl_intrinsics (dev : CodeGen_GPU_Dev) (s : Stmt) : Except String Stmt :=
  let s := ZeroGPULoopMins.mutate dev s
  InjectOpenGLIntrinsics.mutate_stmt dev false [] s

/-! ## Coordinates in exact arithmetic -/

/-- The varying `pixcoord` that the vertex shader `vertex_shader_src`
computes at a vertex from the attribute `position` and the uniforms
`output_extent` and `output_min`, one component, over the rationals:
`texcoord = 0.5 * position + 0.5` and
`pixcoord = floor(texcoord * output_extent) + output_min`. The shader runs
at the vertices of the quad, whose positions are those of `square_vertices`. -/
def pixcoord (position : ℚ) (output_extent output_min : Int) : ℚ :=
  let texcoord : ℚ := 0.5 * position + 0.5
  (⌊texcoord * output_extent⌋ : Int) + output_min

/-- The position, in normalized device coordinates, of the centre of pixel
`i` of a viewport `size` pixels wide. -/
def pixel_centre (i size : Int) : ℚ := 2 * ((i : ℚ) + 1 / 2) / size - 1

/-- Name tests that take `bx` for a block index and `bx` and `tx` for GPU
indices. -/
def sampleDev : CodeGen_GPU_Dev :=
  { is_gpu_block_var := fun n => n == "bx"
    is_gpu_var := fun n => n == "bx" || n == "tx" }

/-- The read `f(x, y, c)` of the second value of a function `f` with two
outputs. -/
def tupleCall : Expr :=
  .Call (.Float 32) "f"
    [.Variable (.Int 32) "x", .Variable (.Int 32) "y", .Variable (.Int 32) "c"]
    CallType.Halide 2 1 none none

/-- The call that the claimed load rewrite makes of `f(x, y, c)` when no
`.constrained` name is in scope: its variables are named after `f`. -/
def plainLoad : Expr :=
  .Call (.Float 32) Call.glsl_texture_load
    [.StringImm "f", .Variable .Handle "f.buffer",
      (Expr.Cast (.Float 32) (Expr.Variable (.Int 32) "x" - Expr.Variable (.Int 32) "f.min.0") +
        Expr.FloatImm 0.5) / Expr.Variable (.Int 32) "f.extent.0",
      (Expr.Cast (.Float 32) (Expr.Variable (.Int 32) "y" - Expr.Variable (.Int 32) "f.min.1") +
        Expr.FloatImm 0.5) / Expr.Variable (.Int 32) "f.extent.1",
      Expr.Variable (.Int 32) "c" - Expr.Variable (.Int 32) "f.min.2"]
    CallType.Intrinsic 0 0 none none

/-- The name after which the load rewrite names the min and extent
variables of a call: the name of the call, followed by `.` and the value
index when the call is to a Halide function with more than one output. -/
def load_name (call_name : String) (call_type : CallType) (func_outputs : Nat)
    (value_index : Int) : String :=
  if call_type = CallType.Halide ∧ func_outputs > 1 then
    call_name ++ "." ++ int_to_string value_index
  else call_name

/-- The statement holds a kernel loop: a parallel loop over a GPU block
variable. -/
def Stmt.has_kernel_loop (dev : CodeGen_GPU_Dev) : Stmt → Bool
  | .LetStmt _ _ body => body.has_kernel_loop dev
  | .AssertStmt _ _ => false
  | .For name _ _ for_type body =>
    (for_type == ForType.Parallel && dev.is_gpu_block_var name) || body.has_kernel_loop dev
  | .Store _ _ _ => false
  | .Provide _ _ _ => false
  | .Allocate _ _ _ body => body.has_kernel_loop dev
  | .Free _ => false
  | .Block first rest => first.has_kernel_loop dev || rest.has_kernel_loop dev
  | .IfThenElse _ then_case else_case =>
    then_case.has_kernel_loop dev || else_case.has_kernel_loop dev
  | .Evaluate _ => false

/-- Two statements are the same outside kernel loops: they differ at most
in the min, the extent and the body of parallel loops over a GPU block
variable. -/
inductive OutsideEq (dev : CodeGen_GPU_Dev) : Stmt → Stmt → Prop where
  | same (s : Stmt) : OutsideEq dev s s
  | kernel_loop (name : String) (min extent min1 extent1 : Expr) (body body1 : Stmt) :
    dev.is_gpu_block_var name = true →
    OutsideEq dev (.For name min extent ForType.Parallel body)
      (.For name min1 extent1 ForType.Parallel body1)
  | loop (name : String) (min extent : Expr) (for_type : ForType) (body body1 : Stmt) :
    OutsideEq dev body body1 →
    OutsideEq dev (.For name min extent for_type body) (.For name min extent for_type body1)
  | let_stmt (name : String) (value : Expr) (body body1 : Stmt) :
    OutsideEq dev body body1 →
    OutsideEq dev (.LetStmt name value body) (.LetStmt name value body1)
  | allocate (name : String) (type : IRType) (size : Expr) (body body1 : Stmt) :
    OutsideEq dev body body1 →
    OutsideEq dev (.Allocate name type size body) (.Allocate name type size body1)
  | block (first first1 rest rest1 : Stmt) :
    OutsideEq dev first first1 → OutsideEq dev rest rest1 →
    OutsideEq dev (.Block first rest) (.Block first1 rest1)
  | if_then_else (condition : Expr) (then_case then_case1 else_case else_case1 : Stmt) :
    OutsideEq dev then_case then_case1 → OutsideEq dev else_case else_case1 →
    OutsideEq dev (.IfThenElse condition then_case else_case)
      (.IfThenElse condition then_case1 else_case1)

/-- A kernel loop over `bx` that stores `v` to `g(x, y, c)`. -/
def kernelLoop : Stmt :=
  .For "bx" (.IntImm 0) (.IntImm 8) ForType.Parallel
    (.Provide "g" [Expr.Variable (.Float 32) "v"]
      [Expr.Variable (.Int 32) "x", Expr.Variable (.Int 32) "y", Expr.Variable (.Int 32) "c"])

/-- The loops of a statement, outermost first and in program order, each as
its name, min, extent and loop type. -/
def Stmt.loops : Stmt → List (String × Expr × Expr × ForType)
  | .LetStmt _ _ body => body.loops
  | .AssertStmt _ _ => []
  | .For name min extent for_type body => (name, min, extent, for_type) :: body.loops
  | .Store _ _ _ => []
  | .Provide _ _ _ => []
  | .Allocate _ _ _ body => body.loops
  | .Free _ => []
  | .Block first rest => first.loops ++ rest.loops
  | .IfThenElse _ then_case else_case => then_case.loops ++ else_case.loops
  | .Evaluate _ => []

/-- A loop over the block index `bx` from 1 that holds a loop over the
thread index `tx` from 0 whose extent is `bx`. -/
def nestedLoops : Stmt :=
  .For "bx" (.IntImm 1) (.IntImm 10) ForType.Parallel
    (.For "tx" (.IntImm 0) (.Variable (.Int 32) "bx") ForType.Parallel
      (.Evaluate (.Variable (.Int 32) "tx")))


/-! ## Reads that are left in a kernel loop -/

mutual
/-- The expression holds a call that is not an intrinsic. -/
def Expr.has_plain_call : Expr → Bool
  | .IntImm _ => false
  | .FloatImm _ => false
  | .StringImm _ => false
  | .Cast _ value => value.has_plain_call
  | .Variable _ _ => false
  | .Bin _ a b => a.has_plain_call || b.has_plain_call
  | .Not a => a.has_plain_call
  | .Select c t f => c.has_plain_call || t.has_plain_call || f.has_plain_call
  | .Load _ _ index => index.has_plain_call
  | .Call _ _ args call_type _ _ _ _ =>
    decide (call_type ≠ CallType.Intrinsic) || Expr.list_has_plain_call args
  | .Let _ value body => value.has_plain_call || body.has_plain_call

/-- One of the expressions holds a call that is not an intrinsic. -/
def Expr.list_has_plain_call : List Expr → Bool
  | [] => false
  | e :: es => e.has_plain_call || Expr.list_has_plain_call es
end

/-- The statement holds a call that is not an intrinsic inside a kernel
loop; `inside` tells whether the statement itself lies in one. The min and
the extent of a loop lie where the loop lies, its body lies in a kernel loop
also when the loop is one. -/
def Stmt.plain_call_inside (dev : CodeGen_GPU_Dev) : Bool → Stmt → Bool
  | inside, .LetStmt _ value body =>
    (inside && value.has_plain_call) || body.plain_call_inside dev inside
  | inside, .AssertStmt condition _ => inside && condition.has_plain_call
  | inside, .For name min extent for_type body =>
    (inside && (min.has_plain_call || extent.has_plain_call)) ||
      body.plain_call_inside dev
        (inside || (decide (for_type = ForType.Parallel) && dev.is_gpu_block_var name))
  | inside, .Store _ value index => inside && (value.has_plain_call || index.has_plain_call)
  | inside, .Provide _ values args =>
    inside && (Expr.list_has_plain_call values || Expr.list_has_plain_call args)
  | inside, .Allocate _ _ size body =>
    (inside && size.has_plain_call) || body.plain_call_inside dev inside
  | _, .Free _ => false
  | inside, .Block first rest =>
    first.plain_call_inside dev inside || rest.plain_call_inside dev inside
  | inside, .IfThenElse condition then_case else_case =>
    (inside && condition.has_plain_call) || then_case.plain_call_inside dev inside ||
      else_case.plain_call_inside dev inside
  | inside, .Evaluate value => inside && value.has_plain_call

/-- The read `h(x, y, c)` of an image. -/
def imageRead : Expr :=
  .Call (.Float 32) "h"
    [.Variable (.Int 32) "x", .Variable (.Int 32) "y", .Variable (.Int 32) "c"]
    CallType.Image 0 0 (some "h") none

/-- A kernel loop over `bx` that stores `f(h(x, y, c), y, c)` to
`g(x, y, c)`: a read in the first coordinate of another read. -/
def nestedReadLoop : Stmt :=
  .For "bx" (.IntImm 0) (.IntImm 8) ForType.Parallel
    (.Provide "g"
      [.Call (.Float 32) "f" [imageRead, .Variable (.Int 32) "y", .Variable (.Int 32) "c"]
        CallType.Halide 1 0 none none]
      [.Variable (.Int 32) "x", .Variable (.Int 32) "y", .Variable (.Int 32) "c"])

/-- A kernel loop over `bx` that stores `v` to `g(h(x, y, c), y, c)`: a read
in the first coordinate of a store. -/
def storeCoordinateLoop : Stmt :=
  .For "bx" (.IntImm 0) (.IntImm 8) ForType.Parallel
    (.Provide "g" [.Variable (.Float 32) "v"]
      [imageRead, .Variable (.Int 32) "y", .Variable (.Int 32) "c"])

mutual
/-- No read in the expression has a read in its coordinates: the arguments
of every call that is not an intrinsic hold no call that is not an
intrinsic. -/
def Expr.coordinates_plain : Expr → Bool
  | .IntImm _ => true
  | .FloatImm _ => true
  | .StringImm _ => true
  | .Cast _ value => value.coordinates_plain
  | .Variable _ _ => true
  | .Bin _ a b => a.coordinates_plain && b.coordinates_plain
  | .Not a => a.coordinates_plain
  | .Select c t f => c.coordinates_plain && t.coordinates_plain && f.coordinates_plain
  | .Load _ _ index => index.coordinates_plain
  | .Call _ _ args call_type _ _ _ _ =>
    if call_type = CallType.Intrinsic then Expr.list_coordinates_plain args
    else !Expr.list_has_plain_call args
  | .Let _ value body => value.coordinates_plain && body.coordinates_plain

/-- No read in the expressions has a read in its coordinates. -/
def Expr.list_coordinates_plain : List Expr → Bool
  | [] => true
  | e :: es => e.coordinates_plain && Expr.list_coordinates_plain es
end

/-- Inside the kernel loops of the statement no read has a read in its
coordinates and no store has one in its coordinates; `inside` tells whether
the statement itself lies in a kernel loop. -/
def Stmt.coordinates_plain (dev : CodeGen_GPU_Dev) : Bool → Stmt → Bool
  | inside, .LetStmt _ value body =>
    (!inside || value.coordinates_plain) && body.coordinates_plain dev inside
  | inside, .AssertStmt condition _ => !inside || condition.coordinates_plain
  | inside, .For name min extent for_type body =>
    (!inside || (min.coordinates_plain && extent.coordinates_plain)) &&
      body.coordinates_plain dev
        (inside || (decide (for_type = ForType.Parallel) && dev.is_gpu_block_var name))
  | inside, .Store _ value index =>
    !inside || (value.coordinates_plain && index.coordinates_plain)
  | inside, .Provide _ values args =>
    !inside || (Expr.list_coordinates_plain values && !Expr.list_has_plain_call args)
  | inside, .Allocate _ _ size body =>
    (!inside || size.coordinates_plain) && body.coordinates_plain dev inside
  | _, .Free _ => true
  | inside, .Block first rest =>
    first.coordinates_plain dev inside && rest.coordinates_plain dev inside
  | inside, .IfThenElse condition then_case else_case =>
    (!inside || condition.coordinates_plain) && then_case.coordinates_plain dev inside &&
      else_case.coordinates_plain dev inside
  | inside, .Evaluate value => !inside || value.coordinates_plain


/-! ## The varying that a fragment receives -/

/-- The value that the fragment at `position`, in normalized device
coordinates along one axis, receives for a varying: the vertex shader runs
at the vertices of the quad only, which lie at the positions -1 and 1 along
each axis (`square_vertices`), and the driver interpolates linearly between
the values `at_low` and `at_high` that it computed there. -/
def interpolate (at_low at_high position : ℚ) : ℚ :=
  at_low + (position + 1) / 2 * (at_high - at_low)

/-- The varying `pixcoord` that the fragment at `position` receives, one
component: the values of `pixcoord` at the vertices of the quad,
interpolated. -/
def fragment_pixcoord (position : ℚ) (output_extent output_min : Int) : ℚ :=
  interpolate (pixcoord (-1) output_extent output_min) (pixcoord 1 output_extent output_min)
    position


/-! ## The textures that the runtime allocated -/

/-- The names of the textures that the runtime has allocated and still holds
after the driver calls `calls` (newest first) that follow the history
`base`: `glGenTextures` is the only way the runtime allocates a texture, the
name is what the driver returned to that call, and a name passed to
`glDeleteTextures` is no longer held. -/
def allocated_textures (h : Host) (base : List GLCall) : List GLCall → List Nat
  | [] => []
  | c :: calls =>
    match c.fn, c.args with
    | .GenTextures, _ =>
      (h.retU (c :: (calls ++ base)) % 2 ^ 32) :: allocated_textures h base calls
    | .DeleteTextures, [.n 1, .arr (some [tex])] =>
      (allocated_textures h base calls).filter fun name => decide ((name : Int) ≠ tex)
    | _, _ => allocated_textures h base calls


/-! ## The place of a read in a statement -/

/-- An expression with one place left open: the path from the root of an
expression to the place, through the children that are not a coordinate of
a call that is not an intrinsic. -/
inductive ExprCtx where
  | hole
  | Cast (type : IRType) (value : ExprCtx)
  | BinA (op : BinOp) (a : ExprCtx) (b : Expr)
  | BinB (op : BinOp) (a : Expr) (b : ExprCtx)
  | Not (a : ExprCtx)
  | SelectCondition (condition : ExprCtx) (true_value false_value : Expr)
  | SelectTrue (condition : Expr) (true_value : ExprCtx) (false_value : Expr)
  | SelectFalse (condition true_value : Expr) (false_value : ExprCtx)
  | Load (type : IRType) (name : String) (index : ExprCtx)
  | IntrinsicArg (type : IRType) (name : String) (before : List Expr) (arg : ExprCtx)
      (after : List Expr) (func_outputs : Nat) (value_index : Int) (image param : Option String)
  | LetValue (name : String) (value : ExprCtx) (body : Expr)
  | LetBody (name : String) (value : Expr) (body : ExprCtx)

/-- The expression with `e` at the open place. -/
def ExprCtx.fill : ExprCtx → Expr → Expr
  | .hole, e => e
  | .Cast type value, e => .Cast type (value.fill e)
  | .BinA op a b, e => .Bin op (a.fill e) b
  | .BinB op a b, e => .Bin op a (b.fill e)
  | .Not a, e => .Not (a.fill e)
  | .SelectCondition c t f, e => .Select (c.fill e) t f
  | .SelectTrue c t f, e => .Select c (t.fill e) f
  | .SelectFalse c t f, e => .Select c t (f.fill e)
  | .Load type name index, e => .Load type name (index.fill e)
  | .IntrinsicArg type name before arg after func_outputs value_index image param, e =>
    .Call type name (before ++ arg.fill e :: after) CallType.Intrinsic func_outputs value_index
      image param
  | .LetValue name value body, e => .Let name (value.fill e) body
  | .LetBody name value body, e => .Let name value (body.fill e)

/-- A statement with one place for an expression left open: the path from
the root of a statement to the place, through the children that are not a
coordinate of a store nor a coordinate of a call that is not an intrinsic.
The value of a store is the single value that it writes. -/
inductive StmtCtx where
  | LetStmtValue (name : String) (value : ExprCtx) (body : Stmt)
  | LetStmtBody (name : String) (value : Expr) (body : StmtCtx)
  | AssertStmt (condition : ExprCtx) (message : String)
  | ForMin (name : String) (min : ExprCtx) (extent : Expr) (for_type : ForType) (body : Stmt)
  | ForExtent (name : String) (min : Expr) (extent : ExprCtx) (for_type : ForType) (body : Stmt)
  | ForBody (name : String) (min extent : Expr) (for_type : ForType) (body : StmtCtx)
  | StoreValue (name : String) (value : ExprCtx) (index : Expr)
  | StoreIndex (name : String) (value : Expr) (index : ExprCtx)
  | ProvideValue (name : String) (value : ExprCtx) (args : List Expr)
  | AllocateSize (name : String) (type : IRType) (size : ExprCtx) (body : Stmt)
  | AllocateBody (name : String) (type : IRType) (size : Expr) (body : StmtCtx)
  | BlockFirst (first : StmtCtx) (rest : Stmt)
  | BlockRest (first : Stmt) (rest : StmtCtx)
  | IfCondition (condition : ExprCtx) (then_case else_case : Stmt)
  | IfThen (condition : Expr) (then_case : StmtCtx) (else_case : Stmt)
  | IfElse (condition : Expr) (then_case : Stmt) (else_case : StmtCtx)
  | Evaluate (value : ExprCtx)

/-- The statement with `e` at the open place. -/
def StmtCtx.fill : StmtCtx → Expr → Stmt
  | .LetStmtValue name value body, e => .LetStmt name (value.fill e) body
  | .LetStmtBody name value body, e => .LetStmt name value (body.fill e)
  | .AssertStmt condition message, e => .AssertStmt (condition.fill e) message
  | .ForMin name min extent for_type body, e => .For name (min.fill e) extent for_type body
  | .ForExtent name min extent for_type body, e => .For name min (extent.fill e) for_type body
  | .ForBody name min extent for_type body, e => .For name min extent for_type (body.fill e)
  | .StoreValue name value index, e => .Store name (value.fill e) index
  | .StoreIndex name value index, e => .Store name value (index.fill e)
  | .ProvideValue name value args, e => .Provide name [value.fill e] args
  | .AllocateSize name type size body, e => .Allocate name type (size.fill e) body
  | .AllocateBody name type size body, e => .Allocate name type size (body.fill e)
  | .BlockFirst first rest, e => .Block (first.fill e) rest
  | .BlockRest first rest, e => .Block first (rest.fill e)
  | .IfCondition condition then_case else_case, e =>
    .IfThenElse (condition.fill e) then_case else_case
  | .IfThen condition then_case else_case, e => .IfThenElse condition (then_case.fill e) else_case
  | .IfElse condition then_case else_case, e => .IfThenElse condition then_case (else_case.fill e)
  | .Evaluate value, e => .Evaluate (value.fill e)

/-- The names of the `LetStmt` nodes that enclose the open place, innermost
first. A `LetStmt` encloses its value and its body. -/
def StmtCtx.lets : StmtCtx → List String
  | .LetStmtValue name _ _ => [name]
  | .LetStmtBody name _ body => body.lets ++ [name]
  | .ForBody _ _ _ _ body => body.lets
  | .AllocateBody _ _ _ body => body.lets
  | .BlockFirst first _ => first.lets
  | .BlockRest _ rest => rest.lets
  | .IfThen _ then_case _ => then_case.lets
  | .IfElse _ _ else_case => else_case.lets
  | _ => []

/-- The names and kinds of the loops whose body encloses the open place,
innermost first. -/
def StmtCtx.loops : StmtCtx → List (String × ForType)
  | .LetStmtBody _ _ body => body.loops
  | .ForBody name _ _ for_type body => body.loops ++ [(name, for_type)]
  | .AllocateBody _ _ _ body => body.loops
  | .BlockFirst first _ => first.loops
  | .BlockRest _ rest => rest.loops
  | .IfThen _ then_case _ => then_case.loops
  | .IfElse _ _ else_case => else_case.loops
  | _ => []

/-- The open place lies inside a GPU block loop: in the body of a parallel
loop over a GPU block variable. -/
def StmtCtx.in_kernel_loop (dev : CodeGen_GPU_Dev) (C : StmtCtx) : Bool :=
  C.loops.any fun l => decide (l.2 = ForType.Parallel) && dev.is_gpu_block_var l.1


/-- The place of the stored value in a kernel loop over `bx` that stores to
`g(x, y, c)`, under a `LetStmt` of `f.min.0.constrained` and one of `t`. -/
def storedValuePlace : StmtCtx :=
  .LetStmtBody "f.min.0.constrained" (.IntImm 0)
    (.LetStmtBody "t" (.IntImm 1)
      (.ForBody "bx" (.IntImm 0) (.IntImm 8) ForType.Parallel
        (.ProvideValue "g" .hole
          [.Variable (.Int 32) "x", .Variable (.Int 32) "y", .Variable (.Int 32) "c"])))

/-! ## Theorems -/

/-! ### The monad of the embedding -/

theorem GLM.pure_apply {α : Type} (a : α) (w : World) : (pure a : GLM α) w = Res.ok a w := rfl

theorem GLM.bind_apply {α β : Type} (m : GLM α) (f : α → GLM β) (w : World) :
    (m >>= f) w = match m w with
      | Res.ok a w1 => f a w1
      | Res.fail e w1 => Res.fail e w1 := rfl

theorem GLM.ite_apply {α : Type} (c : Prop) [Decidable c] (a b : GLM α) (w : World) :
    (if c then a else b) w = if c then a w else b w := by
  split <;> rfl

theorem mem_USED_GL_FUNCTIONS (f : GLFunc) : f ∈ USED_GL_FUNCTIONS := by
  cases f <;> decide

theorem Ready.proc {w : World} (hw : Ready w) (f : GLFunc) : f ∈ w.ST.procs :=
  hw.2 f (mem_USED_GL_FUNCTIONS f)

/-! ### The texture registry -/

theorem find_texture_id {ts : List HalideOpenGLTexture} {tex : Nat} {r : HalideOpenGLTexture}
    (h : halide_opengl_find_texture ts tex = some r) : r.id = tex := by
  induction ts with
  | nil => simp [halide_opengl_find_texture] at h
  | cons t ts ih =>
    simp only [halide_opengl_find_texture] at h
    by_cases ht : t.id = tex
    · simp only [ht, if_true, Option.some.injEq] at h
      exact h ▸ ht
    · simp only [ht, if_false] at h
      exact ih h

theorem unlink_texture_eq {ts : List HalideOpenGLTexture} {tex : Nat} {r : HalideOpenGLTexture}
    (h : halide_opengl_find_texture ts tex = some r) :
    unlink_texture ts tex = (some r, ts.erase r) := by
  induction ts with
  | nil => simp [halide_opengl_find_texture] at h
  | cons t ts ih =>
    simp only [halide_opengl_find_texture] at h
    by_cases ht : t.id = tex
    · simp only [ht, if_true, Option.some.injEq] at h
      subst h
      simp [unlink_texture, ht]
    · simp only [ht, if_false] at h
      have hne : t ≠ r := by
        rintro rfl
        exact ht (find_texture_id h)
      simp [unlink_texture, ht, ih h, List.erase_cons, hne]

theorem get_texture_id_ne_zero {buf : buffer_t} (h : get_texture_id buf ≠ 0) : buf.dev ≠ 0 := by
  intro h0
  simp [get_texture_id, h0] at h


theorem dev_free_found {w : World} {buf : buffer_t} {r : HalideOpenGLTexture}
    (hw : Ready w) (htex : get_texture_id buf ≠ 0)
    (hrec : halide_opengl_find_texture w.ST.textures (get_texture_id buf) = some r) :
    halide_opengl_dev_free buf w =
      if r.halide_allocated then
        Res.ok { buf with dev := 0 }
          { w with ST := { w.ST with textures := w.ST.textures.erase r }
                   gl := ⟨GLFunc.DeleteTextures,
                     [.n 1, .arr (some [(get_texture_id buf : Int)])]⟩ :: w.gl }
      else
        Res.ok buf { w with ST := { w.ST with textures := w.ST.textures.erase r } } := by
  by_cases hr : r.halide_allocated = true
  · simp [halide_opengl_dev_free, ASSERT_INITIALIZED, GLM.bind_apply, getST, halide_assert,
      hw.1, htex, GLM.ite_apply, modifyST, unlink_texture_eq hrec, hr, glCall, hw.proc,
      GLM.pure_apply]
  · simp [halide_opengl_dev_free, ASSERT_INITIALIZED, GLM.bind_apply, getST, halide_assert,
      hw.1, htex, GLM.ite_apply, modifyST, unlink_texture_eq hrec, hr, GLM.pure_apply]

theorem dev_malloc_host_texture (h : Host) {w : World} {buf : buffer_t}
    (hinit : w.ST.initialized = true) (htex : get_texture_id buf ≠ 0) :
    halide_opengl_dev_malloc h buf w =
      Res.ok buf { w with ST := { w.ST with textures :=
        { id := get_texture_id buf
          min := (buf.min.1, buf.min.2.1, buf.min.2.2.1)
          extent := (buf.extent.1, buf.extent.2.1, buf.extent.2.2.1)
          format := 0
          halide_allocated := false } :: w.ST.textures } } := by
  simp [halide_opengl_dev_malloc, halide_opengl_init, GLM.bind_apply, getST, hinit, htex,
    GLM.ite_apply, GLM.pure_apply, modifyST]

/-- C4. In an initialized runtime, `dev_free` of a buffer whose texture
handle is non-zero and has a record `r` in the texture registry (the first
one with that handle) returns, removes `r` from the registry, calls
`glDeleteTextures` on the handle exactly when `r.halide_allocated` is set
(and makes no other driver call), and leaves the device slot zero exactly
when that flag is set, untouched otherwise. In particular `dev_malloc` of a
buffer whose handle the host supplied, followed by `dev_free`, makes no
driver call at all, so the texture is not deleted, and returns the buffer
with its non-zero device slot. -/
theorem dev_free_removes_record_deletes_iff_allocated (h : Host) (w : World) (buf : buffer_t)
    (hw : Ready w) (htex : get_texture_id buf ≠ 0) :
    (∀ r, halide_opengl_find_texture w.ST.textures (get_texture_id buf) = some r →
      ∃ buf1 w1, halide_opengl_dev_free buf w = Res.ok buf1 w1 ∧
        w1.ST.textures = w.ST.textures.erase r ∧
        w1.gl = (if r.halide_allocated
          then ⟨GLFunc.DeleteTextures, [.n 1, .arr (some [(get_texture_id buf : Int)])]⟩ :: w.gl
          else w.gl) ∧
        (buf1.dev = 0 ↔ r.halide_allocated = true) ∧
        (r.halide_allocated = false → buf1 = buf)) ∧
    (∃ w1 w2, halide_opengl_dev_malloc h buf w = Res.ok buf w1 ∧
        halide_opengl_dev_free buf w1 = Res.ok buf w2 ∧
        w2.gl = w.gl ∧ w2.ST.textures = w.ST.textures ∧ buf.dev ≠ 0) := by
  have hdev := get_texture_id_ne_zero htex
  constructor
  · intro r hrec
    rw [dev_free_found hw htex hrec]
    by_cases hr : r.halide_allocated = true
    · simp only [hr, if_true]
      exact ⟨_, _, rfl, rfl, rfl, by simp, by simp⟩
    · simp only [hr, if_false]
      exact ⟨_, _, rfl, rfl, rfl, by simp [hdev, hr], fun _ => rfl⟩
  · have hm := dev_malloc_host_texture h hw.1 htex
    have hf := @dev_free_found
      ({ w with ST := { w.ST with textures :=
        ⟨get_texture_id buf, (buf.min.1, buf.min.2.1, buf.min.2.2.1),
          (buf.extent.1, buf.extent.2.1, buf.extent.2.2.1), 0, false⟩ :: w.ST.textures } })
      buf
      ⟨get_texture_id buf, (buf.min.1, buf.min.2.1, buf.min.2.2.1),
        (buf.extent.1, buf.extent.2.1, buf.extent.2.2.1), 0, false⟩
      ⟨hw.1, hw.2⟩ htex (by simp [halide_opengl_find_texture])
    simp only [Bool.false_eq_true, if_false, List.erase_cons_head] at hf
    exact ⟨_, _, hm, hf, rfl, rfl, hdev⟩

theorem dev_free_removes_record_deletes_iff_allocated_witness :
    Ready hostTextureWorld ∧ get_texture_id hostTextureBuffer ≠ 0 ∧
    (∃ w1 w2, halide_opengl_dev_malloc sampleHost hostTextureBuffer hostTextureWorld =
          Res.ok hostTextureBuffer w1 ∧
        halide_opengl_dev_free hostTextureBuffer w1 = Res.ok hostTextureBuffer w2 ∧
        w2.gl = hostTextureWorld.gl ∧ w2.ST.textures = hostTextureWorld.ST.textures ∧
        hostTextureBuffer.dev ≠ 0) :=
  ⟨by decide, by decide,
    (dev_free_removes_record_deletes_iff_allocated sampleHost hostTextureWorld
      hostTextureBuffer (by decide) (by decide)).2⟩


theorem dev_malloc_alloc (h : Host) {w : World} {buf : buffer_t} {format type : Int}
    (hw : Ready w) (htex : get_texture_id buf = 0)
    (h2 : buf.extent.2.2.1 ≤ 4) (h3 : buf.extent.2.2.2 ≤ 1)
    (hf : (if buf.extent.2.2.1 ≤ 1 then some GL_LUMINANCE
         else if buf.extent.2.2.1 = 3 then some GL_RGB
         else if buf.extent.2.2.1 = 4 then some GL_RGBA else none) = some format)
    (ht : (if buf.elem_size = 1 then some GL_UNSIGNED_BYTE
         else if buf.elem_size = 2 then some GL_UNSIGNED_SHORT else none) = some type) :
    halide_opengl_dev_malloc h buf w =
      Res.ok { buf with dev := h.retU (⟨.GenTextures, [.n 1]⟩ :: w.gl) % 2 ^ 32 }
        { w with
          ST := { w.ST with textures :=
            { id := h.retU (⟨.GenTextures, [.n 1]⟩ :: w.gl) % 2 ^ 32
              min := (buf.min.1, buf.min.2.1, buf.min.2.2.1)
              extent := (buf.extent.1, buf.extent.2.1, buf.extent.2.2.1)
              format := format
              halide_allocated := true } :: w.ST.textures }
          gl := [⟨.BindTexture, [.n GL_TEXTURE_2D, .n 0]⟩,
            ⟨.TexImage2D, [.n GL_TEXTURE_2D, .n 0, .n format,
              .n (if buf.extent.1 < 1 then 1 else buf.extent.1),
              .n (if buf.extent.2.1 < 1 then 1 else buf.extent.2.1), .n 0,
              .n format, .n type, .arr none]⟩,
            ⟨.TexParameteri, [.n GL_TEXTURE_2D, .n GL_TEXTURE_WRAP_T, .n GL_CLAMP_TO_EDGE]⟩,
            ⟨.TexParameteri, [.n GL_TEXTURE_2D, .n GL_TEXTURE_WRAP_S, .n GL_CLAMP_TO_EDGE]⟩,
            ⟨.TexParameteri, [.n GL_TEXTURE_2D, .n GL_TEXTURE_MAG_FILTER, .n GL_NEAREST]⟩,
            ⟨.TexParameteri, [.n GL_TEXTURE_2D, .n GL_TEXTURE_MIN_FILTER, .n GL_NEAREST]⟩,
            ⟨.BindTexture, [.n GL_TEXTURE_2D,
              .n ((h.retU (⟨.GenTextures, [.n 1]⟩ :: w.gl) % 2 ^ 32 : Nat) : Int)]⟩,
            ⟨.GenTextures, [.n 1]⟩] ++ w.gl } := by
  have hfmt : (if buf.extent.2.2.1 ≤ 1 then pure GL_LUMINANCE
         else if buf.extent.2.2.1 = 3 then pure GL_RGB
         else if buf.extent.2.2.1 = 4 then pure GL_RGBA
         else do
           halide_assert false "Only 1, 3, or 4 color channels are supported"
           pure 0 : GLM Int) = pure format := by
    split_ifs at hf with c1 c2 c3 <;> simp_all
  have htyp : (if buf.elem_size = 1 then pure GL_UNSIGNED_BYTE
         else if buf.elem_size = 2 then pure GL_UNSIGNED_SHORT
         else do
           halide_printf "%d\n" [.n buf.elem_size]
           halide_assert false "Only uint8 and uint16 textures are supported"
           pure GL_UNSIGNED_BYTE : GLM Int) = pure type := by
    split_ifs at ht with c1 c2 <;> simp_all
  simp only [halide_opengl_dev_malloc, hfmt, htyp]
  simp [halide_opengl_init, GLM.bind_apply, getST, hw.1, htex,
    GLM.ite_apply, GLM.pure_apply, modifyST, check_buffer_properties, halide_assert, h2, h3,
    glCall, glCallU, hw.proc]


theorem dev_malloc_abort (h : Host) {w : World} {buf : buffer_t}
    (hw : Ready w) (htex : get_texture_id buf = 0)
    (hbad : buf.extent.2.2.1 = 2 ∨ 4 < buf.extent.2.2.1) :
    ∃ msg w1, halide_opengl_dev_malloc h buf w = Res.fail (Failure.assertion msg) w1 ∧
      w1.ST.textures = w.ST.textures := by
  by_cases h2 : buf.extent.2.2.1 ≤ 4
  · have e2 : buf.extent.2.2.1 = 2 := by omega
    by_cases h3 : buf.extent.2.2.2 ≤ 1
    · refine ⟨"Only 1, 3, or 4 color channels are supported", ?_⟩
      simp [halide_opengl_dev_malloc, halide_opengl_init, GLM.bind_apply, getST, hw.1, htex,
        GLM.ite_apply, GLM.pure_apply, modifyST, check_buffer_properties, halide_assert, h3,
        glCall, glCallU, hw.proc, e2]
    · refine ⟨"3D textures are not supported", ?_⟩
      simp [halide_opengl_dev_malloc, halide_opengl_init, GLM.bind_apply, getST, hw.1, htex,
        GLM.ite_apply, GLM.pure_apply, modifyST, check_buffer_properties, halide_assert, h3, e2]
  · refine ⟨"Only up to 4 color channels are supported", ?_⟩
    simp [halide_opengl_dev_malloc, halide_opengl_init, GLM.bind_apply, getST, hw.1, htex,
      GLM.ite_apply, GLM.pure_apply, modifyST, check_buffer_properties, halide_assert, h2]

/-- C6 (amended). In an initialized runtime, for every buffer whose texture
handle, the low 32 bits of its device slot, is non-zero on entry,
`dev_malloc` returns, makes no driver call (so generates no texture),
leaves the buffer as it was, and adds at the head of the registry a record
for that handle with `halide_allocated` false. -/
theorem dev_malloc_nonzero_handle_not_allocated (h : Host) (w : World) (buf : buffer_t)
    (hinit : w.ST.initialized = true) (htex : get_texture_id buf ≠ 0) :
    ∃ w1 r, halide_opengl_dev_malloc h buf w = Res.ok buf w1 ∧
      w1.gl = w.gl ∧
      w1.ST.textures = r :: w.ST.textures ∧
      r.id = get_texture_id buf ∧ r.halide_allocated = false := by
  rw [dev_malloc_host_texture h hinit htex]
  exact ⟨_, _, rfl, rfl, rfl, rfl, rfl⟩

theorem dev_malloc_nonzero_handle_not_allocated_witness :
    hostTextureWorld.ST.initialized = true ∧ get_texture_id hostTextureBuffer ≠ 0 ∧
    ∃ w1 r, halide_opengl_dev_malloc sampleHost hostTextureBuffer hostTextureWorld =
        Res.ok hostTextureBuffer w1 ∧
      w1.gl = hostTextureWorld.gl ∧
      w1.ST.textures = r :: hostTextureWorld.ST.textures ∧
      r.id = get_texture_id hostTextureBuffer ∧ r.halide_allocated = false :=
  ⟨by decide, by decide,
    dev_malloc_nonzero_handle_not_allocated sampleHost hostTextureWorld hostTextureBuffer
      (by decide) (by decide)⟩

/-- C6, as stated, fails: the device slot `2 ^ 32` is not zero, yet
`dev_malloc` generates a texture, overwrites the slot with the new handle
and records the texture as allocated by the runtime. -/
theorem dev_malloc_nonzero_slot_counterexample :
    bigSlotBuffer.dev ≠ 0 ∧
    ⟨GLFunc.GenTextures, [.n 1]⟩ ∈
      (halide_opengl_dev_malloc sampleHost bigSlotBuffer readyWorld).world.gl ∧
    (halide_opengl_dev_malloc sampleHost bigSlotBuffer readyWorld).val?.map (·.dev) = some 1 ∧
    (halide_opengl_dev_malloc sampleHost bigSlotBuffer readyWorld).world.ST.textures.map
      (·.halide_allocated) = [true] := by
  decide!

/-- C7 (amended). In an initialized runtime, for a buffer with a zero device
slot and an element size of 1 or 2: when the fourth extent is at most 1,
`dev_malloc` returns having allocated (`glTexImage2D`) and recorded a
texture of internal format luminance when the third extent is at most 1
(0 and negative values included), RGB when it is 3 and RGBA when it is 4;
when the third extent is 2 or exceeds 4, it aborts with a failed assertion
and the texture registry is as before. -/
theorem dev_malloc_format_by_third_extent (h : Host) (w : World) (buf : buffer_t)
    (hw : Ready w) (hdev : buf.dev = 0) (hsize : buf.elem_size = 1 ∨ buf.elem_size = 2) :
    (∀ format : Int, buf.extent.2.2.2 ≤ 1 →
      (buf.extent.2.2.1 ≤ 1 ∧ format = GL_LUMINANCE ∨
        buf.extent.2.2.1 = 3 ∧ format = GL_RGB ∨
        buf.extent.2.2.1 = 4 ∧ format = GL_RGBA) →
      ∃ buf1 w1 r wd ht type, halide_opengl_dev_malloc h buf w = Res.ok buf1 w1 ∧
        w1.ST.textures = r :: w.ST.textures ∧
        r.format = format ∧ r.halide_allocated = true ∧
        ⟨GLFunc.TexImage2D, [.n GL_TEXTURE_2D, .n 0, .n format, .n wd, .n ht, .n 0,
          .n format, .n type, .arr none]⟩ ∈ w1.gl) ∧
    ((buf.extent.2.2.1 = 2 ∨ 4 < buf.extent.2.2.1) →
      ∃ msg w1, halide_opengl_dev_malloc h buf w = Res.fail (Failure.assertion msg) w1 ∧
        w1.ST.textures = w.ST.textures) := by
  have htex : get_texture_id buf = 0 := by simp [get_texture_id, hdev]
  refine ⟨?_, dev_malloc_abort h hw htex⟩
  intro format h3 hfmt
  have hty : ∃ type, (if buf.elem_size = 1 then some GL_UNSIGNED_BYTE
         else if buf.elem_size = 2 then some GL_UNSIGNED_SHORT else none) = some type := by
    rcases hsize with e | e <;> simp [e]
  obtain ⟨type, hty⟩ := hty
  have h2 : buf.extent.2.2.1 ≤ 4 := by omega
  have hf : (if buf.extent.2.2.1 ≤ 1 then some GL_LUMINANCE
         else if buf.extent.2.2.1 = 3 then some GL_RGB
         else if buf.extent.2.2.1 = 4 then some GL_RGBA else none) = some format := by
    rcases hfmt with ⟨e, rfl⟩ | ⟨e, rfl⟩ | ⟨e, rfl⟩ <;> simp [e]
  rw [dev_malloc_alloc h hw htex h2 h3 hf hty]
  refine ⟨_, _, _, if buf.extent.1 < 1 then 1 else buf.extent.1,
    if buf.extent.2.1 < 1 then 1 else buf.extent.2.1, type, rfl, rfl, rfl, rfl, ?_⟩
  simp

theorem dev_malloc_format_by_third_extent_witness :
    Ready readyWorld ∧ sampleBuffer.dev = 0 ∧
    (sampleBuffer.elem_size = 1 ∨ sampleBuffer.elem_size = 2) ∧
    sampleBuffer.extent.2.2.2 ≤ 1 ∧ sampleBuffer.extent.2.2.1 = 4 ∧
    ∃ buf1 w1 r wd ht type,
      halide_opengl_dev_malloc sampleHost sampleBuffer readyWorld = Res.ok buf1 w1 ∧
        w1.ST.textures = r :: readyWorld.ST.textures ∧
        r.format = GL_RGBA ∧ r.halide_allocated = true ∧
        ⟨GLFunc.TexImage2D, [.n GL_TEXTURE_2D, .n 0, .n GL_RGBA, .n wd, .n ht, .n 0,
          .n GL_RGBA, .n type, .arr none]⟩ ∈ w1.gl :=
  ⟨by decide, by decide, by decide, by decide, by decide,
    (dev_malloc_format_by_third_extent sampleHost readyWorld sampleBuffer (by decide)
      (by decide) (by decide)).1 GL_RGBA (by decide) (by decide)⟩

/-- C7, as stated, fails: the third extent 0 is none of 1, 3 and 4, yet
`dev_malloc` does not abort: it allocates and records a luminance
texture. -/
theorem dev_malloc_third_extent_zero_counterexample :
    flatBuffer.dev = 0 ∧ flatBuffer.elem_size = 1 ∧ flatBuffer.extent.2.2.1 = 0 ∧
    (halide_opengl_dev_malloc sampleHost flatBuffer readyWorld).returned = true ∧
    (halide_opengl_dev_malloc sampleHost flatBuffer readyWorld).world.ST.textures.map
      (·.format) = [GL_LUMINANCE] := by
  decide!



/-! ### Host/device transfer -/

theorem copy_to_dev_upload {w : World} {buf : buffer_t} (hw : Ready w)
    (hcompat : buf.stride.2.2.1 = 1 ∧ buf.stride.1 = buf.extent.2.2.1)
    (hhost : buf.host ≠ none) (hdev : buf.dev ≠ 0) (hhd : buf.host_dirty = true)
    (h2 : buf.extent.2.2.1 ≤ 4) (h3 : buf.extent.2.2.2 ≤ 1) :
    halide_opengl_copy_to_dev buf w =
      Res.ok { buf with host_dirty := false }
        { w with
          gl := [⟨.BindTexture, [.n GL_TEXTURE_2D, .n 0]⟩,
            ⟨.TexSubImage2D, [.n GL_TEXTURE_2D, .n 0, .n 0, .n 0,
              .n (if buf.extent.1 < 1 then 1 else buf.extent.1),
              .n (if buf.extent.2.1 < 1 then 1 else buf.extent.2.1),
              .n GL_RGBA, .n GL_FLOAT, .arr buf.host]⟩,
            ⟨.BindTexture, [.n GL_TEXTURE_2D, .n (get_texture_id buf : Int)]⟩] ++ w.gl
          out := ⟨"GL compatible? %d\n", [.n 1]⟩ :: w.out } := by
  have hh : buf.host.isSome = true := by
    cases hb : buf.host with
    | none => exact absurd hb hhost
    | some d => rfl
  simp [halide_opengl_copy_to_dev, ASSERT_INITIALIZED, GLM.bind_apply, getST, halide_assert,
    hw.1, GLM.ite_apply, GLM.pure_apply, hhd, hh, hdev, hcompat.1, hcompat.2, halide_printf,
    check_buffer_properties, h2, h3, glCall, hw.proc]

theorem copy_to_host_clean (h : Host) {w : World} {buf : buffer_t}
    (hinit : w.ST.initialized = true) (hdd : buf.dev_dirty = false) :
    halide_opengl_copy_to_host h buf w = Res.ok buf w := by
  simp [halide_opengl_copy_to_host, ASSERT_INITIALIZED, GLM.bind_apply, getST, halide_assert,
    hinit, GLM.ite_apply, GLM.pure_apply, hdd]

/-- C3 (amended). In an initialized runtime, for every gl-compatible buffer
(`stride[2] = 1` and `stride[0] = extent[2]`) with at most 4 channels and a
fourth extent of at most 1, with a non-null host pointer, a non-zero device
slot, `host_dirty` set and `dev_dirty` clear: `copy_to_dev` returns after
uploading the host data with `glTexSubImage2D`, `copy_to_host` then returns,
the host data is what it was before and both dirty flags are clear. -/
theorem copy_to_dev_then_copy_to_host (h : Host) (w : World) (buf : buffer_t) (hw : Ready w)
    (hcompat : buf.stride.2.2.1 = 1 ∧ buf.stride.1 = buf.extent.2.2.1)
    (hhost : buf.host ≠ none) (hdev : buf.dev ≠ 0)
    (hhd : buf.host_dirty = true) (hdd : buf.dev_dirty = false)
    (h2 : buf.extent.2.2.1 ≤ 4) (h3 : buf.extent.2.2.2 ≤ 1) :
    ∃ buf1 w1 buf2 w2,
      halide_opengl_copy_to_dev buf w = Res.ok buf1 w1 ∧
      halide_opengl_copy_to_host h buf1 w1 = Res.ok buf2 w2 ∧
      (∃ c ∈ w1.gl, c.fn = GLFunc.TexSubImage2D ∧ GLArg.arr buf.host ∈ c.args) ∧
      buf2.host = buf.host ∧ buf2.host_dirty = false ∧ buf2.dev_dirty = false := by
  refine ⟨_, _, _, _, copy_to_dev_upload hw hcompat hhost hdev hhd h2 h3,
    copy_to_host_clean h hw.1 hdd, ?_, rfl, rfl, hdd⟩
  simp

theorem copy_to_dev_then_copy_to_host_witness :
    Ready readyWorld ∧
    (hostTextureBuffer.stride.2.2.1 = 1 ∧
      hostTextureBuffer.stride.1 = hostTextureBuffer.extent.2.2.1) ∧
    hostTextureBuffer.host ≠ none ∧ hostTextureBuffer.dev ≠ 0 ∧
    hostTextureBuffer.host_dirty = true ∧ hostTextureBuffer.dev_dirty = false ∧
    hostTextureBuffer.extent.2.2.1 ≤ 4 ∧ hostTextureBuffer.extent.2.2.2 ≤ 1 ∧
    ∃ buf1 w1 buf2 w2,
      halide_opengl_copy_to_dev hostTextureBuffer readyWorld = Res.ok buf1 w1 ∧
      halide_opengl_copy_to_host sampleHost buf1 w1 = Res.ok buf2 w2 ∧
      (∃ c ∈ w1.gl, c.fn = GLFunc.TexSubImage2D ∧ GLArg.arr hostTextureBuffer.host ∈ c.args) ∧
      buf2.host = hostTextureBuffer.host ∧ buf2.host_dirty = false ∧
      buf2.dev_dirty = false :=
  ⟨by decide, by decide, by decide, by decide, by decide, by decide, by decide, by decide,
    copy_to_dev_then_copy_to_host sampleHost readyWorld hostTextureBuffer (by decide)
      (by decide) (by decide) (by decide) (by decide) (by decide) (by decide) (by decide)⟩

/-- C3, as stated, fails: a buffer of five interleaved channels is
gl-compatible, has host data, a non-zero device slot, `host_dirty` set and
`dev_dirty` clear, yet `copy_to_dev` does not return: it aborts in
`check_buffer_properties`, before any upload, so `host_dirty` is never
cleared. -/
theorem copy_to_dev_five_channels_counterexample :
    Ready readyWorld ∧
    (fiveChannelBuffer.stride.2.2.1 = 1 ∧
      fiveChannelBuffer.stride.1 = fiveChannelBuffer.extent.2.2.1) ∧
    fiveChannelBuffer.host ≠ none ∧ fiveChannelBuffer.dev ≠ 0 ∧
    fiveChannelBuffer.host_dirty = true ∧ fiveChannelBuffer.dev_dirty = false ∧
    (halide_opengl_copy_to_dev fiveChannelBuffer readyWorld).failure? =
      some (Failure.assertion "Only up to 4 color channels are supported") ∧
    (halide_opengl_copy_to_dev fiveChannelBuffer readyWorld).world.gl = [] := by
  decide!

/-! ### The initialized flag -/

theorem load_procs_spec (h : Host) (fs : List GLFunc) (w : World) :
    ∃ b w1, load_procs h fs w = Res.ok b w1 ∧
      w1.ST.initialized = w.ST.initialized ∧
      (b = true ↔ ∀ f ∈ fs, h.get_proc_address f = true) := by
  induction fs generalizing w with
  | nil => exact ⟨true, w, rfl, rfl, by simp⟩
  | cons f fs ih =>
    by_cases hf : h.get_proc_address f = true
    · obtain ⟨b, w1, h1, h2, h3⟩ := ih { w with ST := { w.ST with procs := f :: w.ST.procs } }
      refine ⟨b, w1, ?_, h2, ?_⟩
      · simp [load_procs, hf, GLM.bind_apply, modifyST, h1]
      · simp [h3, hf]
    · refine ⟨false,
        { w with ST := { w.ST with procs := w.ST.procs.filter fun g => g ≠ f }
                 out := ⟨"Could not load function pointer for %s\n", [.sym f]⟩ :: w.out },
        ?_, rfl, ?_⟩
      · simp [load_procs, hf, GLM.bind_apply, modifyST, halide_printf, GLM.pure_apply]
      · simp [hf]

theorem init_unresolved (h : Host) (w : World) (hflag : w.ST.initialized = false)
    (hmiss : ∃ f ∈ USED_GL_FUNCTIONS, h.get_proc_address f = false) :
    ∃ w1, halide_opengl_init h w = Res.ok () w1 ∧ w1.ST.initialized = false := by
  obtain ⟨b, w1, h1, h2, h3⟩ := load_procs_spec h USED_GL_FUNCTIONS w
  have hb : b = false := by
    cases b with
    | false => rfl
    | true =>
      obtain ⟨f, hf, hff⟩ := hmiss
      have := h3.1 rfl f hf
      simp [hff] at this
  subst hb
  refine ⟨w1, ?_, by rw [h2, hflag]⟩
  simp [halide_opengl_init, GLM.bind_apply, getST, hflag, GLM.ite_apply, h1, GLM.pure_apply]

/-- C8 (amended). In every runtime state whose initialized flag is clear,
`release`, `dev_free`, `copy_to_dev`, `copy_to_host`, `dev_sync` and
`dev_run` abort with the uninitialized-runtime failure for every argument,
leaving the world untouched; and an `init` call that fails to resolve a
driver entry point returns with the flag still clear, so this holds after
it. -/
theorem entries_abort_when_uninitialized (h : Host) (w : World)
    (hflag : w.ST.initialized = false) :
    halide_opengl_release w =
      Res.fail (Failure.assertion "OpenGL runtime not initialized.") w ∧
    (∀ buf, halide_opengl_dev_free buf w =
      Res.fail (Failure.assertion "OpenGL runtime not initialized.") w) ∧
    (∀ buf, halide_opengl_copy_to_dev buf w =
      Res.fail (Failure.assertion "OpenGL runtime not initialized.") w) ∧
    (∀ buf, halide_opengl_copy_to_host h buf w =
      Res.fail (Failure.assertion "OpenGL runtime not initialized.") w) ∧
    halide_opengl_dev_sync w =
      Res.fail (Failure.assertion "OpenGL runtime not initialized.") w ∧
    (∀ entry_name args, halide_opengl_dev_run h entry_name args w =
      Res.fail (Failure.assertion "OpenGL runtime not initialized.") w) ∧
    ((∃ f ∈ USED_GL_FUNCTIONS, h.get_proc_address f = false) →
      ∃ w1, halide_opengl_init h w = Res.ok () w1 ∧ w1.ST.initialized = false) := by
  refine ⟨?_, ?_, ?_, ?_, ?_, ?_, init_unresolved h w hflag⟩
  · simp [halide_opengl_release, ASSERT_INITIALIZED, GLM.bind_apply, getST, halide_assert, hflag]
  · intro buf
    simp [halide_opengl_dev_free, ASSERT_INITIALIZED, GLM.bind_apply, getST, halide_assert,
      hflag]
  · intro buf
    simp [halide_opengl_copy_to_dev, ASSERT_INITIALIZED, GLM.bind_apply, getST, halide_assert,
      hflag]
  · intro buf
    simp [halide_opengl_copy_to_host, ASSERT_INITIALIZED, GLM.bind_apply, getST, halide_assert,
      hflag]
  · simp [halide_opengl_dev_sync, ASSERT_INITIALIZED, GLM.bind_apply, getST, halide_assert,
      hflag]
  · intro entry_name args
    simp [halide_opengl_dev_run, ASSERT_INITIALIZED, GLM.bind_apply, getST, halide_assert,
      hflag]

theorem entries_abort_when_uninitialized_witness :
    freshWorld.ST.initialized = false ∧
    halide_opengl_dev_sync freshWorld =
      Res.fail (Failure.assertion "OpenGL runtime not initialized.") freshWorld ∧
    ((∃ f ∈ USED_GL_FUNCTIONS, brokenHost.get_proc_address f = false) →
      ∃ w1, halide_opengl_init brokenHost freshWorld = Res.ok () w1 ∧
        w1.ST.initialized = false) :=
  ⟨by decide,
    (entries_abort_when_uninitialized brokenHost freshWorld (by decide)).2.2.2.2.1,
    (entries_abort_when_uninitialized brokenHost freshWorld (by decide)).2.2.2.2.2.2⟩

/-- C8, as stated, fails for `dev_malloc` and `init_kernels`: with the flag
clear they do not abort. After an `init` that failed to resolve the driver
functions and left the flag clear, `dev_malloc` of a buffer with a host
texture returns and adds a record, and `init_kernels` returns; and from the
state before any call, with a host that resolves every function,
`dev_malloc` initializes the runtime itself and returns. -/
theorem dev_malloc_init_kernels_uninitialized_counterexample :
    (halide_opengl_init brokenHost freshWorld).world.ST.initialized = false ∧
    (halide_opengl_dev_malloc brokenHost hostTextureBuffer
      (halide_opengl_init brokenHost freshWorld).world).returned = true ∧
    (halide_opengl_dev_malloc brokenHost hostTextureBuffer
      (halide_opengl_init brokenHost freshWorld).world).world.ST.textures.map (·.id) = [7] ∧
    (halide_opengl_init_kernels brokenHost [] 0
      (halide_opengl_init brokenHost freshWorld).world).returned = true ∧
    freshWorld.ST.initialized = false ∧
    (halide_opengl_dev_malloc sampleHost sampleBuffer freshWorld).returned = true := by
  decide!


/-! ### Driver calls made by a piece of the runtime -/

theorem emits_pure {α : Type} {P : GLCall → Prop} (a : α) : Emits P (pure a : GLM α) :=
  fun _ => ⟨[], rfl, by simp⟩

theorem emits_bind {α β : Type} {P : GLCall → Prop} {m : GLM α} {f : α → GLM β}
    (hm : Emits P m) (hf : ∀ a, Emits P (f a)) : Emits P (m >>= f) := by
  intro w
  obtain ⟨l1, h1, hP1⟩ := hm w
  rw [GLM.bind_apply]
  cases hmw : m w with
  | ok a w1 =>
    rw [hmw] at h1
    obtain ⟨l2, h2, hP2⟩ := hf a w1
    refine ⟨l2 ++ l1, ?_, ?_⟩
    · simp only [h2]
      rw [show w1.gl = l1 ++ w.gl from h1, List.append_assoc]
    · intro c hc
      rcases List.mem_append.1 hc with hc | hc
      · exact hP2 c hc
      · exact hP1 c hc
  | fail e w1 =>
    rw [hmw] at h1
    exact ⟨l1, h1, hP1⟩

theorem emits_ite {α : Type} {P : GLCall → Prop} {c : Prop} [Decidable c] {a b : GLM α}
    (ha : Emits P a) (hb : Emits P b) : Emits P (if c then a else b) := by
  split
  · exact ha
  · exact hb

theorem emits_glCall {P : GLCall → Prop} {f : GLFunc} {args : List GLArg}
    (hP : P ⟨f, args⟩) : Emits P (glCall f args) := by
  intro w
  unfold HalideGL.glCall
  split
  · exact ⟨[⟨f, args⟩], rfl, by simpa using hP⟩
  · exact ⟨[], rfl, by simp⟩

theorem emits_glCallU {P : GLCall → Prop} (h : Host) {f : GLFunc} {args : List GLArg}
    (hP : P ⟨f, args⟩) : Emits P (glCallU h f args) := by
  intro w
  unfold HalideGL.glCallU
  split
  · exact ⟨[⟨f, args⟩], rfl, by simpa using hP⟩
  · exact ⟨[], rfl, by simp⟩

theorem emits_glCallI {P : GLCall → Prop} (h : Host) {f : GLFunc} {args : List GLArg}
    (hP : P ⟨f, args⟩) : Emits P (glCallI h f args) := by
  intro w
  unfold HalideGL.glCallI
  split
  · exact ⟨[⟨f, args⟩], rfl, by simpa using hP⟩
  · exact ⟨[], rfl, by simp⟩

theorem emits_glCallData {P : GLCall → Prop} (h : Host) {f : GLFunc} {args : List GLArg}
    (hP : P ⟨f, args⟩) : Emits P (glCallData h f args) := by
  intro w
  unfold HalideGL.glCallData
  split
  · exact ⟨[⟨f, args⟩], rfl, by simpa using hP⟩
  · exact ⟨[], rfl, by simp⟩

theorem emits_halide_printf {P : GLCall → Prop} (fmt : String) (args : List GLArg) :
    Emits P (halide_printf fmt args) :=
  fun _ => ⟨[], rfl, by simp⟩

theorem emits_halide_assert {P : GLCall → Prop} (cond : Bool) (msg : String) :
    Emits P (halide_assert cond msg) := by
  intro w
  unfold HalideGL.halide_assert
  split
  · exact ⟨[], rfl, by simp⟩
  · exact ⟨[], rfl, by simp⟩

theorem emits_getST {P : GLCall → Prop} : Emits P getST :=
  fun _ => ⟨[], rfl, by simp⟩

theorem emits_modifyST {P : GLCall → Prop} (f : HalideOpenGLState → HalideOpenGLState) :
    Emits P (modifyST f) :=
  fun _ => ⟨[], rfl, by simp⟩

theorem emits_liftExcept {α : Type} {P : GLCall → Prop} (r : Except Failure α) :
    Emits P (liftExcept r) := by
  intro w
  cases r with
  | ok a => exact ⟨[], rfl, by simp⟩
  | error e => exact ⟨[], rfl, by simp⟩

theorem emits_dev_run_inputs (h : Host) (kernel : HalideOpenGLKernel) (args : List Nat) :
    ∀ (i : Nat) (kernel_arg : List HalideOpenGLArgument) (n : Int),
      Emits (fun c => c.fn ≠ GLFunc.BindFramebuffer)
        (dev_run_inputs h kernel args i kernel_arg n) := by
  induction args with
  | nil =>
    intro i kernel_arg n
    unfold HalideGL.dev_run_inputs
    exact emits_pure _
  | cons a rest ih =>
    intro i kernel_arg n
    cases kernel_arg with
    | nil =>
      unfold HalideGL.dev_run_inputs
      exact emits_bind (emits_halide_assert _ _) fun _ => emits_pure _
    | cons ka next =>
      unfold HalideGL.dev_run_inputs
      refine emits_ite (ih _ _ _) ?_
      refine emits_bind (emits_glCallI h (by simp)) fun loc => ?_
      refine emits_ite ?_ (emits_bind (emits_halide_printf _ _) fun _ => ih _ _ _)
      refine emits_ite ?_ (emits_ite ?_ (emits_ite ?_ ?_))
      · exact emits_bind (emits_halide_printf _ _) fun _ =>
          emits_bind (emits_glCall (by simp)) fun _ => ih _ _ _
      · exact emits_bind (emits_halide_printf _ _) fun _ =>
          emits_bind (emits_glCall (by simp)) fun _ => ih _ _ _
      · exact emits_bind (emits_halide_printf _ _) fun _ =>
          emits_bind (emits_glCall (by simp)) fun _ =>
          emits_bind (emits_glCall (by simp)) fun _ =>
          emits_bind (emits_glCall (by simp)) fun _ => ih _ _ _
      · exact emits_bind (emits_halide_printf _ _) fun _ =>
          emits_bind (emits_halide_assert _ _) fun _ => ih _ _ _

theorem emits_dev_run_outputs (args : List Nat) :
    ∀ (kernel_arg : List HalideOpenGLArgument) (g : OutputGeometry),
      Emits (fun _ => True) (dev_run_outputs args kernel_arg g) := by
  induction args with
  | nil =>
    intro kernel_arg g
    unfold HalideGL.dev_run_outputs
    exact emits_pure _
  | cons a rest ih =>
    intro kernel_arg g
    cases kernel_arg with
    | nil =>
      unfold HalideGL.dev_run_outputs
      exact fun w => ⟨[], rfl, by simp⟩
    | cons ka next =>
      unfold HalideGL.dev_run_outputs
      refine emits_ite (ih _ _) ?_
      refine emits_bind ?_ fun _ => ?_
      · exact emits_ite (emits_halide_assert _ _) (emits_pure _)
      refine emits_bind (emits_halide_printf _ _) fun _ => ?_
      refine emits_bind (emits_glCall trivial) fun _ => ?_
      refine emits_bind emits_getST fun st => ?_
      cases halide_opengl_find_texture st.textures a with
      | none => exact emits_bind (emits_halide_assert _ _) fun _ => ih _ _
      | some texinfo => exact ih _ _

theorem emits_dev_run_cleanup (count : Nat) :
    ∀ i : Int, Emits (fun _ => True) (dev_run_cleanup count i) := by
  induction count with
  | zero =>
    intro i
    unfold HalideGL.dev_run_cleanup
    exact emits_pure _
  | succ count ih =>
    intro i
    unfold HalideGL.dev_run_cleanup
    exact emits_bind (emits_glCall trivial) fun _ =>
      emits_bind (emits_glCall trivial) fun _ => ih _

theorem emits_dev_run_render (h : Host) (kernel : HalideOpenGLKernel) (args : List Nat)
    (n : Int) : Emits (fun _ => True) (dev_run_render h kernel args n) := by
  unfold HalideGL.dev_run_render
  repeat' first
    | exact emits_pure _
    | exact emits_glCall trivial
    | exact emits_glCallI h trivial
    | exact emits_halide_printf _ _
    | exact emits_getST
    | exact emits_dev_run_outputs _ _ _
    | exact emits_dev_run_cleanup _ _
    | apply emits_ite
    | (refine emits_bind ?_ fun _ => ?_)


/-! ### The argument walk of `dev_run` -/

theorem parse_argument_type {src endp : List Char} {arg : HalideOpenGLArgument}
    (h : parse_argument src endp = Except.ok arg) : ValidArgType arg.type := by
  unfold parse_argument at h
  cases h1 :  match_prefix src ['f', 'l', 'o', 'a', 't', ' '] with
  | some nm =>
    simp [h1, ARG_FLOAT, ARG_NONE] at h
    rw [← h]
    exact Or.inr (Or.inl rfl)
  | none =>
    cases h2 :  match_prefix src ['i', 'n', 't', ' '] with
    | some nm =>
      simp [h1, h2, ARG_INT, ARG_NONE] at h
      rw [← h]
      exact Or.inr (Or.inr rfl)
    | none =>
      cases h3 :  match_prefix src ['b', 'u', 'f', 'f', 'e', 'r', ' '] with
      | some nm =>
        simp [h1, h2, h3, ARG_BUFFER, ARG_NONE] at h
        rw [← h]
        exact Or.inl rfl
      | none => simp [h1, h2, h3] at h

theorem create_kernel_loop_types :
    ∀ (fuel : Nat) (line : List Char) (name : Option (List Char))
      (arguments : List HalideOpenGLArgument)
      (r : Option (List Char) × List HalideOpenGLArgument),
      (∀ a ∈ arguments, ValidArgType a.type) →
      create_kernel_loop fuel line name arguments = Except.ok r →
      ∀ a ∈ r.2, ValidArgType a.type := by
  intro fuel
  induction fuel with
  | zero =>
    intro line name arguments r hargs h
    simp only [create_kernel_loop, Except.ok.injEq] at h
    subst h
    exact hargs
  | succ fuel ih =>
    intro line name arguments r hargs h
    unfold create_kernel_loop at h
    split at h
    · simp only [Except.ok.injEq] at h
      subst h
      exact hargs
    · split at h
      · split at h
        · simp at h
        · exact ih _ _ _ _ hargs h
      · split at h
        · split at h
          · simp at h
          · split at h
            · simp at h
            · rename_i arg harg
              refine ih _ _ _ _ ?_ h
              intro a ha
              rcases List.mem_cons.1 ha with rfl | ha
              · exact parse_argument_type harg
              · exact hargs a ha
        · split at h
          · split at h
            · simp at h
            · split at h
              · simp at h
              · rename_i arg harg
                refine ih _ _ _ _ ?_ h
                intro a ha
                rcases List.mem_cons.1 ha with rfl | ha
                · exact @parse_argument_type _ _ arg harg
                · exact hargs a ha
          · simp only [Except.ok.injEq] at h
            subst h
            exact hargs

theorem flip_arguments_eq (cur acc : List HalideOpenGLArgument) :
    flip_arguments cur acc = cur.reverse ++ acc := by
  induction cur generalizing acc with
  | nil => rfl
  | cons a cur ih => simp [flip_arguments, ih]

theorem create_kernel_types {src : List Char} {size : Nat} {kernel : HalideOpenGLKernel}
    (h : create_kernel src size = Except.ok kernel) :
    ∀ a ∈ kernel.arguments, ValidArgType a.type := by
  unfold create_kernel at h
  dsimp only at h
  split at h
  · simp at h
  · simp at h
  · rename_i name arguments hloop
    simp only [Except.ok.injEq] at h
    subst h
    intro a ha
    simp only [flip_arguments_eq, List.append_nil, List.mem_reverse] at ha
    exact create_kernel_loop_types _ _ _ _ _ (by simp) hloop a ha

theorem Ready.of_ST {w w1 : World} (hw : Ready w) (h : w1.ST = w.ST) : Ready w1 := by
  unfold Ready at *
  rw [h]
  exact hw

theorem dev_run_inputs_step (h : Host) (kernel : HalideOpenGLKernel) (a : Nat)
    (rest : List Nat) (i : Nat) (ka : HalideOpenGLArgument)
    (next : List HalideOpenGLArgument) (n : Int) (w : World) (hw : Ready w)
    (hka : ValidArgType ka.type) :
    ∃ n1 w1, Ready w1 ∧ w1.ST = w.ST ∧
      dev_run_inputs h kernel (a :: rest) i (ka :: next) n w =
        dev_run_inputs h kernel rest (i + 1) next n1 w1 := by
  by_cases hout : ka.is_output = true
  · exact ⟨n, w, hw, rfl, by simp [dev_run_inputs, hout]⟩
  · by_cases hloc : h.retI (⟨.GetUniformLocation, [.n kernel.program_id, .str ka.name]⟩ :: w.gl)
        = -1
    · simp only [dev_run_inputs, hout, GLM.bind_apply, glCallI, hw.proc, hloc, halide_printf,
        GLM.ite_apply, if_true, if_false, Bool.false_eq_true, ne_eq, not_true_eq_false]
      refine ⟨_, _, ?_, ?_, rfl⟩
      · exact hw.of_ST rfl
      · rfl
    · rcases hka with ht | ht | ht
      · simp only [dev_run_inputs, hout, GLM.bind_apply, glCallI, hw.proc, hloc, halide_printf,
          GLM.ite_apply, if_true, if_false, Bool.false_eq_true, ne_eq, not_false_eq_true,
          ht, ARG_BUFFER, ARG_INT, ARG_FLOAT, glCall, Nat.reduceEqDiff]
        refine ⟨_, _, ?_, ?_, rfl⟩
        · exact hw.of_ST rfl
        · rfl
      · simp only [dev_run_inputs, hout, GLM.bind_apply, glCallI, hw.proc, hloc, halide_printf,
          GLM.ite_apply, if_true, if_false, Bool.false_eq_true, ne_eq, not_false_eq_true,
          ht, ARG_BUFFER, ARG_INT, ARG_FLOAT, glCall, Nat.reduceEqDiff]
        refine ⟨_, _, ?_, ?_, rfl⟩
        · exact hw.of_ST rfl
        · rfl
      · simp only [dev_run_inputs, hout, GLM.bind_apply, glCallI, hw.proc, hloc, halide_printf,
          GLM.ite_apply, if_true, if_false, Bool.false_eq_true, ne_eq, not_false_eq_true,
          ht, ARG_BUFFER, ARG_INT, ARG_FLOAT, glCall, Nat.reduceEqDiff]
        refine ⟨_, _, ?_, ?_, rfl⟩
        · exact hw.of_ST rfl
        · rfl

theorem dev_run_inputs_outcome (h : Host) (kernel : HalideOpenGLKernel) (args : List Nat) :
    ∀ (i : Nat) (ka : List HalideOpenGLArgument) (n : Int) (w : World), Ready w →
      (∀ a ∈ ka, ValidArgType a.type) →
      (args.length ≤ ka.length →
        ∃ n1 w1, dev_run_inputs h kernel args i ka n w =
          Res.ok (ka.drop args.length, n1) w1 ∧ w1.ST = w.ST) ∧
      (ka.length < args.length →
        ∃ w1, dev_run_inputs h kernel args i ka n w =
          Res.fail (Failure.assertion "Too many arguments passed to halide_opengl_dev_run")
            w1) := by
  induction args with
  | nil =>
    intro i ka n w _ _
    exact ⟨fun _ => ⟨n, w, by simp [dev_run_inputs, GLM.pure_apply], rfl⟩, fun hlt => by simp at hlt⟩
  | cons a rest ih =>
    intro i ka n w hw hvalid
    cases ka with
    | nil =>
      refine ⟨fun hle => by simp at hle, fun _ => ⟨w, ?_⟩⟩
      simp [dev_run_inputs, GLM.bind_apply, halide_assert]
    | cons k next =>
      obtain ⟨n1, w1, hw1, hst, hstep⟩ :=
        dev_run_inputs_step h kernel a rest i k next n w hw (hvalid k (List.mem_cons_self _ _))
      obtain ⟨ih1, ih2⟩ := ih (i + 1) next n1 w1 hw1
        (fun x hx => hvalid x (List.mem_cons_of_mem _ hx))
      rw [hstep]
      constructor
      · intro hle
        obtain ⟨n2, w2, h2, hst2⟩ := ih1 (by simpa using hle)
        exact ⟨n2, w2, by simpa using h2, hst2.trans hst⟩
      · intro hlt
        exact ih2 (by simpa using hlt)

theorem dev_run_render_binds_framebuffer (h : Host) (kernel : HalideOpenGLKernel)
    (args : List Nat) (n : Int) (w : World) (hw : Ready w) :
    ∃ added, (dev_run_render h kernel args n w).world.gl =
      added ++ ⟨.BindFramebuffer, [.n GL_FRAMEBUFFER, .n w.ST.framebuffer_id]⟩ :: w.gl := by
  have key : ∀ (m : GLM Unit) (w2 : World), Emits (fun _ => True) m →
      ∃ added, (m w2).world.gl = added ++ w2.gl :=
    fun m w2 hm => (hm w2).imp fun _ hx => hx.1
  unfold dev_run_render
  rw [GLM.bind_apply]
  simp only [getST]
  rw [GLM.bind_apply]
  simp only [glCall, hw.proc, if_true]
  refine key _ ⟨w.ST, ⟨.BindFramebuffer, [.n GL_FRAMEBUFFER, .n w.ST.framebuffer_id]⟩ :: w.gl,
    w.out⟩ ?_
  repeat' first
    | exact emits_pure _
    | exact emits_glCall trivial
    | exact emits_glCallI h trivial
    | exact emits_halide_printf _ _
    | exact emits_getST
    | exact emits_dev_run_outputs _ _ _
    | exact emits_dev_run_cleanup _ _
    | apply emits_ite
    | (refine emits_bind ?_ fun _ => ?_)


theorem dev_run_found (h : Host) {w : World} {entry_name : List Char}
    {kernel : HalideOpenGLKernel} (args : List Nat) (hw : Ready w)
    (hfind : halide_opengl_find_kernel w.ST.kernels entry_name = some kernel) :
    halide_opengl_dev_run h entry_name args w =
      match dev_run_inputs h kernel args 0 kernel.arguments 0
          { w with gl := ⟨.UseProgram, [.n kernel.program_id]⟩ :: w.gl } with
      | Res.ok (kernel_arg, num_active_textures) w1 =>
        if kernel_arg = [] then dev_run_render h kernel args num_active_textures w1
        else Res.fail
          (Failure.assertion "Too few arguments passed to halide_opengl_dev_run") w1
      | Res.fail e w1 => Res.fail e w1 := by
  simp only [halide_opengl_dev_run, ASSERT_INITIALIZED, GLM.bind_apply, getST, halide_assert,
    hw.1, if_true, hfind, glCall, hw.proc]
  cases dev_run_inputs h kernel args 0 kernel.arguments 0
      { w with gl := ⟨.UseProgram, [.n kernel.program_id]⟩ :: w.gl } with
  | ok p w1 =>
    obtain ⟨kernel_arg, n⟩ := p
    by_cases hk : kernel_arg = []
    · simp [hk]
    · simp [hk]
  | fail e w1 => rfl

/-- C10. In an initialized runtime, for a registered kernel (a record of
the registry whose arguments `create_kernel` produced) with `n` declared
arguments and an actuals array of `m` non-null pointers: `dev_run` reaches
the binding of the framebuffer, the first driver call after the argument
walk, if and only if `m = n`; when `m > n` it aborts with 'too many
arguments' and when `m < n` with 'too few arguments', in both cases
without having called `glBindFramebuffer`. -/
theorem dev_run_arity (h : Host) (w : World) (entry_name : List Char)
    (kernel : HalideOpenGLKernel) (args : List Nat) (hw : Ready w)
    (hfind : halide_opengl_find_kernel w.ST.kernels entry_name = some kernel)
    (hreg : ∃ src size k0, create_kernel src size = Except.ok k0 ∧
      kernel.arguments = k0.arguments) :
    ∃ added, (halide_opengl_dev_run h entry_name args w).world.gl = added ++ w.gl ∧
      ((∃ c ∈ added, c.fn = GLFunc.BindFramebuffer) ↔
        args.length = kernel.arguments.length) ∧
      (kernel.arguments.length < args.length →
        (halide_opengl_dev_run h entry_name args w).failure? =
          some (Failure.assertion "Too many arguments passed to halide_opengl_dev_run")) ∧
      (args.length < kernel.arguments.length →
        (halide_opengl_dev_run h entry_name args w).failure? =
          some (Failure.assertion "Too few arguments passed to halide_opengl_dev_run")) := by
  obtain ⟨src, size, k0, hk0, hargs⟩ := hreg
  have hvalid : ∀ a ∈ kernel.arguments, ValidArgType a.type := by
    rw [hargs]
    exact create_kernel_types hk0
  have hw0 : Ready { w with gl := ⟨.UseProgram, [.n kernel.program_id]⟩ :: w.gl } :=
    hw.of_ST rfl
  obtain ⟨added1, hgl1, hP1⟩ := emits_dev_run_inputs h kernel args 0 kernel.arguments 0
    { w with gl := ⟨.UseProgram, [.n kernel.program_id]⟩ :: w.gl }
  obtain ⟨hle, hgt⟩ := dev_run_inputs_outcome h kernel args 0 kernel.arguments 0 _ hw0 hvalid
  rw [dev_run_found h args hw hfind]
  rcases Nat.lt_trichotomy args.length kernel.arguments.length with hlt | heq | hlt
  · obtain ⟨n1, w1, hres, hst⟩ := hle (Nat.le_of_lt hlt)
    rw [hres] at hgl1 ⊢
    have hne : List.drop args.length kernel.arguments ≠ [] := by
      intro hnil
      have := congrArg List.length hnil
      simp at this
      omega
    simp only [hne, if_false]
    refine ⟨added1 ++ [⟨.UseProgram, [.n kernel.program_id]⟩], ?_, ?_, ?_, fun _ => rfl⟩
    · simpa [Res.world] using hgl1
    · constructor
      · rintro ⟨c, hc, hfn⟩
        rcases List.mem_append.1 hc with hc | hc
        · exact absurd hfn (hP1 c hc)
        · simp at hc
          subst hc
          simp at hfn
      · intro heq
        omega
    · intro hgt'
      omega
  · obtain ⟨n1, w1, hres, hst⟩ := hle (Nat.le_of_eq heq)
    rw [hres] at hgl1 ⊢
    have hnil : List.drop args.length kernel.arguments = [] := by
      rw [heq]
      exact List.drop_length _
    simp only [hnil, if_true]
    obtain ⟨added2, hgl2⟩ := dev_run_render_binds_framebuffer h kernel args n1 w1
      (hw0.of_ST hst)
    refine ⟨added2 ++ ⟨.BindFramebuffer, [.n GL_FRAMEBUFFER, .n w1.ST.framebuffer_id]⟩ ::
      added1 ++ [⟨.UseProgram, [.n kernel.program_id]⟩], ?_, ?_, ?_, ?_⟩
    · rw [hgl2]
      simp only [Res.world] at hgl1
      rw [hgl1]
      simp
    · exact ⟨fun _ => heq, fun _ =>
        ⟨⟨.BindFramebuffer, [.n GL_FRAMEBUFFER, .n w1.ST.framebuffer_id]⟩, by simp, rfl⟩⟩
    · intro hgt'
      omega
    · intro hlt'
      omega
  · obtain ⟨w1, hres⟩ := hgt hlt
    rw [hres] at hgl1 ⊢
    refine ⟨added1 ++ [⟨.UseProgram, [.n kernel.program_id]⟩], ?_, ?_, fun _ => rfl, ?_⟩
    · simpa [Res.world] using hgl1
    · constructor
      · rintro ⟨c, hc, hfn⟩
        rcases List.mem_append.1 hc with hc | hc
        · exact absurd hfn (hP1 c hc)
        · simp at hc
          subst hc
          simp at hfn
      · intro heq
        omega
    · intro hlt'
      omega

theorem dev_run_arity_witness :
    Ready kernelWorld ∧
    halide_opengl_find_kernel kernelWorld.ST.kernels ['k'] = some sampleKernel ∧
    create_kernel sampleKernelSource sampleKernelSource.length = Except.ok sampleKernel ∧
    ∃ added, (halide_opengl_dev_run sampleHost ['k'] [5] kernelWorld).world.gl =
        added ++ kernelWorld.gl ∧
      ((∃ c ∈ added, c.fn = GLFunc.BindFramebuffer) ↔
        [5].length = sampleKernel.arguments.length) ∧
      (sampleKernel.arguments.length < [5].length →
        (halide_opengl_dev_run sampleHost ['k'] [5] kernelWorld).failure? =
          some (Failure.assertion "Too many arguments passed to halide_opengl_dev_run")) ∧
      ([5].length < sampleKernel.arguments.length →
        (halide_opengl_dev_run sampleHost ['k'] [5] kernelWorld).failure? =
          some (Failure.assertion "Too few arguments passed to halide_opengl_dev_run")) :=
  ⟨by decide, by decide, by rfl,
    dev_run_arity sampleHost kernelWorld ['k'] sampleKernel [5] (by decide) (by decide)
      ⟨sampleKernelSource, sampleKernelSource.length, sampleKernel, by rfl, rfl⟩⟩


/-! ### Parsing a kernel header -/

theorem match_prefix_append (pfx s : List Char) :  match_prefix (pfx ++ s) pfx = some s := by
  simp [ match_prefix]

theorem match_prefix_none {s pfx : List Char} (h : ¬ pfx <+: s) :
     match_prefix s pfx = none := by
  simp only [ match_prefix, ite_eq_right_iff]
  intro hp
  exact absurd (List.isPrefixOf_iff_prefix.1 hp) h

theorem strchr_append {s : List Char} (c : Char) (t : List Char) (h : c ∉ s) :
    strchr (s ++ c :: t) c = some (c :: t) := by
  induction s with
  | nil => simp [strchr]
  | cons x s ih =>
    have hx : x ≠ c := fun e => h (e ▸ List.mem_cons_self _ _)
    simp [strchr, hx, ih (fun hc => h (List.mem_cons_of_mem _ hc))]

theorem newline_not_mem_kindText (t : Nat) : '\n' ∉ kindText t := by
  unfold kindText
  split
  · decide
  · split <;> decide

theorem parse_argument_line (l : ArgLine) (hl : l.WellFormed) (rest : List Char) :
    parse_argument (kindText l.kind ++ [' '] ++ l.name ++ ['\n'] ++ rest) ('\n' :: rest) =
      Except.ok { name := l.name, type := l.kind, is_output := false } := by
  obtain ⟨hk, _⟩ := hl
  rcases hk with hk | hk | hk
  · simp [parse_argument, kindText, hk, match_prefix, ARG_BUFFER, ARG_FLOAT, ARG_INT, ARG_NONE,
      halide_strndup]
  · simp [parse_argument, kindText, hk, match_prefix, ARG_BUFFER, ARG_FLOAT, ARG_INT, ARG_NONE,
      halide_strndup]
  · simp [parse_argument, kindText, hk, match_prefix, ARG_BUFFER, ARG_FLOAT, ARG_INT, ARG_NONE,
      halide_strndup]

theorem create_kernel_loop_kernel_line (fuel : Nat) (nm rest : List Char)
    (name : Option (List Char)) (arguments : List HalideOpenGLArgument) (hnm : '\n' ∉ nm) :
    create_kernel_loop (fuel + 1) (kernel_marker ++ (nm ++ '\n' :: rest)) name arguments =
      create_kernel_loop fuel rest (some nm) arguments := by
  have hchr : strchr (kernel_marker ++ (nm ++ '\n' :: rest)) '\n' = some ('\n' :: rest) := by
    rw [← List.append_assoc]
    apply strchr_append
    simp only [List.mem_append, not_or]
    exact ⟨by decide, hnm⟩
  rw [create_kernel_loop]
  simp only [ match_prefix_append, hchr]
  have hlen : nm.length + (rest.length + 1) - rest.length - 1 = nm.length := by omega
  simp [kernel_marker, halide_strndup, hlen]

theorem create_kernel_loop_arg_line (fuel : Nat) (l : ArgLine) (hl : l.WellFormed)
    (rest : List Char) (name : Option (List Char))
    (arguments : List HalideOpenGLArgument) :
    create_kernel_loop (fuel + 1) (l.text ++ rest) name arguments =
      create_kernel_loop fuel rest name (l.toArgument :: arguments) := by
  have hparse := parse_argument_line l hl rest
  have hnl : '\n' ∉ kindText l.kind ++ [' '] ++ l.name := by
    simp only [List.mem_append, not_or]
    exact ⟨⟨newline_not_mem_kindText _, by decide⟩, hl.2⟩
  cases hout : l.is_output with
  | false =>
    have htext : l.text ++ rest =
        input_marker ++ (kindText l.kind ++ [' '] ++ l.name ++ ['\n'] ++ rest) := by
      simp [ArgLine.text, hout]
    have hchr : strchr (l.text ++ rest) '\n' = some ('\n' :: rest) := by
      have : l.text ++ rest =
          (input_marker ++ (kindText l.kind ++ [' '] ++ l.name)) ++ '\n' :: rest := by
        simp [ArgLine.text, hout]
      rw [this]
      apply strchr_append
      simp only [List.mem_append, not_or] at hnl ⊢
      exact ⟨by decide, hnl⟩
    have hk :  match_prefix (l.text ++ rest) kernel_marker = none := by
      rw [htext]
      simp [ match_prefix, kernel_marker, input_marker]
    rw [create_kernel_loop]
    simp only [hk, hchr]
    simp only [htext, match_prefix_append, hparse]
    simp [input_marker, ArgLine.toArgument, hout]
  | true =>
    have htext : l.text ++ rest =
        output_marker ++ (kindText l.kind ++ [' '] ++ l.name ++ ['\n'] ++ rest) := by
      simp [ArgLine.text, hout]
    have hchr : strchr (l.text ++ rest) '\n' = some ('\n' :: rest) := by
      have : l.text ++ rest =
          (output_marker ++ (kindText l.kind ++ [' '] ++ l.name)) ++ '\n' :: rest := by
        simp [ArgLine.text, hout]
      rw [this]
      apply strchr_append
      simp only [List.mem_append, not_or] at hnl ⊢
      exact ⟨by decide, hnl⟩
    have hk :  match_prefix (l.text ++ rest) kernel_marker = none := by
      rw [htext]
      simp [ match_prefix, kernel_marker, output_marker]
    have hi :  match_prefix (l.text ++ rest) input_marker = none := by
      rw [htext]
      simp [ match_prefix, input_marker, output_marker]
    rw [create_kernel_loop]
    simp only [hk, hi, hchr]
    simp only [htext, match_prefix_append, hparse]
    simp [output_marker, ArgLine.toArgument, hout]

theorem create_kernel_loop_body (fuel : Nat) (body : List Char)
    (name : Option (List Char)) (arguments : List HalideOpenGLArgument)
    (hk : ¬ kernel_marker <+: body) (hi : ¬ input_marker <+: body)
    (ho : ¬ output_marker <+: body) :
    create_kernel_loop (fuel + 1) body name arguments = Except.ok (name, arguments) := by
  rw [create_kernel_loop]
  simp [ match_prefix_none hk, match_prefix_none hi, match_prefix_none ho]

theorem create_kernel_loop_lines (lines : List ArgLine) (hl : ∀ l ∈ lines, l.WellFormed)
    (body : List Char) (hk : ¬ kernel_marker <+: body) (hi : ¬ input_marker <+: body)
    (ho : ¬ output_marker <+: body) :
    ∀ (fuel : Nat) (name : Option (List Char)) (arguments : List HalideOpenGLArgument),
      lines.length < fuel →
      create_kernel_loop fuel (linesText lines ++ body) name arguments =
        Except.ok (name, (lines.map ArgLine.toArgument).reverse ++ arguments) := by
  induction lines with
  | nil =>
    intro fuel name arguments hfuel
    obtain ⟨fuel, rfl⟩ := Nat.exists_eq_succ_of_ne_zero (Nat.ne_of_gt hfuel)
    simpa [linesText] using create_kernel_loop_body fuel body name arguments hk hi ho
  | cons l lines ih =>
    intro fuel name arguments hfuel
    obtain ⟨fuel, rfl⟩ := Nat.exists_eq_succ_of_ne_zero (Nat.ne_of_gt (Nat.lt_of_le_of_lt (Nat.zero_le _) hfuel))
    have htext : linesText (l :: lines) ++ body = l.text ++ (linesText lines ++ body) := by
      simp [linesText]
    rw [htext, create_kernel_loop_arg_line fuel l (hl l (List.mem_cons_self _ _)),
      ih (fun x hx => hl x (List.mem_cons_of_mem _ hx)) fuel _ _ (by simpa using hfuel)]
    simp

theorem linesText_length (lines : List ArgLine) : lines.length ≤ (linesText lines).length := by
  induction lines with
  | nil => simp [linesText]
  | cons l lines ih =>
    have : (linesText (l :: lines)).length = l.text.length + (linesText lines).length := by
      simp [linesText]
    have h1 : 1 ≤ l.text.length := by
      simp only [ArgLine.text, List.length_append, List.length_singleton]
      omega
    simp only [List.length_cons]
    omega

theorem create_kernel_block (k : KernelText) (hk : k.HeaderWellFormed) (rest : List Char) :
    create_kernel (k.text ++ rest) k.text.length =
      Except.ok { source := k.text
                  name := k.name
                  arguments := k.lines.map ArgLine.toArgument
                  shader_id := 0
                  program_id := 0 } := by
  obtain ⟨hname, hlines, hbk, hbi, hbo⟩ := hk
  have hsrc : halide_strndup (k.text ++ rest) k.text.length = k.text := by
    simp [halide_strndup]
  have htext : k.text = kernel_marker ++ (k.name ++ '\n' :: (linesText k.lines ++ k.body)) := by
    simp [KernelText.text, KernelText.tail]
  have hlen : k.lines.length < k.text.length := by
    have := linesText_length k.lines
    rw [htext]
    simp only [List.length_append, List.length_cons]
    omega
  unfold create_kernel
  simp only [hsrc]
  have hloop : create_kernel_loop (k.text.length + 1) k.text none [] =
      Except.ok (some k.name, (k.lines.map ArgLine.toArgument).reverse) := by
    conv_lhs => rw [htext]
    rw [create_kernel_loop_kernel_line _ _ _ _ _ hname,
      create_kernel_loop_lines k.lines hlines k.body hbk hbi hbo _ _ _ (by rw [← htext]; exact hlen)]
    simp
  rw [hloop]
  simp [flip_arguments_eq]

/-- C2. For a kernel block whose header is a `/// KERNEL` line followed by
the `/// IN` / `/// OUT` lines `k.lines` (each newline-terminated, with a
type among float, int and buffer), whatever text follows the block,
`create_kernel` returns a record with the declared name whose argument list
has as many elements as there are lines, the `i`-th carrying the name and
the kind of the `i`-th line and `is_output` set exactly when that line is an
`/// OUT` line: prepending and flipping once yields header order. -/
theorem create_kernel_arguments_in_header_order (k : KernelText) (hk : k.HeaderWellFormed)
    (rest : List Char) :
    ∃ kernel, create_kernel (k.text ++ rest) k.text.length = Except.ok kernel ∧
      kernel.name = k.name ∧
      kernel.arguments.length = k.lines.length ∧
      ∀ (i : Nat) (l : ArgLine), k.lines[i]? = some l →
        ∃ a, kernel.arguments[i]? = some a ∧
          a.name = l.name ∧ a.type = l.kind ∧ (a.is_output = true ↔ l.is_output = true) := by
  refine ⟨_, create_kernel_block k hk rest, rfl, by simp, ?_⟩
  intro i l hl
  exact ⟨l.toArgument, by simp [hl], rfl, rfl, Iff.rfl⟩

theorem create_kernel_arguments_in_header_order_witness :
    sampleKernelText.HeaderWellFormed ∧
    ∃ kernel, create_kernel (sampleKernelText.text ++ []) sampleKernelText.text.length =
        Except.ok kernel ∧
      kernel.name = sampleKernelText.name ∧
      kernel.arguments.length = sampleKernelText.lines.length ∧
      ∀ (i : Nat) (l : ArgLine), sampleKernelText.lines[i]? = some l →
        ∃ a, kernel.arguments[i]? = some a ∧
          a.name = l.name ∧ a.type = l.kind ∧ (a.is_output = true ↔ l.is_output = true) :=
  ⟨by decide, create_kernel_arguments_in_header_order sampleKernelText (by decide) []⟩

/-- A header line that is not newline-terminated is outside the format: on
a block that ends in the middle of its `/// KERNEL` line, or of an `/// IN`
line, `strchr` returns `NULL`, `next_line` is `NULL + 1` (the check
`if (!next_line)` never fires) and the length passed to `halide_strndup` is
garbage; the embedding records a crash. -/
theorem create_kernel_unterminated_header_line :
    create_kernel "/// KERNEL k".toList 12 = Except.error Failure.crash ∧
    create_kernel "/// KERNEL k\n/// IN float x".toList 27 = Except.error Failure.crash := by
  constructor <;> rfl

/-! ### Registering a kernel -/

theorem triple_pure {α : Type} {P : World → Prop} {Q : α → World → Prop} (a : α)
    (hPQ : ∀ w, P w → Q a w) : Triple P (pure a : GLM α) Q :=
  fun w hP => ⟨a, w, rfl, hPQ w hP⟩

theorem triple_bind {α β : Type} {P : World → Prop} {R : α → World → Prop}
    {Q : β → World → Prop} {m : GLM α} {f : α → GLM β}
    (hm : Triple P m R) (hf : ∀ a, Triple (R a) (f a) Q) : Triple P (m >>= f) Q := by
  intro w hP
  obtain ⟨a, w1, h1, hR⟩ := hm w hP
  obtain ⟨b, w2, h2, hQ⟩ := hf a w1 hR
  exact ⟨b, w2, by rw [GLM.bind_apply, h1]; exact h2, hQ⟩

theorem triple_ite {α : Type} {P : World → Prop} {Q : α → World → Prop} {c : Prop}
    [Decidable c] {a b : GLM α} (ha : Triple P a Q) (hb : Triple P b Q) :
    Triple P (if c then a else b) Q := by
  split
  · exact ha
  · exact hb

theorem triple_glCall (s : HalideOpenGLState) (f : GLFunc) (args : List GLArg) :
    Triple (At s) (glCall f args) (fun _ => At s) := by
  intro w hw
  refine ⟨(), { w with gl := ⟨f, args⟩ :: w.gl }, ?_, hw.1.of_ST rfl, hw.2⟩
  simp [HalideGL.glCall, hw.1.proc]

theorem triple_glCallU (h : Host) (s : HalideOpenGLState) (f : GLFunc) (args : List GLArg) :
    Triple (At s) (glCallU h f args) (fun _ => At s) := by
  intro w hw
  refine ⟨h.retU (⟨f, args⟩ :: w.gl) % 2 ^ 32, { w with gl := ⟨f, args⟩ :: w.gl }, ?_,
    hw.1.of_ST rfl, hw.2⟩
  simp [HalideGL.glCallU, hw.1.proc]

theorem triple_glCallI (h : Host) (s : HalideOpenGLState) (f : GLFunc) (args : List GLArg) :
    Triple (At s) (glCallI h f args) (fun _ => At s) := by
  intro w hw
  refine ⟨h.retI (⟨f, args⟩ :: w.gl), { w with gl := ⟨f, args⟩ :: w.gl }, ?_,
    hw.1.of_ST rfl, hw.2⟩
  simp [HalideGL.glCallI, hw.1.proc]

theorem triple_glCallData (h : Host) (s : HalideOpenGLState) (f : GLFunc)
    (args : List GLArg) : Triple (At s) (glCallData h f args) (fun _ => At s) := by
  intro w hw
  refine ⟨h.retData (⟨f, args⟩ :: w.gl), { w with gl := ⟨f, args⟩ :: w.gl }, ?_,
    hw.1.of_ST rfl, hw.2⟩
  simp [HalideGL.glCallData, hw.1.proc]

theorem triple_halide_printf (s : HalideOpenGLState) (fmt : String) (args : List GLArg) :
    Triple (At s) (halide_printf fmt args) (fun _ => At s) :=
  fun w hw => ⟨(), { w with out := ⟨fmt, args⟩ :: w.out }, rfl, hw.1.of_ST rfl, hw.2⟩

theorem triple_getST (s : HalideOpenGLState) :
    Triple (At s) getST (fun st w => st = s ∧ At s w) :=
  fun w hw => ⟨w.ST, w, rfl, hw.2, hw⟩

theorem triple_halide_opengl_make_shader (h : Host) (s : HalideOpenGLState) (type : Int)
    (source : List Char) :
    Triple (At s) (halide_opengl_make_shader h type source) (fun _ => At s) := by
  unfold HalideGL.halide_opengl_make_shader
  repeat' first
    | exact triple_pure _ fun _ hw => hw
    | exact triple_glCall s _ _
    | exact triple_glCallU h s _ _
    | exact triple_glCallI h s _ _
    | exact triple_glCallData h s _ _
    | exact triple_halide_printf s _ _
    | apply triple_ite
    | (refine triple_bind (R := fun _ => At s) ?_ fun _ => ?_)

theorem register_kernel_spec (h : Host) (kernel : HalideOpenGLKernel) (w : World)
    (hw : Ready w) :
    ∃ w1 sid pid, register_kernel h kernel w = Res.ok () w1 ∧ Ready w1 ∧
      w1.ST = { w.ST with kernels :=
        match halide_opengl_find_kernel w.ST.kernels kernel.name with
        | some _ => w.ST.kernels
        | none => { kernel with shader_id := sid, program_id := pid } :: w.ST.kernels } := by
  have key : Triple (At w.ST) (register_kernel h kernel) (fun _ w1 => Ready w1 ∧ ∃ sid pid,
      w1.ST = { w.ST with kernels :=
        match halide_opengl_find_kernel w.ST.kernels kernel.name with
        | some _ => w.ST.kernels
        | none => { kernel with shader_id := sid, program_id := pid } :: w.ST.kernels }) := by
    unfold register_kernel
    refine triple_bind (triple_halide_opengl_make_shader h _ _ _) fun sid => ?_
    refine triple_bind (triple_glCallU h _ _ _) fun program => ?_
    refine triple_bind (R := fun _ => At w.ST) ?_ fun _ => ?_
    · exact fun w1 hw1 => ⟨w1.ST, w1, rfl, hw1⟩
    refine triple_bind (triple_glCall _ _ _) fun _ => ?_
    refine triple_bind (triple_glCall _ _ _) fun _ => ?_
    refine triple_bind (triple_glCall _ _ _) fun _ => ?_
    refine triple_bind (triple_glCallI h _ _ _) fun status => ?_
    refine triple_bind (R := fun _ => At w.ST) ?_ fun pid => ?_
    · repeat' first
        | exact triple_pure _ fun _ hw => hw
        | exact triple_glCall _ _ _
        | exact triple_glCallI h _ _ _
        | exact triple_glCallData h _ _ _
        | exact triple_halide_printf _ _ _
        | apply triple_ite
        | (refine triple_bind (R := fun _ => At w.ST) ?_ fun _ => ?_)
    refine triple_bind (triple_getST _) fun st => ?_
    intro w1 ⟨hst, hw1, hw1s⟩
    subst hst
    cases hf : halide_opengl_find_kernel w.ST.kernels kernel.name with
    | some r =>
      dsimp only
      obtain ⟨_, w2, h2, hw2, hw2s⟩ :=
        (triple_bind (triple_halide_printf w.ST _ _) fun _ =>
          triple_bind (triple_glCall w.ST _ _) fun _ => triple_glCall w.ST _ _) w1 ⟨hw1, hw1s⟩
      exact ⟨(), w2, h2, hw2, 0, 0, by rw [hw2s]⟩
    | none =>
      dsimp only
      refine ⟨(), _, rfl, ?_, sid, pid, ?_⟩
      · exact ⟨hw1.1, hw1.2⟩
      · simp [hw1s]
  obtain ⟨_, w1, h1, hw1, sid, pid, hst⟩ := key w ⟨hw, rfl⟩
  exact ⟨w1, sid, pid, h1, hw1, hst⟩


/-! ### Splitting a blob at the kernel markers -/

theorem strstr_none {s m : List Char} (hm : m ≠ []) (h : ¬ m <:+: s) : strstr s m = none := by
  induction s with
  | nil => simp [strstr, hm]
  | cons x xs ih =>
    have h1 : ¬ m.isPrefixOf (x :: xs) = true := fun hp =>
      h (List.isPrefixOf_iff_prefix.1 hp).isInfix
    have h2 : ¬ m <:+: xs := fun hi => h (hi.trans (List.suffix_cons x xs).isInfix)
    simp [strstr, h1, ih h2]

theorem kernel_marker_no_border :
    ∀ k < 11, 0 < k → kernel_marker.drop k ≠ kernel_marker.take (11 - k) := by
  decide

theorem kernel_marker_not_prefix_overlap (t tail : List Char) (ht : t ≠ [])
    (hno : ¬ kernel_marker <:+: t) : ¬ kernel_marker <+: t ++ (kernel_marker ++ tail) := by
  intro hp
  have htake : kernel_marker = (t ++ (kernel_marker ++ tail)).take 11 := by
    have := List.prefix_iff_eq_take.1 hp
    simpa [kernel_marker] using this
  by_cases hlen : 11 ≤ t.length
  · apply hno
    have : kernel_marker = t.take 11 := by
      rw [htake, List.take_append_of_le_length hlen]
    rw [this]
    exact (List.take_prefix 11 t).isInfix
  · have hpos : 0 < t.length := List.length_pos.2 ht
    have h1 : kernel_marker = t ++ kernel_marker.take (11 - t.length) := by
      conv_lhs => rw [htake]
      rw [List.take_append_eq_append_take, List.take_of_length_le (by omega),
        List.take_append_of_le_length (by simp [kernel_marker])]
    have h2 : kernel_marker.drop t.length = kernel_marker.take (11 - t.length) := by
      conv_lhs => rw [h1]
      simp
    exact kernel_marker_no_border t.length (by omega) hpos h2

theorem strstr_kernel_marker (pre tail : List Char) (hno : ¬ kernel_marker <:+: pre) :
    strstr (pre ++ (kernel_marker ++ tail)) kernel_marker = some (kernel_marker ++ tail) := by
  induction pre with
  | nil =>
    have : kernel_marker ++ tail = '/' :: (kernel_marker.tail ++ tail) := by
      simp [kernel_marker]
    rw [List.nil_append, this, strstr, ← this]
    simp
  | cons x xs ih =>
    have h1 : ¬ kernel_marker.isPrefixOf (x :: xs ++ (kernel_marker ++ tail)) = true :=
      fun hp => kernel_marker_not_prefix_overlap (x :: xs) tail (by simp) hno
        (List.isPrefixOf_iff_prefix.1 hp)
    have h2 : ¬ kernel_marker <:+: xs :=
      fun hi => hno (hi.trans (List.suffix_cons x xs).isInfix)
    rw [List.cons_append, strstr]
    rw [List.cons_append] at h1
    simp only [h1, if_false, Bool.false_eq_true]
    exact ih h2


/-! ### The kernel registry -/

theorem find_kernel_some {reg : List HalideOpenGLKernel} {n : List Char}
    {r : HalideOpenGLKernel} (h : halide_opengl_find_kernel reg n = some r) :
    r ∈ reg ∧ r.name = n := by
  induction reg with
  | nil => simp [halide_opengl_find_kernel] at h
  | cons k reg ih =>
    simp only [halide_opengl_find_kernel] at h
    by_cases hk : k.name = n
    · simp only [hk, if_true, Option.some.injEq] at h
      subst h
      exact ⟨List.mem_cons_self _ _, hk⟩
    · simp only [hk, if_false] at h
      exact ⟨List.mem_cons_of_mem _ (ih h).1, (ih h).2⟩

theorem find_kernel_none {reg : List HalideOpenGLKernel} {n : List Char} :
    halide_opengl_find_kernel reg n = none ↔ n ∉ reg.map (·.name) := by
  induction reg with
  | nil => simp [halide_opengl_find_kernel]
  | cons k reg ih =>
    by_cases hk : k.name = n
    · simp [halide_opengl_find_kernel, hk]
    · simp [halide_opengl_find_kernel, hk, ih, Ne.symm hk]

theorem register_record_nodup {reg : List HalideOpenGLKernel} (k : HalideOpenGLKernel)
    (h : (reg.map (·.name)).Nodup) : ((register_record reg k).map (·.name)).Nodup := by
  unfold register_record
  cases hf : halide_opengl_find_kernel reg k.name with
  | some r => exact h
  | none =>
    simp only [List.map_cons, List.nodup_cons]
    exact ⟨find_kernel_none.1 hf, h⟩

theorem register_all_nodup (recs : List HalideOpenGLKernel) :
    ∀ reg : List HalideOpenGLKernel, (reg.map (·.name)).Nodup →
      ((register_all recs reg).map (·.name)).Nodup := by
  induction recs with
  | nil => exact fun _ h => h
  | cons k recs ih => exact fun reg h => ih _ (register_record_nodup k h)

theorem register_all_suffix (recs : List HalideOpenGLKernel) :
    ∀ reg : List HalideOpenGLKernel, ∃ added, register_all recs reg = added ++ reg := by
  induction recs with
  | nil => exact fun reg => ⟨[], rfl⟩
  | cons k recs ih =>
    intro reg
    obtain ⟨added, h⟩ := ih (register_record reg k)
    have hstep : register_all (k :: recs) reg = register_all recs (register_record reg k) :=
      rfl
    rw [hstep, h]
    unfold register_record
    cases halide_opengl_find_kernel reg k.name with
    | some r => exact ⟨added, rfl⟩
    | none => exact ⟨added ++ [k], by simp⟩

theorem find_register_record (reg : List HalideOpenGLKernel) (k : HalideOpenGLKernel)
    (n : List Char) :
    halide_opengl_find_kernel (register_record reg k) n =
      match halide_opengl_find_kernel reg n with
      | some r => some r
      | none => if k.name = n then some k else none := by
  unfold register_record
  cases hf : halide_opengl_find_kernel reg k.name with
  | some r =>
    cases hn : halide_opengl_find_kernel reg n with
    | some r1 => rfl
    | none =>
      have hne : k.name ≠ n := by
        rintro rfl
        rw [hf] at hn
        exact Option.noConfusion hn
      simp [hn, hne]
  | none =>
    by_cases hk : k.name = n
    · subst hk
      simp [halide_opengl_find_kernel, hf]
    · simp only [halide_opengl_find_kernel, hk, if_false]
      cases halide_opengl_find_kernel reg n <;> rfl

theorem find_register_all (recs : List HalideOpenGLKernel) (n : List Char) :
    ∀ reg : List HalideOpenGLKernel,
      halide_opengl_find_kernel (register_all recs reg) n =
        match halide_opengl_find_kernel reg n with
        | some r => some r
        | none => recs.find? fun k => k.name = n := by
  induction recs with
  | nil =>
    intro reg
    cases hf : halide_opengl_find_kernel reg n <;> simp [register_all, hf]
  | cons k recs ih =>
    intro reg
    have := ih (register_record reg k)
    rw [find_register_record] at this
    show halide_opengl_find_kernel (register_all recs (register_record reg k)) n = _
    rw [this]
    cases halide_opengl_find_kernel reg n with
    | some r => rfl
    | none =>
      by_cases hk : k.name = n
      · simp [hk]
      · simp [hk]

theorem find?_of_sameText {recs ks : List HalideOpenGLKernel}
    (h : List.Forall₂ SameText recs ks) (n : List Char) :
    (∀ k, ks.find? (fun k => k.name = n) = some k →
      ∃ r, recs.find? (fun k => k.name = n) = some r ∧ SameText r k) ∧
    (ks.find? (fun k => k.name = n) = none → recs.find? (fun k => k.name = n) = none) := by
  induction h with
  | nil => simp
  | @cons r k recs ks hrk _ ih =>
    by_cases hk : k.name = n
    · have hr : r.name = n := hrk.2.1.trans hk
      simp [hk, hr, hrk]
    · have hr : ¬ r.name = n := fun e => hk (hrk.2.1.symm.trans e)
      simpa [hk, hr] using ih


theorem init_kernels_loop_spec (h : Host) :
    ∀ (fuel : Nat) (begin : List Char) (w : World), Ready w →
      ∃ recs w1, List.Forall₂ SameText recs (blob_kernels fuel begin).1 ∧ Ready w1 ∧
        w1.ST = { w.ST with kernels := register_all recs w.ST.kernels } ∧
        init_kernels_loop h fuel begin w =
          match (blob_kernels fuel begin).2 with
          | none => Res.ok () w1
          | some e => Res.fail e w1 := by
  intro fuel
  induction fuel with
  | zero =>
    intro begin w hw
    exact ⟨[], w, by simp [blob_kernels], hw, rfl, rfl⟩
  | succ fuel ih =>
    intro begin w hw
    by_cases hb : begin = []
    · exact ⟨[], w, by simp [blob_kernels, hb], hw, rfl,
        by simp [blob_kernels, init_kernels_loop, hb, GLM.pure_apply]⟩
    · cases hc : create_kernel begin (begin.length -
          ((strstr (begin.drop kernel_marker.length) kernel_marker).getD []).length) with
      | error e =>
        refine ⟨[], w, by simp [blob_kernels, hb, hc], hw, rfl, ?_⟩
        simp [blob_kernels, init_kernels_loop, hb, hc, GLM.bind_apply, liftExcept]
      | ok kernel =>
        obtain ⟨w2, sid, pid, hreg, hw2, hst2⟩ := register_kernel_spec h kernel w hw
        obtain ⟨recs, w1, hsame, hw1, hst1, hloop⟩ :=
          ih ((strstr (begin.drop kernel_marker.length) kernel_marker).getD []) w2 hw2
        refine ⟨{ kernel with shader_id := sid, program_id := pid } :: recs, w1, ?_, hw1, ?_,
          ?_⟩
        · simp only [blob_kernels, hb, if_false, hc]
          exact List.Forall₂.cons ⟨rfl, rfl, rfl⟩ hsame
        · rw [hst1, hst2]
          simp only [register_all, List.foldl_cons, register_record]
        · simp only [blob_kernels, init_kernels_loop, hb, if_false, hc, GLM.bind_apply,
            liftExcept, hreg]
          exact hloop

theorem init_kernels_spec (h : Host) (src : List Char) (size : Int) (w : World)
    (hw : Ready w) :
    ∃ recs w1, List.Forall₂ SameText recs (blobKernels src).1 ∧ Ready w1 ∧
      w1.ST = { w.ST with kernels := register_all recs w.ST.kernels } ∧
      halide_opengl_init_kernels h src size w =
        match (blobKernels src).2 with
        | none => Res.ok () w1
        | some e => Res.fail e w1 := by
  cases hs : strstr src kernel_marker with
  | none =>
    refine ⟨[], w, by simp [blobKernels, hs], hw, rfl, ?_⟩
    simp [blobKernels, hs, halide_opengl_init_kernels, GLM.bind_apply, getST, hw.1,
      GLM.pure_apply]
  | some begin =>
    obtain ⟨recs, w1, hsame, hw1, hst, hloop⟩ :=
      init_kernels_loop_spec h (begin.length + 1) begin w hw
    refine ⟨recs, w1, by simpa [blobKernels, hs] using hsame, hw1, hst, ?_⟩
    simp only [blobKernels, hs, halide_opengl_init_kernels, GLM.bind_apply, getST, hw.1,
      GLM.pure_apply, GLM.ite_apply, Bool.not_true, Bool.false_eq_true, if_false]
    exact hloop

/-- C9. In an initialized runtime whose registry has pairwise distinct
names, after `init_kernels` on any source blob (whether it returns or
aborts on a malformed block) the names are still pairwise distinct; the
records the registry had are all still there, unchanged, below the new
ones; a name that had a record still finds that record; and a name that had
none finds the record of the first block of the blob that declares it, with
that block's source and arguments: a later block of the same name is
discarded. -/
theorem init_kernels_names_distinct (h : Host) (w : World) (src : List Char) (size : Int)
    (hw : Ready w) (hnd : (w.ST.kernels.map (·.name)).Nodup) :
    (((halide_opengl_init_kernels h src size w).world.ST.kernels).map (·.name)).Nodup ∧
    (∃ added, (halide_opengl_init_kernels h src size w).world.ST.kernels =
      added ++ w.ST.kernels) ∧
    (∀ n r, halide_opengl_find_kernel w.ST.kernels n = some r →
      halide_opengl_find_kernel (halide_opengl_init_kernels h src size w).world.ST.kernels n =
        some r) ∧
    (∀ n k, halide_opengl_find_kernel w.ST.kernels n = none →
      (blobKernels src).1.find? (fun k => k.name = n) = some k →
      ∃ r, halide_opengl_find_kernel
          (halide_opengl_init_kernels h src size w).world.ST.kernels n = some r ∧
        r.source = k.source ∧ r.arguments = k.arguments) := by
  obtain ⟨recs, w1, hsame, _, hst, hrun⟩ := init_kernels_spec h src size w hw
  have hworld : (halide_opengl_init_kernels h src size w).world = w1 := by
    rw [hrun]
    cases (blobKernels src).2 <;> rfl
  have hk : (halide_opengl_init_kernels h src size w).world.ST.kernels =
      register_all recs w.ST.kernels := by
    rw [hworld, hst]
  rw [hk]
  refine ⟨register_all_nodup recs _ hnd, register_all_suffix recs _, ?_, ?_⟩
  · intro n r hf
    rw [find_register_all, hf]
  · intro n k hf hfirst
    rw [find_register_all, hf]
    obtain ⟨r, hr, hrk⟩ := (find?_of_sameText hsame n).1 k hfirst
    exact ⟨r, hr, hrk.1, hrk.2.2⟩

theorem init_kernels_names_distinct_witness :
    Ready kernelWorld ∧ (kernelWorld.ST.kernels.map (·.name)).Nodup ∧
    (((halide_opengl_init_kernels sampleHost duplicateBlob 0 kernelWorld).world.ST.kernels).map
      (·.name)).Nodup :=
  ⟨by decide, by decide,
    (init_kernels_names_distinct sampleHost kernelWorld duplicateBlob 0 (by decide)
      (by decide)).1⟩


/-! ### Registering the kernels of a well-formed blob -/

theorem blocksText_cons (k : KernelText) (ks : List KernelText) :
    blocksText (k :: ks) = kernel_marker ++ (k.tail ++ blocksText ks) := by
  simp [blocksText, KernelText.text]

theorem strstr_next_block (k : KernelText) (hk : ¬ kernel_marker <:+: k.tail)
    (ks : List KernelText) :
    (strstr (k.tail ++ blocksText ks) kernel_marker).getD [] = blocksText ks := by
  cases ks with
  | nil =>
    have : strstr k.tail kernel_marker = none := strstr_none (by decide) hk
    simp [blocksText, this]
  | cons k2 ks =>
    rw [blocksText_cons, strstr_kernel_marker _ _ hk]
    rfl

theorem blob_kernels_blocks (ks : List KernelText) (hks : ∀ k ∈ ks, k.WellFormed) :
    ∀ fuel : Nat, ks.length < fuel →
      blob_kernels fuel (blocksText ks) = (ks.map KernelText.toKernel, none) := by
  induction ks with
  | nil =>
    intro fuel hfuel
    obtain ⟨fuel, rfl⟩ := Nat.exists_eq_succ_of_ne_zero (Nat.ne_of_gt hfuel)
    simp [blob_kernels, blocksText]
  | cons k ks ih =>
    intro fuel hfuel
    obtain ⟨fuel, rfl⟩ := Nat.exists_eq_succ_of_ne_zero
      (Nat.ne_of_gt (Nat.lt_of_le_of_lt (Nat.zero_le _) hfuel))
    have hk := hks k (List.mem_cons_self _ _)
    have hne : blocksText (k :: ks) ≠ [] := by
      rw [blocksText_cons]
      simp [kernel_marker]
    have hdrop : (blocksText (k :: ks)).drop kernel_marker.length =
        k.tail ++ blocksText ks := by
      rw [blocksText_cons, List.drop_left]
    have hlen : (blocksText (k :: ks)).length - (blocksText ks).length = k.text.length := by
      rw [blocksText_cons]
      simp only [KernelText.text, List.length_append]
      omega
    have hcreate := create_kernel_block k hk.1 (blocksText ks)
    have htext : blocksText (k :: ks) = k.text ++ blocksText ks := by
      simp [blocksText]
    rw [blob_kernels]
    simp only [hne, if_false, hdrop, strstr_next_block k hk.2 ks, hlen]
    rw [htext, hcreate]
    simp only [ih (fun x hx => hks x (List.mem_cons_of_mem _ hx)) fuel
      (by simpa using hfuel)]
    rfl

theorem blocksText_length (ks : List KernelText) : ks.length ≤ (blocksText ks).length := by
  induction ks with
  | nil => simp
  | cons k ks ih =>
    rw [blocksText_cons]
    simp only [List.length_append, List.length_cons, kernel_marker]
    omega

theorem blobKernels_blob (pre : List Char) (ks : List KernelText)
    (hwf : WellFormedBlob pre ks) :
    blobKernels (blobText pre ks) = (ks.map KernelText.toKernel, none) := by
  cases ks with
  | nil =>
    have : strstr pre kernel_marker = none := strstr_none (by decide) hwf.1
    simp [blobKernels, blobText, blocksText, this]
  | cons k ks =>
    have hs : strstr (blobText pre (k :: ks)) kernel_marker = some (blocksText (k :: ks)) := by
      rw [blobText, blocksText_cons, strstr_kernel_marker _ _ hwf.1]
    simp only [blobKernels, hs]
    exact blob_kernels_blocks (k :: ks) hwf.2 _
      (Nat.lt_succ_of_le (blocksText_length (k :: ks)))

theorem find?_of_nodup_map {α β : Type} [DecidableEq β] (f : α → β) :
    ∀ (l : List α) (a : α), (l.map f).Nodup → a ∈ l →
      l.find? (fun x => f x = f a) = some a := by
  intro l
  induction l with
  | nil => intro a _ ha; simp at ha
  | cons x l ih =>
    intro a hnd ha
    rw [List.map_cons, List.nodup_cons] at hnd
    rcases List.mem_cons.1 ha with rfl | ha
    · simp
    · have hne : f x ≠ f a := fun e => hnd.1 (e ▸ List.mem_map_of_mem f ha)
      simp [hne, ih a hnd.2 ha]

/-- C1. In an initialized runtime with an empty kernel registry, for every
correctly formed source blob (a preamble in which the kernel marker does
not occur, then blocks made of a `/// KERNEL` line, well-formed `/// IN` /
`/// OUT` lines and a body that starts with no marker and holds no kernel
marker) whose headers declare pairwise distinct names, `init_kernels`
returns and afterwards `find_kernel` returns, for the name of every block,
a record with that name (and with the block's arguments, in header order,
and its text), and returns nothing for every other name. -/
theorem init_kernels_then_find_kernel (h : Host) (w : World) (pre : List Char)
    (ks : List KernelText) (size : Int) (hw : Ready w) (hempty : w.ST.kernels = [])
    (hwf : WellFormedBlob pre ks) (hnd : (ks.map (·.name)).Nodup) :
    ∃ w1, halide_opengl_init_kernels h (blobText pre ks) size w = Res.ok () w1 ∧
      (∀ k ∈ ks, ∃ r, halide_opengl_find_kernel w1.ST.kernels k.name = some r ∧
        r.name = k.name ∧ r.arguments = k.lines.map ArgLine.toArgument ∧
        r.source = k.text) ∧
      (∀ n, n ∉ ks.map (·.name) → halide_opengl_find_kernel w1.ST.kernels n = none) := by
  obtain ⟨recs, w1, hsame, _, hst, hrun⟩ := init_kernels_spec h (blobText pre ks) size w hw
  rw [blobKernels_blob pre ks hwf] at hsame hrun
  have hfind : ∀ n, halide_opengl_find_kernel w1.ST.kernels n =
      recs.find? fun k => k.name = n := by
    intro n
    rw [hst]
    show halide_opengl_find_kernel (register_all recs w.ST.kernels) n = _
    rw [find_register_all, hempty]
    rfl
  refine ⟨w1, hrun, ?_, ?_⟩
  · intro k hk
    have hfirst : (ks.map KernelText.toKernel).find? (fun x => x.name = k.name) =
        some k.toKernel := by
      rw [List.find?_map]
      have := find?_of_nodup_map (fun x : KernelText => x.name) ks k hnd hk
      simp only [Function.comp_def, KernelText.toKernel]
      rw [this]
      rfl
    obtain ⟨r, hr, hrk⟩ := (find?_of_sameText hsame k.name).1 _ hfirst
    exact ⟨r, by rw [hfind, hr], hrk.2.1, hrk.2.2, hrk.1⟩
  · intro n hn
    rw [hfind]
    apply (find?_of_sameText hsame n).2
    rw [List.find?_eq_none]
    intro x hx
    obtain ⟨k, hk, rfl⟩ := List.mem_map.1 hx
    simp only [KernelText.toKernel, decide_eq_true_eq]
    exact fun e => hn (e ▸ List.mem_map_of_mem (fun x : KernelText => x.name) hk)

theorem init_kernels_then_find_kernel_witness :
    Ready readyWorld ∧ readyWorld.ST.kernels = [] ∧
    WellFormedBlob ['\n'] [sampleKernelText, secondKernelText] ∧
    ([sampleKernelText, secondKernelText].map (·.name)).Nodup ∧
    ∃ w1, halide_opengl_init_kernels sampleHost
        (blobText ['\n'] [sampleKernelText, secondKernelText]) 0 readyWorld = Res.ok () w1 ∧
      (∀ k ∈ [sampleKernelText, secondKernelText],
        ∃ r, halide_opengl_find_kernel w1.ST.kernels k.name = some r ∧
          r.name = k.name ∧ r.arguments = k.lines.map ArgLine.toArgument ∧
          r.source = k.text) ∧
      (∀ n, n ∉ [sampleKernelText, secondKernelText].map (·.name) →
        halide_opengl_find_kernel w1.ST.kernels n = none) :=
  ⟨by decide, by decide, by decide!, by decide,
    init_kernels_then_find_kernel sampleHost readyWorld ['\n']
      [sampleKernelText, secondKernelText] 0 (by decide) (by decide) (by decide!)
      (by decide)⟩


/-! ### Sequences of `dev_malloc` and `dev_free` -/

theorem dev_malloc_alloc_returned (h : Host) {w : World} {buf : buffer_t}
    (hw : Ready w) (htex : get_texture_id buf = 0)
    (hret : (halide_opengl_dev_malloc h buf w).returned = true) :
    ∃ format type : Int, buf.extent.2.2.1 ≤ 4 ∧ buf.extent.2.2.2 ≤ 1 ∧
      (if buf.extent.2.2.1 ≤ 1 then some GL_LUMINANCE
         else if buf.extent.2.2.1 = 3 then some GL_RGB
         else if buf.extent.2.2.1 = 4 then some GL_RGBA else none) = some format ∧
      (if buf.elem_size = 1 then some GL_UNSIGNED_BYTE
         else if buf.elem_size = 2 then some GL_UNSIGNED_SHORT else none) = some type := by
  by_cases h2 : buf.extent.2.2.1 ≤ 4
  swap
  · simp [halide_opengl_dev_malloc, halide_opengl_init, GLM.bind_apply, getST, hw.1, htex,
      GLM.ite_apply, GLM.pure_apply, modifyST, check_buffer_properties, halide_assert, h2,
      Res.returned] at hret
  by_cases h3 : buf.extent.2.2.2 ≤ 1
  swap
  · simp [halide_opengl_dev_malloc, halide_opengl_init, GLM.bind_apply, getST, hw.1, htex,
      GLM.ite_apply, GLM.pure_apply, modifyST, check_buffer_properties, halide_assert, h2, h3,
      Res.returned] at hret
  by_cases hf : buf.extent.2.2.1 = 2
  · simp [halide_opengl_dev_malloc, halide_opengl_init, GLM.bind_apply, getST, hw.1, htex,
      GLM.ite_apply, GLM.pure_apply, modifyST, check_buffer_properties, halide_assert, h3,
      glCall, glCallU, hw.proc, hf, Res.returned] at hret
  have hfmt : ∃ format, (if buf.extent.2.2.1 ≤ 1 then some GL_LUMINANCE
         else if buf.extent.2.2.1 = 3 then some GL_RGB
         else if buf.extent.2.2.1 = 4 then some GL_RGBA else none) = some format := by
    by_cases c1 : buf.extent.2.2.1 ≤ 1
    · exact ⟨GL_LUMINANCE, by simp [c1]⟩
    · by_cases c3 : buf.extent.2.2.1 = 3
      · exact ⟨GL_RGB, by simp [c3]⟩
      · have c4 : buf.extent.2.2.1 = 4 := by omega
        exact ⟨GL_RGBA, by simp [c4]⟩
  obtain ⟨format, hfmt⟩ := hfmt
  have hfmt' : (if buf.extent.2.2.1 ≤ 1 then pure GL_LUMINANCE
         else if buf.extent.2.2.1 = 3 then pure GL_RGB
         else if buf.extent.2.2.1 = 4 then pure GL_RGBA
         else do
           halide_assert false "Only 1, 3, or 4 color channels are supported"
           pure 0 : GLM Int) = pure format := by
    split_ifs at hfmt with c1 c2 c3 <;> simp_all
  by_cases ht : buf.elem_size = 1 ∨ buf.elem_size = 2
  · refine ⟨format, if buf.elem_size = 1 then GL_UNSIGNED_BYTE else GL_UNSIGNED_SHORT, h2, h3,
      hfmt, ?_⟩
    rcases ht with e | e <;> simp [e]
  · have e1 : ¬ buf.elem_size = 1 := fun e => ht (Or.inl e)
    have e2 : ¬ buf.elem_size = 2 := fun e => ht (Or.inr e)
    simp only [halide_opengl_dev_malloc, hfmt'] at hret
    simp [halide_opengl_init, GLM.bind_apply, getST, hw.1, htex,
      GLM.ite_apply, GLM.pure_apply, modifyST, check_buffer_properties, halide_assert, h2, h3,
      glCall, glCallU, hw.proc, e1, e2, halide_printf, Res.returned] at hret

theorem find_texture_none {ts : List HalideOpenGLTexture} {tex : Nat} :
    halide_opengl_find_texture ts tex = none ↔ ∀ r ∈ ts, r.id ≠ tex := by
  induction ts with
  | nil => simp [halide_opengl_find_texture]
  | cons t ts ih =>
    by_cases ht : t.id = tex
    · simp [halide_opengl_find_texture, ht]
    · simp [halide_opengl_find_texture, ht, ih]

theorem find_texture_mem {ts : List HalideOpenGLTexture} {tex : Nat} {r : HalideOpenGLTexture}
    (h : halide_opengl_find_texture ts tex = some r) : r ∈ ts := by
  induction ts with
  | nil => simp [halide_opengl_find_texture] at h
  | cons t ts ih =>
    simp only [halide_opengl_find_texture] at h
    by_cases ht : t.id = tex
    · simp only [ht, if_true, Option.some.injEq] at h
      exact h ▸ List.mem_cons_self _ _
    · simp only [ht, if_false] at h
      exact List.mem_cons_of_mem _ (ih h)

theorem unlink_texture_none {ts : List HalideOpenGLTexture} {tex : Nat}
    (h : halide_opengl_find_texture ts tex = none) : (unlink_texture ts tex).1 = none := by
  induction ts with
  | nil => rfl
  | cons t ts ih =>
    simp only [halide_opengl_find_texture] at h
    by_cases ht : t.id = tex
    · simp [ht] at h
    · simp only [ht, if_false] at h
      simp [unlink_texture, ht, ih h]

theorem erase_no_id {ts : List HalideOpenGLTexture} {r : HalideOpenGLTexture}
    (hnd : (ts.map (·.id)).Nodup) (hr : r ∈ ts) : ∀ x ∈ ts.erase r, x.id ≠ r.id := by
  induction ts with
  | nil => simp
  | cons t ts ih =>
    rw [List.map_cons, List.nodup_cons] at hnd
    by_cases ht : t = r
    · subst ht
      rw [List.erase_cons_head]
      intro x hx e
      exact hnd.1 (e ▸ List.mem_map_of_mem (·.id) hx)
    · have hr' : r ∈ ts := by
        rcases List.mem_cons.1 hr with e | e
        · exact absurd e.symm ht
        · exact e
      rw [List.erase_cons_tail (by simpa using ht)]
      intro x hx
      rcases List.mem_cons.1 hx with rfl | hx
      · intro e
        exact hnd.1 (e ▸ List.mem_map_of_mem (·.id) hr')
      · exact ih hnd.2 hr' x hx

theorem texInv_dev_malloc (h : Host) {w w1 : World} {buf buf1 : buffer_t} (hinv : TexInv w)
    (hfresh : FreshHandle h buf w)
    (hrun : halide_opengl_dev_malloc h buf w = Res.ok buf1 w1) : TexInv w1 := by
  obtain ⟨hw, hnd, hnz⟩ := hinv
  unfold FreshHandle at hfresh
  by_cases htex : get_texture_id buf ≠ 0
  · rw [if_pos htex] at hfresh
    rw [dev_malloc_host_texture h hw.1 htex] at hrun
    simp only [Res.ok.injEq] at hrun
    obtain ⟨_, rfl⟩ := hrun
    refine ⟨⟨hw.1, hw.2⟩, ?_, ?_⟩
    · simp only [List.map_cons, List.nodup_cons]
      refine ⟨?_, hnd⟩
      intro hmem
      obtain ⟨r, hr, hid⟩ := List.mem_map.1 hmem
      exact hfresh r hr hid
    · intro r hr
      rcases List.mem_cons.1 hr with rfl | hr
      · exact htex
      · exact hnz r hr
  · rw [if_neg htex] at hfresh
    have htex0 : get_texture_id buf = 0 := not_not.1 htex
    obtain ⟨format, type, h2, h3, hf, ht⟩ :=
      dev_malloc_alloc_returned h hw htex0 (by rw [hrun]; rfl)
    rw [dev_malloc_alloc h hw htex0 h2 h3 hf ht] at hrun
    simp only [Res.ok.injEq] at hrun
    obtain ⟨_, rfl⟩ := hrun
    refine ⟨⟨hw.1, hw.2⟩, ?_, ?_⟩
    · simp only [List.map_cons, List.nodup_cons]
      refine ⟨?_, hnd⟩
      intro hmem
      obtain ⟨r, hr, hid⟩ := List.mem_map.1 hmem
      exact hfresh.2 r hr hid
    · intro r hr
      rcases List.mem_cons.1 hr with rfl | hr
      · exact hfresh.1
      · exact hnz r hr

theorem texInv_dev_free {w w1 : World} {buf buf1 : buffer_t} (hinv : TexInv w)
    (hrun : halide_opengl_dev_free buf w = Res.ok buf1 w1) :
    TexInv w1 ∧ (∀ r ∈ w1.ST.textures, r.id ≠ get_texture_id buf) ∧
    (get_texture_id buf ≠ 0 → ∃ r ∈ w.ST.textures, r.id = get_texture_id buf ∧
      (buf1.dev = 0 ↔ r.halide_allocated = true)) := by
  obtain ⟨hw, hnd, hnz⟩ := hinv
  by_cases htex : get_texture_id buf = 0
  · have : halide_opengl_dev_free buf w = Res.ok buf w := by
      simp [halide_opengl_dev_free, ASSERT_INITIALIZED, GLM.bind_apply, getST, halide_assert,
        hw.1, htex, GLM.ite_apply, GLM.pure_apply]
    rw [this] at hrun
    simp only [Res.ok.injEq] at hrun
    obtain ⟨_, rfl⟩ := hrun
    exact ⟨⟨hw, hnd, hnz⟩, fun r hr => htex ▸ hnz r hr, fun hne => absurd htex hne⟩
  · cases hfind : halide_opengl_find_texture w.ST.textures (get_texture_id buf) with
    | none =>
      have : (halide_opengl_dev_free buf w).returned = false := by
        simp [halide_opengl_dev_free, ASSERT_INITIALIZED, GLM.bind_apply, getST,
          halide_assert, hw.1, htex, GLM.ite_apply, modifyST, unlink_texture_none hfind,
          Res.returned]
      rw [hrun] at this
      exact absurd this (by simp [Res.returned])
    | some r =>
      have hid := find_texture_id hfind
      have hmem := find_texture_mem hfind
      have hdev := get_texture_id_ne_zero htex
      rw [dev_free_found hw htex hfind] at hrun
      have hno := erase_no_id hnd hmem
      rw [hid] at hno
      have hnd' : ((w.ST.textures.erase r).map (·.id)).Nodup :=
        hnd.sublist ((List.erase_sublist r w.ST.textures).map _)
      have hnz' : ∀ x ∈ w.ST.textures.erase r, x.id ≠ 0 :=
        fun x hx => hnz x (List.mem_of_mem_erase hx)
      by_cases hr : r.halide_allocated = true
      · simp only [hr, if_true, Res.ok.injEq] at hrun
        obtain ⟨rfl, rfl⟩ := hrun
        exact ⟨⟨⟨hw.1, hw.2⟩, hnd', hnz'⟩, hno, fun _ => ⟨r, hmem, hid, by simp [hr]⟩⟩
      · simp only [hr, if_false, Res.ok.injEq] at hrun
        obtain ⟨rfl, rfl⟩ := hrun
        exact ⟨⟨⟨hw.1, hw.2⟩, hnd', hnz'⟩, hno, fun _ => ⟨r, hmem, hid, by simp [hr, hdev]⟩⟩

theorem texInv_run_ops (h : Host) (ops : List TextureOp) :
    ∀ (bufs bufs1 : List buffer_t) (w w1 : World), TexInv w →
      disciplined h ops bufs w = true → run_ops h ops bufs w = Res.ok bufs1 w1 →
      TexInv w1 := by
  induction ops with
  | nil =>
    intro bufs bufs1 w w1 hinv _ hrun
    simp only [HalideGL.run_ops, GLM.pure_apply, Res.ok.injEq] at hrun
    exact hrun.2 ▸ hinv
  | cons op ops ih =>
    intro bufs bufs1 w w1 hinv hdisc hrun
    simp only [HalideGL.run_ops, GLM.bind_apply] at hrun
    simp only [disciplined, Bool.and_eq_true] at hdisc
    obtain ⟨hfresh, hrest⟩ := hdisc
    cases hop : run_op h op bufs w with
    | fail e w2 => simp [hop] at hrun
    | ok bufs2 w2 =>
      rw [hop] at hrun hrest
      refine ih bufs2 bufs1 w2 w1 ?_ hrest hrun
      cases op with
      | dev_malloc i =>
        simp only [run_op] at hop
        cases hb : bufs[i]? with
        | none =>
          simp only [hb, GLM.pure_apply, Res.ok.injEq] at hop
          exact hop.2 ▸ hinv
        | some buf =>
          simp only [hb, decide_eq_true_eq] at hfresh
          simp only [hb, GLM.bind_apply] at hop
          cases hm : halide_opengl_dev_malloc h buf w with
          | fail e w3 => simp [hm] at hop
          | ok buf1 w3 =>
            simp only [hm, GLM.pure_apply, Res.ok.injEq] at hop
            exact hop.2 ▸ texInv_dev_malloc h hinv hfresh hm
      | dev_free i =>
        simp only [run_op] at hop
        cases hb : bufs[i]? with
        | none =>
          simp only [hb, GLM.pure_apply, Res.ok.injEq] at hop
          exact hop.2 ▸ hinv
        | some buf =>
          simp only [hb, GLM.bind_apply] at hop
          cases hm : halide_opengl_dev_free buf w with
          | fail e w3 => simp [hm] at hop
          | ok buf1 w3 =>
            simp only [hm, GLM.pure_apply, Res.ok.injEq] at hop
            exact hop.2 ▸ (texInv_dev_free hinv hm).1

/-- C5, as stated, fails for a sequence that passes the same buffer to
`dev_malloc` twice. With a host texture 7: after `dev_malloc`, `dev_malloc`,
`dev_free` the registry still holds a record with the handle 7. With a
buffer the runtime allocates for: the second `dev_malloc` records the
texture again, as not allocated by the runtime, so `dev_free` leaves the
device slot non-zero although the runtime allocated the texture, and a
record with its handle remains. -/
theorem dev_free_after_double_malloc_counterexample :
    readyWorld.ST.textures = [] ∧
    (run_ops sampleHost
      [TextureOp.dev_malloc 0, TextureOp.dev_malloc 0, TextureOp.dev_free 0]
      [hostTextureBuffer] readyWorld).returned = true ∧
    (run_ops sampleHost
      [TextureOp.dev_malloc 0, TextureOp.dev_malloc 0, TextureOp.dev_free 0]
      [hostTextureBuffer] readyWorld).world.ST.textures.map (·.id) =
        [get_texture_id hostTextureBuffer] ∧
    (run_ops sampleHost
      [TextureOp.dev_malloc 0, TextureOp.dev_malloc 0, TextureOp.dev_free 0]
      [sampleBuffer] readyWorld).returned = true ∧
    (run_ops sampleHost [TextureOp.dev_malloc 0] [sampleBuffer] readyWorld).world.ST.textures.map
      (fun r => (r.id, r.halide_allocated)) = [(1, true)] ∧
    (run_ops sampleHost
      [TextureOp.dev_malloc 0, TextureOp.dev_malloc 0, TextureOp.dev_free 0]
      [sampleBuffer] readyWorld).val?.map (fun bufs => bufs.map (·.dev)) = some [1] ∧
    (run_ops sampleHost
      [TextureOp.dev_malloc 0, TextureOp.dev_malloc 0, TextureOp.dev_free 0]
      [sampleBuffer] readyWorld).world.ST.textures.map
      (fun r => (r.id, r.halide_allocated)) = [(1, true)] := by
  decide!


/-! ### The fuel of the two loops is never used up -/

theorem strchr_length {s t : List Char} {c : Char} (h : strchr s c = some t) :
    0 < t.length ∧ t.length ≤ s.length := by
  induction s with
  | nil => simp [strchr] at h
  | cons x xs ih =>
    simp only [strchr] at h
    by_cases hx : x = c
    · simp only [hx, if_true, Option.some.injEq] at h
      subst h
      simp
    · simp only [hx, if_false] at h
      have := ih h
      simp only [List.length_cons]
      omega

theorem strstr_length {s m t : List Char} (h : strstr s m = some t) :
    t.length ≤ s.length := by
  induction s with
  | nil =>
    simp only [strstr] at h
    split at h
    · simp only [Option.some.injEq] at h
      subst h
      simp
    · simp at h
  | cons x xs ih =>
    simp only [strstr] at h
    split at h
    · simp only [Option.some.injEq] at h
      subst h
      simp
    · have := ih h
      simp only [List.length_cons]
      omega

/-- More fuel than the length of the text left does not change what the
header loop of `create_kernel` returns: the fuel it is given is never used
up. -/
theorem create_kernel_loop_fuel :
    ∀ (fuel1 fuel2 : Nat) (line : List Char) (name : Option (List Char))
      (arguments : List HalideOpenGLArgument),
      line.length < fuel1 → line.length < fuel2 →
      create_kernel_loop fuel1 line name arguments =
        create_kernel_loop fuel2 line name arguments := by
  intro fuel1
  induction fuel1 with
  | zero => intro fuel2 line name arguments h1; omega
  | succ fuel1 ih =>
    intro fuel2 line name arguments h1 h2
    obtain ⟨fuel2, rfl⟩ := Nat.exists_eq_succ_of_ne_zero
      (Nat.ne_of_gt (Nat.lt_of_le_of_lt (Nat.zero_le _) h2))
    have hstep : ∀ (nl : List Char) (nm : Option (List Char))
        (args : List HalideOpenGLArgument), strchr line '\n' = some nl →
        create_kernel_loop fuel1 (nl.drop 1) nm args =
          create_kernel_loop fuel2 (nl.drop 1) nm args := by
      intro nl nm args hnl
      have := strchr_length hnl
      have hlen : (nl.drop 1).length < line.length := by
        simp only [List.length_drop]
        omega
      exact ih fuel2 _ _ _ (by omega) (by omega)
    rw [create_kernel_loop, create_kernel_loop]
    split
    · rfl
    · split
      · cases hnl : strchr line '\n' with
        | none => rfl
        | some nl => exact hstep nl _ _ hnl
      · split
        · cases hnl : strchr line '\n' with
          | none => rfl
          | some nl =>
            dsimp only
            split
            · rfl
            · exact hstep nl _ _ hnl
        · split
          · cases hnl : strchr line '\n' with
            | none => rfl
            | some nl =>
              dsimp only
              split
              · rfl
              · exact hstep nl _ _ hnl
          · rfl

/-- More fuel than the length of the source left does not change what the
loop of `halide_opengl_init_kernels` does: the fuel it is given is never
used up. -/
theorem init_kernels_loop_fuel (h : Host) :
    ∀ (fuel1 fuel2 : Nat) (begin : List Char) (w : World),
      begin.length < fuel1 → begin.length < fuel2 →
      init_kernels_loop h fuel1 begin w = init_kernels_loop h fuel2 begin w := by
  intro fuel1
  induction fuel1 with
  | zero => intro fuel2 begin w h1; omega
  | succ fuel1 ih =>
    intro fuel2 begin w h1 h2
    obtain ⟨fuel2, rfl⟩ := Nat.exists_eq_succ_of_ne_zero
      (Nat.ne_of_gt (Nat.lt_of_le_of_lt (Nat.zero_le _) h2))
    by_cases hb : begin = []
    · simp [init_kernels_loop, hb]
    · have hpos : 0 < begin.length := List.length_pos.2 hb
      have hlen : ((strstr (begin.drop kernel_marker.length) kernel_marker).getD []).length <
          begin.length := by
        cases hs : strstr (begin.drop kernel_marker.length) kernel_marker with
        | none => simpa using hpos
        | some t =>
          have := strstr_length hs
          simp only [List.length_drop, kernel_marker, List.length_cons, List.length_nil] at this
          simp only [Option.getD_some]
          omega
      simp only [init_kernels_loop, hb, if_false, GLM.bind_apply]
      cases liftExcept (create_kernel begin (begin.length -
          ((strstr (begin.drop kernel_marker.length) kernel_marker).getD []).length)) w with
      | fail e w1 => rfl
      | ok kernel w1 =>
        dsimp only
        cases register_kernel h kernel w1 with
        | fail e w2 => rfl
        | ok u w2 => exact ih fuel2 _ w2 (by omega) (by omega)

/-- From the state before any call, with a host that resolves every driver
function, `init` returns with an initialized runtime and empty
registries. -/
theorem init_from_fresh_is_ready :
    (halide_opengl_init sampleHost freshWorld).returned = true ∧
    Ready (halide_opengl_init sampleHost freshWorld).world ∧
    (halide_opengl_init sampleHost freshWorld).world.ST.kernels = [] ∧
    (halide_opengl_init sampleHost freshWorld).world.ST.textures = [] := by
  decide!


/-! ### Launching a kernel that is not registered -/

/-- C11. In an initialized runtime, for every entry name that no registered
kernel has and every list of actuals, `dev_run` returns, and the world it
returns in is the world it started in with one more diagnostic line, naming
the entry, on the output: the runtime state and the driver calls are what
they were. -/
theorem dev_run_unknown_entry (h : Host) (w : World) (entry_name : List Char) (args : List Nat)
    (hinit : w.ST.initialized = true)
    (hname : ∀ k ∈ w.ST.kernels, k.name ≠ entry_name) :
    halide_opengl_dev_run h entry_name args w =
      Res.ok () { w with
        out := ⟨"Could not find a kernel named '%s'\n", [.str entry_name]⟩ :: w.out } := by
  have hfind : halide_opengl_find_kernel w.ST.kernels entry_name = none := by
    rw [find_kernel_none]
    intro hmem
    obtain ⟨k, hk, hkn⟩ := List.mem_map.1 hmem
    exact hname k hk hkn
  simp [halide_opengl_dev_run, ASSERT_INITIALIZED, GLM.bind_apply, getST, halide_assert,
    hinit, GLM.pure_apply, hfind, halide_printf]

theorem dev_run_unknown_entry_witness :
    kernelWorld.ST.initialized = true ∧
    (∀ k ∈ kernelWorld.ST.kernels, k.name ≠ ['q']) ∧
    halide_opengl_dev_run sampleHost ['q'] [5, 7] kernelWorld =
      Res.ok () { kernelWorld with
        out := ⟨"Could not find a kernel named '%s'\n", [.str ['q']]⟩ :: kernelWorld.out } :=
  ⟨by decide, by decide,
    dev_run_unknown_entry sampleHost kernelWorld ['q'] [5, 7] (by decide) (by decide)⟩

/-! ### The buffers the two transfers accept -/

theorem copy_to_dev_outcome {w : World} {buf : buffer_t} (hw : Ready w)
    (hhost : buf.host ≠ none) (hdev : buf.dev ≠ 0) (hhd : buf.host_dirty = true) :
    (halide_opengl_copy_to_dev buf w).returned = false ↔
      ¬ (buf.stride.2.2.1 = 1 ∧ buf.stride.1 = buf.extent.2.2.1) ∨
        4 < buf.extent.2.2.1 ∨ 1 < buf.extent.2.2.2 := by
  have hh : buf.host.isSome = true := by
    cases hb : buf.host with
    | none => exact absurd hb hhost
    | some d => rfl
  by_cases hc1 : buf.stride.2.2.1 = 1 <;> by_cases hc2 : buf.stride.1 = buf.extent.2.2.1 <;>
    by_cases h2 : buf.extent.2.2.1 ≤ 4 <;> by_cases h3 : buf.extent.2.2.2 ≤ 1 <;>
    simp [halide_opengl_copy_to_dev, ASSERT_INITIALIZED, GLM.bind_apply, getST, halide_assert,
      hw.1, GLM.ite_apply, GLM.pure_apply, hhd, hh, hdev, hc1, hc2, halide_printf,
      check_buffer_properties, h2, h3, glCall, hw.proc, Res.returned] <;> omega

theorem copy_to_host_outcome (h : Host) {w : World} {buf : buffer_t} (hw : Ready w)
    (hhost : buf.host ≠ none) (hdev : buf.dev ≠ 0) (hdd : buf.dev_dirty = true) :
    (halide_opengl_copy_to_host h buf w).returned = false ↔
      ¬ (buf.stride.2.2.1 = 1 ∧ buf.stride.1 = buf.extent.2.2.1) := by
  have hh : buf.host.isSome = true := by
    cases hb : buf.host with
    | none => exact absurd hb hhost
    | some d => rfl
  by_cases hc1 : buf.stride.2.2.1 = 1 <;> by_cases hc2 : buf.stride.1 = buf.extent.2.2.1 <;>
    simp [halide_opengl_copy_to_host, ASSERT_INITIALIZED, GLM.bind_apply, getST, halide_assert,
      hw.1, GLM.ite_apply, GLM.pure_apply, hdd, hh, hdev, hc1, hc2,
      glCall, glCallData, hw.proc, Res.returned]

/-- C14 (amended). In an initialized runtime, for every buffer with a
non-null host pointer and a non-zero device slot: `copy_to_host` on it with
`dev_dirty` set fails exactly when it is not gl-compatible (`stride[2] = 1`
and `stride[0] = extent[2]`); `copy_to_dev` on it with `host_dirty` set
fails exactly when it is not gl-compatible or its third extent exceeds 4 or
its fourth extent exceeds 1; so `copy_to_dev` fails whenever `copy_to_host`
does, and the two agree on every buffer with at most 4 channels and a fourth
extent of at most 1. -/
theorem copy_to_host_accepts_what_copy_to_dev_accepts (h : Host) (w : World) (b : buffer_t)
    (hw : Ready w) (hhost : b.host ≠ none) (hdev : b.dev ≠ 0) :
    ((halide_opengl_copy_to_host h { b with dev_dirty := true } w).returned = false ↔
      ¬ (b.stride.2.2.1 = 1 ∧ b.stride.1 = b.extent.2.2.1)) ∧
    ((halide_opengl_copy_to_dev { b with host_dirty := true } w).returned = false ↔
      ¬ (b.stride.2.2.1 = 1 ∧ b.stride.1 = b.extent.2.2.1) ∨
        4 < b.extent.2.2.1 ∨ 1 < b.extent.2.2.2) ∧
    ((halide_opengl_copy_to_host h { b with dev_dirty := true } w).returned = false →
      (halide_opengl_copy_to_dev { b with host_dirty := true } w).returned = false) ∧
    (b.extent.2.2.1 ≤ 4 → b.extent.2.2.2 ≤ 1 →
      ((halide_opengl_copy_to_host h { b with dev_dirty := true } w).returned = false ↔
        (halide_opengl_copy_to_dev { b with host_dirty := true } w).returned = false)) := by
  have hH := @copy_to_host_outcome h w { b with dev_dirty := true } hw hhost hdev rfl
  have hD := @copy_to_dev_outcome w { b with host_dirty := true } hw hhost hdev rfl
  refine ⟨hH, hD, fun hf => hD.2 (Or.inl (hH.1 hf)), fun h2 h3 => ?_⟩
  rw [hH, hD]
  constructor
  · exact fun hc => Or.inl hc
  · rintro (hc | h4 | h1)
    · exact hc
    · exact absurd h2 (not_le.2 h4)
    · exact absurd h3 (not_le.2 h1)

theorem copy_to_host_accepts_what_copy_to_dev_accepts_witness :
    Ready readyWorld ∧ hostTextureBuffer.host ≠ none ∧ hostTextureBuffer.dev ≠ 0 ∧
    ((halide_opengl_copy_to_host sampleHost
        { hostTextureBuffer with dev_dirty := true } readyWorld).returned = false ↔
      ¬ (hostTextureBuffer.stride.2.2.1 = 1 ∧
        hostTextureBuffer.stride.1 = hostTextureBuffer.extent.2.2.1)) ∧
    ((halide_opengl_copy_to_dev
        { hostTextureBuffer with host_dirty := true } readyWorld).returned = false ↔
      ¬ (hostTextureBuffer.stride.2.2.1 = 1 ∧
        hostTextureBuffer.stride.1 = hostTextureBuffer.extent.2.2.1) ∨
        4 < hostTextureBuffer.extent.2.2.1 ∨ 1 < hostTextureBuffer.extent.2.2.2) ∧
    ((halide_opengl_copy_to_host sampleHost
        { hostTextureBuffer with dev_dirty := true } readyWorld).returned = false →
      (halide_opengl_copy_to_dev
        { hostTextureBuffer with host_dirty := true } readyWorld).returned = false) ∧
    (hostTextureBuffer.extent.2.2.1 ≤ 4 → hostTextureBuffer.extent.2.2.2 ≤ 1 →
      ((halide_opengl_copy_to_host sampleHost
          { hostTextureBuffer with dev_dirty := true } readyWorld).returned = false ↔
        (halide_opengl_copy_to_dev
          { hostTextureBuffer with host_dirty := true } readyWorld).returned = false)) :=
  ⟨by decide, by decide, by decide,
    copy_to_host_accepts_what_copy_to_dev_accepts sampleHost readyWorld hostTextureBuffer
      (by decide) (by decide) (by decide)⟩

/-- C14, as stated, fails: the buffer of five interleaved channels has a
non-null host pointer and a non-zero device slot and is gl-compatible;
`copy_to_host` on it with `dev_dirty` set returns, while `copy_to_dev` on it
with `host_dirty` set aborts in `check_buffer_properties`. -/
theorem copy_to_host_five_channels_counterexample :
    Ready readyWorld ∧ fiveChannelBuffer.host ≠ none ∧ fiveChannelBuffer.dev ≠ 0 ∧
    (fiveChannelBuffer.stride.2.2.1 = 1 ∧
      fiveChannelBuffer.stride.1 = fiveChannelBuffer.extent.2.2.1) ∧
    (halide_opengl_copy_to_host sampleHost
      { fiveChannelBuffer with dev_dirty := true } readyWorld).returned = true ∧
    (halide_opengl_copy_to_dev
      { fiveChannelBuffer with host_dirty := true } readyWorld).returned = false ∧
    (halide_opengl_copy_to_dev
      { fiveChannelBuffer with host_dirty := true } readyWorld).failure? =
      some (Failure.assertion "Only up to 4 color channels are supported") := by
  decide!


/-! ### The output of a launch -/

theorem output_actuals_cons (k : HalideOpenGLArgument) (next : List HalideOpenGLArgument)
    (a : Nat) (rest : List Nat) :
    output_actuals (k :: next) (a :: rest) =
      if k.is_output then a :: output_actuals next rest else output_actuals next rest := by
  by_cases hk : k.is_output = true <;> simp [output_actuals, hk]

theorem dev_run_outputs_no_output : ∀ (args : List Nat) (ka : List HalideOpenGLArgument)
    (g : OutputGeometry) (w : World), args.length ≤ ka.length →
    output_actuals ka args = [] → dev_run_outputs args ka g w = Res.ok g w := by
  intro args
  induction args with
  | nil =>
    intro ka g w _ _
    simp [dev_run_outputs, GLM.pure_apply]
  | cons a rest ih =>
    intro ka g w hlen hout
    cases ka with
    | nil => simp at hlen
    | cons k next =>
      rw [output_actuals_cons] at hout
      by_cases hk : k.is_output = true
      · simp [hk] at hout
      · simp only [hk, if_false, Bool.false_eq_true] at hout
        simp only [dev_run_outputs, hk, Bool.not_false, Bool.false_eq_true, if_true,
          Bool.not_eq_true', Bool.not_eq_true]
        simpa [hk] using ih next g w (by simpa using hlen) hout

theorem dev_run_outputs_second_output : ∀ (args : List Nat) (ka : List HalideOpenGLArgument)
    (g : OutputGeometry) (w : World), 1 ≤ g.num_output_textures →
    output_actuals ka args ≠ [] →
    dev_run_outputs args ka g w = Res.fail Failure.crash w ∨
    dev_run_outputs args ka g w =
      Res.fail (Failure.assertion "OpenGL ES 2.0 only supports one single output texture") w := by
  intro args
  induction args with
  | nil =>
    intro ka g w _ hout
    simp [output_actuals] at hout
  | cons a rest ih =>
    intro ka g w hg hout
    cases ka with
    | nil => simp [output_actuals] at hout
    | cons k next =>
      rw [output_actuals_cons] at hout
      by_cases hk : k.is_output = true
      · right
        have hg2 : g.num_output_textures ≥ 1 := hg
        simp [dev_run_outputs, hk, GLM.bind_apply, hg2, halide_assert]
      · simp only [hk, if_false, Bool.false_eq_true] at hout
        have := ih next g w hg hout
        simpa [dev_run_outputs, hk] using this

theorem dev_run_outputs_first_output (a : Nat) (rest : List Nat) (k : HalideOpenGLArgument)
    (next : List HalideOpenGLArgument) (g : OutputGeometry) (w : World) (hw : Ready w)
    (hk : k.is_output = true) (hg : g.num_output_textures = 0) :
    dev_run_outputs (a :: rest) (k :: next) g w =
      match halide_opengl_find_texture w.ST.textures a with
      | none => Res.fail (Failure.assertion "Undefined output texture")
          ⟨w.ST, attach_call a :: w.gl, ⟨"Output texture %d: %d\n", [.n 0, .n a]⟩ :: w.out⟩
      | some t => dev_run_outputs rest next
          ⟨1, (t.min.1, t.min.2.1), (t.extent.1, t.extent.2.1)⟩
          ⟨w.ST, attach_call a :: w.gl, ⟨"Output texture %d: %d\n", [.n 0, .n a]⟩ :: w.out⟩ := by
  simp only [dev_run_outputs, hk, Bool.not_true, Bool.false_eq_true, if_false, hg,
    GLM.bind_apply, GLM.ite_apply, GLM.pure_apply, halide_printf, glCall, hw.proc, if_true,
    getST, ge_iff_le, Int.reduceLE, add_zero, zero_add, attach_call]
  cases halide_opengl_find_texture w.ST.textures a with
  | none => simp [GLM.bind_apply, halide_assert]
  | some t => rfl

theorem dev_run_outputs_outcome : ∀ (args : List Nat) (ka : List HalideOpenGLArgument)
    (g : OutputGeometry) (w : World), Ready w → args.length ≤ ka.length →
    g.num_output_textures = 0 →
    (∀ a, output_actuals ka args = [a] →
      (∀ t, halide_opengl_find_texture w.ST.textures a = some t →
        dev_run_outputs args ka g w =
          Res.ok ⟨1, (t.min.1, t.min.2.1), (t.extent.1, t.extent.2.1)⟩
            ⟨w.ST, attach_call a :: w.gl,
              ⟨"Output texture %d: %d\n", [.n 0, .n a]⟩ :: w.out⟩) ∧
      (halide_opengl_find_texture w.ST.textures a = none →
        dev_run_outputs args ka g w =
          Res.fail (Failure.assertion "Undefined output texture")
            ⟨w.ST, attach_call a :: w.gl,
              ⟨"Output texture %d: %d\n", [.n 0, .n a]⟩ :: w.out⟩)) ∧
    (2 ≤ (output_actuals ka args).length →
      (dev_run_outputs args ka g w).returned = false) := by
  intro args
  induction args with
  | nil =>
    intro ka g w _ _ _
    simp [output_actuals]
  | cons a rest ih =>
    intro ka g w hw hlen hg
    cases ka with
    | nil => simp at hlen
    | cons k next =>
      have hlen1 : rest.length ≤ next.length := by simpa using hlen
      rw [output_actuals_cons]
      by_cases hk : k.is_output = true
      · simp only [hk, if_true]
        rw [dev_run_outputs_first_output a rest k next g w hw hk hg]
        constructor
        · intro a1 ha1
          simp only [List.cons.injEq] at ha1
          obtain ⟨rfl, hrest⟩ := ha1
          constructor
          · intro t ht
            simp only [ht]
            exact dev_run_outputs_no_output rest next _ _ hlen1 hrest
          · intro hnone
            simp only [hnone]
        · intro h2
          have hne : output_actuals next rest ≠ [] := by
            intro hnil
            simp [hnil] at h2
          cases halide_opengl_find_texture w.ST.textures a with
          | none => rfl
          | some t =>
            simp only
            rcases dev_run_outputs_second_output rest next
              ⟨1, (t.min.1, t.min.2.1), (t.extent.1, t.extent.2.1)⟩
              ⟨w.ST, attach_call a :: w.gl,
                ⟨"Output texture %d: %d\n", [.n 0, .n a]⟩ :: w.out⟩ (le_refl _) hne
              with h1 | h1 <;> rw [h1] <;> rfl
      · simp only [hk, if_false, Bool.false_eq_true]
        have hstep : dev_run_outputs (a :: rest) (k :: next) g w =
            dev_run_outputs rest next g w := by
          simp [dev_run_outputs, hk]
        rw [hstep]
        exact ih next g w hw hlen1 hg

theorem dev_run_cleanup_outcome (count : Nat) : ∀ (i : Int) (w : World), Ready w →
    dev_run_cleanup count i w = Res.ok () ⟨w.ST, cleanup_calls count i ++ w.gl, w.out⟩ := by
  induction count with
  | zero =>
    intro i w _
    simp [dev_run_cleanup, GLM.pure_apply, cleanup_calls]
  | succ count ih =>
    intro i w hw
    simp only [dev_run_cleanup, GLM.bind_apply, glCall, hw.proc, if_true]
    rw [ih (i + 1) ⟨w.ST, ⟨.BindTexture, [.n GL_TEXTURE_2D, .n 0]⟩ ::
      ⟨.ActiveTexture, [.n (GL_TEXTURE0 + i)]⟩ :: w.gl, w.out⟩ (hw.of_ST rfl)]
    simp [cleanup_calls]

theorem cleanup_calls_fn (count : Nat) : ∀ (i : Int), ∀ c ∈ cleanup_calls count i,
    c.fn = GLFunc.ActiveTexture ∨ c.fn = GLFunc.BindTexture := by
  induction count with
  | zero =>
    intro i c hc
    simp [cleanup_calls] at hc
  | succ count ih =>
    intro i c hc
    simp only [cleanup_calls, List.mem_append, List.mem_cons, List.mem_singleton,
      List.not_mem_nil, or_false] at hc
    rcases hc with hc | rfl | rfl
    · exact ih _ c hc
    · exact Or.inr rfl
    · exact Or.inl rfl

theorem dev_run_render_no_output (h : Host) (kernel : HalideOpenGLKernel) (args : List Nat)
    (n : Int) (w : World) (hw : Ready w) (hlen : args.length ≤ kernel.arguments.length)
    (hout : output_actuals kernel.arguments args = []) :
    dev_run_render h kernel args n w =
      Res.ok () ⟨w.ST,
        ⟨.Disable, [.n GL_DEPTH_TEST]⟩ :: ⟨.Disable, [.n GL_CULL_FACE]⟩ ::
          ⟨.BindFramebuffer, [.n GL_FRAMEBUFFER, .n w.ST.framebuffer_id]⟩ :: w.gl,
        ⟨"Warning: kernel '%s' has no output\n", [.str kernel.name]⟩ :: w.out⟩ := by
  simp only [dev_run_render, GLM.bind_apply, getST, glCall, hw.proc, if_true]
  rw [dev_run_outputs_no_output args kernel.arguments _ _ hlen hout]
  simp [GLM.ite_apply, GLM.bind_apply, halide_printf, GLM.pure_apply]

theorem dev_run_render_two_outputs (h : Host) (kernel : HalideOpenGLKernel) (args : List Nat)
    (n : Int) (w : World) (hw : Ready w) (hlen : args.length ≤ kernel.arguments.length)
    (hout : 2 ≤ (output_actuals kernel.arguments args).length) :
    (dev_run_render h kernel args n w).returned = false := by
  simp only [dev_run_render, GLM.bind_apply, getST, glCall, hw.proc, if_true]
  have := (dev_run_outputs_outcome args kernel.arguments ⟨0, (0, 0), (0, 0)⟩
    ⟨w.ST, ⟨.Disable, [.n GL_DEPTH_TEST]⟩ :: ⟨.Disable, [.n GL_CULL_FACE]⟩ ::
          ⟨.BindFramebuffer, [.n GL_FRAMEBUFFER, .n w.ST.framebuffer_id]⟩ :: w.gl, w.out⟩
    (hw.of_ST rfl) hlen rfl).2 hout
  revert this
  cases dev_run_outputs args kernel.arguments ⟨0, (0, 0), (0, 0)⟩
    ⟨w.ST, ⟨.Disable, [.n GL_DEPTH_TEST]⟩ :: ⟨.Disable, [.n GL_CULL_FACE]⟩ ::
          ⟨.BindFramebuffer, [.n GL_FRAMEBUFFER, .n w.ST.framebuffer_id]⟩ :: w.gl, w.out⟩ with
  | ok g w1 => simp [Res.returned]
  | fail e w1 => simp [Res.returned]

theorem dev_run_render_one_output (h : Host) (kernel : HalideOpenGLKernel) (args : List Nat)
    (n : Int) (w : World) (hw : Ready w) (hlen : args.length ≤ kernel.arguments.length)
    (a : Nat) (t : HalideOpenGLTexture)
    (hout : output_actuals kernel.arguments args = [a])
    (ht : halide_opengl_find_texture w.ST.textures a = some t) :
    (dev_run_render h kernel args n w).returned = true ∧
      ((dev_run_render h kernel args n w).world.gl =
          [⟨.CheckFramebufferStatus, [.n GL_FRAMEBUFFER]⟩,
            ⟨.DrawBuffers, [.n 1, .arr (some [GL_COLOR_ATTACHMENT0])]⟩] ++
          attach_call a :: ⟨.Disable, [.n GL_DEPTH_TEST]⟩ :: ⟨.Disable, [.n GL_CULL_FACE]⟩ ::
          ⟨.BindFramebuffer, [.n GL_FRAMEBUFFER, .n w.ST.framebuffer_id]⟩ :: w.gl ∨
        ∃ locE locM pos, (dev_run_render h kernel args n w).world.gl =
          ⟨.BindFramebuffer, [.n GL_FRAMEBUFFER, .n 0]⟩ :: cleanup_calls n.toNat 0 ++
            [⟨.DisableVertexAttribArray, [.n pos]⟩,
             ⟨.DrawElements, [.n GL_TRIANGLE_STRIP, .n 4, .n GL_UNSIGNED_INT, .arr none]⟩,
             ⟨.BindBuffer, [.n GL_ELEMENT_ARRAY_BUFFER, .n w.ST.element_buffer]⟩,
             ⟨.EnableVertexAttribArray, [.n pos]⟩,
             ⟨.VertexAttribPointer, [.n pos, .n 2, .n GL_FLOAT, .n GL_FALSE, .n 8, .arr none]⟩,
             ⟨.BindBuffer, [.n GL_ARRAY_BUFFER, .n w.ST.vertex_buffer]⟩,
             ⟨.GetAttribLocation, [.n kernel.program_id, .str "position".toList]⟩,
             ⟨.Viewport, [.n 0, .n 0, .n t.extent.1, .n t.extent.2.1]⟩,
             ⟨.Ortho, [.n (-1), .n 1, .n (-1), .n 1, .n 1, .n (-1)]⟩,
             ⟨.LoadIdentity, []⟩,
             ⟨.MatrixMode, [.n GL_PROJECTION]⟩,
             ⟨.LoadIdentity, []⟩,
             ⟨.MatrixMode, [.n GL_MODELVIEW]⟩,
             ⟨.Uniform2iv, [.n locM, .n 1, .arr (some [t.min.1, t.min.2.1])]⟩,
             ⟨.GetUniformLocation, [.n kernel.program_id, .str "output_min".toList]⟩,
             ⟨.Uniform2iv, [.n locE, .n 1, .arr (some [t.extent.1, t.extent.2.1])]⟩,
             ⟨.GetUniformLocation, [.n kernel.program_id, .str "output_extent".toList]⟩,
             ⟨.CheckFramebufferStatus, [.n GL_FRAMEBUFFER]⟩,
             ⟨.DrawBuffers, [.n 1, .arr (some [GL_COLOR_ATTACHMENT0])]⟩] ++
          attach_call a :: ⟨.Disable, [.n GL_DEPTH_TEST]⟩ :: ⟨.Disable, [.n GL_CULL_FACE]⟩ ::
          ⟨.BindFramebuffer, [.n GL_FRAMEBUFFER, .n w.ST.framebuffer_id]⟩ :: w.gl) := by
  have hrange : List.map (fun i => GL_COLOR_ATTACHMENT0 + i)
      ((List.range (Int.toNat 1)).flatMap fun a : Nat => [(a : Int)]) = [GL_COLOR_ATTACHMENT0] := by
    decide
  simp only [dev_run_render, GLM.bind_apply, getST, glCall, hw.proc, if_true]
  rw [((dev_run_outputs_outcome args kernel.arguments ⟨0, (0, 0), (0, 0)⟩
    ⟨w.ST, ⟨.Disable, [.n GL_DEPTH_TEST]⟩ :: ⟨.Disable, [.n GL_CULL_FACE]⟩ ::
          ⟨.BindFramebuffer, [.n GL_FRAMEBUFFER, .n w.ST.framebuffer_id]⟩ :: w.gl, w.out⟩
    (hw.of_ST rfl) hlen rfl).1 a hout).1 t ht]
  simp only [GLM.ite_apply, GLM.bind_apply, glCall, glCallI, hw.proc, if_true, one_ne_zero,
    if_false, halide_printf, GLM.pure_apply, List.map_eq_map, List.bind_eq_flatMap,
    List.pure_def, List.flatMap_singleton', hrange]
  split
  · exact ⟨rfl, Or.inl rfl⟩
  · rw [dev_run_cleanup_outcome]
    swap
    · exact hw.of_ST rfl
    simp only [hw.proc, if_true, Res.world, Res.returned]
    refine ⟨trivial, Or.inr ?_⟩
    apply Exists.intro
    apply Exists.intro
    apply Exists.intro
    simp only [List.cons_append, List.append_assoc, List.nil_append, List.singleton_append]
    rfl

theorem dev_run_render_undefined_output (h : Host) (kernel : HalideOpenGLKernel)
    (args : List Nat) (n : Int) (w : World) (hw : Ready w)
    (hlen : args.length ≤ kernel.arguments.length) (a : Nat)
    (hout : output_actuals kernel.arguments args = [a])
    (ht : halide_opengl_find_texture w.ST.textures a = none) :
    dev_run_render h kernel args n w =
      Res.fail (Failure.assertion "Undefined output texture")
        ⟨w.ST, attach_call a :: ⟨.Disable, [.n GL_DEPTH_TEST]⟩ ::
          ⟨.Disable, [.n GL_CULL_FACE]⟩ ::
          ⟨.BindFramebuffer, [.n GL_FRAMEBUFFER, .n w.ST.framebuffer_id]⟩ :: w.gl,
          ⟨"Output texture %d: %d\n", [.n 0, .n a]⟩ :: w.out⟩ := by
  simp only [dev_run_render, GLM.bind_apply, getST, glCall, hw.proc, if_true]
  rw [((dev_run_outputs_outcome args kernel.arguments ⟨0, (0, 0), (0, 0)⟩
    ⟨w.ST, ⟨.Disable, [.n GL_DEPTH_TEST]⟩ :: ⟨.Disable, [.n GL_CULL_FACE]⟩ ::
          ⟨.BindFramebuffer, [.n GL_FRAMEBUFFER, .n w.ST.framebuffer_id]⟩ :: w.gl, w.out⟩
    (hw.of_ST rfl) hlen rfl).1 a hout).2 ht]

theorem output_actuals_length : ∀ (ka : List HalideOpenGLArgument) (args : List Nat),
    args.length = ka.length →
    (output_actuals ka args).length = (ka.filter fun k => k.is_output).length := by
  intro ka
  induction ka with
  | nil =>
    intro args _
    simp [output_actuals]
  | cons k next ih =>
    intro args hlen
    cases args with
    | nil => simp at hlen
    | cons a rest =>
      rw [output_actuals_cons]
      by_cases hk : k.is_output = true
      · simp [hk, ih rest (by simpa using hlen)]
      · simp [hk, ih rest (by simpa using hlen)]

theorem emits_dev_run_inputs_fns (h : Host) (kernel : HalideOpenGLKernel) (args : List Nat) :
    ∀ (i : Nat) (kernel_arg : List HalideOpenGLArgument) (n : Int),
      Emits (fun c => c.fn = GLFunc.GetUniformLocation ∨ c.fn = GLFunc.Uniform1iv ∨
          c.fn = GLFunc.Uniform1fv ∨ c.fn = GLFunc.ActiveTexture ∨ c.fn = GLFunc.BindTexture)
        (dev_run_inputs h kernel args i kernel_arg n) := by
  induction args with
  | nil =>
    intro i kernel_arg n
    unfold HalideGL.dev_run_inputs
    exact emits_pure _
  | cons a rest ih =>
    intro i kernel_arg n
    cases kernel_arg with
    | nil =>
      unfold HalideGL.dev_run_inputs
      exact emits_bind (emits_halide_assert _ _) fun _ => emits_pure _
    | cons ka next =>
      unfold HalideGL.dev_run_inputs
      refine emits_ite (ih _ _ _) ?_
      refine emits_bind (emits_glCallI h (by simp)) fun loc => ?_
      refine emits_ite ?_ (emits_bind (emits_halide_printf _ _) fun _ => ih _ _ _)
      refine emits_ite ?_ (emits_ite ?_ (emits_ite ?_ ?_))
      · exact emits_bind (emits_halide_printf _ _) fun _ =>
          emits_bind (emits_glCall (by simp)) fun _ => ih _ _ _
      · exact emits_bind (emits_halide_printf _ _) fun _ =>
          emits_bind (emits_glCall (by simp)) fun _ => ih _ _ _
      · exact emits_bind (emits_halide_printf _ _) fun _ =>
          emits_bind (emits_glCall (by simp)) fun _ =>
          emits_bind (emits_glCall (by simp)) fun _ =>
          emits_bind (emits_glCall (by simp)) fun _ => ih _ _ _
      · exact emits_bind (emits_halide_printf _ _) fun _ =>
          emits_bind (emits_halide_assert _ _) fun _ => ih _ _ _

/-- What `dev_run` has done when it reaches the framebuffer setup, for a
registered kernel called with as many actuals as it declares arguments. -/
theorem dev_run_reaches_render (h : Host) (w : World) (entry_name : List Char)
    (kernel : HalideOpenGLKernel) (args : List Nat) (hw : Ready w)
    (hfind : halide_opengl_find_kernel w.ST.kernels entry_name = some kernel)
    (hvalid : ∀ a ∈ kernel.arguments, ValidArgType a.type)
    (hlen : args.length = kernel.arguments.length) :
    ∃ n1 w1 added1, halide_opengl_dev_run h entry_name args w =
        dev_run_render h kernel args n1 w1 ∧ Ready w1 ∧ w1.ST = w.ST ∧
      w1.gl = added1 ++ ⟨.UseProgram, [.n kernel.program_id]⟩ :: w.gl ∧
      ∀ c ∈ added1, c.fn = GLFunc.GetUniformLocation ∨ c.fn = GLFunc.Uniform1iv ∨
          c.fn = GLFunc.Uniform1fv ∨ c.fn = GLFunc.ActiveTexture ∨ c.fn = GLFunc.BindTexture := by
  have hw0 : Ready { w with gl := ⟨.UseProgram, [.n kernel.program_id]⟩ :: w.gl } :=
    hw.of_ST rfl
  obtain ⟨added1, hgl1, hP1⟩ := emits_dev_run_inputs_fns h kernel args 0 kernel.arguments 0
    { w with gl := ⟨.UseProgram, [.n kernel.program_id]⟩ :: w.gl }
  obtain ⟨hle, -⟩ := dev_run_inputs_outcome h kernel args 0 kernel.arguments 0 _ hw0 hvalid
  obtain ⟨n1, w1, hres, hst⟩ := hle (Nat.le_of_eq hlen)
  rw [hres] at hgl1
  have hnil : List.drop args.length kernel.arguments = [] := by
    rw [hlen]
    exact List.drop_length _
  refine ⟨n1, w1, added1, ?_, hw0.of_ST hst, hst, hgl1, hP1⟩
  rw [dev_run_found h args hw hfind, hres]
  simp [hnil]


/-! ### The bindings a launch leaves behind -/

/-- C13 at its failing inputs. In an initialized runtime with framebuffer 1:
a launch of the kernel `i`, which declares no output, on texture 7 returns
and leaves framebuffer 1 bound and unit `GL_TEXTURE0` bound to texture 7; so
does a launch of the kernel `c` on the textures 7 and 8 when the driver
reports the framebuffer as incomplete. When the driver reports it as
complete the same launch returns with framebuffer 0 bound and unit
`GL_TEXTURE0` bound to texture 0. -/
theorem dev_run_early_returns_keep_bindings :
    Ready launchWorld ∧ launchWorld.ST.framebuffer_id = 1 ∧
    ((halide_opengl_dev_run sampleHost ['i'] [7] launchWorld).returned = true ∧
      framebuffer_binding (halide_opengl_dev_run sampleHost ['i'] [7] launchWorld).world.gl = 1 ∧
      texture_binding GL_TEXTURE0
        (halide_opengl_dev_run sampleHost ['i'] [7] launchWorld).world.gl = 7) ∧
    ((halide_opengl_dev_run sampleHost ['c'] [7, 8] launchWorld).returned = true ∧
      framebuffer_binding
        (halide_opengl_dev_run sampleHost ['c'] [7, 8] launchWorld).world.gl = 1 ∧
      texture_binding GL_TEXTURE0
        (halide_opengl_dev_run sampleHost ['c'] [7, 8] launchWorld).world.gl = 7) ∧
    ((halide_opengl_dev_run completeHost ['c'] [7, 8] launchWorld).returned = true ∧
      (∃ c ∈ (halide_opengl_dev_run completeHost ['c'] [7, 8] launchWorld).world.gl,
        c.fn = GLFunc.DrawElements) ∧
      framebuffer_binding
        (halide_opengl_dev_run completeHost ['c'] [7, 8] launchWorld).world.gl = 0 ∧
      texture_binding GL_TEXTURE0
        (halide_opengl_dev_run completeHost ['c'] [7, 8] launchWorld).world.gl = 0) := by
  decide!


/-! ### The store rewrite -/

theorem is_zero_eq {e : Expr} (h : is_zero e = true) : e = .IntImm 0 := by
  unfold is_zero at h
  split at h
  · rfl
  · exact absurd h (by decide)

theorem loops_substitute_stmt (name : String) (replacement : Expr) (s : Stmt) :
    (substitute_stmt name replacement s).loops =
      s.loops.map fun l => (l.1, substitute name replacement l.2.1,
        substitute name replacement l.2.2.1, l.2.2.2) := by
  induction s with
  | LetStmt n value body ih => simpa [substitute_stmt, Stmt.loops] using ih
  | AssertStmt condition message => simp [substitute_stmt, Stmt.loops]
  | For n min extent for_type body ih => simp [substitute_stmt, Stmt.loops, ih]
  | Store n value index => simp [substitute_stmt, Stmt.loops]
  | Provide n values args => simp [substitute_stmt, Stmt.loops]
  | Allocate n type size body ih => simpa [substitute_stmt, Stmt.loops] using ih
  | Free n => simp [substitute_stmt, Stmt.loops]
  | Block first rest ih1 ih2 => simp [substitute_stmt, Stmt.loops, ih1, ih2]
  | IfThenElse condition then_case else_case ih1 ih2 =>
    simp [substitute_stmt, Stmt.loops, ih1, ih2]
  | Evaluate value => simp [substitute_stmt, Stmt.loops]

theorem zero_gpu_loop_mins_for (dev : CodeGen_GPU_Dev) (name : String) (min extent : Expr)
    (for_type : ForType) (body : Stmt) :
    ZeroGPULoopMins.mutate dev (.For name min extent for_type body) =
      if dev.is_gpu_var name = true ∧ is_zero min = false then
        .For name (.IntImm 0) extent for_type
          (substitute_stmt name (Expr.Variable (.Int 32) name + min)
            (ZeroGPULoopMins.mutate dev body))
      else .For name min extent for_type (ZeroGPULoopMins.mutate dev body) := by
  by_cases h1 : dev.is_gpu_var name = true <;> by_cases h2 : is_zero min = true <;>
    simp [ZeroGPULoopMins.mutate, h1, h2]

theorem zero_gpu_loop_mins_names (dev : CodeGen_GPU_Dev) (s : Stmt) :
    (ZeroGPULoopMins.mutate dev s).loops.map (fun l => (l.1, l.2.2.2)) =
      s.loops.map (fun l => (l.1, l.2.2.2)) := by
  induction s with
  | LetStmt n value body ih => simpa [ZeroGPULoopMins.mutate, Stmt.loops] using ih
  | AssertStmt condition message => simp [ZeroGPULoopMins.mutate, Stmt.loops]
  | For n min extent for_type body ih =>
    rw [zero_gpu_loop_mins_for]
    split
    · simp only [Stmt.loops, List.map_cons, loops_substitute_stmt, List.map_map]
      rw [← ih]
      rfl
    · simp only [Stmt.loops, List.map_cons, ih]
  | Store n value index => simp [ZeroGPULoopMins.mutate, Stmt.loops]
  | Provide n values args => simp [ZeroGPULoopMins.mutate, Stmt.loops]
  | Allocate n type size body ih => simpa [ZeroGPULoopMins.mutate, Stmt.loops] using ih
  | Free n => simp [ZeroGPULoopMins.mutate, Stmt.loops]
  | Block first rest ih1 ih2 => simp [ZeroGPULoopMins.mutate, Stmt.loops, ih1, ih2]
  | IfThenElse condition then_case else_case ih1 ih2 =>
    simp [ZeroGPULoopMins.mutate, Stmt.loops, ih1, ih2]
  | Evaluate value => simp [ZeroGPULoopMins.mutate, Stmt.loops]

theorem zero_gpu_loop_mins_min (dev : CodeGen_GPU_Dev) (s : Stmt) :
    ∀ l ∈ (ZeroGPULoopMins.mutate dev s).loops, dev.is_gpu_var l.1 = true →
      l.2.1 = .IntImm 0 := by
  induction s with
  | LetStmt n value body ih => simpa [ZeroGPULoopMins.mutate, Stmt.loops] using ih
  | AssertStmt condition message => simp [ZeroGPULoopMins.mutate, Stmt.loops]
  | For n min extent for_type body ih =>
    rw [zero_gpu_loop_mins_for]
    split
    · intro l hl hgpu
      simp only [Stmt.loops, List.mem_cons, loops_substitute_stmt, List.mem_map] at hl
      rcases hl with rfl | ⟨l0, hl0, rfl⟩
      · rfl
      · simp only [ih l0 hl0 hgpu, substitute]
    · rename_i hcond
      intro l hl hgpu
      simp only [Stmt.loops, List.mem_cons] at hl
      rcases hl with rfl | hl
      · by_cases hz : is_zero min = true
        · exact is_zero_eq hz
        · exact absurd ⟨hgpu, by simpa using hz⟩ hcond
      · exact ih l hl hgpu
  | Store n value index => simp [ZeroGPULoopMins.mutate, Stmt.loops]
  | Provide n values args => simp [ZeroGPULoopMins.mutate, Stmt.loops]
  | Allocate n type size body ih => simpa [ZeroGPULoopMins.mutate, Stmt.loops] using ih
  | Free n => simp [ZeroGPULoopMins.mutate, Stmt.loops]
  | Block first rest ih1 ih2 =>
    intro l hl hgpu
    simp only [ZeroGPULoopMins.mutate, Stmt.loops, List.mem_append] at hl
    rcases hl with hl | hl
    · exact ih1 l hl hgpu
    · exact ih2 l hl hgpu
  | IfThenElse condition then_case else_case ih1 ih2 =>
    intro l hl hgpu
    simp only [ZeroGPULoopMins.mutate, Stmt.loops, List.mem_append] at hl
    rcases hl with hl | hl
    · exact ih1 l hl hgpu
    · exact ih2 l hl hgpu
  | Evaluate value => simp [ZeroGPULoopMins.mutate, Stmt.loops]

theorem zero_gpu_loop_mins_unchanged (dev : CodeGen_GPU_Dev) (s : Stmt) :
    (∀ l ∈ s.loops, dev.is_gpu_var l.1 = true → is_zero l.2.1 = true) →
      ZeroGPULoopMins.mutate dev s = s := by
  induction s with
  | LetStmt n value body ih =>
    intro h
    simp [ZeroGPULoopMins.mutate, ih (by simpa [Stmt.loops] using h)]
  | AssertStmt condition message => simp [ZeroGPULoopMins.mutate]
  | For n min extent for_type body ih =>
    intro h
    rw [zero_gpu_loop_mins_for]
    have hb := ih fun l hl => h l (by simp [Stmt.loops, hl])
    have h0 := h (n, min, extent, for_type) (by simp [Stmt.loops])
    split
    · rename_i hcond
      rw [h0 hcond.1] at hcond
      exact absurd hcond.2 (by decide)
    · rw [hb]
  | Store n value index => simp [ZeroGPULoopMins.mutate]
  | Provide n values args => simp [ZeroGPULoopMins.mutate]
  | Allocate n type size body ih =>
    intro h
    simp [ZeroGPULoopMins.mutate, ih (by simpa [Stmt.loops] using h)]
  | Free n => simp [ZeroGPULoopMins.mutate]
  | Block first rest ih1 ih2 =>
    intro h
    simp [ZeroGPULoopMins.mutate, ih1 fun l hl => h l (by simp [Stmt.loops, hl]),
      ih2 fun l hl => h l (by simp [Stmt.loops, hl])]
  | IfThenElse condition then_case else_case ih1 ih2 =>
    intro h
    simp [ZeroGPULoopMins.mutate, ih1 fun l hl => h l (by simp [Stmt.loops, hl]),
      ih2 fun l hl => h l (by simp [Stmt.loops, hl])]
  | Evaluate value => simp [ZeroGPULoopMins.mutate]

/-- C17 (amended). For every statement `s`, in the result of the zero-min
pass the loops are those of `s`, in the same order and with the same names
and loop types, and every loop over a GPU thread or block variable has min
equal to the constant 0. A loop over a GPU variable `v` with a non-zero min
`m` and extent `e` becomes the loop over `v` from 0 with the same extent `e`
whose body is the recursively normalized original body with every reference
to `v` replaced by `v + m`, a replacement that also reaches the mins and
extents of the loops nested in that body. A loop whose min is zero or whose
variable is not a GPU variable keeps its min and extent, and its body is
recursively normalized. A statement in which every loop over a GPU variable
has min zero is returned unchanged. -/
theorem zero_gpu_loop_mins_normalizes (dev : CodeGen_GPU_Dev) (s : Stmt) :
    (ZeroGPULoopMins.mutate dev s).loops.map (fun l => (l.1, l.2.2.2)) =
      s.loops.map (fun l => (l.1, l.2.2.2)) ∧
    (∀ l ∈ (ZeroGPULoopMins.mutate dev s).loops, dev.is_gpu_var l.1 = true →
      l.2.1 = .IntImm 0) ∧
    (∀ v m e t b, s = .For v m e t b → dev.is_gpu_var v = true → is_zero m = false →
      ZeroGPULoopMins.mutate dev s = .For v (.IntImm 0) e t
        (substitute_stmt v (Expr.Variable (.Int 32) v + m) (ZeroGPULoopMins.mutate dev b))) ∧
    (∀ v m e t b, s = .For v m e t b → dev.is_gpu_var v = false ∨ is_zero m = true →
      ZeroGPULoopMins.mutate dev s = .For v m e t (ZeroGPULoopMins.mutate dev b)) ∧
    ((∀ l ∈ s.loops, dev.is_gpu_var l.1 = true → is_zero l.2.1 = true) →
      ZeroGPULoopMins.mutate dev s = s) := by
  refine ⟨zero_gpu_loop_mins_names dev s, zero_gpu_loop_mins_min dev s, ?_, ?_,
    zero_gpu_loop_mins_unchanged dev s⟩
  · rintro v m e t b rfl hv hm
    rw [zero_gpu_loop_mins_for, if_pos ⟨hv, hm⟩]
  · rintro v m e t b rfl hvm
    rw [zero_gpu_loop_mins_for, if_neg]
    rintro ⟨hv, hm⟩
    rcases hvm with h | h
    · rw [hv] at h
      exact absurd h (by decide)
    · rw [hm] at h
      exact absurd h (by decide)

theorem zero_gpu_loop_mins_normalizes_witness :
    (ZeroGPULoopMins.mutate sampleDev nestedLoops).loops.map (fun l => (l.1, l.2.2.2)) =
      nestedLoops.loops.map (fun l => (l.1, l.2.2.2)) ∧
    (∀ l ∈ (ZeroGPULoopMins.mutate sampleDev nestedLoops).loops, sampleDev.is_gpu_var l.1 = true →
      l.2.1 = .IntImm 0) ∧
    (∀ v m e t b, nestedLoops = .For v m e t b → sampleDev.is_gpu_var v = true → is_zero m = false →
      ZeroGPULoopMins.mutate sampleDev nestedLoops = .For v (.IntImm 0) e t
        (substitute_stmt v (Expr.Variable (.Int 32) v + m) (ZeroGPULoopMins.mutate sampleDev b))) ∧
    (∀ v m e t b, nestedLoops = .For v m e t b → sampleDev.is_gpu_var v = false ∨ is_zero m = true →
      ZeroGPULoopMins.mutate sampleDev nestedLoops = .For v m e t (ZeroGPULoopMins.mutate sampleDev b)) ∧
    ((∀ l ∈ nestedLoops.loops, sampleDev.is_gpu_var l.1 = true → is_zero l.2.1 = true) →
      ZeroGPULoopMins.mutate sampleDev nestedLoops = nestedLoops) :=
  zero_gpu_loop_mins_normalizes sampleDev nestedLoops

/-- C17, as stated, fails: in `nestedLoops` the loop over the thread index
`tx` has min 0 and extent `bx`, and it lies in the loop over the block index
`bx`, whose min is 1. The zero-min pass rewrites the outer loop and, with
it, the extent of the inner loop, which becomes `bx + 1`: the inner loop
neither has the same extent as before nor is left as it was. -/
theorem zero_gpu_loop_mins_nested_counterexample :
    sampleDev.is_gpu_var "bx" = true ∧ sampleDev.is_gpu_var "tx" = true ∧
    nestedLoops.loops =
      [("bx", .IntImm 1, .IntImm 10, ForType.Parallel),
       ("tx", .IntImm 0, .Variable (.Int 32) "bx", ForType.Parallel)] ∧
    (ZeroGPULoopMins.mutate sampleDev nestedLoops).loops =
      [("bx", .IntImm 0, .IntImm 10, ForType.Parallel),
       ("tx", .IntImm 0, Expr.Variable (.Int 32) "bx" + Expr.IntImm 1, ForType.Parallel)] ∧
    Expr.Variable (.Int 32) "bx" + Expr.IntImm 1 ≠ Expr.Variable (.Int 32) "bx" ∧
    ZeroGPULoopMins.mutate sampleDev nestedLoops =
      .For "bx" (.IntImm 0) (.IntImm 10) ForType.Parallel
        (.For "tx" (.IntImm 0) (Expr.Variable (.Int 32) "bx" + Expr.IntImm 1) ForType.Parallel
          (.Evaluate (.Variable (.Int 32) "tx"))) :=
  ⟨by decide, by decide, by rfl, by rfl, (fun h => by cases h), by rfl⟩

/-! ### The injection outside kernel loops -/

mutual
theorem mutate_outside (scope : List String) :
    ∀ e : Expr, InjectOpenGLIntrinsics.mutate false scope e = .ok e
  | .IntImm _ => rfl
  | .FloatImm _ => rfl
  | .StringImm _ => rfl
  | .Cast _ value => by
    simp [InjectOpenGLIntrinsics.mutate, mutate_outside scope value, bind, Except.bind, pure,
      Except.pure]
  | .Variable _ _ => rfl
  | .Bin _ a b => by
    simp [InjectOpenGLIntrinsics.mutate, mutate_outside scope a, mutate_outside scope b, bind,
      Except.bind, pure, Except.pure]
  | .Not a => by
    simp [InjectOpenGLIntrinsics.mutate, mutate_outside scope a, bind, Except.bind, pure,
      Except.pure]
  | .Select c t f => by
    simp [InjectOpenGLIntrinsics.mutate, mutate_outside scope c, mutate_outside scope t,
      mutate_outside scope f, bind, Except.bind, pure, Except.pure]
  | .Load _ _ index => by
    simp [InjectOpenGLIntrinsics.mutate, mutate_outside scope index, bind, Except.bind, pure,
      Except.pure]
  | .Call _ _ args _ _ _ _ _ => by
    simp [InjectOpenGLIntrinsics.mutate, mutate_list_outside scope args, bind, Except.bind, pure,
      Except.pure]
  | .Let _ value body => by
    simp [InjectOpenGLIntrinsics.mutate, mutate_outside scope value, mutate_outside scope body,
      bind, Except.bind, pure, Except.pure]

theorem mutate_list_outside (scope : List String) :
    ∀ es : List Expr, InjectOpenGLIntrinsics.mutate_list false scope es = .ok es
  | [] => rfl
  | e :: es => by
    simp [InjectOpenGLIntrinsics.mutate_list, mutate_outside scope e,
      mutate_list_outside scope es, bind, Except.bind, pure, Except.pure]
end

theorem mutate_stmt_no_kernel_loop (dev : CodeGen_GPU_Dev) (s : Stmt) :
    ∀ scope : List String, s.has_kernel_loop dev = false →
      InjectOpenGLIntrinsics.mutate_stmt dev false scope s = .ok s := by
  induction s with
  | LetStmt name value body ih =>
    intro scope h
    simp only [Stmt.has_kernel_loop] at h
    simp [InjectOpenGLIntrinsics.mutate_stmt, mutate_outside, ih _ h, bind, Except.bind, pure,
      Except.pure]
  | AssertStmt condition message =>
    intro scope _
    simp [InjectOpenGLIntrinsics.mutate_stmt, mutate_outside, bind, Except.bind, pure,
      Except.pure]
  | For name min extent for_type body ih =>
    intro scope h
    simp only [Stmt.has_kernel_loop, Bool.or_eq_false_iff, Bool.and_eq_false_iff,
      beq_eq_false_iff_ne, ne_eq] at h
    have hk : ¬ (for_type = ForType.Parallel ∧ dev.is_gpu_block_var name = true) := by
      rintro ⟨h1, h2⟩
      rcases h.1 with h3 | h3
      · exact h3 h1
      · rw [h2] at h3
        exact absurd h3 (by decide)
    simp [InjectOpenGLIntrinsics.mutate_stmt, hk, mutate_outside, ih _ h.2, bind, Except.bind,
      pure, Except.pure]
  | Store name value index =>
    intro scope _
    simp [InjectOpenGLIntrinsics.mutate_stmt, mutate_outside, bind, Except.bind, pure,
      Except.pure]
  | Provide name values args =>
    intro scope _
    simp [InjectOpenGLIntrinsics.mutate_stmt, mutate_list_outside, bind, Except.bind, pure,
      Except.pure]
  | Allocate name type size body ih =>
    intro scope h
    simp only [Stmt.has_kernel_loop] at h
    simp [InjectOpenGLIntrinsics.mutate_stmt, mutate_outside, ih _ h, bind, Except.bind, pure,
      Except.pure]
  | Free name =>
    intro scope _
    rfl
  | Block first rest ih1 ih2 =>
    intro scope h
    simp only [Stmt.has_kernel_loop, Bool.or_eq_false_iff] at h
    simp [InjectOpenGLIntrinsics.mutate_stmt, ih1 _ h.1, ih2 _ h.2, bind, Except.bind, pure,
      Except.pure]
  | IfThenElse condition then_case else_case ih1 ih2 =>
    intro scope h
    simp only [Stmt.has_kernel_loop, Bool.or_eq_false_iff] at h
    simp [InjectOpenGLIntrinsics.mutate_stmt, mutate_outside, ih1 _ h.1, ih2 _ h.2, bind,
      Except.bind, pure, Except.pure]
  | Evaluate value =>
    intro scope _
    simp [InjectOpenGLIntrinsics.mutate_stmt, mutate_outside, bind, Except.bind, pure,
      Except.pure]

theorem mutate_step_returns {α β : Type} (step : Except String α)
    (next : α → Except String β) (result : β) :
    step >>= next = Except.ok result →
      ∃ a, step = Except.ok a ∧ next a = Except.ok result := by
  intro hresult
  match step, hresult with
  | Except.ok a, hresult => exact ⟨a, rfl, hresult⟩
  | Except.error _, hresult => cases hresult

theorem mutate_stmt_outside (dev : CodeGen_GPU_Dev) (s : Stmt) :
    ∀ (scope : List String) (s1 : Stmt),
      InjectOpenGLIntrinsics.mutate_stmt dev false scope s = .ok s1 → OutsideEq dev s s1 := by
  induction s with
  | LetStmt name value body ih =>
    intro scope s1 h
    simp only [InjectOpenGLIntrinsics.mutate_stmt] at h
    obtain ⟨v1, hv, h⟩ := mutate_step_returns _ _ _ h
    obtain ⟨b1, hb, h⟩ := mutate_step_returns _ _ _ h
    rw [mutate_outside] at hv
    cases hv
    cases h
    exact OutsideEq.let_stmt _ _ _ _ (ih _ _ hb)
  | AssertStmt condition message =>
    intro scope s1 h
    rw [mutate_stmt_no_kernel_loop dev (.AssertStmt condition message) scope rfl] at h
    cases h
    exact OutsideEq.same _
  | For name min extent for_type body ih =>
    intro scope s1 h
    by_cases hk : for_type = ForType.Parallel ∧ dev.is_gpu_block_var name = true
    · simp only [InjectOpenGLIntrinsics.mutate_stmt, hk, and_self, if_true] at h
      obtain ⟨m1, -, h⟩ := mutate_step_returns _ _ _ h
      obtain ⟨e1, -, h⟩ := mutate_step_returns _ _ _ h
      obtain ⟨b1, -, h⟩ := mutate_step_returns _ _ _ h
      cases h
      rw [hk.1]
      exact OutsideEq.kernel_loop _ _ _ _ _ _ _ hk.2
    · simp only [InjectOpenGLIntrinsics.mutate_stmt, hk, if_false] at h
      obtain ⟨m1, hm, h⟩ := mutate_step_returns _ _ _ h
      obtain ⟨e1, he, h⟩ := mutate_step_returns _ _ _ h
      obtain ⟨b1, hb, h⟩ := mutate_step_returns _ _ _ h
      rw [mutate_outside] at hm he
      cases hm
      cases he
      cases h
      exact OutsideEq.loop _ _ _ _ _ _ (ih _ _ hb)
  | Store name value index =>
    intro scope s1 h
    rw [mutate_stmt_no_kernel_loop dev (.Store name value index) scope rfl] at h
    cases h
    exact OutsideEq.same _
  | Provide name values args =>
    intro scope s1 h
    rw [mutate_stmt_no_kernel_loop dev (.Provide name values args) scope rfl] at h
    cases h
    exact OutsideEq.same _
  | Allocate name type size body ih =>
    intro scope s1 h
    simp only [InjectOpenGLIntrinsics.mutate_stmt] at h
    obtain ⟨v1, hv, h⟩ := mutate_step_returns _ _ _ h
    obtain ⟨b1, hb, h⟩ := mutate_step_returns _ _ _ h
    rw [mutate_outside] at hv
    cases hv
    cases h
    exact OutsideEq.allocate _ _ _ _ _ (ih _ _ hb)
  | Free name =>
    intro scope s1 h
    cases h
    exact OutsideEq.same _
  | Block first rest ih1 ih2 =>
    intro scope s1 h
    simp only [InjectOpenGLIntrinsics.mutate_stmt] at h
    obtain ⟨f1, hf, h⟩ := mutate_step_returns _ _ _ h
    obtain ⟨r1, hr, h⟩ := mutate_step_returns _ _ _ h
    cases h
    exact OutsideEq.block _ _ _ _ (ih1 _ _ hf) (ih2 _ _ hr)
  | IfThenElse condition then_case else_case ih1 ih2 =>
    intro scope s1 h
    simp only [InjectOpenGLIntrinsics.mutate_stmt] at h
    obtain ⟨c1, hc, h⟩ := mutate_step_returns _ _ _ h
    obtain ⟨t1, ht, h⟩ := mutate_step_returns _ _ _ h
    obtain ⟨e1, he, h⟩ := mutate_step_returns _ _ _ h
    rw [mutate_outside] at hc
    cases hc
    cases h
    exact OutsideEq.if_then_else _ _ _ _ _ (ih1 _ _ ht) (ih2 _ _ he)
  | Evaluate value =>
    intro scope s1 h
    rw [mutate_stmt_no_kernel_loop dev (.Evaluate value) scope rfl] at h
    cases h
    exact OutsideEq.same _

/-- C20. The rewrite `InjectOpenGLIntrinsics` is the identity outside kernel
loops (parallel loops over a GPU block variable): visited outside a kernel
loop, every expression, so every load, and every store comes back unchanged;
a statement that holds no kernel loop is returned unchanged; the result of
any statement is the same as the statement outside its kernel loops; and a
statement that follows another in a block and holds no kernel loop is
unchanged in the result, whatever precedes it. -/
theorem injection_is_identity_outside_kernel_loops (dev : CodeGen_GPU_Dev)
    (scope : List String) :
    (∀ e : Expr, InjectOpenGLIntrinsics.mutate false scope e = .ok e) ∧
    (∀ (name : String) (values args : List Expr),
      InjectOpenGLIntrinsics.mutate_stmt dev false scope (.Provide name values args) =
        .ok (.Provide name values args)) ∧
    (∀ s : Stmt, s.has_kernel_loop dev = false →
      InjectOpenGLIntrinsics.mutate_stmt dev false scope s = .ok s) ∧
    (∀ s s1 : Stmt, InjectOpenGLIntrinsics.mutate_stmt dev false scope s = .ok s1 →
      OutsideEq dev s s1) ∧
    (∀ first rest : Stmt, rest.has_kernel_loop dev = false →
      InjectOpenGLIntrinsics.mutate_stmt dev false scope (.Block first rest) =
        (InjectOpenGLIntrinsics.mutate_stmt dev false scope first >>=
          fun first1 => pure (.Block first1 rest))) := by
  refine ⟨mutate_outside scope,
    fun name values args => mutate_stmt_no_kernel_loop dev _ scope rfl,
    fun s h => mutate_stmt_no_kernel_loop dev s scope h,
    fun s s1 h => mutate_stmt_outside dev s scope s1 h, fun first rest h => ?_⟩
  simp only [InjectOpenGLIntrinsics.mutate_stmt, mutate_stmt_no_kernel_loop dev rest scope h]
  cases InjectOpenGLIntrinsics.mutate_stmt dev false scope first <;> rfl

theorem injection_is_identity_outside_kernel_loops_witness :
    (Stmt.Provide "g" [Expr.Variable (.Float 32) "v"]
        [Expr.Variable (.Int 32) "x", Expr.Variable (.Int 32) "y",
          Expr.Variable (.Int 32) "c"]).has_kernel_loop sampleDev = false ∧
    InjectOpenGLIntrinsics.mutate_stmt sampleDev false []
        (.Block kernelLoop (.Provide "g" [Expr.Variable (.Float 32) "v"]
          [Expr.Variable (.Int 32) "x", Expr.Variable (.Int 32) "y",
            Expr.Variable (.Int 32) "c"])) =
      (InjectOpenGLIntrinsics.mutate_stmt sampleDev false [] kernelLoop >>=
        fun first1 => pure (.Block first1 (.Provide "g" [Expr.Variable (.Float 32) "v"]
          [Expr.Variable (.Int 32) "x", Expr.Variable (.Int 32) "y",
            Expr.Variable (.Int 32) "c"]))) ∧
    InjectOpenGLIntrinsics.mutate_stmt sampleDev false [] kernelLoop =
      .ok (.For "bx" (.IntImm 0) (.IntImm 8) ForType.Parallel
        (.Evaluate (.Call (.Float 32) Call.glsl_texture_store
          [.StringImm "g", .Variable .Handle "g.buffer", Expr.Variable (.Int 32) "x",
            Expr.Variable (.Int 32) "y", Expr.Variable (.Int 32) "c",
            Expr.Variable (.Float 32) "v"]
          CallType.Intrinsic 0 0 none none))) :=
  ⟨by rfl,
    (injection_is_identity_outside_kernel_loops sampleDev []).2.2.2.2 kernelLoop _ (by rfl),
    by rfl⟩

/-! ### Coordinates -/

theorem dev_run_inputs_step_units (h : Host) (kernel : HalideOpenGLKernel) (a : Nat)
    (rest : List Nat) (i : Nat) (ka : HalideOpenGLArgument)
    (next : List HalideOpenGLArgument) (n : Int) (w : World) (hw : Ready w)
    (hka : ValidArgType ka.type) :
    ∃ n1 w1 step, Ready w1 ∧ w1.ST = w.ST ∧ w1.gl = step ++ w.gl ∧
      (n1 = n ∧ (∀ c ∈ step, c.fn ≠ GLFunc.ActiveTexture) ∨
        n1 = n + 1 ∧ ∀ c ∈ step, c.fn = GLFunc.ActiveTexture →
          c.args = [.n (GL_TEXTURE0 + n)]) ∧
      dev_run_inputs h kernel (a :: rest) i (ka :: next) n w =
        dev_run_inputs h kernel rest (i + 1) next n1 w1 := by
  by_cases hout : ka.is_output = true
  · exact ⟨n, w, [], hw, rfl, rfl, Or.inl ⟨rfl, by simp⟩, by simp [dev_run_inputs, hout]⟩
  · by_cases hloc : h.retI (⟨.GetUniformLocation, [.n kernel.program_id, .str ka.name]⟩ :: w.gl)
        = -1
    · simp only [dev_run_inputs, hout, GLM.bind_apply, glCallI, hw.proc, hloc, halide_printf,
        GLM.ite_apply, if_true, if_false, Bool.false_eq_true, ne_eq, not_true_eq_false]
      refine ⟨_, _, [⟨.GetUniformLocation, [.n kernel.program_id, .str ka.name]⟩], ?_, ?_, ?_, ?_, rfl⟩
      · exact hw.of_ST rfl
      · rfl
      · rfl
      · exact Or.inl ⟨rfl, by simp⟩
    · rcases hka with ht | ht | ht
      · simp only [dev_run_inputs, hout, GLM.bind_apply, glCallI, hw.proc, hloc, halide_printf,
          GLM.ite_apply, if_true, if_false, Bool.false_eq_true, ne_eq, not_false_eq_true,
          ht, ARG_BUFFER, ARG_INT, ARG_FLOAT, glCall, Nat.reduceEqDiff]
        refine ⟨_, _, [⟨.Uniform1iv, [.n (h.retI (⟨.GetUniformLocation, [.n kernel.program_id, .str ka.name]⟩ :: w.gl)), .n 1, .arr (some [n])]⟩,
            ⟨.BindTexture, [.n GL_TEXTURE_2D, .n a]⟩,
            ⟨.ActiveTexture, [.n (GL_TEXTURE0 + n)]⟩, ⟨.GetUniformLocation, [.n kernel.program_id, .str ka.name]⟩], ?_, ?_, ?_, ?_, rfl⟩
        · exact hw.of_ST rfl
        · rfl
        · rfl
        · exact Or.inr ⟨rfl, by simp⟩
      · simp only [dev_run_inputs, hout, GLM.bind_apply, glCallI, hw.proc, hloc, halide_printf,
          GLM.ite_apply, if_true, if_false, Bool.false_eq_true, ne_eq, not_false_eq_true,
          ht, ARG_BUFFER, ARG_INT, ARG_FLOAT, glCall, Nat.reduceEqDiff]
        refine ⟨_, _, [⟨.Uniform1fv, [.n (h.retI (⟨.GetUniformLocation, [.n kernel.program_id, .str ka.name]⟩ :: w.gl)), .n 1, .arr (some [(a : Int)])]⟩, ⟨.GetUniformLocation, [.n kernel.program_id, .str ka.name]⟩], ?_, ?_, ?_, ?_, rfl⟩
        · exact hw.of_ST rfl
        · rfl
        · rfl
        · exact Or.inl ⟨rfl, by simp⟩
      · simp only [dev_run_inputs, hout, GLM.bind_apply, glCallI, hw.proc, hloc, halide_printf,
          GLM.ite_apply, if_true, if_false, Bool.false_eq_true, ne_eq, not_false_eq_true,
          ht, ARG_BUFFER, ARG_INT, ARG_FLOAT, glCall, Nat.reduceEqDiff]
        refine ⟨_, _, [⟨.Uniform1iv, [.n (h.retI (⟨.GetUniformLocation, [.n kernel.program_id, .str ka.name]⟩ :: w.gl)), .n 1, .arr (some [(a : Int)])]⟩, ⟨.GetUniformLocation, [.n kernel.program_id, .str ka.name]⟩], ?_, ?_, ?_, ?_, rfl⟩
        · exact hw.of_ST rfl
        · rfl
        · rfl
        · exact Or.inl ⟨rfl, by simp⟩

theorem dev_run_inputs_units (h : Host) (kernel : HalideOpenGLKernel) (args : List Nat) :
    ∀ (i : Nat) (ka : List HalideOpenGLArgument) (n : Int) (w : World), Ready w →
      (∀ a ∈ ka, ValidArgType a.type) → args.length ≤ ka.length →
      ∃ n1 w1 added, dev_run_inputs h kernel args i ka n w =
          Res.ok (ka.drop args.length, n1) w1 ∧ Ready w1 ∧ w1.ST = w.ST ∧
        w1.gl = added ++ w.gl ∧ n ≤ n1 ∧
        ∀ c ∈ added, c.fn = GLFunc.ActiveTexture →
          ∃ k, n ≤ k ∧ k < n1 ∧ c.args = [.n (GL_TEXTURE0 + k)] := by
  induction args with
  | nil =>
    intro i ka n w hw _ _
    exact ⟨n, w, [], by simp [dev_run_inputs, GLM.pure_apply], hw, rfl, rfl, le_refl _,
      by simp⟩
  | cons a rest ih =>
    intro i ka n w hw hvalid hlen
    cases ka with
    | nil => simp at hlen
    | cons k next =>
      obtain ⟨n1, w1, step, hw1, hst1, hgl1, hunits, hstep⟩ :=
        dev_run_inputs_step_units h kernel a rest i k next n w hw
          (hvalid k (List.mem_cons_self _ _))
      obtain ⟨n2, w2, added, hres, hw2, hst2, hgl2, hle, hP⟩ := ih (i + 1) next n1 w1 hw1
        (fun x hx => hvalid x (List.mem_cons_of_mem _ hx)) (by simpa using hlen)
      have hn : n ≤ n1 := by
        rcases hunits with ⟨h1, -⟩ | ⟨h1, -⟩ <;> omega
      refine ⟨n2, w2, added ++ step, ?_, hw2, hst2.trans hst1, ?_, by omega, ?_⟩
      · rw [hstep, hres]
        simp
      · rw [hgl2, hgl1, List.append_assoc]
      · intro c hc hfn
        rcases List.mem_append.1 hc with hc | hc
        · obtain ⟨k0, hk1, hk2, hk3⟩ := hP c hc hfn
          exact ⟨k0, by omega, hk2, hk3⟩
        · rcases hunits with ⟨-, hno⟩ | ⟨h1, hunit⟩
          · exact absurd hfn (hno c hc)
          · exact ⟨n, le_refl _, by omega, hunit c hc hfn⟩

theorem framebuffer_binding_bind (fb : Int) (rest : List GLCall) :
    framebuffer_binding (⟨.BindFramebuffer, [.n GL_FRAMEBUFFER, .n fb]⟩ :: rest) = fb := by
  simp [framebuffer_binding]

theorem texture_binding_cleanup_calls (u : Int) (count : Nat) :
    ∀ (i : Int) (rest : List GLCall),
      ((∃ k, i ≤ k ∧ k < i + count ∧ u = GL_TEXTURE0 + k) →
        texture_binding u (cleanup_calls count i ++ rest) = 0) ∧
      ((¬ ∃ k, i ≤ k ∧ k < i + count ∧ u = GL_TEXTURE0 + k) →
        texture_binding u (cleanup_calls count i ++ rest) = texture_binding u rest) := by
  induction count with
  | zero =>
    intro i rest
    constructor
    · rintro ⟨k, h1, h2, -⟩
      simp at h2
      omega
    · intro _
      simp [cleanup_calls]
  | succ count ih =>
    intro i rest
    have hlist : cleanup_calls (count + 1) i ++ rest = cleanup_calls count (i + 1) ++
        (⟨.BindTexture, [.n GL_TEXTURE_2D, .n 0]⟩ ::
          ⟨.ActiveTexture, [.n (GL_TEXTURE0 + i)]⟩ :: rest) := by
      simp [cleanup_calls]
    obtain ⟨ih1, ih2⟩ := ih (i + 1) (⟨.BindTexture, [.n GL_TEXTURE_2D, .n 0]⟩ ::
          ⟨.ActiveTexture, [.n (GL_TEXTURE0 + i)]⟩ :: rest)
    rw [hlist]
    by_cases hin : ∃ k, i + 1 ≤ k ∧ k < i + 1 + count ∧ u = GL_TEXTURE0 + k
    · have h0 := ih1 hin
      constructor
      · intro _
        exact h0
      · intro hno
        obtain ⟨k, h1, h2, h3⟩ := hin
        exact absurd ⟨k, by omega, by push_cast; omega, h3⟩ hno
    · rw [ih2 hin]
      by_cases hu : u = GL_TEXTURE0 + i
      · constructor
        · intro _
          simp [texture_binding, active_texture, hu]
        · intro hno
          exact absurd ⟨i, le_refl _, by push_cast; omega, hu⟩ hno
      · constructor
        · rintro ⟨k, h1, h2, h3⟩
          push_cast at h2
          by_cases hk : k = i
          · subst hk
            exact absurd h3 hu
          · exact absurd ⟨k, by omega, by omega, h3⟩ hin
        · intro _
          have hu2 : ¬ GL_TEXTURE0 + i = u := fun hh => hu hh.symm
          simp [texture_binding, active_texture, hu2]

theorem cleanup_calls_units (count : Nat) : ∀ (i : Int), ∀ c ∈ cleanup_calls count i,
    c.fn = GLFunc.ActiveTexture →
      ∃ k, i ≤ k ∧ k < i + count ∧ c.args = [.n (GL_TEXTURE0 + k)] := by
  induction count with
  | zero =>
    intro i c hc
    simp [cleanup_calls] at hc
  | succ count ih =>
    intro i c hc hfn
    simp only [cleanup_calls, List.mem_append, List.mem_cons, List.mem_singleton,
      List.not_mem_nil, or_false] at hc
    rcases hc with hc | rfl | rfl
    · obtain ⟨k, h1, h2, h3⟩ := ih _ c hc hfn
      exact ⟨k, by omega, by push_cast; omega, h3⟩
    · simp at hfn
    · exact ⟨i, le_refl _, by push_cast; omega, rfl⟩

theorem dev_run_reaches_render_units (h : Host) (w : World) (entry_name : List Char)
    (kernel : HalideOpenGLKernel) (args : List Nat) (hw : Ready w)
    (hfind : halide_opengl_find_kernel w.ST.kernels entry_name = some kernel)
    (hvalid : ∀ a ∈ kernel.arguments, ValidArgType a.type)
    (hlen : args.length = kernel.arguments.length) :
    ∃ n1 w1 added1, halide_opengl_dev_run h entry_name args w =
        dev_run_render h kernel args n1 w1 ∧ Ready w1 ∧ w1.ST = w.ST ∧
      w1.gl = added1 ++ ⟨.UseProgram, [.n kernel.program_id]⟩ :: w.gl ∧ 0 ≤ n1 ∧
      (∀ c ∈ added1, c.fn = GLFunc.ActiveTexture →
        ∃ k, 0 ≤ k ∧ k < n1 ∧ c.args = [.n (GL_TEXTURE0 + k)]) ∧
      ∀ c ∈ added1, c.fn ≠ GLFunc.DrawElements := by
  have hw0 : Ready { w with gl := ⟨.UseProgram, [.n kernel.program_id]⟩ :: w.gl } :=
    hw.of_ST rfl
  obtain ⟨n1, w1, added1, hres, hw1, hst, hgl1, hle, hP1⟩ :=
    dev_run_inputs_units h kernel args 0 kernel.arguments 0 _ hw0 hvalid (Nat.le_of_eq hlen)
  have hnil : List.drop args.length kernel.arguments = [] := by
    rw [hlen]
    exact List.drop_length _
  have hfns : ∀ c ∈ added1, c.fn ≠ GLFunc.DrawElements := by
    obtain ⟨added0, hgl0, hP0⟩ := emits_dev_run_inputs_fns h kernel args 0 kernel.arguments 0
      { w with gl := ⟨.UseProgram, [.n kernel.program_id]⟩ :: w.gl }
    rw [hres] at hgl0
    have heq : added1 = added0 :=
      List.append_cancel_right (hgl1.symm.trans hgl0)
    intro c hc
    rw [heq] at hc
    rcases hP0 c hc with hf | hf | hf | hf | hf <;> simp [hf]
  refine ⟨n1, w1, added1, ?_, hw1, hst, hgl1, hle, hP1, hfns⟩
  rw [dev_run_found h args hw hfind, hres]
  simp [hnil]

/-- The normal path of `dev_run` restores the bindings: in an initialized
runtime, when a launch of a registered kernel with as many actuals as
declared arguments returns after a `glDrawElements` call, the framebuffer
binding is 0 and every texture unit that the launch made active is bound to
texture 0. -/
theorem dev_run_draw_restores_bindings (h : Host) (w : World) (entry_name : List Char)
    (kernel : HalideOpenGLKernel) (args : List Nat) (hw : Ready w)
    (hfind : halide_opengl_find_kernel w.ST.kernels entry_name = some kernel)
    (hreg : ∃ src size k0, create_kernel src size = Except.ok k0 ∧
      kernel.arguments = k0.arguments)
    (hlen : args.length = kernel.arguments.length) :
    ∃ added, (halide_opengl_dev_run h entry_name args w).world.gl = added ++ w.gl ∧
      ((halide_opengl_dev_run h entry_name args w).returned = true →
        (∃ c ∈ added, c.fn = GLFunc.DrawElements) →
        framebuffer_binding (halide_opengl_dev_run h entry_name args w).world.gl = 0 ∧
        ∀ c ∈ added, c.fn = GLFunc.ActiveTexture → ∀ u : Int, c.args = [.n u] →
          texture_binding u (halide_opengl_dev_run h entry_name args w).world.gl = 0) := by
  obtain ⟨src, size, k0, hk0, hargs⟩ := hreg
  have hvalid : ∀ a ∈ kernel.arguments, ValidArgType a.type := by
    rw [hargs]
    exact create_kernel_types hk0
  obtain ⟨n1, w1, added1, hrun, hw1, hst, hgl1, hn1, hP1, hfns⟩ :=
    dev_run_reaches_render_units h w entry_name kernel args hw hfind hvalid hlen
  rw [hrun]
  have hle := Nat.le_of_eq hlen
  rcases Nat.lt_or_ge (output_actuals kernel.arguments args).length 2 with hlt | hge
  swap
  · obtain ⟨added2, hgl2, -⟩ := emits_dev_run_render h kernel args n1 w1
    refine ⟨added2 ++ added1 ++ [⟨.UseProgram, [.n kernel.program_id]⟩], ?_, ?_⟩
    · rw [hgl2, hgl1]
      simp
    · intro hret
      rw [dev_run_render_two_outputs h kernel args n1 w1 hw1 hle hge] at hret
      exact absurd hret (by decide)
  cases hout : output_actuals kernel.arguments args with
  | nil =>
    rw [dev_run_render_no_output h kernel args n1 w1 hw1 hle hout]
    refine ⟨⟨.Disable, [.n GL_DEPTH_TEST]⟩ :: ⟨.Disable, [.n GL_CULL_FACE]⟩ ::
      ⟨.BindFramebuffer, [.n GL_FRAMEBUFFER, .n w1.ST.framebuffer_id]⟩ :: added1 ++
      [⟨.UseProgram, [.n kernel.program_id]⟩], ?_, ?_⟩
    · simp [Res.world, hgl1]
    · rintro - ⟨c, hc, hfn⟩
      simp only [List.cons_append, List.mem_cons, List.mem_append, List.mem_singleton,
        List.not_mem_nil, or_false] at hc
      rcases hc with rfl | rfl | rfl | hc | rfl
      all_goals first
        | exact absurd hfn (hfns c hc)
        | simp at hfn
  | cons a more =>
    have hmore : more = [] := by
      rw [hout] at hlt
      simp only [List.length_cons] at hlt
      exact List.length_eq_zero.1 (by omega)
    subst hmore
    cases hfindt : halide_opengl_find_texture w1.ST.textures a with
    | none =>
      rw [dev_run_render_undefined_output h kernel args n1 w1 hw1 hle a hout hfindt]
      refine ⟨attach_call a :: ⟨.Disable, [.n GL_DEPTH_TEST]⟩ ::
        ⟨.Disable, [.n GL_CULL_FACE]⟩ ::
        ⟨.BindFramebuffer, [.n GL_FRAMEBUFFER, .n w1.ST.framebuffer_id]⟩ :: added1 ++
        [⟨.UseProgram, [.n kernel.program_id]⟩], ?_, ?_⟩
      · simp [Res.world, hgl1]
      · intro hret
        exact absurd hret (by simp [Res.returned])
    | some t =>
      obtain ⟨hret, hshape | ⟨locE, locM, pos, hshape⟩⟩ :=
        dev_run_render_one_output h kernel args n1 w1 hw1 hle a t hout hfindt
      · refine ⟨[⟨.CheckFramebufferStatus, [.n GL_FRAMEBUFFER]⟩,
            ⟨.DrawBuffers, [.n 1, .arr (some [GL_COLOR_ATTACHMENT0])]⟩] ++
          attach_call a :: ⟨.Disable, [.n GL_DEPTH_TEST]⟩ :: ⟨.Disable, [.n GL_CULL_FACE]⟩ ::
          ⟨.BindFramebuffer, [.n GL_FRAMEBUFFER, .n w1.ST.framebuffer_id]⟩ ::
          (added1 ++ [⟨.UseProgram, [.n kernel.program_id]⟩]), ?_, ?_⟩
        · rw [hshape, hgl1]
          simp
        · rintro - ⟨c, hc, hfn⟩
          simp only [List.cons_append, List.nil_append, List.mem_cons, List.mem_append,
            List.mem_singleton, List.not_mem_nil, or_false] at hc
          rcases hc with rfl | rfl | rfl | rfl | rfl | rfl | hc | rfl
          all_goals first
            | exact absurd hfn (hfns c hc)
            | simp [attach_call] at hfn
      · refine ⟨(⟨.BindFramebuffer, [.n GL_FRAMEBUFFER, .n 0]⟩ :: cleanup_calls n1.toNat 0 ++
            [⟨.DisableVertexAttribArray, [.n pos]⟩,
             ⟨.DrawElements, [.n GL_TRIANGLE_STRIP, .n 4, .n GL_UNSIGNED_INT, .arr none]⟩,
             ⟨.BindBuffer, [.n GL_ELEMENT_ARRAY_BUFFER, .n w1.ST.element_buffer]⟩,
             ⟨.EnableVertexAttribArray, [.n pos]⟩,
             ⟨.VertexAttribPointer, [.n pos, .n 2, .n GL_FLOAT, .n GL_FALSE, .n 8, .arr none]⟩,
             ⟨.BindBuffer, [.n GL_ARRAY_BUFFER, .n w1.ST.vertex_buffer]⟩,
             ⟨.GetAttribLocation, [.n kernel.program_id, .str "position".toList]⟩,
             ⟨.Viewport, [.n 0, .n 0, .n t.extent.1, .n t.extent.2.1]⟩,
             ⟨.Ortho, [.n (-1), .n 1, .n (-1), .n 1, .n 1, .n (-1)]⟩,
             ⟨.LoadIdentity, []⟩,
             ⟨.MatrixMode, [.n GL_PROJECTION]⟩,
             ⟨.LoadIdentity, []⟩,
             ⟨.MatrixMode, [.n GL_MODELVIEW]⟩,
             ⟨.Uniform2iv, [.n locM, .n 1, .arr (some [t.min.1, t.min.2.1])]⟩,
             ⟨.GetUniformLocation, [.n kernel.program_id, .str "output_min".toList]⟩,
             ⟨.Uniform2iv, [.n locE, .n 1, .arr (some [t.extent.1, t.extent.2.1])]⟩,
             ⟨.GetUniformLocation, [.n kernel.program_id, .str "output_extent".toList]⟩,
             ⟨.CheckFramebufferStatus, [.n GL_FRAMEBUFFER]⟩,
             ⟨.DrawBuffers, [.n 1, .arr (some [GL_COLOR_ATTACHMENT0])]⟩]) ++
          attach_call a :: ⟨.Disable, [.n GL_DEPTH_TEST]⟩ :: ⟨.Disable, [.n GL_CULL_FACE]⟩ ::
          ⟨.BindFramebuffer, [.n GL_FRAMEBUFFER, .n w1.ST.framebuffer_id]⟩ ::
          (added1 ++ [⟨.UseProgram, [.n kernel.program_id]⟩]), ?_, ?_⟩
        · rw [hshape, hgl1]
          simp
        · intro _ _
          rw [hshape]
          simp only [List.cons_append, List.append_assoc]
          refine ⟨framebuffer_binding_bind 0 _, ?_⟩
          have hunit : ∀ k : Int, 0 ≤ k → k < n1 → ∀ rest : List GLCall,
              texture_binding (GL_TEXTURE0 + k)
                (⟨.BindFramebuffer, [.n GL_FRAMEBUFFER, .n 0]⟩ ::
                  (cleanup_calls n1.toNat 0 ++ rest)) = 0 := by
            intro k hk0 hk1 rest
            have hskip : texture_binding (GL_TEXTURE0 + k)
                (⟨.BindFramebuffer, [.n GL_FRAMEBUFFER, .n 0]⟩ ::
                  (cleanup_calls n1.toNat 0 ++ rest)) =
                texture_binding (GL_TEXTURE0 + k) (cleanup_calls n1.toNat 0 ++ rest) := by
              simp [texture_binding]
            rw [hskip]
            exact (texture_binding_cleanup_calls _ _ 0 rest).1
              ⟨k, hk0, by rw [Int.toNat_of_nonneg hn1]; omega, rfl⟩
          intro c hc hfn u hu
          simp only [List.cons_append, List.nil_append, List.mem_cons, List.mem_append,
            List.mem_singleton, List.not_mem_nil, or_false] at hc
          rcases hc with rfl | hc | rfl | rfl | rfl | rfl | rfl | rfl | rfl | rfl | rfl | rfl | rfl | rfl | rfl | rfl | rfl | rfl | rfl | rfl | rfl | rfl | rfl | rfl | rfl | hc | rfl
          all_goals try (exact absurd hfn (by simp [attach_call]))
          · obtain ⟨k, hk0, hk1, hk⟩ := cleanup_calls_units _ _ c hc hfn
            rw [hk] at hu
            simp only [List.cons.injEq, GLArg.n.injEq, and_true] at hu
            rw [← hu]
            exact hunit k hk0 (by rw [Int.toNat_of_nonneg hn1] at hk1; omega) _
          · obtain ⟨k, hk0, hk1, hk⟩ := hP1 c hc hfn
            rw [hk] at hu
            simp only [List.cons.injEq, GLArg.n.injEq, and_true] at hu
            rw [← hu]
            exact hunit k hk0 hk1 _


/-! ### Reads in coordinates -/

/-- C21 at its failing inputs. `inject_opengl_intrinsics` succeeds on the
kernel loop that stores `f(h(x, y, c), y, c)` and on the kernel loop that
stores to `g(h(x, y, c), y, c)`; in both results the read `h(x, y, c)`, in
the first coordinate of the lowered read and of the lowered store, is left as
the non-intrinsic call it was, inside the kernel loop. -/
theorem inject_leaves_reads_in_coordinates :
    sampleDev.is_gpu_block_var "bx" = true ∧
    inject_opengl_intrinsics sampleDev nestedReadLoop =
      .ok (.For "bx" (.IntImm 0) (.IntImm 8) ForType.Parallel
        (.Evaluate (.Call (.Float 32) Call.glsl_texture_store
          [.StringImm "g", .Variable .Handle "g.buffer",
            .Variable (.Int 32) "x", .Variable (.Int 32) "y", .Variable (.Int 32) "c",
            .Call (.Float 32) Call.glsl_texture_load
              [.StringImm "f", .Variable .Handle "f.buffer",
                (Expr.Cast (.Float 32) (imageRead - Expr.Variable (.Int 32) "f.min.0") +
                  Expr.FloatImm 0.5) / Expr.Variable (.Int 32) "f.extent.0",
                (Expr.Cast (.Float 32)
                    (Expr.Variable (.Int 32) "y" - Expr.Variable (.Int 32) "f.min.1") +
                  Expr.FloatImm 0.5) / Expr.Variable (.Int 32) "f.extent.1",
                Expr.Variable (.Int 32) "c" - Expr.Variable (.Int 32) "f.min.2"]
              CallType.Intrinsic 0 0 none none]
          CallType.Intrinsic 0 0 none none))) ∧
    (∀ s1, inject_opengl_intrinsics sampleDev nestedReadLoop = .ok s1 →
      s1.plain_call_inside sampleDev false = true) ∧
    inject_opengl_intrinsics sampleDev storeCoordinateLoop =
      .ok (.For "bx" (.IntImm 0) (.IntImm 8) ForType.Parallel
        (.Evaluate (.Call (.Float 32) Call.glsl_texture_store
          [.StringImm "g", .Variable .Handle "g.buffer",
            imageRead, .Variable (.Int 32) "y", .Variable (.Int 32) "c",
            .Variable (.Float 32) "v"]
          CallType.Intrinsic 0 0 none none))) ∧
    (∀ s1, inject_opengl_intrinsics sampleDev storeCoordinateLoop = .ok s1 →
      s1.plain_call_inside sampleDev false = true) ∧
    imageRead.has_plain_call = true := by
  refine ⟨by decide, by rfl, ?_, by rfl, ?_, by rfl⟩
  · intro s1 h
    cases h
    rfl
  · intro s1 h
    cases h
    rfl

theorem load_coordinate_has_plain_call (scope : List String) (name : String) (i : Nat)
    (arg : Expr) :
    (load_coordinate scope name i arg).has_plain_call = arg.has_plain_call := by
  unfold load_coordinate
  by_cases hi : i < 2
  · simp only [hi, if_true]
    show Expr.has_plain_call (Expr.Bin BinOp.Div (Expr.Bin BinOp.Add
      (Expr.Cast (IRType.Float 32) (Expr.Bin BinOp.Sub arg _)) _) _) = _
    simp [Expr.has_plain_call]
  · simp only [hi, if_false]
    show Expr.has_plain_call (Expr.Bin BinOp.Sub arg _) = _
    simp [Expr.has_plain_call]

theorem load_coordinates_has_plain_call (scope : List String) (name : String)
    (args : List Expr) : ∀ i : Nat,
    Expr.list_has_plain_call (load_coordinates scope name i args) =
      Expr.list_has_plain_call args := by
  induction args with
  | nil =>
    intro i
    rfl
  | cons a rest ih =>
    intro i
    simp [load_coordinates, Expr.list_has_plain_call, load_coordinate_has_plain_call, ih]

theorem list_has_plain_call_append (xs ys : List Expr) :
    Expr.list_has_plain_call (xs ++ ys) =
      (Expr.list_has_plain_call xs || Expr.list_has_plain_call ys) := by
  induction xs with
  | nil => simp [Expr.list_has_plain_call]
  | cons x rest ih => simp [Expr.list_has_plain_call, ih, Bool.or_assoc]

mutual
theorem mutate_lowers_reads (scope : List String) :
    ∀ (e e1 : Expr), e.coordinates_plain = true →
      InjectOpenGLIntrinsics.mutate true scope e = .ok e1 → e1.has_plain_call = false
  | .IntImm _, e1, _, h => by
    cases h
    rfl
  | .FloatImm _, e1, _, h => by
    cases h
    rfl
  | .StringImm _, e1, _, h => by
    cases h
    rfl
  | .Cast _ value, e1, hc, h => by
    simp only [InjectOpenGLIntrinsics.mutate] at h
    obtain ⟨v1, hv, h⟩ := mutate_step_returns _ _ _ h
    cases h
    simp only [Expr.coordinates_plain] at hc
    simp [Expr.has_plain_call, mutate_lowers_reads scope value v1 hc hv]
  | .Variable _ _, e1, _, h => by
    cases h
    rfl
  | .Bin _ a b, e1, hc, h => by
    simp only [InjectOpenGLIntrinsics.mutate] at h
    obtain ⟨a1, ha, h⟩ := mutate_step_returns _ _ _ h
    obtain ⟨b1, hb, h⟩ := mutate_step_returns _ _ _ h
    cases h
    simp only [Expr.coordinates_plain, Bool.and_eq_true] at hc
    simp [Expr.has_plain_call, mutate_lowers_reads scope a a1 hc.1 ha,
      mutate_lowers_reads scope b b1 hc.2 hb]
  | .Not a, e1, hc, h => by
    simp only [InjectOpenGLIntrinsics.mutate] at h
    obtain ⟨a1, ha, h⟩ := mutate_step_returns _ _ _ h
    cases h
    simp only [Expr.coordinates_plain] at hc
    simp [Expr.has_plain_call, mutate_lowers_reads scope a a1 hc ha]
  | .Select c t f, e1, hc, h => by
    simp only [InjectOpenGLIntrinsics.mutate] at h
    obtain ⟨c1, hc1, h⟩ := mutate_step_returns _ _ _ h
    obtain ⟨t1, ht1, h⟩ := mutate_step_returns _ _ _ h
    obtain ⟨f1, hf1, h⟩ := mutate_step_returns _ _ _ h
    cases h
    simp only [Expr.coordinates_plain, Bool.and_eq_true] at hc
    simp [Expr.has_plain_call, mutate_lowers_reads scope c c1 hc.1.1 hc1,
      mutate_lowers_reads scope t t1 hc.1.2 ht1, mutate_lowers_reads scope f f1 hc.2 hf1]
  | .Load _ _ index, e1, hc, h => by
    simp only [InjectOpenGLIntrinsics.mutate] at h
    obtain ⟨i1, hi, h⟩ := mutate_step_returns _ _ _ h
    cases h
    simp only [Expr.coordinates_plain] at hc
    simp [Expr.has_plain_call, mutate_lowers_reads scope index i1 hc hi]
  | .Call _ _ args call_type _ _ _ _, e1, hc, h => by
    by_cases hct : call_type = CallType.Intrinsic
    · subst hct
      simp only [InjectOpenGLIntrinsics.mutate, Bool.not_true, beq_self_eq_true, Bool.or_true,
        if_true] at h
      obtain ⟨as1, has, h⟩ := mutate_step_returns _ _ _ h
      cases h
      simp only [Expr.coordinates_plain, if_true] at hc
      simp [Expr.has_plain_call, mutate_list_lowers_reads scope args as1 hc has]
    · have hbeq : (call_type == CallType.Intrinsic) = false := by simpa using hct
      simp only [InjectOpenGLIntrinsics.mutate, Bool.not_true, hbeq, Bool.or_false,
        Bool.false_eq_true, if_false] at h
      simp only [Expr.coordinates_plain, hct, if_false, Bool.not_eq_true'] at hc
      by_cases h3 : args.length = 3
      · simp only [h3, if_true] at h
        cases h
        simp [Expr.has_plain_call, Expr.list_has_plain_call, load_coordinates_has_plain_call,
          hc]
      · simp only [h3, if_false] at h
        cases h
  | .Let _ value body, e1, hc, h => by
    simp only [InjectOpenGLIntrinsics.mutate] at h
    obtain ⟨v1, hv, h⟩ := mutate_step_returns _ _ _ h
    obtain ⟨b1, hb, h⟩ := mutate_step_returns _ _ _ h
    cases h
    simp only [Expr.coordinates_plain, Bool.and_eq_true] at hc
    simp [Expr.has_plain_call, mutate_lowers_reads scope value v1 hc.1 hv,
      mutate_lowers_reads scope body b1 hc.2 hb]

theorem mutate_list_lowers_reads (scope : List String) :
    ∀ (es es1 : List Expr), Expr.list_coordinates_plain es = true →
      InjectOpenGLIntrinsics.mutate_list true scope es = .ok es1 →
      Expr.list_has_plain_call es1 = false
  | [], es1, _, h => by
    cases h
    rfl
  | e :: es, es1, hc, h => by
    simp only [InjectOpenGLIntrinsics.mutate_list] at h
    obtain ⟨e1, he, h⟩ := mutate_step_returns _ _ _ h
    obtain ⟨r1, hr, h⟩ := mutate_step_returns _ _ _ h
    cases h
    simp only [Expr.list_coordinates_plain, Bool.and_eq_true] at hc
    simp [Expr.list_has_plain_call, mutate_lowers_reads scope e e1 hc.1 he,
      mutate_list_lowers_reads scope es r1 hc.2 hr]
end

theorem mutate_lowers_reads_inside (inside : Bool) (scope : List String) (e e1 : Expr)
    (hc : (!inside || e.coordinates_plain) = true)
    (h : InjectOpenGLIntrinsics.mutate inside scope e = .ok e1) :
    (inside && e1.has_plain_call) = false := by
  cases inside with
  | false => rfl
  | true =>
    simp only [Bool.not_true, Bool.false_or] at hc
    simp [mutate_lowers_reads scope e e1 hc h]

theorem kernel_loop_flag (dev : CodeGen_GPU_Dev) (inside : Bool) (name : String)
    (for_type : ForType) :
    (if for_type = ForType.Parallel ∧ dev.is_gpu_block_var name = true then true else inside) =
      (inside || (decide (for_type = ForType.Parallel) && dev.is_gpu_block_var name)) := by
  by_cases h1 : for_type = ForType.Parallel <;> by_cases h2 : dev.is_gpu_block_var name = true <;>
    simp [h1, h2]

theorem mutate_stmt_lowers_reads (dev : CodeGen_GPU_Dev) (s : Stmt) :
    ∀ (inside : Bool) (scope : List String) (s1 : Stmt),
      s.coordinates_plain dev inside = true →
      InjectOpenGLIntrinsics.mutate_stmt dev inside scope s = .ok s1 →
      s1.plain_call_inside dev inside = false := by
  induction s with
  | LetStmt name value body ih =>
    intro inside scope s1 hc h
    simp only [InjectOpenGLIntrinsics.mutate_stmt] at h
    obtain ⟨v1, hv, h⟩ := mutate_step_returns _ _ _ h
    obtain ⟨b1, hb, h⟩ := mutate_step_returns _ _ _ h
    cases h
    simp only [Stmt.coordinates_plain, Bool.and_eq_true] at hc
    simp only [Stmt.plain_call_inside, mutate_lowers_reads_inside inside _ value v1 hc.1 hv,
      ih inside _ b1 hc.2 hb, Bool.or_false]
  | AssertStmt condition message =>
    intro inside scope s1 hc h
    simp only [InjectOpenGLIntrinsics.mutate_stmt] at h
    obtain ⟨c1, hc1, h⟩ := mutate_step_returns _ _ _ h
    cases h
    simp only [Stmt.coordinates_plain] at hc
    simp only [Stmt.plain_call_inside, mutate_lowers_reads_inside inside _ condition c1 hc hc1]
  | For name min extent for_type body ih =>
    intro inside scope s1 hc h
    simp only [InjectOpenGLIntrinsics.mutate_stmt, kernel_loop_flag] at h
    obtain ⟨m1, hm, h⟩ := mutate_step_returns _ _ _ h
    obtain ⟨e1, he, h⟩ := mutate_step_returns _ _ _ h
    obtain ⟨b1, hb, h⟩ := mutate_step_returns _ _ _ h
    cases h
    simp only [Stmt.coordinates_plain, Bool.and_eq_true] at hc
    have hme : (inside && (m1.has_plain_call || e1.has_plain_call)) = false := by
      cases inside with
      | false => rfl
      | true =>
        simp only [Bool.true_or] at hm he
        have hc1 := hc.1
        simp only [Bool.not_true, Bool.false_or, Bool.and_eq_true] at hc1
        simp [mutate_lowers_reads scope min m1 hc1.1 hm,
          mutate_lowers_reads scope extent e1 hc1.2 he]
    simp only [Stmt.plain_call_inside, hme, ih _ _ b1 hc.2 hb, Bool.or_false]
  | Store name value index =>
    intro inside scope s1 hc h
    simp only [InjectOpenGLIntrinsics.mutate_stmt] at h
    obtain ⟨v1, hv, h⟩ := mutate_step_returns _ _ _ h
    obtain ⟨i1, hi, h⟩ := mutate_step_returns _ _ _ h
    cases h
    cases inside with
    | false => simp [Stmt.plain_call_inside]
    | true =>
      simp only [Stmt.coordinates_plain, Bool.not_true, Bool.false_or, Bool.and_eq_true] at hc
      simp [Stmt.plain_call_inside, mutate_lowers_reads scope value v1 hc.1 hv,
        mutate_lowers_reads scope index i1 hc.2 hi]
  | Provide name values args =>
    intro inside scope s1 hc h
    cases inside with
    | false =>
      simp only [InjectOpenGLIntrinsics.mutate_stmt, Bool.not_false, if_true] at h
      obtain ⟨a1, -, h⟩ := mutate_step_returns _ _ _ h
      obtain ⟨v1, -, h⟩ := mutate_step_returns _ _ _ h
      cases h
      simp [Stmt.plain_call_inside]
    | true =>
      simp only [Stmt.coordinates_plain, Bool.not_true, Bool.false_or, Bool.and_eq_true,
        Bool.not_eq_true'] at hc
      match values, hc, h with
      | [], _, h => cases h
      | _ :: _ :: _, _, h => cases h
      | [value], hc, h =>
        simp only [InjectOpenGLIntrinsics.mutate_stmt, Bool.not_true, Bool.false_eq_true,
          if_false] at h
        by_cases h3 : args.length = 3
        · simp only [h3, if_true] at h
          obtain ⟨v1, hv, h⟩ := mutate_step_returns _ _ _ h
          cases h
          have hvc : value.coordinates_plain = true := by
            simpa [Expr.list_coordinates_plain] using hc.1
          simp [Stmt.plain_call_inside, Expr.has_plain_call, Expr.list_has_plain_call,
            list_has_plain_call_append, hc.2, mutate_lowers_reads scope value v1 hvc hv]
        · simp only [h3, if_false] at h
          cases h
  | Allocate name type size body ih =>
    intro inside scope s1 hc h
    simp only [InjectOpenGLIntrinsics.mutate_stmt] at h
    obtain ⟨z1, hz, h⟩ := mutate_step_returns _ _ _ h
    obtain ⟨b1, hb, h⟩ := mutate_step_returns _ _ _ h
    cases h
    simp only [Stmt.coordinates_plain, Bool.and_eq_true] at hc
    simp only [Stmt.plain_call_inside, mutate_lowers_reads_inside inside _ size z1 hc.1 hz,
      ih inside _ b1 hc.2 hb, Bool.or_false]
  | Free name =>
    intro inside scope s1 _ h
    cases h
    rfl
  | Block first rest ih1 ih2 =>
    intro inside scope s1 hc h
    simp only [InjectOpenGLIntrinsics.mutate_stmt] at h
    obtain ⟨f1, hf, h⟩ := mutate_step_returns _ _ _ h
    obtain ⟨r1, hr, h⟩ := mutate_step_returns _ _ _ h
    cases h
    simp only [Stmt.coordinates_plain, Bool.and_eq_true] at hc
    simp only [Stmt.plain_call_inside, ih1 inside _ f1 hc.1 hf, ih2 inside _ r1 hc.2 hr,
      Bool.or_false]
  | IfThenElse condition then_case else_case ih1 ih2 =>
    intro inside scope s1 hc h
    simp only [InjectOpenGLIntrinsics.mutate_stmt] at h
    obtain ⟨c1, hc1, h⟩ := mutate_step_returns _ _ _ h
    obtain ⟨t1, ht, h⟩ := mutate_step_returns _ _ _ h
    obtain ⟨e1, he, h⟩ := mutate_step_returns _ _ _ h
    cases h
    simp only [Stmt.coordinates_plain, Bool.and_eq_true] at hc
    simp only [Stmt.plain_call_inside,
      mutate_lowers_reads_inside inside _ condition c1 hc.1.1 hc1,
      ih1 inside _ t1 hc.1.2 ht, ih2 inside _ e1 hc.2 he, Bool.or_false]
  | Evaluate value =>
    intro inside scope s1 hc h
    simp only [InjectOpenGLIntrinsics.mutate_stmt] at h
    obtain ⟨v1, hv, h⟩ := mutate_step_returns _ _ _ h
    cases h
    simp only [Stmt.coordinates_plain] at hc
    simp only [Stmt.plain_call_inside, mutate_lowers_reads_inside inside _ value v1 hc hv]

/-- Apart from the reads in coordinates, the injection lowers every read in
a kernel loop: when, after the zero-min pass, no read and no store inside a
kernel loop has a read in its coordinates, a successful
`inject_opengl_intrinsics` leaves no call that is not an intrinsic inside a
kernel loop. -/
theorem inject_lowers_reads_outside_coordinates (dev : CodeGen_GPU_Dev) (s s1 : Stmt)
    (hplain : (ZeroGPULoopMins.mutate dev s).coordinates_plain dev false = true)
    (h : inject_opengl_intrinsics dev s = .ok s1) :
    s1.plain_call_inside dev false = false :=
  mutate_stmt_lowers_reads dev _ false [] s1 hplain h

theorem inject_lowers_reads_outside_coordinates_witness :
    (ZeroGPULoopMins.mutate sampleDev kernelLoop).coordinates_plain sampleDev false = true ∧
    inject_opengl_intrinsics sampleDev kernelLoop =
      .ok (.For "bx" (.IntImm 0) (.IntImm 8) ForType.Parallel
        (.Evaluate (.Call (.Float 32) Call.glsl_texture_store
          [.StringImm "g", .Variable .Handle "g.buffer", Expr.Variable (.Int 32) "x",
            Expr.Variable (.Int 32) "y", Expr.Variable (.Int 32) "c",
            Expr.Variable (.Float 32) "v"]
          CallType.Intrinsic 0 0 none none))) ∧
    (Stmt.For "bx" (.IntImm 0) (.IntImm 8) ForType.Parallel
        (.Evaluate (.Call (.Float 32) Call.glsl_texture_store
          [.StringImm "g", .Variable .Handle "g.buffer", Expr.Variable (.Int 32) "x",
            Expr.Variable (.Int 32) "y", Expr.Variable (.Int 32) "c",
            Expr.Variable (.Float 32) "v"]
          CallType.Intrinsic 0 0 none none))).plain_call_inside sampleDev false = false :=
  ⟨by rfl, by rfl,
    inject_lowers_reads_outside_coordinates sampleDev kernelLoop _ (by rfl) (by rfl)⟩

/-! ### The varying that a fragment receives -/

theorem pixcoord_at_vertices (size origin : Int) :
    pixcoord (-1) size origin = origin ∧ pixcoord 1 size origin = ((size + origin : Int) : ℚ) := by
  constructor
  · have h : ((0.5 : ℚ) * (-1) + 0.5) * (size : ℚ) = ((0 : Int) : ℚ) := by norm_num
    simp only [pixcoord, h, Int.floor_intCast]
    norm_num
  · have h : ((0.5 : ℚ) * 1 + 0.5) * (size : ℚ) = ((size : Int) : ℚ) := by norm_num
    simp only [pixcoord, h, Int.floor_intCast]
    push_cast
    ring

theorem fragment_pixcoord_pixel_centre (size origin i : Int) (hsize : 1 ≤ size) :
    fragment_pixcoord (pixel_centre i size) size origin = ((i + origin : Int) : ℚ) + 1 / 2 := by
  have hs : (size : ℚ) ≠ 0 := by
    have : (0 : ℚ) < size := by exact_mod_cast (by omega : (0 : Int) < size)
    exact ne_of_gt this
  obtain ⟨h1, h2⟩ := pixcoord_at_vertices size origin
  simp only [fragment_pixcoord, interpolate, h1, h2, pixel_centre]
  push_cast
  field_simp
  ring

theorem floor_add_half (n : Int) : ⌊((n : Int) : ℚ) + 1 / 2⌋ = n := by
  rw [Int.floor_eq_iff]
  constructor <;> norm_num

/-- C18 (amended). Coordinate contract, over the rationals: for every output
extent `(W, H)` with `W, H ≥ 1`, every output origin `(mx, my)` and every
pixel `(i, j)` with `0 ≤ i < W` and `0 ≤ j < H`: the vertex shader computes
`pixcoord = floor((position * 0.5 + 0.5) * (W, H)) + (mx, my)` at the
vertices of the quad, where it is `(mx, my)` at position -1 and
`(W + mx, H + my)` at position 1; the fragment at the centre of the pixel
(position `(2 (i + 1/2) / W - 1, 2 (j + 1/2) / H - 1)`) receives the
interpolated value `(i + mx + 1/2, j + my + 1/2)`, whose floor is
`(i + mx, j + my)`; and for every channel `c` with
`min_c ≤ c < min_c + extent_c` the index `c - min_c` lies in
`[0, extent_c)`. -/
theorem fragment_pixcoord_floor_is_loop_coordinate (W H mx my i j : Int) (hW : 1 ≤ W)
    (hH : 1 ≤ H) (_hi : 0 ≤ i ∧ i < W) (_hj : 0 ≤ j ∧ j < H) :
    (pixcoord (-1) W mx = mx ∧ pixcoord 1 W mx = ((W + mx : Int) : ℚ) ∧
      pixcoord (-1) H my = my ∧ pixcoord 1 H my = ((H + my : Int) : ℚ)) ∧
    pixel_centre i W = 2 * ((i : ℚ) + 1 / 2) / W - 1 ∧
    pixel_centre j H = 2 * ((j : ℚ) + 1 / 2) / H - 1 ∧
    fragment_pixcoord (pixel_centre i W) W mx = ((i + mx : Int) : ℚ) + 1 / 2 ∧
    fragment_pixcoord (pixel_centre j H) H my = ((j + my : Int) : ℚ) + 1 / 2 ∧
    ⌊fragment_pixcoord (pixel_centre i W) W mx⌋ = i + mx ∧
    ⌊fragment_pixcoord (pixel_centre j H) H my⌋ = j + my ∧
    ∀ min_c extent_c c : Int, min_c ≤ c → c < min_c + extent_c →
      0 ≤ c - min_c ∧ c - min_c < extent_c := by
  refine ⟨⟨(pixcoord_at_vertices W mx).1, (pixcoord_at_vertices W mx).2,
    (pixcoord_at_vertices H my).1, (pixcoord_at_vertices H my).2⟩, rfl, rfl,
    fragment_pixcoord_pixel_centre W mx i hW, fragment_pixcoord_pixel_centre H my j hH,
    ?_, ?_, fun _ _ _ h1 h2 => ⟨by omega, by omega⟩⟩
  · rw [fragment_pixcoord_pixel_centre W mx i hW]
    exact floor_add_half _
  · rw [fragment_pixcoord_pixel_centre H my j hH]
    exact floor_add_half _

theorem fragment_pixcoord_floor_is_loop_coordinate_witness :
    (1 : Int) ≤ 255 ∧ (1 : Int) ≤ 10 ∧ ((0 : Int) ≤ 254 ∧ (254 : Int) < 255) ∧
    ((0 : Int) ≤ 9 ∧ (9 : Int) < 10) ∧
    (pixcoord (-1) 255 3 = ((3 : Int) : ℚ) ∧ pixcoord 1 255 3 = ((255 + 3 : Int) : ℚ) ∧
      pixcoord (-1) 10 (-4) = ((-4 : Int) : ℚ) ∧ pixcoord 1 10 (-4) = ((10 + -4 : Int) : ℚ)) ∧
    pixel_centre 254 255 = 2 * (((254 : Int) : ℚ) + 1 / 2) / ((255 : Int) : ℚ) - 1 ∧
    pixel_centre 9 10 = 2 * (((9 : Int) : ℚ) + 1 / 2) / ((10 : Int) : ℚ) - 1 ∧
    fragment_pixcoord (pixel_centre 254 255) 255 3 = ((254 + 3 : Int) : ℚ) + 1 / 2 ∧
    fragment_pixcoord (pixel_centre 9 10) 10 (-4) = ((9 + -4 : Int) : ℚ) + 1 / 2 ∧
    ⌊fragment_pixcoord (pixel_centre 254 255) 255 3⌋ = 254 + 3 ∧
    ⌊fragment_pixcoord (pixel_centre 9 10) 10 (-4)⌋ = 9 + -4 ∧
    ∀ min_c extent_c c : Int, min_c ≤ c → c < min_c + extent_c →
      0 ≤ c - min_c ∧ c - min_c < extent_c :=
  ⟨by decide, by decide, by decide, by decide,
    fragment_pixcoord_floor_is_loop_coordinate 255 10 3 (-4) 254 9 (by decide) (by decide)
      (by decide) (by decide)⟩

/-- C18, as stated, fails: for the output extent `W = 255` and origin
`mx = 3`, the vertex shader gives `pixcoord` the values 3 and 258 at the
vertices of the quad, and the fragment at the centre of pixel 254 receives
the interpolated value `515 / 2`, not `254 + 3 = 257`. -/
theorem pixcoord_interpolated_counterexample :
    (1 : Int) ≤ 255 ∧ ((0 : Int) ≤ 254 ∧ (254 : Int) < 255) ∧
    pixcoord (-1) 255 3 = 3 ∧ pixcoord 1 255 3 = 258 ∧
    pixel_centre 254 255 = 2 * ((254 : ℚ) + 1 / 2) / 255 - 1 ∧
    fragment_pixcoord (pixel_centre 254 255) 255 3 = 515 / 2 ∧
    fragment_pixcoord (pixel_centre 254 255) 255 3 ≠ ((254 + 3 : Int) : ℚ) := by
  have h := fragment_pixcoord_pixel_centre 255 3 254 (by decide)
  obtain ⟨h1, h2⟩ := pixcoord_at_vertices 255 3
  refine ⟨by decide, by decide, by rw [h1]; norm_num, by rw [h2]; norm_num, ?_, ?_, ?_⟩
  · unfold pixel_centre
    norm_num
  · rw [h]
    norm_num
  · rw [h]
    norm_num


theorem allocated_dev_malloc (h : Host) {w w1 : World} {buf buf1 : buffer_t}
    {base calls : List GLCall} (hinv : TexInv w) (hgl : w.gl = calls ++ base)
    (hall : ∀ name, name ∈ allocated_textures h base calls ↔
      ∃ r ∈ w.ST.textures, r.id = name ∧ r.halide_allocated = true)
    (hrun : halide_opengl_dev_malloc h buf w = Res.ok buf1 w1) :
    ∃ calls1, w1.gl = calls1 ++ base ∧
      ∀ name, name ∈ allocated_textures h base calls1 ↔
        ∃ r ∈ w1.ST.textures, r.id = name ∧ r.halide_allocated = true := by
  obtain ⟨hw, hnd, hnz⟩ := hinv
  by_cases htex : get_texture_id buf ≠ 0
  · rw [dev_malloc_host_texture h hw.1 htex] at hrun
    simp only [Res.ok.injEq] at hrun
    obtain ⟨_, rfl⟩ := hrun
    refine ⟨calls, hgl, ?_⟩
    intro name
    rw [hall name]
    simp
  · have htex0 : get_texture_id buf = 0 := not_not.1 htex
    obtain ⟨format, type, h2, h3, hf, ht⟩ :=
      dev_malloc_alloc_returned h hw htex0 (by rw [hrun]; rfl)
    rw [dev_malloc_alloc h hw htex0 h2 h3 hf ht] at hrun
    simp only [Res.ok.injEq] at hrun
    obtain ⟨_, rfl⟩ := hrun
    refine ⟨_, (by rw [hgl]; exact (List.append_assoc _ _ _).symm), ?_⟩
    intro name
    simp only [List.append_eq, List.cons_append, List.nil_append, allocated_textures,
      List.mem_cons, hall name, hgl]
    constructor
    · rintro (rfl | ⟨r, hr, hid, ha⟩)
      · exact ⟨_, Or.inl rfl, rfl, rfl⟩
      · exact ⟨r, Or.inr hr, hid, ha⟩
    · rintro ⟨r, hr | hr, hid, ha⟩
      · subst hr
        exact Or.inl hid.symm
      · exact Or.inr ⟨r, hr, hid, ha⟩

theorem allocated_dev_free (h : Host) {w w1 : World} {buf buf1 : buffer_t}
    {base calls : List GLCall} (hinv : TexInv w) (hgl : w.gl = calls ++ base)
    (hall : ∀ name, name ∈ allocated_textures h base calls ↔
      ∃ r ∈ w.ST.textures, r.id = name ∧ r.halide_allocated = true)
    (hrun : halide_opengl_dev_free buf w = Res.ok buf1 w1) :
    (∃ calls1, w1.gl = calls1 ++ base ∧
      ∀ name, name ∈ allocated_textures h base calls1 ↔
        ∃ r ∈ w1.ST.textures, r.id = name ∧ r.halide_allocated = true) ∧
    (get_texture_id buf ≠ 0 →
      (buf1.dev = 0 ↔ get_texture_id buf ∈ allocated_textures h base calls)) := by
  obtain ⟨hw, hnd, hnz⟩ := hinv
  by_cases htex : get_texture_id buf = 0
  · have : halide_opengl_dev_free buf w = Res.ok buf w := by
      simp [halide_opengl_dev_free, ASSERT_INITIALIZED, GLM.bind_apply, getST, halide_assert,
        hw.1, htex, GLM.ite_apply, GLM.pure_apply]
    rw [this] at hrun
    simp only [Res.ok.injEq] at hrun
    obtain ⟨_, rfl⟩ := hrun
    exact ⟨⟨calls, hgl, hall⟩, fun hne => absurd htex hne⟩
  · cases hfind : halide_opengl_find_texture w.ST.textures (get_texture_id buf) with
    | none =>
      have : (halide_opengl_dev_free buf w).returned = false := by
        simp [halide_opengl_dev_free, ASSERT_INITIALIZED, GLM.bind_apply, getST,
          halide_assert, hw.1, htex, GLM.ite_apply, modifyST, unlink_texture_none hfind,
          Res.returned]
      rw [hrun] at this
      exact absurd this (by simp [Res.returned])
    | some r =>
      have hid := find_texture_id hfind
      have hmem := find_texture_mem hfind
      have hdev := get_texture_id_ne_zero htex
      have hno := erase_no_id hnd hmem
      have hone : ∀ x ∈ w.ST.textures, x.id = r.id → x = r := by
        intro x hx hxid
        by_contra hne
        exact hno x ((List.mem_erase_of_ne hne).2 hx) hxid
      have hmemall : get_texture_id buf ∈ allocated_textures h base calls ↔
          r.halide_allocated = true := by
        rw [hall]
        constructor
        · rintro ⟨x, hx, hxid, ha⟩
          rw [← hone x hx (hxid.trans hid.symm)]
          exact ha
        · intro ha
          exact ⟨r, hmem, hid, ha⟩
      rw [dev_free_found hw htex hfind] at hrun
      by_cases hr : r.halide_allocated = true
      · simp only [hr, if_true, Res.ok.injEq] at hrun
        obtain ⟨rfl, rfl⟩ := hrun
        refine ⟨⟨_ :: calls, (by rw [hgl]; rfl), ?_⟩, fun _ => by simp [hmemall, hr]⟩
        intro name
        simp only [allocated_textures, List.mem_filter, hall name, decide_eq_true_eq]
        constructor
        · rintro ⟨⟨x, hx, hxid, ha⟩, hne⟩
          refine ⟨x, (List.mem_erase_of_ne ?_).2 hx, hxid, ha⟩
          rintro rfl
          apply hne
          rw [← hxid, hid]
        · rintro ⟨x, hx, hxid, ha⟩
          refine ⟨⟨x, List.mem_of_mem_erase hx, hxid, ha⟩, ?_⟩
          intro hcast
          have : name = get_texture_id buf := by exact_mod_cast hcast
          exact hno x hx (by rw [hxid, this, hid])
      · simp only [hr, if_false, Res.ok.injEq] at hrun
        obtain ⟨rfl, rfl⟩ := hrun
        refine ⟨⟨calls, hgl, ?_⟩, fun _ => by simp [hmemall, hr, hdev]⟩
        intro name
        rw [hall name]
        constructor
        · rintro ⟨x, hx, hxid, ha⟩
          refine ⟨x, (List.mem_erase_of_ne ?_).2 hx, hxid, ha⟩
          rintro rfl
          exact hr ha
        · rintro ⟨x, hx, hxid, ha⟩
          exact ⟨x, List.mem_of_mem_erase hx, hxid, ha⟩

theorem allocated_run_ops (h : Host) (base : List GLCall) (ops : List TextureOp) :
    ∀ (bufs bufs1 : List buffer_t) (w w1 : World) (calls : List GLCall), TexInv w →
      w.gl = calls ++ base →
      (∀ name, name ∈ allocated_textures h base calls ↔
        ∃ r ∈ w.ST.textures, r.id = name ∧ r.halide_allocated = true) →
      disciplined h ops bufs w = true → run_ops h ops bufs w = Res.ok bufs1 w1 →
      ∃ calls1, w1.gl = calls1 ++ base ∧
        ∀ name, name ∈ allocated_textures h base calls1 ↔
          ∃ r ∈ w1.ST.textures, r.id = name ∧ r.halide_allocated = true := by
  induction ops with
  | nil =>
    intro bufs bufs1 w w1 calls _ hgl hall _ hrun
    simp only [HalideGL.run_ops, GLM.pure_apply, Res.ok.injEq] at hrun
    obtain ⟨_, rfl⟩ := hrun
    exact ⟨calls, hgl, hall⟩
  | cons op ops ih =>
    intro bufs bufs1 w w1 calls hinv hgl hall hdisc hrun
    simp only [HalideGL.run_ops, GLM.bind_apply] at hrun
    simp only [disciplined, Bool.and_eq_true] at hdisc
    obtain ⟨hfresh, hrest⟩ := hdisc
    cases hop : run_op h op bufs w with
    | fail e w2 => simp [hop] at hrun
    | ok bufs2 w2 =>
      rw [hop] at hrun hrest
      have hstep : TexInv w2 ∧ ∃ calls2, w2.gl = calls2 ++ base ∧
          ∀ name, name ∈ allocated_textures h base calls2 ↔
            ∃ r ∈ w2.ST.textures, r.id = name ∧ r.halide_allocated = true := by
        cases op with
        | dev_malloc i =>
          simp only [run_op] at hop
          cases hb : bufs[i]? with
          | none =>
            simp only [hb, GLM.pure_apply, Res.ok.injEq] at hop
            obtain ⟨_, rfl⟩ := hop
            exact ⟨hinv, calls, hgl, hall⟩
          | some buf =>
            simp only [hb, decide_eq_true_eq] at hfresh
            simp only [hb, GLM.bind_apply] at hop
            cases hm : halide_opengl_dev_malloc h buf w with
            | fail e w3 => simp [hm] at hop
            | ok buf1 w3 =>
              simp only [hm, GLM.pure_apply, Res.ok.injEq] at hop
              obtain ⟨_, rfl⟩ := hop
              exact ⟨texInv_dev_malloc h hinv hfresh hm,
                allocated_dev_malloc h hinv hgl hall hm⟩
        | dev_free i =>
          simp only [run_op] at hop
          cases hb : bufs[i]? with
          | none =>
            simp only [hb, GLM.pure_apply, Res.ok.injEq] at hop
            obtain ⟨_, rfl⟩ := hop
            exact ⟨hinv, calls, hgl, hall⟩
          | some buf =>
            simp only [hb, GLM.bind_apply] at hop
            cases hm : halide_opengl_dev_free buf w with
            | fail e w3 => simp [hm] at hop
            | ok buf1 w3 =>
              simp only [hm, GLM.pure_apply, Res.ok.injEq] at hop
              obtain ⟨_, rfl⟩ := hop
              exact ⟨(texInv_dev_free hinv hm).1, (allocated_dev_free h hinv hgl hall hm).1⟩
      obtain ⟨hinv2, calls2, hgl2, hall2⟩ := hstep
      exact ih bufs2 bufs1 w2 w1 calls2 hinv2 hgl2 hall2 hrest hrun


/-- C5 (amended). Start from an initialized runtime with an empty texture
registry and run any sequence of `dev_malloc` and `dev_free` calls in which
no `dev_malloc` is applied to a handle that has a live record (and the
driver generates fresh, non-zero names). If the sequence returns and a
`dev_free(buf)` that follows it returns, then the registry holds no record
whose handle is the texture handle of `buf`; and when that handle is not
zero, the registry held a record for it before the call and the device slot
of `buf` is zero afterwards if and only if that record was marked
`halide_allocated`, which is so if and only if the runtime and not the host
allocated the texture: among the driver calls of the sequence there is a
`glGenTextures` call to which the driver returned that handle, with no
`glDeleteTextures` of the handle after it. -/
theorem dev_free_after_disciplined_sequence (h : Host) (ops : List TextureOp)
    (bufs : List buffer_t) (w : World) (hw : Ready w) (hempty : w.ST.textures = [])
    (hdisc : disciplined h ops bufs w = true) :
    ∀ (bufs1 : List buffer_t) (w1 : World) (i : Nat) (buf buf1 : buffer_t) (w2 : World),
      run_ops h ops bufs w = Res.ok bufs1 w1 → bufs1[i]? = some buf →
      halide_opengl_dev_free buf w1 = Res.ok buf1 w2 →
      (∀ r ∈ w2.ST.textures, r.id ≠ get_texture_id buf) ∧
      (get_texture_id buf ≠ 0 → ∃ r ∈ w1.ST.textures, r.id = get_texture_id buf ∧
        (buf1.dev = 0 ↔ r.halide_allocated = true)) ∧
      ∃ calls : List GLCall, w1.gl = calls ++ w.gl ∧
        (∀ name, name ∈ allocated_textures h w.gl calls ↔
          ∃ r ∈ w1.ST.textures, r.id = name ∧ r.halide_allocated = true) ∧
        (get_texture_id buf ≠ 0 →
          (buf1.dev = 0 ↔ get_texture_id buf ∈ allocated_textures h w.gl calls)) := by
  intro bufs1 w1 i buf buf1 w2 hrun _ hfree
  have hinv : TexInv w := ⟨hw, by simp [hempty], by simp [hempty]⟩
  have hinv1 := texInv_run_ops h ops bufs bufs1 w w1 hinv hdisc hrun
  obtain ⟨calls, hgl, hall⟩ := allocated_run_ops h w.gl ops bufs bufs1 w w1 [] hinv rfl
    (by simp [allocated_textures, hempty]) hdisc hrun
  obtain ⟨hno, hrec⟩ := (texInv_dev_free hinv1 hfree).2
  exact ⟨hno, hrec, calls, hgl, hall, (allocated_dev_free h hinv1 hgl hall hfree).2⟩

theorem dev_free_after_disciplined_sequence_witness :
    Ready readyWorld ∧ readyWorld.ST.textures = [] ∧
    disciplined sampleHost [TextureOp.dev_malloc 0, TextureOp.dev_malloc 1]
      [sampleBuffer, hostTextureBuffer] readyWorld = true ∧
    (run_ops sampleHost [TextureOp.dev_malloc 0, TextureOp.dev_malloc 1]
      [sampleBuffer, hostTextureBuffer] readyWorld).returned = true ∧
    ∀ (bufs1 : List buffer_t) (w1 : World) (i : Nat) (buf buf1 : buffer_t) (w2 : World),
      run_ops sampleHost [TextureOp.dev_malloc 0, TextureOp.dev_malloc 1]
        [sampleBuffer, hostTextureBuffer] readyWorld = Res.ok bufs1 w1 →
      bufs1[i]? = some buf →
      halide_opengl_dev_free buf w1 = Res.ok buf1 w2 →
      (∀ r ∈ w2.ST.textures, r.id ≠ get_texture_id buf) ∧
      (get_texture_id buf ≠ 0 → ∃ r ∈ w1.ST.textures, r.id = get_texture_id buf ∧
        (buf1.dev = 0 ↔ r.halide_allocated = true)) ∧
      ∃ calls : List GLCall, w1.gl = calls ++ readyWorld.gl ∧
        (∀ name, name ∈ allocated_textures sampleHost readyWorld.gl calls ↔
          ∃ r ∈ w1.ST.textures, r.id = name ∧ r.halide_allocated = true) ∧
        (get_texture_id buf ≠ 0 →
          (buf1.dev = 0 ↔
            get_texture_id buf ∈ allocated_textures sampleHost readyWorld.gl calls)) :=
  ⟨by decide, by decide, by decide!, by decide!,
    dev_free_after_disciplined_sequence sampleHost
      [TextureOp.dev_malloc 0, TextureOp.dev_malloc 1] [sampleBuffer, hostTextureBuffer]
      readyWorld (by decide) (by decide) (by decide!)⟩


/-! ### What a launch does after the framebuffer check -/

theorem dev_run_render_one_output_status (h : Host) (kernel : HalideOpenGLKernel)
    (args : List Nat) (n : Int) (w : World) (hw : Ready w)
    (hlen : args.length ≤ kernel.arguments.length) (a : Nat) (t : HalideOpenGLTexture)
    (hout : output_actuals kernel.arguments args = [a])
    (ht : halide_opengl_find_texture w.ST.textures a = some t) :
    (h.retI (⟨.CheckFramebufferStatus, [.n GL_FRAMEBUFFER]⟩ ::
        ⟨.DrawBuffers, [.n 1, .arr (some [GL_COLOR_ATTACHMENT0])]⟩ ::
        attach_call a :: ⟨.Disable, [.n GL_DEPTH_TEST]⟩ :: ⟨.Disable, [.n GL_CULL_FACE]⟩ ::
        ⟨.BindFramebuffer, [.n GL_FRAMEBUFFER, .n w.ST.framebuffer_id]⟩ :: w.gl) ≠
        GL_FRAMEBUFFER_COMPLETE →
      (dev_run_render h kernel args n w).world.gl =
          [⟨.CheckFramebufferStatus, [.n GL_FRAMEBUFFER]⟩,
            ⟨.DrawBuffers, [.n 1, .arr (some [GL_COLOR_ATTACHMENT0])]⟩] ++
          attach_call a :: ⟨.Disable, [.n GL_DEPTH_TEST]⟩ :: ⟨.Disable, [.n GL_CULL_FACE]⟩ ::
          ⟨.BindFramebuffer, [.n GL_FRAMEBUFFER, .n w.ST.framebuffer_id]⟩ :: w.gl) ∧
    (h.retI (⟨.CheckFramebufferStatus, [.n GL_FRAMEBUFFER]⟩ ::
        ⟨.DrawBuffers, [.n 1, .arr (some [GL_COLOR_ATTACHMENT0])]⟩ ::
        attach_call a :: ⟨.Disable, [.n GL_DEPTH_TEST]⟩ :: ⟨.Disable, [.n GL_CULL_FACE]⟩ ::
        ⟨.BindFramebuffer, [.n GL_FRAMEBUFFER, .n w.ST.framebuffer_id]⟩ :: w.gl) =
        GL_FRAMEBUFFER_COMPLETE →
      ∃ locE locM pos,
        locE = h.retI (⟨.GetUniformLocation, [.n kernel.program_id, .str "output_extent".toList]⟩ ::
          ⟨.CheckFramebufferStatus, [.n GL_FRAMEBUFFER]⟩ ::
          ⟨.DrawBuffers, [.n 1, .arr (some [GL_COLOR_ATTACHMENT0])]⟩ ::
          attach_call a :: ⟨.Disable, [.n GL_DEPTH_TEST]⟩ :: ⟨.Disable, [.n GL_CULL_FACE]⟩ ::
          ⟨.BindFramebuffer, [.n GL_FRAMEBUFFER, .n w.ST.framebuffer_id]⟩ :: w.gl) ∧
        locM = h.retI (⟨.GetUniformLocation, [.n kernel.program_id, .str "output_min".toList]⟩ ::
          ⟨.Uniform2iv, [.n locE, .n 1, .arr (some [t.extent.1, t.extent.2.1])]⟩ ::
          ⟨.GetUniformLocation, [.n kernel.program_id, .str "output_extent".toList]⟩ ::
          ⟨.CheckFramebufferStatus, [.n GL_FRAMEBUFFER]⟩ ::
          ⟨.DrawBuffers, [.n 1, .arr (some [GL_COLOR_ATTACHMENT0])]⟩ ::
          attach_call a :: ⟨.Disable, [.n GL_DEPTH_TEST]⟩ :: ⟨.Disable, [.n GL_CULL_FACE]⟩ ::
          ⟨.BindFramebuffer, [.n GL_FRAMEBUFFER, .n w.ST.framebuffer_id]⟩ :: w.gl) ∧
        (dev_run_render h kernel args n w).world.gl =
          ⟨.BindFramebuffer, [.n GL_FRAMEBUFFER, .n 0]⟩ :: cleanup_calls n.toNat 0 ++
            [⟨.DisableVertexAttribArray, [.n pos]⟩,
             ⟨.DrawElements, [.n GL_TRIANGLE_STRIP, .n 4, .n GL_UNSIGNED_INT, .arr none]⟩,
             ⟨.BindBuffer, [.n GL_ELEMENT_ARRAY_BUFFER, .n w.ST.element_buffer]⟩,
             ⟨.EnableVertexAttribArray, [.n pos]⟩,
             ⟨.VertexAttribPointer, [.n pos, .n 2, .n GL_FLOAT, .n GL_FALSE, .n 8, .arr none]⟩,
             ⟨.BindBuffer, [.n GL_ARRAY_BUFFER, .n w.ST.vertex_buffer]⟩,
             ⟨.GetAttribLocation, [.n kernel.program_id, .str "position".toList]⟩,
             ⟨.Viewport, [.n 0, .n 0, .n t.extent.1, .n t.extent.2.1]⟩,
             ⟨.Ortho, [.n (-1), .n 1, .n (-1), .n 1, .n 1, .n (-1)]⟩,
             ⟨.LoadIdentity, []⟩,
             ⟨.MatrixMode, [.n GL_PROJECTION]⟩,
             ⟨.LoadIdentity, []⟩,
             ⟨.MatrixMode, [.n GL_MODELVIEW]⟩,
             ⟨.Uniform2iv, [.n locM, .n 1, .arr (some [t.min.1, t.min.2.1])]⟩,
             ⟨.GetUniformLocation, [.n kernel.program_id, .str "output_min".toList]⟩,
             ⟨.Uniform2iv, [.n locE, .n 1, .arr (some [t.extent.1, t.extent.2.1])]⟩,
             ⟨.GetUniformLocation, [.n kernel.program_id, .str "output_extent".toList]⟩,
             ⟨.CheckFramebufferStatus, [.n GL_FRAMEBUFFER]⟩,
             ⟨.DrawBuffers, [.n 1, .arr (some [GL_COLOR_ATTACHMENT0])]⟩] ++
          attach_call a :: ⟨.Disable, [.n GL_DEPTH_TEST]⟩ :: ⟨.Disable, [.n GL_CULL_FACE]⟩ ::
          ⟨.BindFramebuffer, [.n GL_FRAMEBUFFER, .n w.ST.framebuffer_id]⟩ :: w.gl) := by
  have hrange : List.map (fun i => GL_COLOR_ATTACHMENT0 + i)
      ((List.range (Int.toNat 1)).flatMap fun a : Nat => [(a : Int)]) = [GL_COLOR_ATTACHMENT0] := by
    decide
  simp only [dev_run_render, GLM.bind_apply, getST, glCall, hw.proc, if_true]
  rw [((dev_run_outputs_outcome args kernel.arguments ⟨0, (0, 0), (0, 0)⟩
    ⟨w.ST, ⟨.Disable, [.n GL_DEPTH_TEST]⟩ :: ⟨.Disable, [.n GL_CULL_FACE]⟩ ::
          ⟨.BindFramebuffer, [.n GL_FRAMEBUFFER, .n w.ST.framebuffer_id]⟩ :: w.gl, w.out⟩
    (hw.of_ST rfl) hlen rfl).1 a hout).1 t ht]
  simp only [GLM.ite_apply, GLM.bind_apply, glCall, glCallI, hw.proc, if_true, one_ne_zero,
    if_false, halide_printf, GLM.pure_apply, List.map_eq_map, List.bind_eq_flatMap,
    List.pure_def, List.flatMap_singleton', hrange]
  split
  · rename_i hs
    exact ⟨fun _ => rfl, fun hc => absurd hc hs⟩
  · rename_i hs
    rw [dev_run_cleanup_outcome]
    swap
    · exact hw.of_ST rfl
    simp only [hw.proc, if_true, Res.world, Res.returned]
    refine ⟨fun hc => absurd hc hs, fun _ => ?_⟩
    apply Exists.intro
    apply Exists.intro
    apply Exists.intro
    refine ⟨rfl, rfl, ?_⟩
    simp only [List.cons_append, List.append_assoc, List.nil_append, List.singleton_append]
    rfl


/-! ### The geometry of the output -/

/-- C12. In an initialized runtime, for a registered kernel invoked by
`dev_run` with as many actuals as it declares arguments: if the kernel
declares two or more outputs the call aborts; if it declares none the call
returns, its last output line is the warning that the kernel has no output
and it makes no `glDrawElements` call; if it declares exactly one, with
actual `a`, the texture `a` is attached at color attachment 0, and when the
texture registry holds a record `t` for `a` the call returns, every
`glViewport` call it makes has the size `t.extent[0]`, `t.extent[1]`, every
`glUniform2iv` call it makes passes `t.extent[0]`, `t.extent[1]` or
`t.min[0]`, `t.min[1]`, and when it draws, it has set the uniform located
as `output_extent` to the former, the uniform located as `output_min` to the
latter and the viewport to the extent (without a record for `a` the call
aborts). After attaching the texture the call asks the driver for the
status of the framebuffer (`before` holds the calls up to there): when the
answer is `GL_FRAMEBUFFER_COMPLETE` the calls that follow are exactly the
lookup of `output_extent` and `glUniform2iv` of `t.extent[0..1]` at the
location the driver returned, the lookup of `output_min` and `glUniform2iv`
of `t.min[0..1]` at the location the driver returned, the two matrix
resets, `glOrtho`, `glViewport(0, 0, t.extent[0], t.extent[1])`, the draw
of the quad, and the unbinding of the textures and the framebuffer; when
the answer is anything else, no call follows. -/
theorem dev_run_output_geometry (h : Host) (w : World) (entry_name : List Char)
    (kernel : HalideOpenGLKernel) (args : List Nat) (hw : Ready w)
    (hfind : halide_opengl_find_kernel w.ST.kernels entry_name = some kernel)
    (hreg : ∃ src size k0, create_kernel src size = Except.ok k0 ∧
      kernel.arguments = k0.arguments)
    (hlen : args.length = kernel.arguments.length) :
    (2 ≤ (kernel.arguments.filter fun k => k.is_output).length →
      (halide_opengl_dev_run h entry_name args w).returned = false) ∧
    ((kernel.arguments.filter fun k => k.is_output).length = 0 →
      (halide_opengl_dev_run h entry_name args w).returned = true ∧
      (halide_opengl_dev_run h entry_name args w).world.out.head? =
        some ⟨"Warning: kernel '%s' has no output\n", [.str kernel.name]⟩ ∧
      ∃ added, (halide_opengl_dev_run h entry_name args w).world.gl = added ++ w.gl ∧
        ∀ c ∈ added, c.fn ≠ GLFunc.DrawElements) ∧
    ((kernel.arguments.filter fun k => k.is_output).length = 1 →
      ∃ a added, output_actuals kernel.arguments args = [a] ∧
        (halide_opengl_dev_run h entry_name args w).world.gl = added ++ w.gl ∧
        attach_call a ∈ added ∧
        (halide_opengl_find_texture w.ST.textures a = none →
          (halide_opengl_dev_run h entry_name args w).returned = false) ∧
        ∀ t, halide_opengl_find_texture w.ST.textures a = some t →
          (halide_opengl_dev_run h entry_name args w).returned = true ∧
          (∀ c ∈ added, c.fn = GLFunc.Viewport →
            c.args = [.n 0, .n 0, .n t.extent.1, .n t.extent.2.1]) ∧
          (∀ c ∈ added, c.fn = GLFunc.Uniform2iv → ∃ loc,
            c.args = [.n loc, .n 1, .arr (some [t.extent.1, t.extent.2.1])] ∨
            c.args = [.n loc, .n 1, .arr (some [t.min.1, t.min.2.1])]) ∧
          ((∃ c ∈ added, c.fn = GLFunc.DrawElements) →
            (⟨.Viewport, [.n 0, .n 0, .n t.extent.1, .n t.extent.2.1]⟩ : GLCall) ∈ added ∧
            ∃ locE locM,
              [(⟨.Uniform2iv, [.n locM, .n 1, .arr (some [t.min.1, t.min.2.1])]⟩ : GLCall),
               ⟨.GetUniformLocation, [.n kernel.program_id, .str "output_min".toList]⟩,
               ⟨.Uniform2iv, [.n locE, .n 1, .arr (some [t.extent.1, t.extent.2.1])]⟩,
               ⟨.GetUniformLocation, [.n kernel.program_id, .str "output_extent".toList]⟩]
                <:+: added) ∧
          ∃ before after : List GLCall,
            added = after ++ ⟨.CheckFramebufferStatus, [.n GL_FRAMEBUFFER]⟩ :: before ∧
            attach_call a ∈ before ∧
            (∀ c ∈ before, c.fn ≠ GLFunc.CheckFramebufferStatus) ∧
            (h.retI (⟨.CheckFramebufferStatus, [.n GL_FRAMEBUFFER]⟩ :: (before ++ w.gl)) ≠
                GL_FRAMEBUFFER_COMPLETE → after = []) ∧
            (h.retI (⟨.CheckFramebufferStatus, [.n GL_FRAMEBUFFER]⟩ :: (before ++ w.gl)) =
                GL_FRAMEBUFFER_COMPLETE →
              ∃ (locE locM pos : Int) (cleanup : List GLCall),
                (∀ c ∈ cleanup, c.fn = GLFunc.ActiveTexture ∨ c.fn = GLFunc.BindTexture) ∧
                locE = h.retI (⟨.GetUniformLocation, [.n kernel.program_id, .str "output_extent".toList]⟩ ::
                  ⟨.CheckFramebufferStatus, [.n GL_FRAMEBUFFER]⟩ :: (before ++ w.gl)) ∧
                locM = h.retI (⟨.GetUniformLocation, [.n kernel.program_id, .str "output_min".toList]⟩ ::
                  ⟨.Uniform2iv, [.n locE, .n 1, .arr (some [t.extent.1, t.extent.2.1])]⟩ ::
                  ⟨.GetUniformLocation, [.n kernel.program_id, .str "output_extent".toList]⟩ ::
                  ⟨.CheckFramebufferStatus, [.n GL_FRAMEBUFFER]⟩ :: (before ++ w.gl)) ∧
                after = ⟨.BindFramebuffer, [.n GL_FRAMEBUFFER, .n 0]⟩ :: cleanup ++
                  [⟨.DisableVertexAttribArray, [.n pos]⟩,
                  ⟨.DrawElements, [.n GL_TRIANGLE_STRIP, .n 4, .n GL_UNSIGNED_INT, .arr none]⟩,
                  ⟨.BindBuffer, [.n GL_ELEMENT_ARRAY_BUFFER, .n w.ST.element_buffer]⟩,
                  ⟨.EnableVertexAttribArray, [.n pos]⟩,
                  ⟨.VertexAttribPointer,
                    [.n pos, .n 2, .n GL_FLOAT, .n GL_FALSE, .n 8, .arr none]⟩,
                  ⟨.BindBuffer, [.n GL_ARRAY_BUFFER, .n w.ST.vertex_buffer]⟩,
                  ⟨.GetAttribLocation, [.n kernel.program_id, .str "position".toList]⟩,
                  ⟨.Viewport, [.n 0, .n 0, .n t.extent.1, .n t.extent.2.1]⟩,
                  ⟨.Ortho, [.n (-1), .n 1, .n (-1), .n 1, .n 1, .n (-1)]⟩,
                  ⟨.LoadIdentity, []⟩,
                  ⟨.MatrixMode, [.n GL_PROJECTION]⟩,
                  ⟨.LoadIdentity, []⟩,
                  ⟨.MatrixMode, [.n GL_MODELVIEW]⟩,
                  ⟨.Uniform2iv, [.n locM, .n 1, .arr (some [t.min.1, t.min.2.1])]⟩,
                  ⟨.GetUniformLocation, [.n kernel.program_id, .str "output_min".toList]⟩,
                  ⟨.Uniform2iv, [.n locE, .n 1, .arr (some [t.extent.1, t.extent.2.1])]⟩,
                  ⟨.GetUniformLocation, [.n kernel.program_id, .str "output_extent".toList]⟩])) := by
  obtain ⟨src, size, k0, hk0, hargs⟩ := hreg
  have hvalid : ∀ a ∈ kernel.arguments, ValidArgType a.type := by
    rw [hargs]
    exact create_kernel_types hk0
  obtain ⟨n1, w1, added1, hrun, hw1, hst, hgl1, hP1⟩ :=
    dev_run_reaches_render h w entry_name kernel args hw hfind hvalid hlen
  have hcount := output_actuals_length kernel.arguments args hlen
  rw [hrun]
  refine ⟨fun h2 => ?_, fun h0 => ?_, fun h1 => ?_⟩
  · exact dev_run_render_two_outputs h kernel args n1 w1 hw1 (Nat.le_of_eq hlen)
      (by rw [hcount]; exact h2)
  · have hout : output_actuals kernel.arguments args = [] :=
      List.length_eq_zero.1 (by rw [hcount]; exact h0)
    rw [dev_run_render_no_output h kernel args n1 w1 hw1 (Nat.le_of_eq hlen) hout]
    refine ⟨rfl, rfl, ⟨.Disable, [.n GL_DEPTH_TEST]⟩ :: ⟨.Disable, [.n GL_CULL_FACE]⟩ ::
      ⟨.BindFramebuffer, [.n GL_FRAMEBUFFER, .n w1.ST.framebuffer_id]⟩ :: added1 ++
      [⟨.UseProgram, [.n kernel.program_id]⟩], ?_, ?_⟩
    · simp [Res.world, hgl1]
    · intro c hc
      simp only [List.cons_append, List.mem_cons, List.mem_append, List.mem_singleton,
        List.not_mem_nil, or_false] at hc
      rcases hc with rfl | rfl | rfl | hc | rfl
      · simp
      · simp
      · simp
      · rcases hP1 c hc with hf | hf | hf | hf | hf <;> simp [hf]
      · simp
  · obtain ⟨a, hout⟩ : ∃ a, output_actuals kernel.arguments args = [a] :=
      List.length_eq_one.1 (by rw [hcount]; exact h1)
    have hinputs : ∀ c ∈ added1 ++ [(⟨.UseProgram, [.n kernel.program_id]⟩ : GLCall)],
        c.fn ≠ GLFunc.Viewport ∧ c.fn ≠ GLFunc.Uniform2iv ∧ c.fn ≠ GLFunc.DrawElements := by
      intro c hc
      rcases List.mem_append.1 hc with hc | hc
      · rcases hP1 c hc with hf | hf | hf | hf | hf <;> simp [hf]
      · simp only [List.mem_singleton] at hc
        subst hc
        simp
    have hcl : ∀ c ∈ cleanup_calls n1.toNat 0,
        c.fn ≠ GLFunc.Viewport ∧ c.fn ≠ GLFunc.Uniform2iv ∧ c.fn ≠ GLFunc.DrawElements := by
      intro c hc
      rcases cleanup_calls_fn _ _ c hc with hf | hf <;> simp [hf]
    cases hfindt : halide_opengl_find_texture w.ST.textures a with
    | none =>
      rw [dev_run_render_undefined_output h kernel args n1 w1 hw1 (Nat.le_of_eq hlen) a hout
        (by rw [hst]; exact hfindt)]
      refine ⟨a, attach_call a :: ⟨.Disable, [.n GL_DEPTH_TEST]⟩ ::
        ⟨.Disable, [.n GL_CULL_FACE]⟩ ::
        ⟨.BindFramebuffer, [.n GL_FRAMEBUFFER, .n w1.ST.framebuffer_id]⟩ :: added1 ++
        [⟨.UseProgram, [.n kernel.program_id]⟩], hout, ?_, ?_, fun _ => rfl, ?_⟩
      · simp [Res.world, hgl1]
      · simp
      · intro t ht
        rw [hfindt] at ht
        exact absurd ht (by simp)
    | some t =>
      obtain ⟨hret, -⟩ :=
        dev_run_render_one_output h kernel args n1 w1 hw1 (Nat.le_of_eq hlen) a t hout
          (by rw [hst]; exact hfindt)
      obtain ⟨hinc, hcomp⟩ :=
        dev_run_render_one_output_status h kernel args n1 w1 hw1 (Nat.le_of_eq hlen) a t hout
          (by rw [hst]; exact hfindt)
      have hbefore : (⟨.DrawBuffers, [.n 1, .arr (some [GL_COLOR_ATTACHMENT0])]⟩ ::
            attach_call a :: ⟨.Disable, [.n GL_DEPTH_TEST]⟩ :: ⟨.Disable, [.n GL_CULL_FACE]⟩ ::
            ⟨.BindFramebuffer, [.n GL_FRAMEBUFFER, .n w1.ST.framebuffer_id]⟩ ::
            (added1 ++ [⟨.UseProgram, [.n kernel.program_id]⟩]) : List GLCall) ++ w.gl =
          ⟨.DrawBuffers, [.n 1, .arr (some [GL_COLOR_ATTACHMENT0])]⟩ ::
            attach_call a :: ⟨.Disable, [.n GL_DEPTH_TEST]⟩ :: ⟨.Disable, [.n GL_CULL_FACE]⟩ ::
            ⟨.BindFramebuffer, [.n GL_FRAMEBUFFER, .n w1.ST.framebuffer_id]⟩ :: w1.gl := by
        rw [hgl1]
        simp
      have hbfn : ∀ c ∈ (⟨.DrawBuffers, [.n 1, .arr (some [GL_COLOR_ATTACHMENT0])]⟩ ::
            attach_call a :: ⟨.Disable, [.n GL_DEPTH_TEST]⟩ :: ⟨.Disable, [.n GL_CULL_FACE]⟩ ::
            ⟨.BindFramebuffer, [.n GL_FRAMEBUFFER, .n w1.ST.framebuffer_id]⟩ ::
            (added1 ++ [⟨.UseProgram, [.n kernel.program_id]⟩]) : List GLCall), c.fn ≠ GLFunc.CheckFramebufferStatus := by
        intro c hc
        simp only [List.mem_cons, List.mem_append, List.mem_singleton, List.not_mem_nil,
          or_false] at hc
        rcases hc with rfl | rfl | rfl | rfl | rfl | hc | rfl
        · simp
        · simp [attach_call]
        · simp
        · simp
        · simp
        · rcases hP1 c hc with hf | hf | hf | hf | hf <;> simp [hf]
        · simp
      have hcases :
          (h.retI (⟨.CheckFramebufferStatus, [.n GL_FRAMEBUFFER]⟩ :: ((⟨.DrawBuffers, [.n 1, .arr (some [GL_COLOR_ATTACHMENT0])]⟩ ::
            attach_call a :: ⟨.Disable, [.n GL_DEPTH_TEST]⟩ :: ⟨.Disable, [.n GL_CULL_FACE]⟩ ::
            ⟨.BindFramebuffer, [.n GL_FRAMEBUFFER, .n w1.ST.framebuffer_id]⟩ ::
            (added1 ++ [⟨.UseProgram, [.n kernel.program_id]⟩]) : List GLCall) ++ w.gl)) ≠
            GL_FRAMEBUFFER_COMPLETE) ∨
          (h.retI (⟨.CheckFramebufferStatus, [.n GL_FRAMEBUFFER]⟩ :: ((⟨.DrawBuffers, [.n 1, .arr (some [GL_COLOR_ATTACHMENT0])]⟩ ::
            attach_call a :: ⟨.Disable, [.n GL_DEPTH_TEST]⟩ :: ⟨.Disable, [.n GL_CULL_FACE]⟩ ::
            ⟨.BindFramebuffer, [.n GL_FRAMEBUFFER, .n w1.ST.framebuffer_id]⟩ ::
            (added1 ++ [⟨.UseProgram, [.n kernel.program_id]⟩]) : List GLCall) ++ w.gl)) =
            GL_FRAMEBUFFER_COMPLETE) := (Decidable.em _).symm
      rcases hcases with hs | hs
      on_goal 1 => have hshape := hinc (by rw [← hbefore]; exact hs)
      on_goal 2 => have hcomp1 := hcomp (by rw [← hbefore]; exact hs)
      on_goal 2 => obtain ⟨locE, locM, pos, hlocE, hlocM, hshape⟩ := hcomp1
      · refine ⟨a, [⟨.CheckFramebufferStatus, [.n GL_FRAMEBUFFER]⟩,
            ⟨.DrawBuffers, [.n 1, .arr (some [GL_COLOR_ATTACHMENT0])]⟩] ++
          attach_call a :: ⟨.Disable, [.n GL_DEPTH_TEST]⟩ :: ⟨.Disable, [.n GL_CULL_FACE]⟩ ::
          ⟨.BindFramebuffer, [.n GL_FRAMEBUFFER, .n w1.ST.framebuffer_id]⟩ ::
          (added1 ++ [⟨.UseProgram, [.n kernel.program_id]⟩]), hout, ?_, ?_,
          fun hn => by rw [hfindt] at hn; exact absurd hn (by simp), ?_⟩
        · rw [hshape, hgl1]
          simp
        · simp
        · intro t1 ht1
          rw [hfindt, Option.some.injEq] at ht1
          subst ht1
          refine ⟨hret, ?_, ?_, ?_, ?_⟩
          · intro c hc hfn
            simp only [List.cons_append, List.nil_append, List.mem_cons] at hc
            rcases hc with rfl | rfl | rfl | rfl | rfl | rfl | hc
            all_goals first
              | exact absurd hfn (hinputs c hc).1
              | simp [attach_call] at hfn
          · intro c hc hfn
            simp only [List.cons_append, List.nil_append, List.mem_cons] at hc
            rcases hc with rfl | rfl | rfl | rfl | rfl | rfl | hc
            all_goals first
              | exact absurd hfn (hinputs c hc).2.1
              | simp [attach_call] at hfn
          · rintro ⟨c, hc, hfn⟩
            simp only [List.cons_append, List.nil_append, List.mem_cons] at hc
            rcases hc with rfl | rfl | rfl | rfl | rfl | rfl | hc
            all_goals first
              | exact absurd hfn (hinputs c hc).2.2
              | simp [attach_call] at hfn
          · refine ⟨(⟨.DrawBuffers, [.n 1, .arr (some [GL_COLOR_ATTACHMENT0])]⟩ ::
              attach_call a :: ⟨.Disable, [.n GL_DEPTH_TEST]⟩ :: ⟨.Disable, [.n GL_CULL_FACE]⟩ ::
              ⟨.BindFramebuffer, [.n GL_FRAMEBUFFER, .n w1.ST.framebuffer_id]⟩ ::
              (added1 ++ [⟨.UseProgram, [.n kernel.program_id]⟩]) : List GLCall), [], by simp, by simp, hbfn, fun _ => rfl, fun hc => absurd hc hs⟩
      · refine ⟨a, (⟨.BindFramebuffer, [.n GL_FRAMEBUFFER, .n 0]⟩ :: cleanup_calls n1.toNat 0 ++
            [⟨.DisableVertexAttribArray, [.n pos]⟩,
             ⟨.DrawElements, [.n GL_TRIANGLE_STRIP, .n 4, .n GL_UNSIGNED_INT, .arr none]⟩,
             ⟨.BindBuffer, [.n GL_ELEMENT_ARRAY_BUFFER, .n w1.ST.element_buffer]⟩,
             ⟨.EnableVertexAttribArray, [.n pos]⟩,
             ⟨.VertexAttribPointer, [.n pos, .n 2, .n GL_FLOAT, .n GL_FALSE, .n 8, .arr none]⟩,
             ⟨.BindBuffer, [.n GL_ARRAY_BUFFER, .n w1.ST.vertex_buffer]⟩,
             ⟨.GetAttribLocation, [.n kernel.program_id, .str "position".toList]⟩,
             ⟨.Viewport, [.n 0, .n 0, .n t.extent.1, .n t.extent.2.1]⟩,
             ⟨.Ortho, [.n (-1), .n 1, .n (-1), .n 1, .n 1, .n (-1)]⟩,
             ⟨.LoadIdentity, []⟩,
             ⟨.MatrixMode, [.n GL_PROJECTION]⟩,
             ⟨.LoadIdentity, []⟩,
             ⟨.MatrixMode, [.n GL_MODELVIEW]⟩,
             ⟨.Uniform2iv, [.n locM, .n 1, .arr (some [t.min.1, t.min.2.1])]⟩,
             ⟨.GetUniformLocation, [.n kernel.program_id, .str "output_min".toList]⟩,
             ⟨.Uniform2iv, [.n locE, .n 1, .arr (some [t.extent.1, t.extent.2.1])]⟩,
             ⟨.GetUniformLocation, [.n kernel.program_id, .str "output_extent".toList]⟩,
             ⟨.CheckFramebufferStatus, [.n GL_FRAMEBUFFER]⟩,
             ⟨.DrawBuffers, [.n 1, .arr (some [GL_COLOR_ATTACHMENT0])]⟩]) ++
          attach_call a :: ⟨.Disable, [.n GL_DEPTH_TEST]⟩ :: ⟨.Disable, [.n GL_CULL_FACE]⟩ ::
          ⟨.BindFramebuffer, [.n GL_FRAMEBUFFER, .n w1.ST.framebuffer_id]⟩ ::
          (added1 ++ [⟨.UseProgram, [.n kernel.program_id]⟩]), hout, ?_, ?_,
          fun hn => by rw [hfindt] at hn; exact absurd hn (by simp), ?_⟩
        · rw [hshape, hgl1]
          simp
        · simp
        · intro t1 ht1
          rw [hfindt, Option.some.injEq] at ht1
          subst ht1
          refine ⟨hret, ?_, ?_, ?_, ?_⟩
          · intro c hc hfn
            simp only [List.cons_append, List.nil_append, List.mem_cons, List.mem_append,
              List.mem_singleton, List.not_mem_nil, or_false] at hc
            rcases hc with rfl | (hc | rfl | rfl | rfl | rfl | rfl | rfl | rfl | rfl | rfl | rfl | rfl | rfl | rfl | rfl | rfl | rfl | rfl | rfl | rfl) | rfl | rfl | rfl | rfl | hc | rfl
            all_goals first
              | exact absurd hfn (hinputs c (List.mem_append_left _ hc)).1
              | exact absurd hfn (hcl c hc).1
              | rfl
              | simp [attach_call] at hfn
          · intro c hc hfn
            simp only [List.cons_append, List.nil_append, List.mem_cons, List.mem_append,
              List.mem_singleton, List.not_mem_nil, or_false] at hc
            rcases hc with rfl | (hc | rfl | rfl | rfl | rfl | rfl | rfl | rfl | rfl | rfl | rfl | rfl | rfl | rfl | rfl | rfl | rfl | rfl | rfl | rfl) | rfl | rfl | rfl | rfl | hc | rfl
            all_goals first
              | exact absurd hfn (hinputs c (List.mem_append_left _ hc)).2.1
              | exact absurd hfn (hcl c hc).2.1
              | exact ⟨_, Or.inl rfl⟩
              | exact ⟨_, Or.inr rfl⟩
              | simp [attach_call] at hfn
          · intro _
            refine ⟨by simp, locE, locM,
              (⟨.BindFramebuffer, [.n GL_FRAMEBUFFER, .n 0]⟩ :: cleanup_calls n1.toNat 0 ++
                [⟨.DisableVertexAttribArray, [.n pos]⟩,
             ⟨.DrawElements, [.n GL_TRIANGLE_STRIP, .n 4, .n GL_UNSIGNED_INT, .arr none]⟩,
             ⟨.BindBuffer, [.n GL_ELEMENT_ARRAY_BUFFER, .n w1.ST.element_buffer]⟩,
             ⟨.EnableVertexAttribArray, [.n pos]⟩,
             ⟨.VertexAttribPointer, [.n pos, .n 2, .n GL_FLOAT, .n GL_FALSE, .n 8, .arr none]⟩,
             ⟨.BindBuffer, [.n GL_ARRAY_BUFFER, .n w1.ST.vertex_buffer]⟩,
             ⟨.GetAttribLocation, [.n kernel.program_id, .str "position".toList]⟩,
             ⟨.Viewport, [.n 0, .n 0, .n t.extent.1, .n t.extent.2.1]⟩,
             ⟨.Ortho, [.n (-1), .n 1, .n (-1), .n 1, .n 1, .n (-1)]⟩,
             ⟨.LoadIdentity, []⟩,
             ⟨.MatrixMode, [.n GL_PROJECTION]⟩,
             ⟨.LoadIdentity, []⟩,
             ⟨.MatrixMode, [.n GL_MODELVIEW]⟩]),
              [⟨.CheckFramebufferStatus, [.n GL_FRAMEBUFFER]⟩,
                ⟨.DrawBuffers, [.n 1, .arr (some [GL_COLOR_ATTACHMENT0])]⟩] ++
              attach_call a :: ⟨.Disable, [.n GL_DEPTH_TEST]⟩ ::
              ⟨.Disable, [.n GL_CULL_FACE]⟩ ::
              ⟨.BindFramebuffer, [.n GL_FRAMEBUFFER, .n w1.ST.framebuffer_id]⟩ ::
              (added1 ++ [⟨.UseProgram, [.n kernel.program_id]⟩]), ?_⟩
            simp
          · refine ⟨(⟨.DrawBuffers, [.n 1, .arr (some [GL_COLOR_ATTACHMENT0])]⟩ ::
              attach_call a :: ⟨.Disable, [.n GL_DEPTH_TEST]⟩ :: ⟨.Disable, [.n GL_CULL_FACE]⟩ ::
              ⟨.BindFramebuffer, [.n GL_FRAMEBUFFER, .n w1.ST.framebuffer_id]⟩ ::
              (added1 ++ [⟨.UseProgram, [.n kernel.program_id]⟩]) : List GLCall),
              (⟨.BindFramebuffer, [.n GL_FRAMEBUFFER, .n 0]⟩ :: cleanup_calls n1.toNat 0 ++
              [⟨.DisableVertexAttribArray, [.n pos]⟩,
               ⟨.DrawElements, [.n GL_TRIANGLE_STRIP, .n 4, .n GL_UNSIGNED_INT, .arr none]⟩,
               ⟨.BindBuffer, [.n GL_ELEMENT_ARRAY_BUFFER, .n w1.ST.element_buffer]⟩,
               ⟨.EnableVertexAttribArray, [.n pos]⟩,
               ⟨.VertexAttribPointer, [.n pos, .n 2, .n GL_FLOAT, .n GL_FALSE, .n 8, .arr none]⟩,
               ⟨.BindBuffer, [.n GL_ARRAY_BUFFER, .n w1.ST.vertex_buffer]⟩,
               ⟨.GetAttribLocation, [.n kernel.program_id, .str "position".toList]⟩,
               ⟨.Viewport, [.n 0, .n 0, .n t.extent.1, .n t.extent.2.1]⟩,
               ⟨.Ortho, [.n (-1), .n 1, .n (-1), .n 1, .n 1, .n (-1)]⟩,
               ⟨.LoadIdentity, []⟩,
               ⟨.MatrixMode, [.n GL_PROJECTION]⟩,
               ⟨.LoadIdentity, []⟩,
               ⟨.MatrixMode, [.n GL_MODELVIEW]⟩,
               ⟨.Uniform2iv, [.n locM, .n 1, .arr (some [t.min.1, t.min.2.1])]⟩,
               ⟨.GetUniformLocation, [.n kernel.program_id, .str "output_min".toList]⟩,
               ⟨.Uniform2iv, [.n locE, .n 1, .arr (some [t.extent.1, t.extent.2.1])]⟩,
               ⟨.GetUniformLocation, [.n kernel.program_id, .str "output_extent".toList]⟩] :
                List GLCall), by simp, by simp, hbfn, fun hc => absurd hs hc, fun _ => ?_⟩
            refine ⟨locE, locM, pos, cleanup_calls n1.toNat 0, cleanup_calls_fn _ _, ?_, ?_, ?_⟩
            · rw [hlocE, hbefore]
            · rw [hlocM, hbefore]
            · rw [hst]

theorem dev_run_output_geometry_witness :
    Ready launchWorld ∧
    halide_opengl_find_kernel launchWorld.ST.kernels ['k'] = some sampleKernel ∧
    create_kernel sampleKernelSource sampleKernelSource.length = Except.ok sampleKernel ∧
    [5, 7].length = sampleKernel.arguments.length ∧
    ((2 ≤ (sampleKernel.arguments.filter fun k => k.is_output).length →
      (halide_opengl_dev_run completeHost ['k'] [5, 7] launchWorld).returned = false) ∧
    ((sampleKernel.arguments.filter fun k => k.is_output).length = 0 →
      (halide_opengl_dev_run completeHost ['k'] [5, 7] launchWorld).returned = true ∧
      (halide_opengl_dev_run completeHost ['k'] [5, 7] launchWorld).world.out.head? =
        some ⟨"Warning: kernel '%s' has no output\n", [.str sampleKernel.name]⟩ ∧
      ∃ added, (halide_opengl_dev_run completeHost ['k'] [5, 7] launchWorld).world.gl = added ++ launchWorld.gl ∧
        ∀ c ∈ added, c.fn ≠ GLFunc.DrawElements) ∧
    ((sampleKernel.arguments.filter fun k => k.is_output).length = 1 →
      ∃ a added, output_actuals sampleKernel.arguments [5, 7] = [a] ∧
        (halide_opengl_dev_run completeHost ['k'] [5, 7] launchWorld).world.gl = added ++ launchWorld.gl ∧
        attach_call a ∈ added ∧
        (halide_opengl_find_texture launchWorld.ST.textures a = none →
          (halide_opengl_dev_run completeHost ['k'] [5, 7] launchWorld).returned = false) ∧
        ∀ t, halide_opengl_find_texture launchWorld.ST.textures a = some t →
          (halide_opengl_dev_run completeHost ['k'] [5, 7] launchWorld).returned = true ∧
          (∀ c ∈ added, c.fn = GLFunc.Viewport →
            c.args = [.n 0, .n 0, .n t.extent.1, .n t.extent.2.1]) ∧
          (∀ c ∈ added, c.fn = GLFunc.Uniform2iv → ∃ loc,
            c.args = [.n loc, .n 1, .arr (some [t.extent.1, t.extent.2.1])] ∨
            c.args = [.n loc, .n 1, .arr (some [t.min.1, t.min.2.1])]) ∧
          ((∃ c ∈ added, c.fn = GLFunc.DrawElements) →
            (⟨.Viewport, [.n 0, .n 0, .n t.extent.1, .n t.extent.2.1]⟩ : GLCall) ∈ added ∧
            ∃ locE locM,
              [(⟨.Uniform2iv, [.n locM, .n 1, .arr (some [t.min.1, t.min.2.1])]⟩ : GLCall),
               ⟨.GetUniformLocation, [.n sampleKernel.program_id, .str "output_min".toList]⟩,
               ⟨.Uniform2iv, [.n locE, .n 1, .arr (some [t.extent.1, t.extent.2.1])]⟩,
               ⟨.GetUniformLocation, [.n sampleKernel.program_id, .str "output_extent".toList]⟩]
                <:+: added) ∧
          ∃ before after : List GLCall,
            added = after ++ ⟨.CheckFramebufferStatus, [.n GL_FRAMEBUFFER]⟩ :: before ∧
            attach_call a ∈ before ∧
            (∀ c ∈ before, c.fn ≠ GLFunc.CheckFramebufferStatus) ∧
            (completeHost.retI (⟨.CheckFramebufferStatus, [.n GL_FRAMEBUFFER]⟩ :: (before ++ launchWorld.gl)) ≠
                GL_FRAMEBUFFER_COMPLETE → after = []) ∧
            (completeHost.retI (⟨.CheckFramebufferStatus, [.n GL_FRAMEBUFFER]⟩ :: (before ++ launchWorld.gl)) =
                GL_FRAMEBUFFER_COMPLETE →
              ∃ (locE locM pos : Int) (cleanup : List GLCall),
                (∀ c ∈ cleanup, c.fn = GLFunc.ActiveTexture ∨ c.fn = GLFunc.BindTexture) ∧
                locE = completeHost.retI (⟨.GetUniformLocation, [.n sampleKernel.program_id, .str "output_extent".toList]⟩ ::
                  ⟨.CheckFramebufferStatus, [.n GL_FRAMEBUFFER]⟩ :: (before ++ launchWorld.gl)) ∧
                locM = completeHost.retI (⟨.GetUniformLocation, [.n sampleKernel.program_id, .str "output_min".toList]⟩ ::
                  ⟨.Uniform2iv, [.n locE, .n 1, .arr (some [t.extent.1, t.extent.2.1])]⟩ ::
                  ⟨.GetUniformLocation, [.n sampleKernel.program_id, .str "output_extent".toList]⟩ ::
                  ⟨.CheckFramebufferStatus, [.n GL_FRAMEBUFFER]⟩ :: (before ++ launchWorld.gl)) ∧
                after = ⟨.BindFramebuffer, [.n GL_FRAMEBUFFER, .n 0]⟩ :: cleanup ++
                  [⟨.DisableVertexAttribArray, [.n pos]⟩,
                  ⟨.DrawElements, [.n GL_TRIANGLE_STRIP, .n 4, .n GL_UNSIGNED_INT, .arr none]⟩,
                  ⟨.BindBuffer, [.n GL_ELEMENT_ARRAY_BUFFER, .n launchWorld.ST.element_buffer]⟩,
                  ⟨.EnableVertexAttribArray, [.n pos]⟩,
                  ⟨.VertexAttribPointer,
                    [.n pos, .n 2, .n GL_FLOAT, .n GL_FALSE, .n 8, .arr none]⟩,
                  ⟨.BindBuffer, [.n GL_ARRAY_BUFFER, .n launchWorld.ST.vertex_buffer]⟩,
                  ⟨.GetAttribLocation, [.n sampleKernel.program_id, .str "position".toList]⟩,
                  ⟨.Viewport, [.n 0, .n 0, .n t.extent.1, .n t.extent.2.1]⟩,
                  ⟨.Ortho, [.n (-1), .n 1, .n (-1), .n 1, .n 1, .n (-1)]⟩,
                  ⟨.LoadIdentity, []⟩,
                  ⟨.MatrixMode, [.n GL_PROJECTION]⟩,
                  ⟨.LoadIdentity, []⟩,
                  ⟨.MatrixMode, [.n GL_MODELVIEW]⟩,
                  ⟨.Uniform2iv, [.n locM, .n 1, .arr (some [t.min.1, t.min.2.1])]⟩,
                  ⟨.GetUniformLocation, [.n sampleKernel.program_id, .str "output_min".toList]⟩,
                  ⟨.Uniform2iv, [.n locE, .n 1, .arr (some [t.extent.1, t.extent.2.1])]⟩,
                  ⟨.GetUniformLocation, [.n sampleKernel.program_id, .str "output_extent".toList]⟩]))) :=
  ⟨by decide, by decide, by rfl, by decide,
    dev_run_output_geometry completeHost launchWorld ['k'] sampleKernel [5, 7] (by decide)
      (by decide) ⟨sampleKernelSource, sampleKernelSource.length, sampleKernel, by rfl, rfl⟩
      (by decide)⟩


/-! ### The load rewrite at a place in a statement -/

theorem mutate_list_at (inside : Bool) (scope : List String) (x : Expr) (after : List Expr) :
    ∀ (before result : List Expr),
      InjectOpenGLIntrinsics.mutate_list inside scope (before ++ x :: after) = .ok result →
      ∃ before1 x1 after1, InjectOpenGLIntrinsics.mutate inside scope x = .ok x1 ∧
        result = before1 ++ x1 :: after1 := by
  intro before
  induction before with
  | nil =>
    intro result h
    simp only [List.nil_append, InjectOpenGLIntrinsics.mutate_list] at h
    obtain ⟨x1, hx, h⟩ := mutate_step_returns _ _ _ h
    obtain ⟨a1, -, h⟩ := mutate_step_returns _ _ _ h
    cases h
    exact ⟨[], x1, a1, hx, rfl⟩
  | cons b before ih =>
    intro result h
    simp only [List.cons_append, InjectOpenGLIntrinsics.mutate_list] at h
    obtain ⟨b1, -, h⟩ := mutate_step_returns _ _ _ h
    obtain ⟨r1, hr, h⟩ := mutate_step_returns _ _ _ h
    cases h
    obtain ⟨before1, x1, after1, hx, rfl⟩ := ih r1 hr
    exact ⟨b1 :: before1, x1, after1, hx, rfl⟩

theorem mutate_fill (scope : List String) (C : ExprCtx) :
    ∀ (e result : Expr), InjectOpenGLIntrinsics.mutate true scope (C.fill e) = .ok result →
      ∃ (C1 : ExprCtx) (e1 : Expr), InjectOpenGLIntrinsics.mutate true scope e = .ok e1 ∧
        result = C1.fill e1 := by
  induction C with
  | hole =>
    intro e result h
    exact ⟨.hole, result, h, rfl⟩
  | Cast type value ih =>
    intro e result h
    simp only [ExprCtx.fill, InjectOpenGLIntrinsics.mutate] at h
    obtain ⟨v1, hv, h⟩ := mutate_step_returns _ _ _ h
    cases h
    obtain ⟨C1, e1, he, rfl⟩ := ih e v1 hv
    exact ⟨.Cast type C1, e1, he, rfl⟩
  | BinA op a b ih =>
    intro e result h
    simp only [ExprCtx.fill, InjectOpenGLIntrinsics.mutate] at h
    obtain ⟨a1, ha, h⟩ := mutate_step_returns _ _ _ h
    obtain ⟨b1, -, h⟩ := mutate_step_returns _ _ _ h
    cases h
    obtain ⟨C1, e1, he, rfl⟩ := ih e a1 ha
    exact ⟨.BinA op C1 b1, e1, he, rfl⟩
  | BinB op a b ih =>
    intro e result h
    simp only [ExprCtx.fill, InjectOpenGLIntrinsics.mutate] at h
    obtain ⟨a1, -, h⟩ := mutate_step_returns _ _ _ h
    obtain ⟨b1, hb, h⟩ := mutate_step_returns _ _ _ h
    cases h
    obtain ⟨C1, e1, he, rfl⟩ := ih e b1 hb
    exact ⟨.BinB op a1 C1, e1, he, rfl⟩
  | Not a ih =>
    intro e result h
    simp only [ExprCtx.fill, InjectOpenGLIntrinsics.mutate] at h
    obtain ⟨a1, ha, h⟩ := mutate_step_returns _ _ _ h
    cases h
    obtain ⟨C1, e1, he, rfl⟩ := ih e a1 ha
    exact ⟨.Not C1, e1, he, rfl⟩
  | SelectCondition c t f ih =>
    intro e result h
    simp only [ExprCtx.fill, InjectOpenGLIntrinsics.mutate] at h
    obtain ⟨c1, hc, h⟩ := mutate_step_returns _ _ _ h
    obtain ⟨t1, -, h⟩ := mutate_step_returns _ _ _ h
    obtain ⟨f1, -, h⟩ := mutate_step_returns _ _ _ h
    cases h
    obtain ⟨C1, e1, he, rfl⟩ := ih e c1 hc
    exact ⟨.SelectCondition C1 t1 f1, e1, he, rfl⟩
  | SelectTrue c t f ih =>
    intro e result h
    simp only [ExprCtx.fill, InjectOpenGLIntrinsics.mutate] at h
    obtain ⟨c1, -, h⟩ := mutate_step_returns _ _ _ h
    obtain ⟨t1, ht, h⟩ := mutate_step_returns _ _ _ h
    obtain ⟨f1, -, h⟩ := mutate_step_returns _ _ _ h
    cases h
    obtain ⟨C1, e1, he, rfl⟩ := ih e t1 ht
    exact ⟨.SelectTrue c1 C1 f1, e1, he, rfl⟩
  | SelectFalse c t f ih =>
    intro e result h
    simp only [ExprCtx.fill, InjectOpenGLIntrinsics.mutate] at h
    obtain ⟨c1, -, h⟩ := mutate_step_returns _ _ _ h
    obtain ⟨t1, -, h⟩ := mutate_step_returns _ _ _ h
    obtain ⟨f1, hf, h⟩ := mutate_step_returns _ _ _ h
    cases h
    obtain ⟨C1, e1, he, rfl⟩ := ih e f1 hf
    exact ⟨.SelectFalse c1 t1 C1, e1, he, rfl⟩
  | Load type name index ih =>
    intro e result h
    simp only [ExprCtx.fill, InjectOpenGLIntrinsics.mutate] at h
    obtain ⟨i1, hi, h⟩ := mutate_step_returns _ _ _ h
    cases h
    obtain ⟨C1, e1, he, rfl⟩ := ih e i1 hi
    exact ⟨.Load type name C1, e1, he, rfl⟩
  | IntrinsicArg type name before arg after func_outputs value_index image param ih =>
    intro e result h
    simp only [ExprCtx.fill, InjectOpenGLIntrinsics.mutate, Bool.not_true, Bool.false_or,
      beq_self_eq_true, if_true] at h
    obtain ⟨args1, hargs, h⟩ := mutate_step_returns _ _ _ h
    cases h
    obtain ⟨before1, x1, after1, hx, rfl⟩ := mutate_list_at true scope _ after before args1 hargs
    obtain ⟨C1, e1, he, rfl⟩ := ih e x1 hx
    exact ⟨.IntrinsicArg type name before1 C1 after1 func_outputs value_index image param, e1,
      he, rfl⟩
  | LetValue name value body ih =>
    intro e result h
    simp only [ExprCtx.fill, InjectOpenGLIntrinsics.mutate] at h
    obtain ⟨v1, hv, h⟩ := mutate_step_returns _ _ _ h
    obtain ⟨b1, -, h⟩ := mutate_step_returns _ _ _ h
    cases h
    obtain ⟨C1, e1, he, rfl⟩ := ih e v1 hv
    exact ⟨.LetValue name C1 b1, e1, he, rfl⟩
  | LetBody name value body ih =>
    intro e result h
    simp only [ExprCtx.fill, InjectOpenGLIntrinsics.mutate] at h
    obtain ⟨v1, -, h⟩ := mutate_step_returns _ _ _ h
    obtain ⟨b1, hb, h⟩ := mutate_step_returns _ _ _ h
    cases h
    obtain ⟨C1, e1, he, rfl⟩ := ih e b1 hb
    exact ⟨.LetBody name v1 C1, e1, he, rfl⟩


theorem let_scope (name : String) (scope : List String) :
    (if ends_with name ".constrained" = true then name :: scope else scope) =
      ([name].filter fun n => ends_with n ".constrained") ++ scope := by
  by_cases h : ends_with name ".constrained" = true
  · simp [h]
  · simp [h]

theorem mutate_stmt_fill (dev : CodeGen_GPU_Dev) (C : StmtCtx) :
    ∀ (inside : Bool) (scope : List String) (e : Expr) (s1 : Stmt),
      (inside = true ∨ C.in_kernel_loop dev = true) →
      InjectOpenGLIntrinsics.mutate_stmt dev inside scope (C.fill e) = .ok s1 →
      ∃ (C1 : StmtCtx) (e1 : Expr),
        InjectOpenGLIntrinsics.mutate true
          ((C.lets.filter fun n => ends_with n ".constrained") ++ scope) e = .ok e1 ∧
        s1 = C1.fill e1 ∧ C1.lets = C.lets ∧ C1.loops = C.loops := by
  induction C with
  | LetStmtValue name value body =>
    intro inside scope e s1 hin h
    have hi : inside = true := by simpa [StmtCtx.in_kernel_loop, StmtCtx.loops] using hin
    subst hi
    simp only [StmtCtx.fill, InjectOpenGLIntrinsics.mutate_stmt, let_scope] at h
    obtain ⟨v1, hv, h⟩ := mutate_step_returns _ _ _ h
    obtain ⟨b1, -, h⟩ := mutate_step_returns _ _ _ h
    cases h
    obtain ⟨C1, e1, he, rfl⟩ := mutate_fill _ value e v1 hv
    exact ⟨.LetStmtValue name C1 b1, e1, he, rfl, rfl, rfl⟩
  | LetStmtBody name value body ih =>
    intro inside scope e s1 hin h
    simp only [StmtCtx.fill, InjectOpenGLIntrinsics.mutate_stmt, let_scope] at h
    obtain ⟨v1, -, h⟩ := mutate_step_returns _ _ _ h
    obtain ⟨b1, hb, h⟩ := mutate_step_returns _ _ _ h
    cases h
    obtain ⟨C1, e1, he, rfl, hl, hp⟩ := ih inside _ e b1
      (by simpa [StmtCtx.in_kernel_loop, StmtCtx.loops] using hin) hb
    refine ⟨.LetStmtBody name v1 C1, e1, ?_, rfl, ?_, ?_⟩
    · simpa [StmtCtx.lets, List.filter_append, List.append_assoc] using he
    · simp [StmtCtx.lets, hl]
    · simp [StmtCtx.loops, hp]
  | AssertStmt condition message =>
    intro inside scope e s1 hin h
    have hi : inside = true := by simpa [StmtCtx.in_kernel_loop, StmtCtx.loops] using hin
    subst hi
    simp only [StmtCtx.fill, InjectOpenGLIntrinsics.mutate_stmt] at h
    obtain ⟨c1, hc, h⟩ := mutate_step_returns _ _ _ h
    cases h
    obtain ⟨C1, e1, he, rfl⟩ := mutate_fill _ condition e c1 hc
    exact ⟨.AssertStmt C1 message, e1, by simpa [StmtCtx.lets] using he, rfl, rfl, rfl⟩
  | ForMin name min extent for_type body =>
    intro inside scope e s1 hin h
    have hi : inside = true := by simpa [StmtCtx.in_kernel_loop, StmtCtx.loops] using hin
    subst hi
    simp only [StmtCtx.fill, InjectOpenGLIntrinsics.mutate_stmt, ite_self] at h
    obtain ⟨m1, hm, h⟩ := mutate_step_returns _ _ _ h
    obtain ⟨x1, -, h⟩ := mutate_step_returns _ _ _ h
    obtain ⟨b1, -, h⟩ := mutate_step_returns _ _ _ h
    cases h
    obtain ⟨C1, e1, he, rfl⟩ := mutate_fill _ min e m1 hm
    exact ⟨.ForMin name C1 x1 for_type b1, e1, by simpa [StmtCtx.lets] using he, rfl, rfl, rfl⟩
  | ForExtent name min extent for_type body =>
    intro inside scope e s1 hin h
    have hi : inside = true := by simpa [StmtCtx.in_kernel_loop, StmtCtx.loops] using hin
    subst hi
    simp only [StmtCtx.fill, InjectOpenGLIntrinsics.mutate_stmt, ite_self] at h
    obtain ⟨m1, -, h⟩ := mutate_step_returns _ _ _ h
    obtain ⟨x1, hx, h⟩ := mutate_step_returns _ _ _ h
    obtain ⟨b1, -, h⟩ := mutate_step_returns _ _ _ h
    cases h
    obtain ⟨C1, e1, he, rfl⟩ := mutate_fill _ extent e x1 hx
    exact ⟨.ForExtent name m1 C1 for_type b1, e1, by simpa [StmtCtx.lets] using he, rfl, rfl,
      rfl⟩
  | ForBody name min extent for_type body ih =>
    intro inside scope e s1 hin h
    simp only [StmtCtx.fill, InjectOpenGLIntrinsics.mutate_stmt, kernel_loop_flag] at h
    obtain ⟨m1, -, h⟩ := mutate_step_returns _ _ _ h
    obtain ⟨x1, -, h⟩ := mutate_step_returns _ _ _ h
    obtain ⟨b1, hb, h⟩ := mutate_step_returns _ _ _ h
    cases h
    have hin1 : (inside || (decide (for_type = ForType.Parallel) && dev.is_gpu_block_var name)) =
        true ∨ body.in_kernel_loop dev = true := by
      simp only [StmtCtx.in_kernel_loop, StmtCtx.loops, List.any_append, List.any_cons,
        List.any_nil, Bool.or_false, Bool.or_eq_true] at hin
      simp only [StmtCtx.in_kernel_loop, Bool.or_eq_true]
      tauto
    obtain ⟨C1, e1, he, rfl, hl, hp⟩ := ih _ scope e b1 hin1 hb
    refine ⟨.ForBody name m1 x1 for_type C1, e1, ?_, rfl, ?_, ?_⟩
    · simpa [StmtCtx.lets] using he
    · simp [StmtCtx.lets, hl]
    · simp [StmtCtx.loops, hp]
  | StoreValue name value index =>
    intro inside scope e s1 hin h
    have hi : inside = true := by simpa [StmtCtx.in_kernel_loop, StmtCtx.loops] using hin
    subst hi
    simp only [StmtCtx.fill, InjectOpenGLIntrinsics.mutate_stmt] at h
    obtain ⟨v1, hv, h⟩ := mutate_step_returns _ _ _ h
    obtain ⟨i1, -, h⟩ := mutate_step_returns _ _ _ h
    cases h
    obtain ⟨C1, e1, he, rfl⟩ := mutate_fill _ value e v1 hv
    exact ⟨.StoreValue name C1 i1, e1, by simpa [StmtCtx.lets] using he, rfl, rfl, rfl⟩
  | StoreIndex name value index =>
    intro inside scope e s1 hin h
    have hi : inside = true := by simpa [StmtCtx.in_kernel_loop, StmtCtx.loops] using hin
    subst hi
    simp only [StmtCtx.fill, InjectOpenGLIntrinsics.mutate_stmt] at h
    obtain ⟨v1, -, h⟩ := mutate_step_returns _ _ _ h
    obtain ⟨i1, hx, h⟩ := mutate_step_returns _ _ _ h
    cases h
    obtain ⟨C1, e1, he, rfl⟩ := mutate_fill _ index e i1 hx
    exact ⟨.StoreIndex name v1 C1, e1, by simpa [StmtCtx.lets] using he, rfl, rfl, rfl⟩
  | ProvideValue name value args =>
    intro inside scope e s1 hin h
    have hi : inside = true := by simpa [StmtCtx.in_kernel_loop, StmtCtx.loops] using hin
    subst hi
    simp only [StmtCtx.fill, InjectOpenGLIntrinsics.mutate_stmt, Bool.not_true,
      Bool.false_eq_true, if_false] at h
    by_cases h3 : args.length = 3
    · simp only [h3, if_true] at h
      obtain ⟨v1, hv, h⟩ := mutate_step_returns _ _ _ h
      cases h
      obtain ⟨C1, e1, he, rfl⟩ := mutate_fill _ value e v1 hv
      refine ⟨.Evaluate (.IntrinsicArg (C1.fill e1).type Call.glsl_texture_store
        (.StringImm name :: .Variable .Handle (name ++ ".buffer") :: args) C1 [] 0 0 none none),
        e1, by simpa [StmtCtx.lets] using he, ?_, rfl, rfl⟩
      simp [StmtCtx.fill, ExprCtx.fill]
    · simp only [h3, if_false] at h
      cases h
  | AllocateSize name type size body =>
    intro inside scope e s1 hin h
    have hi : inside = true := by simpa [StmtCtx.in_kernel_loop, StmtCtx.loops] using hin
    subst hi
    simp only [StmtCtx.fill, InjectOpenGLIntrinsics.mutate_stmt] at h
    obtain ⟨z1, hz, h⟩ := mutate_step_returns _ _ _ h
    obtain ⟨b1, -, h⟩ := mutate_step_returns _ _ _ h
    cases h
    obtain ⟨C1, e1, he, rfl⟩ := mutate_fill _ size e z1 hz
    exact ⟨.AllocateSize name type C1 b1, e1, by simpa [StmtCtx.lets] using he, rfl, rfl, rfl⟩
  | AllocateBody name type size body ih =>
    intro inside scope e s1 hin h
    simp only [StmtCtx.fill, InjectOpenGLIntrinsics.mutate_stmt] at h
    obtain ⟨z1, -, h⟩ := mutate_step_returns _ _ _ h
    obtain ⟨b1, hb, h⟩ := mutate_step_returns _ _ _ h
    cases h
    obtain ⟨C1, e1, he, rfl, hl, hp⟩ := ih inside scope e b1
      (by simpa [StmtCtx.in_kernel_loop, StmtCtx.loops] using hin) hb
    refine ⟨.AllocateBody name type z1 C1, e1, ?_, rfl, ?_, ?_⟩
    · simpa [StmtCtx.lets] using he
    · simp [StmtCtx.lets, hl]
    · simp [StmtCtx.loops, hp]
  | BlockFirst first rest ih =>
    intro inside scope e s1 hin h
    simp only [StmtCtx.fill, InjectOpenGLIntrinsics.mutate_stmt] at h
    obtain ⟨f1, hf, h⟩ := mutate_step_returns _ _ _ h
    obtain ⟨r1, -, h⟩ := mutate_step_returns _ _ _ h
    cases h
    obtain ⟨C1, e1, he, rfl, hl, hp⟩ := ih inside scope e f1
      (by simpa [StmtCtx.in_kernel_loop, StmtCtx.loops] using hin) hf
    refine ⟨.BlockFirst C1 r1, e1, ?_, rfl, ?_, ?_⟩
    · simpa [StmtCtx.lets] using he
    · simp [StmtCtx.lets, hl]
    · simp [StmtCtx.loops, hp]
  | BlockRest first rest ih =>
    intro inside scope e s1 hin h
    simp only [StmtCtx.fill, InjectOpenGLIntrinsics.mutate_stmt] at h
    obtain ⟨f1, -, h⟩ := mutate_step_returns _ _ _ h
    obtain ⟨r1, hr, h⟩ := mutate_step_returns _ _ _ h
    cases h
    obtain ⟨C1, e1, he, rfl, hl, hp⟩ := ih inside scope e r1
      (by simpa [StmtCtx.in_kernel_loop, StmtCtx.loops] using hin) hr
    refine ⟨.BlockRest f1 C1, e1, ?_, rfl, ?_, ?_⟩
    · simpa [StmtCtx.lets] using he
    · simp [StmtCtx.lets, hl]
    · simp [StmtCtx.loops, hp]
  | IfCondition condition then_case else_case =>
    intro inside scope e s1 hin h
    have hi : inside = true := by simpa [StmtCtx.in_kernel_loop, StmtCtx.loops] using hin
    subst hi
    simp only [StmtCtx.fill, InjectOpenGLIntrinsics.mutate_stmt] at h
    obtain ⟨c1, hc, h⟩ := mutate_step_returns _ _ _ h
    obtain ⟨t1, -, h⟩ := mutate_step_returns _ _ _ h
    obtain ⟨f1, -, h⟩ := mutate_step_returns _ _ _ h
    cases h
    obtain ⟨C1, e1, he, rfl⟩ := mutate_fill _ condition e c1 hc
    exact ⟨.IfCondition C1 t1 f1, e1, by simpa [StmtCtx.lets] using he, rfl, rfl, rfl⟩
  | IfThen condition then_case else_case ih =>
    intro inside scope e s1 hin h
    simp only [StmtCtx.fill, InjectOpenGLIntrinsics.mutate_stmt] at h
    obtain ⟨c1, -, h⟩ := mutate_step_returns _ _ _ h
    obtain ⟨t1, ht, h⟩ := mutate_step_returns _ _ _ h
    obtain ⟨f1, -, h⟩ := mutate_step_returns _ _ _ h
    cases h
    obtain ⟨C1, e1, he, rfl, hl, hp⟩ := ih inside scope e t1
      (by simpa [StmtCtx.in_kernel_loop, StmtCtx.loops] using hin) ht
    refine ⟨.IfThen c1 C1 f1, e1, ?_, rfl, ?_, ?_⟩
    · simpa [StmtCtx.lets] using he
    · simp [StmtCtx.lets, hl]
    · simp [StmtCtx.loops, hp]
  | IfElse condition then_case else_case ih =>
    intro inside scope e s1 hin h
    simp only [StmtCtx.fill, InjectOpenGLIntrinsics.mutate_stmt] at h
    obtain ⟨c1, -, h⟩ := mutate_step_returns _ _ _ h
    obtain ⟨t1, -, h⟩ := mutate_step_returns _ _ _ h
    obtain ⟨f1, hf, h⟩ := mutate_step_returns _ _ _ h
    cases h
    obtain ⟨C1, e1, he, rfl, hl, hp⟩ := ih inside scope e f1
      (by simpa [StmtCtx.in_kernel_loop, StmtCtx.loops] using hin) hf
    refine ⟨.IfElse c1 t1 C1, e1, ?_, rfl, ?_, ?_⟩
    · simpa [StmtCtx.lets] using he
    · simp [StmtCtx.lets, hl]
    · simp [StmtCtx.loops, hp]
  | Evaluate value =>
    intro inside scope e s1 hin h
    have hi : inside = true := by simpa [StmtCtx.in_kernel_loop, StmtCtx.loops] using hin
    subst hi
    simp only [StmtCtx.fill, InjectOpenGLIntrinsics.mutate_stmt] at h
    obtain ⟨v1, hv, h⟩ := mutate_step_returns _ _ _ h
    cases h
    obtain ⟨C1, e1, he, rfl⟩ := mutate_fill _ value e v1 hv
    exact ⟨.Evaluate C1, e1, by simpa [StmtCtx.lets] using he, rfl, rfl, rfl⟩


theorem load_rewrite_call (type : IRType) (f : String) (x y c : Expr)
    (call_type : CallType) (func_outputs : Nat) (value_index : Int)
    (image param : Option String) (scope : List String)
    (hcall : call_type ≠ CallType.Intrinsic) :
    InjectOpenGLIntrinsics.mutate true scope
        (.Call type f [x, y, c] call_type func_outputs value_index image param) =
      .ok (.Call type Call.glsl_texture_load
        [.StringImm f, .Variable .Handle (f ++ ".buffer"),
          (Expr.Cast (.Float 32) (x - Expr.Variable (.Int 32)
              (min_name scope (load_name f call_type func_outputs value_index) "0")) +
            Expr.FloatImm 0.5) / Expr.Variable (.Int 32)
              (extent_name scope (load_name f call_type func_outputs value_index) "0"),
          (Expr.Cast (.Float 32) (y - Expr.Variable (.Int 32)
              (min_name scope (load_name f call_type func_outputs value_index) "1")) +
            Expr.FloatImm 0.5) / Expr.Variable (.Int 32)
              (extent_name scope (load_name f call_type func_outputs value_index) "1"),
          c - Expr.Variable (.Int 32)
            (min_name scope (load_name f call_type func_outputs value_index) "2")]
        CallType.Intrinsic 0 0 image param) := by
  have h0 : int_to_string 0 = "0" := by decide
  have h1 : int_to_string 1 = "1" := by decide
  have h2 : int_to_string 2 = "2" := by decide
  cases call_type with
  | Intrinsic => exact absurd rfl hcall
  | Image => simp [InjectOpenGLIntrinsics.mutate, load_coordinates, load_coordinate, load_name,
      h0, h1, h2, pure, Except.pure]
  | Extern => simp [InjectOpenGLIntrinsics.mutate, load_coordinates, load_coordinate, load_name,
      h0, h1, h2, pure, Except.pure]
  | Halide =>
    by_cases ho : func_outputs > 1 <;>
    simp [InjectOpenGLIntrinsics.mutate, load_coordinates, load_coordinate, load_name,
      h0, h1, h2, pure, Except.pure, ho]

theorem ends_with_constrained (v : String) :
    ends_with (v ++ ".constrained") ".constrained" = true := by
  unfold ends_with
  rw [String.data_append, List.isSuffixOf_iff_suffix]
  exact List.suffix_append _ _

theorem mem_constrained_lets (lets : List String) (v : String) :
    v ++ ".constrained" ∈ (lets.filter fun n => ends_with n ".constrained") ++ [] ↔
      v ++ ".constrained" ∈ lets := by
  simp [List.mem_filter, ends_with_constrained]

theorem min_name_lets (lets : List String) (n d : String) :
    min_name ((lets.filter fun n => ends_with n ".constrained") ++ []) n d =
      (if n ++ ".min." ++ d ++ ".constrained" ∈ lets then n ++ ".min." ++ d ++ ".constrained"
       else n ++ ".min." ++ d) := by
  unfold min_name
  simp only [mem_constrained_lets]

theorem extent_name_lets (lets : List String) (n d : String) :
    extent_name ((lets.filter fun n => ends_with n ".constrained") ++ []) n d =
      (if n ++ ".extent." ++ d ++ ".constrained" ∈ lets
       then n ++ ".extent." ++ d ++ ".constrained" else n ++ ".extent." ++ d) := by
  unfold extent_name
  simp only [mem_constrained_lets]

/-- C15 (amended). Take a non-intrinsic call `f(x, y, c)` with three
coordinates at a place of a statement that lies inside a GPU block loop (in
the body of a parallel loop over a GPU block variable) and in no coordinate
of a store or of another call that is not an intrinsic. The rewrite of the
call itself never fails; and when the load rewrite, started on the statement
with its flag unset and its scope empty, returns, the result holds at that
place (under the same `LetStmt` nodes and loops) the intrinsic call
`glsl_texture_load(f, f.buffer, (float(x - n.min.0) + 0.5) / n.extent.0,
(float(y - n.min.1) + 0.5) / n.extent.1, c - n.min.2)` of the same result
type, where `n` is `f`, or `f.<value_index>` when the call is to a Halide
function with more than one output, and where each min and extent variable
is the `.constrained` variant exactly when a `LetStmt` that binds that
`.constrained` name encloses the call. -/
theorem load_rewrite_in_kernel_loop (dev : CodeGen_GPU_Dev) (C : StmtCtx) (type : IRType)
    (f : String) (x y c : Expr) (call_type : CallType) (func_outputs : Nat)
    (value_index : Int) (image param : Option String) (s1 : Stmt)
    (hcall : call_type ≠ CallType.Intrinsic) (hloop : C.in_kernel_loop dev = true)
    (hrun : InjectOpenGLIntrinsics.mutate_stmt dev false []
      (C.fill (.Call type f [x, y, c] call_type func_outputs value_index image param)) =
        .ok s1) :
    (∀ scope : List String, ∃ e1, InjectOpenGLIntrinsics.mutate true scope
      (.Call type f [x, y, c] call_type func_outputs value_index image param) = .ok e1) ∧
    ∃ C1 : StmtCtx, C1.lets = C.lets ∧ C1.loops = C.loops ∧
      s1 = C1.fill (.Call type Call.glsl_texture_load
        [.StringImm f, .Variable .Handle (f ++ ".buffer"),
          (Expr.Cast (.Float 32) (x - Expr.Variable (.Int 32)
              (if load_name f call_type func_outputs value_index ++ ".min." ++ "0" ++
                  ".constrained" ∈ C.lets
               then load_name f call_type func_outputs value_index ++ ".min." ++ "0" ++
                  ".constrained"
               else load_name f call_type func_outputs value_index ++ ".min." ++ "0")) +
            Expr.FloatImm 0.5) / Expr.Variable (.Int 32)
              (if load_name f call_type func_outputs value_index ++ ".extent." ++ "0" ++
                  ".constrained" ∈ C.lets
               then load_name f call_type func_outputs value_index ++ ".extent." ++ "0" ++
                  ".constrained"
               else load_name f call_type func_outputs value_index ++ ".extent." ++ "0"),
          (Expr.Cast (.Float 32) (y - Expr.Variable (.Int 32)
              (if load_name f call_type func_outputs value_index ++ ".min." ++ "1" ++
                  ".constrained" ∈ C.lets
               then load_name f call_type func_outputs value_index ++ ".min." ++ "1" ++
                  ".constrained"
               else load_name f call_type func_outputs value_index ++ ".min." ++ "1")) +
            Expr.FloatImm 0.5) / Expr.Variable (.Int 32)
              (if load_name f call_type func_outputs value_index ++ ".extent." ++ "1" ++
                  ".constrained" ∈ C.lets
               then load_name f call_type func_outputs value_index ++ ".extent." ++ "1" ++
                  ".constrained"
               else load_name f call_type func_outputs value_index ++ ".extent." ++ "1"),
          c - Expr.Variable (.Int 32)
            (if load_name f call_type func_outputs value_index ++ ".min." ++ "2" ++
                ".constrained" ∈ C.lets
             then load_name f call_type func_outputs value_index ++ ".min." ++ "2" ++
                ".constrained"
             else load_name f call_type func_outputs value_index ++ ".min." ++ "2")]
        CallType.Intrinsic 0 0 image param) := by
  refine ⟨fun scope => ⟨_, load_rewrite_call type f x y c call_type func_outputs value_index
    image param scope hcall⟩, ?_⟩
  obtain ⟨C1, e1, he, hs, hl, hp⟩ := mutate_stmt_fill dev C false [] _ s1 (Or.inr hloop) hrun
  rw [load_rewrite_call type f x y c call_type func_outputs value_index image param _ hcall]
    at he
  cases he
  refine ⟨C1, hl, hp, ?_⟩
  rw [hs]
  simp only [min_name_lets, extent_name_lets]


theorem load_rewrite_in_kernel_loop_witness :
    CallType.Halide ≠ CallType.Intrinsic ∧ storedValuePlace.in_kernel_loop sampleDev = true ∧
    storedValuePlace.lets = ["t", "f.min.0.constrained"] ∧
    InjectOpenGLIntrinsics.mutate_stmt sampleDev false []
      (storedValuePlace.fill (.Call (.Float 32) "f"
        [.Variable (.Int 32) "x", .Variable (.Int 32) "y", .Variable (.Int 32) "c"]
        CallType.Halide 1 0 none none)) =
      .ok (.LetStmt "f.min.0.constrained" (.IntImm 0) (.LetStmt "t" (.IntImm 1)
        (.For "bx" (.IntImm 0) (.IntImm 8) ForType.Parallel
          (.Evaluate (.Call (.Float 32) Call.glsl_texture_store
            [.StringImm "g", .Variable .Handle "g.buffer",
              .Variable (.Int 32) "x", .Variable (.Int 32) "y", .Variable (.Int 32) "c",
              .Call (.Float 32) Call.glsl_texture_load
                [.StringImm "f", .Variable .Handle "f.buffer",
                  (Expr.Cast (.Float 32) (Expr.Variable (.Int 32) "x" -
                      Expr.Variable (.Int 32) "f.min.0.constrained") +
                    Expr.FloatImm 0.5) / Expr.Variable (.Int 32) "f.extent.0",
                  (Expr.Cast (.Float 32) (Expr.Variable (.Int 32) "y" -
                      Expr.Variable (.Int 32) "f.min.1") +
                    Expr.FloatImm 0.5) / Expr.Variable (.Int 32) "f.extent.1",
                  Expr.Variable (.Int 32) "c" - Expr.Variable (.Int 32) "f.min.2"]
                CallType.Intrinsic 0 0 none none]
            CallType.Intrinsic 0 0 none none))))) ∧
    ((∀ scope : List String, ∃ e1, InjectOpenGLIntrinsics.mutate true scope
      (.Call (.Float 32) "f"
        [.Variable (.Int 32) "x", .Variable (.Int 32) "y", .Variable (.Int 32) "c"]
        CallType.Halide 1 0 none none) = .ok e1) ∧
    ∃ C1 : StmtCtx, C1.lets = storedValuePlace.lets ∧ C1.loops = storedValuePlace.loops ∧
      (.LetStmt "f.min.0.constrained" (.IntImm 0) (.LetStmt "t" (.IntImm 1)
        (.For "bx" (.IntImm 0) (.IntImm 8) ForType.Parallel
          (.Evaluate (.Call (.Float 32) Call.glsl_texture_store
            [.StringImm "g", .Variable .Handle "g.buffer",
              .Variable (.Int 32) "x", .Variable (.Int 32) "y", .Variable (.Int 32) "c",
              .Call (.Float 32) Call.glsl_texture_load
                [.StringImm "f", .Variable .Handle "f.buffer",
                  (Expr.Cast (.Float 32) (Expr.Variable (.Int 32) "x" -
                      Expr.Variable (.Int 32) "f.min.0.constrained") +
                    Expr.FloatImm 0.5) / Expr.Variable (.Int 32) "f.extent.0",
                  (Expr.Cast (.Float 32) (Expr.Variable (.Int 32) "y" -
                      Expr.Variable (.Int 32) "f.min.1") +
                    Expr.FloatImm 0.5) / Expr.Variable (.Int 32) "f.extent.1",
                  Expr.Variable (.Int 32) "c" - Expr.Variable (.Int 32) "f.min.2"]
                CallType.Intrinsic 0 0 none none]
            CallType.Intrinsic 0 0 none none)))) : Stmt) =
      C1.fill (.Call (.Float 32) Call.glsl_texture_load
        [.StringImm "f", .Variable .Handle ("f" ++ ".buffer"),
          (Expr.Cast (.Float 32) (Expr.Variable (.Int 32) "x" - Expr.Variable (.Int 32)
              (if load_name "f" CallType.Halide 1 0 ++ ".min." ++ "0" ++
                  ".constrained" ∈ storedValuePlace.lets
               then load_name "f" CallType.Halide 1 0 ++ ".min." ++ "0" ++
                  ".constrained"
               else load_name "f" CallType.Halide 1 0 ++ ".min." ++ "0")) +
            Expr.FloatImm 0.5) / Expr.Variable (.Int 32)
              (if load_name "f" CallType.Halide 1 0 ++ ".extent." ++ "0" ++
                  ".constrained" ∈ storedValuePlace.lets
               then load_name "f" CallType.Halide 1 0 ++ ".extent." ++ "0" ++
                  ".constrained"
               else load_name "f" CallType.Halide 1 0 ++ ".extent." ++ "0"),
          (Expr.Cast (.Float 32) (Expr.Variable (.Int 32) "y" - Expr.Variable (.Int 32)
              (if load_name "f" CallType.Halide 1 0 ++ ".min." ++ "1" ++
                  ".constrained" ∈ storedValuePlace.lets
               then load_name "f" CallType.Halide 1 0 ++ ".min." ++ "1" ++
                  ".constrained"
               else load_name "f" CallType.Halide 1 0 ++ ".min." ++ "1")) +
            Expr.FloatImm 0.5) / Expr.Variable (.Int 32)
              (if load_name "f" CallType.Halide 1 0 ++ ".extent." ++ "1" ++
                  ".constrained" ∈ storedValuePlace.lets
               then load_name "f" CallType.Halide 1 0 ++ ".extent." ++ "1" ++
                  ".constrained"
               else load_name "f" CallType.Halide 1 0 ++ ".extent." ++ "1"),
          Expr.Variable (.Int 32) "c" - Expr.Variable (.Int 32)
            (if load_name "f" CallType.Halide 1 0 ++ ".min." ++ "2" ++
                ".constrained" ∈ storedValuePlace.lets
             then load_name "f" CallType.Halide 1 0 ++ ".min." ++ "2" ++
                ".constrained"
             else load_name "f" CallType.Halide 1 0 ++ ".min." ++ "2")]
        CallType.Intrinsic 0 0 none none)) :=
  ⟨by decide, by decide, by decide, by rfl,
    load_rewrite_in_kernel_loop sampleDev storedValuePlace (.Float 32) "f"
      (.Variable (.Int 32) "x") (.Variable (.Int 32) "y") (.Variable (.Int 32) "c")
      CallType.Halide 1 0 none none _ (by decide) (by decide) (by rfl)⟩


/-- C15, as stated, fails in three ways, each in the kernel loop over the
GPU block variable `bx`. The read `f(x, y, c)` of the second value of a
Halide function `f` with two outputs becomes a call whose min and extent
variables are `f.1.min.0`, `f.1.extent.0`, `f.1.min.1`, `f.1.extent.1` and
`f.1.min.2`, not `f.min.0`, `f.extent.0`, `f.min.1`, `f.extent.1` and
`f.min.2`. The read `h(x, y, c)` in the first coordinate of a store is left
as the non-intrinsic call it was, and so is the read `h(x, y, c)` in the
first coordinate of the read of `f`. -/
theorem load_rewrite_tuple_and_coordinates_counterexample :
    sampleDev.is_gpu_block_var "bx" = true ∧
    InjectOpenGLIntrinsics.mutate_stmt sampleDev false []
        (.For "bx" (.IntImm 0) (.IntImm 8) ForType.Parallel (.Evaluate tupleCall)) =
      .ok (.For "bx" (.IntImm 0) (.IntImm 8) ForType.Parallel
        (.Evaluate (.Call (.Float 32) Call.glsl_texture_load
          [.StringImm "f", .Variable .Handle "f.buffer",
            (Expr.Cast (.Float 32)
                (Expr.Variable (.Int 32) "x" - Expr.Variable (.Int 32) "f.1.min.0") +
              Expr.FloatImm 0.5) / Expr.Variable (.Int 32) "f.1.extent.0",
            (Expr.Cast (.Float 32)
                (Expr.Variable (.Int 32) "y" - Expr.Variable (.Int 32) "f.1.min.1") +
              Expr.FloatImm 0.5) / Expr.Variable (.Int 32) "f.1.extent.1",
            Expr.Variable (.Int 32) "c" - Expr.Variable (.Int 32) "f.1.min.2"]
          CallType.Intrinsic 0 0 none none))) ∧
    InjectOpenGLIntrinsics.mutate_stmt sampleDev false []
        (.For "bx" (.IntImm 0) (.IntImm 8) ForType.Parallel (.Evaluate tupleCall)) ≠
      .ok (.For "bx" (.IntImm 0) (.IntImm 8) ForType.Parallel (.Evaluate plainLoad)) ∧
    imageRead = .Call (.Float 32) "h"
      [.Variable (.Int 32) "x", .Variable (.Int 32) "y", .Variable (.Int 32) "c"]
      CallType.Image 0 0 (some "h") none ∧
    InjectOpenGLIntrinsics.mutate_stmt sampleDev false [] storeCoordinateLoop =
      .ok (.For "bx" (.IntImm 0) (.IntImm 8) ForType.Parallel
        (.Evaluate (.Call (.Float 32) Call.glsl_texture_store
          [.StringImm "g", .Variable .Handle "g.buffer",
            imageRead, .Variable (.Int 32) "y", .Variable (.Int 32) "c",
            .Variable (.Float 32) "v"]
          CallType.Intrinsic 0 0 none none))) ∧
    InjectOpenGLIntrinsics.mutate_stmt sampleDev false [] nestedReadLoop =
      .ok (.For "bx" (.IntImm 0) (.IntImm 8) ForType.Parallel
        (.Evaluate (.Call (.Float 32) Call.glsl_texture_store
          [.StringImm "g", .Variable .Handle "g.buffer",
            .Variable (.Int 32) "x", .Variable (.Int 32) "y", .Variable (.Int 32) "c",
            .Call (.Float 32) Call.glsl_texture_load
              [.StringImm "f", .Variable .Handle "f.buffer",
                (Expr.Cast (.Float 32) (imageRead - Expr.Variable (.Int 32) "f.min.0") +
                  Expr.FloatImm 0.5) / Expr.Variable (.Int 32) "f.extent.0",
                (Expr.Cast (.Float 32)
                    (Expr.Variable (.Int 32) "y" - Expr.Variable (.Int 32) "f.min.1") +
                  Expr.FloatImm 0.5) / Expr.Variable (.Int 32) "f.extent.1",
                Expr.Variable (.Int 32) "c" - Expr.Variable (.Int 32) "f.min.2"]
              CallType.Intrinsic 0 0 none none]
          CallType.Intrinsic 0 0 none none))) := by
  have h : InjectOpenGLIntrinsics.mutate_stmt sampleDev false []
        (.For "bx" (.IntImm 0) (.IntImm 8) ForType.Parallel (.Evaluate tupleCall)) =
      .ok (.For "bx" (.IntImm 0) (.IntImm 8) ForType.Parallel
        (.Evaluate (.Call (.Float 32) Call.glsl_texture_load
          [.StringImm "f", .Variable .Handle "f.buffer",
            (Expr.Cast (.Float 32)
                (Expr.Variable (.Int 32) "x" - Expr.Variable (.Int 32) "f.1.min.0") +
              Expr.FloatImm 0.5) / Expr.Variable (.Int 32) "f.1.extent.0",
            (Expr.Cast (.Float 32)
                (Expr.Variable (.Int 32) "y" - Expr.Variable (.Int 32) "f.1.min.1") +
              Expr.FloatImm 0.5) / Expr.Variable (.Int 32) "f.1.extent.1",
            Expr.Variable (.Int 32) "c" - Expr.Variable (.Int 32) "f.1.min.2"]
          CallType.Intrinsic 0 0 none none))) := by
    rfl
  refine ⟨by decide, h, ?_, rfl, by rfl, by rfl⟩
  rw [h]
  intro heq
  injection heq with heq
  injection heq with _ _ _ _ heq
  injection heq with heq
  injection heq with _ _ hargs
  injection hargs with _ hargs
  injection hargs with _ hargs
  injection hargs with hx _
  injection hx with _ _ hext
  injection hext with _ hnm
  exact absurd hnm (by decide)

end HalideGL
